import Mathlib

/-! Y86-64 machine simulator: cache model, pipelined and sequential simulator.

A shallow embedding of

* `src/cache/cache.c` (namespace `Cache`): the trace-driven LRU cache simulator,
* `src/pipe-cache/cache.c` (namespace `PipeCache`): the same cache as linked into the
  pipelined simulator; only the functions that differ from `src/cache/cache.c` are repeated,
* `src/pipe-cache/pcsim.c` (namespace `Pcsim`): the pipeline latches, the five stages, the
  hazard control and the run loop,
* `src/seq/ssim.c` (namespace `Ssim`): the step and the run loop of the sequential simulator.

Conventions.

* A `word_t` / `mem_addr_t` / `unsigned long long` value is represented by its 64-bit pattern,
  a natural number; the casts between the signed and the unsigned type keep the pattern.
* A C `int` is an `Int`.
* A function whose C behaviour is not defined on some input (a shift by a count outside
  `0 .. 63`, an access outside a `calloc`ed array, a conversion that does not fit) returns
  `Option`, and `none` stands for "the C standard gives this call no meaning".
* The three statistics counters `hit_count`, `miss_count`, `eviction_count` are C `int`s that
  are only ever incremented; they are kept as unbounded integers.
* `data` blocks of cache lines are not modelled: every call chain considered here passes
  `block = NULL`, so no byte of a block is read or written.
-/

namespace Cache

/-! ## Shifts on `unsigned long long` -/

/-- `x >> n` for an `unsigned long long` `x` and an `int` count `n`
(defined by C only for `0 ≤ n < 64`). -/
def shr64 (x : Nat) (n : Int) : Option Nat :=
  if 0 ≤ n ∧ n < 64 then some (x / 2 ^ n.toNat) else none

/-- `x << n` for an `unsigned long long` `x` and an `int` count `n`
(defined by C only for `0 ≤ n < 64`; the result is reduced modulo `2^64`). -/
def shl64 (x : Nat) (n : Int) : Option Nat :=
  if 0 ≤ n ∧ n < 64 then some (x * 2 ^ n.toNat % 2 ^ 64) else none

/-! ## Address decomposition (`get_set`, `get_tag`) -/

/-- `get_set`: `return (address >> b) << (64 - s) >> (64 - s);`
with `address = (unsigned long long)addr`. The globals `s`, `b` are passed explicitly. -/
def get_set (s b : Int) (addr : Nat) : Option Nat := do
  let address := addr % 2 ^ 64
  let t ← shr64 address b
  let u ← shl64 t (64 - s)
  shr64 u (64 - s)

/-- `get_tag`: `return (address >> b) >> s;` with `address = (unsigned long long)addr`. -/
def get_tag (s b : Int) (addr : Nat) : Option Nat := do
  let address := addr % 2 ^ 64
  let t ← shr64 address b
  shr64 t s

/-! ## Cache state -/

/-- The value of an `unsigned long long` after `++`. -/
def incr64 (c : Nat) : Nat := (c + 1) % 2 ^ 64

/-- The struct `cache_line_t` (without its `data` block): `valid` is a `char`,
`tag` and `lru` are `unsigned long long`. -/
structure cache_line_t where
  valid : Nat
  tag : Nat
  lru : Nat
deriving DecidableEq

/-- The globals of `cache.c`: `s`, `b`, `E`, `S`, `B`, `counter`, the three statistics
counters and `cache`, where `sets[i][j]` stands for `cache.sets[i].lines[j]`. -/
structure cache_state where
  s : Int
  b : Int
  E : Int
  S : Int
  B : Int
  counter : Nat
  miss_count : Int
  hit_count : Int
  eviction_count : Int
  sets : List (List cache_line_t)
deriving DecidableEq

/-- The globals at program start: all of them are zero-initialised, `cache.sets` is `NULL`. -/
def program_start : cache_state :=
  { s := 0, b := 0, E := 0, S := 0, B := 0, counter := 0,
    miss_count := 0, hit_count := 0, eviction_count := 0, sets := [] }

/-- The value `(unsigned int)pow(2, e)` stored into an `int` (the initialisers of `S` and
`B`). For `e < 0` the power lies strictly between 0 and 1 and truncates to 0; for
`0 ≤ e ≤ 30` it is `2^e`; for `e = 31` the value does not fit an `int` and for `e ≥ 32` it
does not fit an `unsigned int`, and C fixes no result. -/
def pow2_int (e : Int) : Option Int :=
  if e < 0 then some 0 else if e ≤ 30 then some (2 ^ e.toNat) else none

/-- `initCache(s_in, b_in, E_in)`: sets `s`, `b`, `E`, `S`, `B`, allocates `S` sets of `E`
zeroed lines (no line when `E ≤ 0`, no set when `S ≤ 0`) and sets `counter = 0`.
Nothing else is assigned: `hit_count`, `miss_count`, `eviction_count` keep their values. -/
def initCache (st : cache_state) (s_in b_in E_in : Int) : Option cache_state := do
  let S ← pow2_int s_in
  let B ← pow2_int b_in
  some { st with
    s := s_in, b := b_in, E := E_in, S := S, B := B,
    sets := List.replicate S.toNat (List.replicate E_in.toNat ⟨0, 0, 0⟩),
    counter := 0 }

/-- Reading `cache.sets[set].lines[i]`; `none` outside the allocated arrays. -/
def line_at (st : cache_state) (set i : Nat) : Option cache_line_t := do
  let lines ← st.sets[set]?
  lines[i]?

/-- Writing through a line pointer `&cache.sets[p.1].lines[p.2]`: the line becomes `f` of
its old value; `none` when the pointer is outside the allocated arrays. -/
def update_line (st : cache_state) (p : Nat × Nat) (f : cache_line_t → cache_line_t) :
    Option cache_state := do
  let lines ← st.sets[p.1]?
  let l ← lines[p.2]?
  some { st with sets := st.sets.set p.1 (lines.set p.2 (f l)) }

/-- The loop of `get_line` with `n` iterations left, at index `i`:
`if (lines[i].valid == 1 && lines[i].tag == tag) return &lines[i];`, after the loop
`return NULL` (the inner `none`). -/
def get_line_loop (st : cache_state) (set tag : Nat) : Nat → Nat → Option (Option Nat)
  | 0, _ => some none
  | n + 1, i => do
    let l ← line_at st set i
    if l.valid = 1 ∧ l.tag = tag then some (some i) else get_line_loop st set tag n (i + 1)

/-- `get_line(addr)`: the line of the address's set that is valid and carries its tag, as a
pair (set index, line index), or `NULL` (the inner `none`). -/
def get_line (st : cache_state) (addr : Nat) : Option (Option (Nat × Nat)) := do
  let set ← get_set st.s st.b addr
  let tag ← get_tag st.s st.b addr
  let r ← get_line_loop st set tag st.E.toNat 0
  some (r.map (fun i => (set, i)))

/-- First loop of `select_line` with `n` iterations left, at index `j`:
`if (lines[j].valid == 0) return &lines[j];`. The inner `none`: the loop ran to its end. -/
def find_invalid (st : cache_state) (set : Nat) : Nat → Nat → Option (Option Nat)
  | 0, _ => some none
  | n + 1, j => do
    let l ← line_at st set j
    if l.valid = 0 then some (some j) else find_invalid st set n (j + 1)

/-- Second loop of `select_line` with `n` iterations left, at index `i`, `min` pointing to
line `m`: `if (lines[i].lru < min->lru) min = &lines[i];`. -/
def find_lru (st : cache_state) (set : Nat) : Nat → Nat → Nat → Option Nat
  | 0, _, m => some m
  | n + 1, i, m => do
    let li ← line_at st set i
    let lm ← line_at st set m
    if li.lru < lm.lru then find_lru st set n (i + 1) i else find_lru st set n (i + 1) m

/-- `select_line(addr)`: the line to fill, as a pair (set index, line index). The same text
stands in `src/cache/cache.c` and in `src/pipe-cache/cache.c`. -/
def select_line (st : cache_state) (addr : Nat) : Option (Nat × Nat) := do
  let set ← get_set st.s st.b addr
  match ← find_invalid st set st.E.toNat 0 with
  | some j => some (set, j)
  | none => do
    let m ← find_lru st set st.E.toNat 0 0
    some (set, m)

/-- `check_hit(pos)`: on a hit `hit_count++; counter++; get_line(pos)->lru = counter;` and
`true`, otherwise `miss_count++` and `false`. `counter` is an `unsigned long long`. -/
def check_hit (st : cache_state) (pos : Nat) : Option (cache_state × Bool) := do
  match ← get_line st pos with
  | some _ => do
    let st1 := { st with hit_count := st.hit_count + 1, counter := incr64 st.counter }
    match ← get_line st1 pos with
    | some p => do
      let st2 ← update_line st1 p (fun l => { l with lru := st1.counter })
      some (st2, true)
    | none => none
  | none => some ({ st with miss_count := st.miss_count + 1 }, false)

/-- `handle_miss(pos, NULL, NULL, NULL)` of `src/cache/cache.c`. The condition of the `if` is
`targetline->valid == 1 && (targetline->tag = get_tag(pos))`: when the line is valid the tag
is assigned inside the condition and the condition holds iff the assigned tag is nonzero.
With `block == NULL` the `memcpy` is skipped. The function always returns `false`. -/
def handle_miss (st : cache_state) (pos : Nat) : Option (cache_state × Bool) := do
  let targetline ← select_line st pos
  let st1 := { st with counter := incr64 st.counter }
  let st2 ← update_line st1 targetline (fun l => { l with lru := st1.counter })
  let l ← line_at st2 targetline.1 targetline.2
  let (st3, cond) ←
    if l.valid = 1 then do
      let tag ← get_tag st2.s st2.b pos
      let st' ← update_line st2 targetline (fun l => { l with tag := tag })
      some (st', decide (tag ≠ 0))
    else some (st2, false)
  let st4 := if cond then { st3 with eviction_count := st3.eviction_count + 1 } else st3
  let tag ← get_tag st4.s st4.b pos
  let st5 ← update_line st4 targetline (fun l => { l with tag := tag })
  let st6 ← update_line st5 targetline (fun l => { l with valid := 1 })
  some (st6, false)

/-- `accessData(addr)`: `if (!check_hit(addr)) handle_miss(addr, NULL, NULL, NULL);`. -/
def accessData (st : cache_state) (addr : Nat) : Option cache_state := do
  let (st1, hit) ← check_hit st addr
  if hit then some st1
  else do
    let (st2, _) ← handle_miss st1 addr
    some st2

/-- The driver loop: `accessData` on each address of a trace, in order. -/
def accessAll (st : cache_state) : List Nat → Option cache_state
  | [] => some st
  | a :: as => do
    let st1 ← accessData st a
    accessAll st1 as

/-! ## Reference LRU model -/

/-- State of the reference model: per set the resident tags, most recently used first, and
the three counts. -/
structure ref_state where
  tags : Nat → List Nat
  hits : Int
  misses : Int
  evictions : Int

/-- The empty reference cache with zero counts. -/
def ref_init : ref_state :=
  { tags := fun _ => [], hits := 0, misses := 0, evictions := 0 }

/-- One access of the reference LRU model with `2^s` sets, blocks of `2^b` bytes and `E`
lines per set: a hit if the tag is resident in its set; otherwise a miss, which evicts the
least recently used tag exactly when the set already holds `E` tags. -/
def ref_access (s b E : Nat) (r : ref_state) (addr : Nat) : ref_state :=
  let tag := addr % 2 ^ 64 / 2 ^ (s + b)
  let set := addr % 2 ^ 64 / 2 ^ b % 2 ^ s
  let l := r.tags set
  if tag ∈ l then
    { r with tags := Function.update r.tags set (tag :: l.erase tag), hits := r.hits + 1 }
  else if l.length < E then
    { r with tags := Function.update r.tags set (tag :: l), misses := r.misses + 1 }
  else
    { r with tags := Function.update r.tags set (tag :: l.dropLast),
             misses := r.misses + 1, evictions := r.evictions + 1 }

/-- The reference model run over a trace. -/
def ref_run (s b E : Nat) (r : ref_state) : List Nat → ref_state
  | [] => r
  | a :: as => ref_run s b E (ref_access s b E r a) as

end Cache

namespace PipeCache

open Cache

/-- `get_block_address(pos)` of `src/pipe-cache/cache.c`: `return pos & (~(B - 1));`.
`B - 1` and its complement are computed in `int` (defined when `B - 1` does not overflow,
i.e. `B > INT_MIN`), the complement is converted to the 64-bit `word_t` keeping its value,
and the conjunction is taken on the 64-bit patterns. -/
def get_block_address (B : Int) (pos : Nat) : Option Nat :=
  if -(2 : Int) ^ 31 < B ∧ B < 2 ^ 31 then
    some ((pos % 2 ^ 64) &&& ((~~~(B - 1)) % 2 ^ 64).toNat)
  else none

/-- `handle_miss(pos, NULL, NULL, NULL)` of `src/pipe-cache/cache.c`. The condition is
`targetline->valid == 1 && (((targetline->tag = get_tag(pos) && targetline->tag != 0)) ||
targetline->tag == 0)`: for a valid line the tag is assigned the truth value of
`get_tag(pos) && targetline->tag != 0`; if that is 0 the right operand `targetline->tag == 0`
is evaluated on the tag just assigned. -/
def handle_miss (st : cache_state) (pos : Nat) : Option (cache_state × Bool) := do
  let targetline ← select_line st pos
  let st1 := { st with counter := incr64 st.counter }
  let st2 ← update_line st1 targetline (fun l => { l with lru := st1.counter })
  let l ← line_at st2 targetline.1 targetline.2
  let (st3, cond) ←
    if l.valid = 1 then do
      let tag ← get_tag st2.s st2.b pos
      let v : Nat := if tag ≠ 0 ∧ l.tag ≠ 0 then 1 else 0
      let st' ← update_line st2 targetline (fun l => { l with tag := v })
      let l' ← line_at st' targetline.1 targetline.2
      some (st', decide (v ≠ 0) || decide (l'.tag = 0))
    else some (st2, false)
  let st4 := if cond then { st3 with eviction_count := st3.eviction_count + 1 } else st3
  let tag ← get_tag st4.s st4.b pos
  let st5 ← update_line st4 targetline (fun l => { l with tag := tag })
  let st6 ← update_line st5 targetline (fun l => { l with valid := 1 })
  some (st6, false)

end PipeCache

namespace Pcsim

open Cache

/-- The lines 134-140 of `sim_main`: with `s`, `b`, `E` the values of the three locals at
that point, `exit(1)` with the message when one of them is `-1`, otherwise
`initCache(s, b, E)`. (The locals are initialised to `-1` and no option of the `getopt`
loop assigns them, so `sim_main` as given reaches this point with `-1`, `-1`, `-1`.) -/
def sim_main_initCache (st : cache_state) (s b E : Int) : Except String (Option cache_state) :=
  if s = -1 ∨ b = -1 ∨ E = -1 then .error "Missing flags for InitCache"
  else .ok (initCache st s b E)

/-- Modelled from the spec: the type `p_stat_t` of latch control operations is declared in
`pipeline.h`, which is not among the sources; the spec gives the `op` field the values
LOAD, STALL, BUBBLE, ERROR, which `pcsim.c` names `P_LOAD`, `P_STALL`, `P_BUBBLE`,
`P_ERROR`. -/
inductive p_stat_t where
  | P_LOAD
  | P_STALL
  | P_BUBBLE
  | P_ERROR
deriving DecidableEq

/-- Modelled from the spec: the struct `pipe_ele` is declared in `pipeline.h`, which is not
among the sources; its fields are those that `new_pipe` fills. The `count` bytes at
`current`, `next` and `bubble_val` are kept as values of a payload type `α`, and a
`memcpy` of `count` bytes copies the value. -/
structure pipe_ele (α : Type) where
  current : α
  next : α
  op : p_stat_t
  bubble_val : α

/-- The body of the loop of `update_pipes` for the latch `p`: the `switch` on `p->op`,
then `if (p->op != P_ERROR) p->op = P_LOAD;`. -/
def update_pipe {α : Type} (p : pipe_ele α) : pipe_ele α :=
  let p1 : pipe_ele α :=
    match p.op with
    | .P_BUBBLE => { p with current := p.bubble_val }
    | .P_LOAD => { p with current := p.next }
    | .P_ERROR => { p with current := p.bubble_val }
    | .P_STALL => p
  if p1.op ≠ .P_ERROR then { p1 with op := .P_LOAD } else p1

/-- `update_pipes()`: the loop over `pipes[0 .. pipe_count)`. -/
def update_pipes {α : Type} : List (pipe_ele α) → List (pipe_ele α)
  | [] => []
  | p :: ps => update_pipe p :: update_pipes ps

/-- `pipe_cntl(name, stall, bubble)`; `name` is only used for the log line. -/
def pipe_cntl (_name : String) (stall bubble : Nat) : p_stat_t :=
  if stall ≠ 0 then
    if bubble ≠ 0 then .P_ERROR else .P_STALL
  else
    if bubble ≠ 0 then .P_BUBBLE else .P_LOAD

end Pcsim

namespace Pcsim

/-! ## The pipelined simulator (`pcsim.c`, part 2)

The headers `isa.h`, `pipeline.h`, `stages.h` and `sim.h` and the file `isa.c` are not among
the sources. Their enumerations are modelled by the names `pcsim.c` uses, their helper
functions and macros are the fields of `isa_env`, a parameter of every stage. The logging
calls (`sim_log`, `tty_report`) have no effect on the simulator state and are left out.
The global `dmem_status` is only read by `pcsim.c`; its value at the time `do_stall_check`
reads it is an argument of `do_stall_check` and `sim_step_pipe`. -/

/-- Modelled from the spec: the instruction codes are an enumeration of `isa.h`, which is
not among the sources. The constructors are the codes that `pcsim.c` names; `other n`
stands for any code that `pcsim.c` does not name. -/
inductive itype_t where
  | I_HALT
  | I_NOP
  | I_RRMOVQ
  | I_IRMOVQ
  | I_RMMOVQ
  | I_MRMOVQ
  | I_ALU
  | I_JMP
  | I_CALL
  | I_RET
  | I_PUSHQ
  | I_POPQ
  | I_POP2
  | other (n : Nat)
deriving DecidableEq

/-- Modelled from the spec: the register identifiers are an enumeration of `isa.h`, which is
not among the sources. `REG_NONE` is the identifier that means "no register", `REG_RSP` the
stack pointer; `REG n` stands for any other identifier. -/
inductive reg_id_t where
  | REG_RSP
  | REG_NONE
  | REG (n : Nat)
deriving DecidableEq

/-- Modelled from the spec: the processor status codes (`stat_t` of `isa.h`, which is not
among the sources): BUBBLE, NORMAL, HALT, INVALID_ADDRESS, INVALID_INSTRUCTION,
CONTROL_ERROR under the names `pcsim.c` uses. -/
inductive stat_t where
  | STAT_BUB
  | STAT_AOK
  | STAT_HLT
  | STAT_ADR
  | STAT_INS
  | STAT_PIP
deriving DecidableEq

/-- Modelled from the spec: the memory status `mem_status_t` is declared in an absent header.
`pcsim.c` names the values `IN_FLIGHT` (not ready) and `ERROR`; `other n` stands for any
other value (such as ready). -/
inductive mem_status_t where
  | IN_FLIGHT
  | ERROR
  | other (n : Nat)
deriving DecidableEq

/-- Modelled from the spec: payload of the Fetch-boundary latch (`pc_ele` of `stages.h`),
with the fields `pcsim.c` uses, in the order of the initialiser `bubble_pc`. -/
structure pc_ele where
  pc : Nat
  status : stat_t
deriving DecidableEq

/-- Modelled from the spec: payload of the Decode-boundary latch (`if_id_ele` of `stages.h`),
with the fields `pcsim.c` uses, in the order of the initialiser `bubble_if_id`. -/
structure if_id_ele where
  icode : itype_t
  ifun : Nat
  ra : reg_id_t
  rb : reg_id_t
  valc : Nat
  valp : Nat
  status : stat_t
  stage_pc : Nat
deriving DecidableEq

/-- Modelled from the spec: payload of the Execute-boundary latch (`id_ex_ele` of
`stages.h`), with the fields `pcsim.c` uses, in the order of the initialiser
`bubble_id_ex`. -/
structure id_ex_ele where
  icode : itype_t
  ifun : Nat
  valc : Nat
  vala : Nat
  valb : Nat
  srca : reg_id_t
  srcb : reg_id_t
  deste : reg_id_t
  destm : reg_id_t
  status : stat_t
  stage_pc : Nat
deriving DecidableEq

/-- Modelled from the spec: payload of the Memory-boundary latch (`ex_mem_ele` of
`stages.h`), with the fields that `pcsim.c` reads, in the order of the initialiser
`bubble_ex_mem`. The field `srca`, which `do_ex_stage` copies from `id_ex_curr` and nothing
in `pcsim.c` reads, is left out. -/
structure ex_mem_ele where
  icode : itype_t
  ifun : Nat
  takebranch : Bool
  vale : Nat
  vala : Nat
  deste : reg_id_t
  destm : reg_id_t
  status : stat_t
  stage_pc : Nat
deriving DecidableEq

/-- Modelled from the spec: payload of the Writeback-boundary latch (`mem_wb_ele` of
`stages.h`), with the fields `pcsim.c` uses, in the order of the initialiser
`bubble_mem_wb`. -/
structure mem_wb_ele where
  icode : itype_t
  ifun : Nat
  vale : Nat
  valm : Nat
  deste : reg_id_t
  destm : reg_id_t
  status : stat_t
  stage_pc : Nat
deriving DecidableEq

/-- The initialiser `bubble_pc = {0, STAT_AOK}`. -/
def bubble_pc : pc_ele := ⟨0, .STAT_AOK⟩

/-- The initialiser `bubble_if_id`. -/
def bubble_if_id : if_id_ele := ⟨.I_NOP, 0, .REG_NONE, .REG_NONE, 0, 0, .STAT_BUB, 0⟩

/-- The initialiser `bubble_id_ex`. -/
def bubble_id_ex : id_ex_ele :=
  ⟨.I_NOP, 0, 0, 0, 0, .REG_NONE, .REG_NONE, .REG_NONE, .REG_NONE, .STAT_BUB, 0⟩

/-- The initialiser `bubble_ex_mem`. -/
def bubble_ex_mem : ex_mem_ele :=
  ⟨.I_NOP, 0, false, 0, 0, .REG_NONE, .REG_NONE, .STAT_BUB, 0⟩

/-- The initialiser `bubble_mem_wb`. -/
def bubble_mem_wb : mem_wb_ele := ⟨.I_NOP, 0, 0, 0, .REG_NONE, .REG_NONE, .STAT_BUB, 0⟩

/-- The helper functions, macros and constants of the absent `isa.h` / `isa.c` that `pcsim.c`
calls, over a type `M` of memory objects (`mem_t`, used for the memory and for the register
file). A read `get_..._val(m, pos, &dest)` is a function of `m`, `pos` and the old value of
`dest` that gives the success flag and the new value of `dest`; `set_word_val_D` gives the
success flag and the memory after the call. -/
structure isa_env (M : Type) where
  HPACK_NOP : Nat
  HPACK_NONE : Nat
  GET_ICODE : Nat → itype_t
  GET_FUN : Nat → Nat
  HI4 : Nat → reg_id_t
  LO4 : Nat → reg_id_t
  get_byte_val : M → Nat → Nat → Bool × Nat
  get_byte_val_I : M → Nat → Nat → Bool × Nat
  get_word_val_I : M → Nat → Nat → Bool × Nat
  get_word_val_D : M → Nat → Nat → Bool × Nat
  set_word_val_D : M → Nat → Nat → Bool × M
  get_reg_val : M → reg_id_t → Nat
  set_reg_val : M → reg_id_t → Nat → M
  cond_holds : Nat → Nat → Bool
  compute_alu : Nat → Nat → Nat → Nat
  compute_cc : Nat → Nat → Nat → Nat
  A_ADD : Nat
  DEFAULT_CC : Nat

/-- The globals of `pcsim.c` that the simulation of a cycle reads or writes. The latch
pointers `pc_curr`, `pc_next`, ... are the `current` and `next` buffers of the five pipes.
The counters `cycles` and `instructions` are kept as unbounded integers. -/
structure sim_state (M : Type) where
  cycles : Int
  instructions : Int
  starting_up : Int
  mem : M
  reg : M
  cc : Nat
  status : stat_t
  cc_in : Nat
  wb_destE : reg_id_t
  wb_valE : Nat
  wb_destM : reg_id_t
  wb_valM : Nat
  mem_addr : Nat
  mem_data : Nat
  mem_write : Bool
  pc_state : pipe_ele pc_ele
  if_id_state : pipe_ele if_id_ele
  id_ex_state : pipe_ele id_ex_ele
  ex_mem_state : pipe_ele ex_mem_ele
  mem_wb_state : pipe_ele mem_wb_ele
  f_pc : Nat
  imem_icode : itype_t
  imem_ifun : Nat
  imem_error : Bool
  instr_valid : Bool
  d_regvala : Nat
  d_regvalb : Nat
  e_bcond : Bool
  dmem_error : Bool

/-- The test `s == STAT_ADR || s == STAT_INS || s == STAT_HLT` on a status. -/
def is_exception (s : stat_t) : Bool :=
  s = .STAT_ADR || s = .STAT_INS || s = .STAT_HLT

/-- `update_pipes()` on the five pipes that `sim_init` creates with `new_pipe`. -/
def update_pipes_bank {M : Type} (S : sim_state M) : sim_state M :=
  { S with
    pc_state := update_pipe S.pc_state,
    if_id_state := update_pipe S.if_id_state,
    id_ex_state := update_pipe S.id_ex_state,
    ex_mem_state := update_pipe S.ex_mem_state,
    mem_wb_state := update_pipe S.mem_wb_state }

/-- One statement of the error checking of `sim_step_pipe` for the pipe `p`:
`if (p->op == P_ERROR) curr->status = STAT_PIP;`, with `f` the assignment to the status
field of the payload. -/
def error_check {α : Type} (f : α → α) (p : pipe_ele α) : pipe_ele α :=
  if p.op = .P_ERROR then { p with current := f p.current } else p

/-- The error checking of `sim_step_pipe`: five statements
`if (p->op == P_ERROR) curr->status = STAT_PIP;`, one for each pipe. -/
def error_checking {M : Type} (S : sim_state M) : sim_state M :=
  { S with
    pc_state := error_check (fun c => { c with status := .STAT_PIP }) S.pc_state,
    if_id_state := error_check (fun c => { c with status := .STAT_PIP }) S.if_id_state,
    id_ex_state := error_check (fun c => { c with status := .STAT_PIP }) S.id_ex_state,
    ex_mem_state := error_check (fun c => { c with status := .STAT_PIP }) S.ex_mem_state,
    mem_wb_state := error_check (fun c => { c with status := .STAT_PIP }) S.mem_wb_state }

/-- `do_wb_stage()`. -/
def do_wb_stage {M : Type} (env : isa_env M) (S : sim_state M) : sim_state M :=
  let w := S.mem_wb_state.current
  let reg1 := if w.deste ≠ .REG_NONE then env.set_reg_val S.reg w.deste w.vale else S.reg
  let reg2 := if w.destm ≠ .REG_NONE then env.set_reg_val reg1 w.destm w.valm else reg1
  { S with
    wb_destE := w.deste, wb_valE := w.vale, wb_destM := w.destm, wb_valM := w.valm,
    reg := reg2 }

/-- `do_mem_stage()`. -/
def do_mem_stage {M : Type} (env : isa_env M) (S : sim_state M) : sim_state M :=
  let m := S.ex_mem_state.current
  let mem_addr : Nat :=
    if m.icode = .I_RMMOVQ ∨ m.icode = .I_PUSHQ ∨ m.icode = .I_CALL ∨ m.icode = .I_MRMOVQ
    then m.vale
    else if m.icode = .I_POPQ ∨ m.icode = .I_RET then m.vala else 0
  let mem_data := m.vala
  let mem_write : Bool :=
    decide (m.icode = .I_RMMOVQ ∨ m.icode = .I_PUSHQ ∨ m.icode = .I_CALL)
  let read : Bool := decide (m.icode = .I_MRMOVQ ∨ m.icode = .I_POPQ ∨ m.icode = .I_RET)
  let r := if read then env.get_word_val_D S.mem mem_addr 0 else (true, 0)
  let dmem_error : Bool := if read then (false || !r.1) else false
  let valm := r.2
  let next : mem_wb_ele :=
    { icode := m.icode, ifun := m.ifun, vale := m.vale, valm := valm,
      deste := m.deste, destm := m.destm,
      status := if dmem_error then .STAT_ADR else m.status,
      stage_pc := m.stage_pc }
  let status : stat_t :=
    if S.mem_wb_state.current.status = .STAT_BUB then .STAT_AOK
    else S.mem_wb_state.current.status
  let mem1 := if mem_write then (env.set_word_val_D S.mem mem_addr mem_data).2 else S.mem
  { S with
    mem_addr := mem_addr, mem_data := mem_data, mem_write := mem_write,
    dmem_error := dmem_error,
    mem_wb_state := { S.mem_wb_state with next := next },
    status := status, mem := mem1 }

/-- `do_ex_stage()`. The constant `-8` is the pattern `2^64 - 8`. -/
def do_ex_stage {M : Type} (env : isa_env M) (S : sim_state M) : sim_state M :=
  let e := S.id_ex_state.current
  let alua : Nat :=
    if e.icode = .I_RRMOVQ ∨ e.icode = .I_ALU then e.vala
    else if e.icode = .I_IRMOVQ ∨ e.icode = .I_RMMOVQ ∨ e.icode = .I_MRMOVQ then e.valc
    else if e.icode = .I_POPQ ∨ e.icode = .I_RET then 8
    else if e.icode = .I_PUSHQ ∨ e.icode = .I_CALL then 2 ^ 64 - 8 else 0
  let alub : Nat :=
    if e.icode = .I_RMMOVQ ∨ e.icode = .I_MRMOVQ ∨ e.icode = .I_ALU ∨ e.icode = .I_CALL ∨
        e.icode = .I_PUSHQ ∨ e.icode = .I_RET ∨ e.icode = .I_POPQ then e.valb
    else if e.icode = .I_RRMOVQ ∨ e.icode = .I_IRMOVQ then 0 else 0
  let alufun : Nat := if e.icode = .I_ALU then e.ifun else env.A_ADD
  let setcc : Bool :=
    (decide (e.icode = .I_ALU) && !is_exception S.mem_wb_state.next.status) &&
      !is_exception S.mem_wb_state.current.status
  let e_bcond := env.cond_holds S.cc e.ifun
  let aluout := env.compute_alu alufun alua alub
  let cc_in := env.compute_cc alufun alua alub
  let next : ex_mem_ele :=
    { takebranch := e_bcond, vale := aluout, icode := e.icode, ifun := e.ifun,
      vala := e.vala,
      deste := if e.icode = .I_RRMOVQ ∧ e_bcond = false then .REG_NONE else e.deste,
      destm := e.destm, status := e.status, stage_pc := e.stage_pc }
  { S with
    cc_in := cc_in, e_bcond := e_bcond,
    ex_mem_state := { S.ex_mem_state with next := next },
    cc := if setcc then cc_in else S.cc }

/-- The conditional expression of `do_id_stage` that selects an operand for the source
register `src`: the forwarding sources in the order of the source text, then the value
`regval` read from the register file. -/
def forward {M : Type} (S : sim_state M) (src : reg_id_t) (regval : Nat) : Nat :=
  if src = S.ex_mem_state.next.deste then S.ex_mem_state.next.vale
  else if src = S.ex_mem_state.current.destm then S.mem_wb_state.next.valm
  else if src = S.ex_mem_state.current.deste then S.ex_mem_state.current.vale
  else if src = S.mem_wb_state.current.destm then S.mem_wb_state.current.valm
  else if src = S.mem_wb_state.current.deste then S.mem_wb_state.current.vale
  else regval

/-- `do_id_stage()`. The operand selections of `vala` and `valb` are the same expression
but for the first alternative of `vala`, which picks `valp` for `I_CALL` and `I_JMP`. -/
def do_id_stage {M : Type} (env : isa_env M) (S : sim_state M) : sim_state M :=
  let d := S.if_id_state.current
  let status : stat_t :=
    if S.mem_wb_state.current.status = .STAT_BUB then .STAT_AOK
    else S.mem_wb_state.current.status
  let srca : reg_id_t :=
    if d.icode = .I_RRMOVQ ∨ d.icode = .I_RMMOVQ ∨ d.icode = .I_ALU ∨ d.icode = .I_PUSHQ
    then d.ra
    else if d.icode = .I_POPQ ∨ d.icode = .I_RET then .REG_RSP else .REG_NONE
  let srcb : reg_id_t :=
    if d.icode = .I_ALU ∨ d.icode = .I_RMMOVQ ∨ d.icode = .I_MRMOVQ then d.rb
    else if d.icode = .I_PUSHQ ∨ d.icode = .I_POPQ ∨ d.icode = .I_CALL ∨ d.icode = .I_RET
    then .REG_RSP else .REG_NONE
  let deste : reg_id_t :=
    if d.icode = .I_RRMOVQ ∨ d.icode = .I_IRMOVQ ∨ d.icode = .I_ALU then d.rb
    else if d.icode = .I_PUSHQ ∨ d.icode = .I_POPQ ∨ d.icode = .I_CALL ∨ d.icode = .I_RET
    then .REG_RSP else .REG_NONE
  let destm : reg_id_t :=
    if d.icode = .I_MRMOVQ ∨ d.icode = .I_POPQ then d.ra else .REG_NONE
  let d_regvala := env.get_reg_val S.reg srca
  let d_regvalb := env.get_reg_val S.reg srcb
  let vala : Nat :=
    if d.icode = .I_CALL ∨ d.icode = .I_JMP then d.valp else forward S srca d_regvala
  let valb : Nat := forward S srcb d_regvalb
  let next : id_ex_ele :=
    { srca := srca, srcb := srcb, deste := deste, destm := destm, vala := vala, valb := valb,
      icode := d.icode, ifun := d.ifun, valc := d.valc, stage_pc := d.stage_pc,
      status := d.status }
  { S with
    status := status, d_regvala := d_regvala, d_regvalb := d_regvalb,
    id_ex_state := { S.id_ex_state with next := next } }

/-- The fetch address selected by the first statement of `do_if_stage`. -/
def select_pc {M : Type} (S : sim_state M) : Nat :=
  if S.ex_mem_state.current.icode = .I_JMP ∧ S.ex_mem_state.current.takebranch = false
  then S.ex_mem_state.current.vala
  else if S.mem_wb_state.current.icode = .I_RET then S.mem_wb_state.current.valm
  else S.pc_state.current.pc

/-- `do_if_stage()`. -/
def do_if_stage {M : Type} (env : isa_env M) (S : sim_state M) : sim_state M :=
  let f_pc := select_pc S
  let valp0 := f_pc
  let r := env.get_byte_val S.mem valp0 env.HPACK_NOP
  let imem_error : Bool := !r.1
  let instr := r.2
  let icode := env.GET_ICODE instr
  let ifun := env.GET_FUN instr
  let instr_valid : Bool :=
    decide (icode = .I_NOP ∨ icode = .I_HALT ∨ icode = .I_RRMOVQ ∨ icode = .I_IRMOVQ ∨
      icode = .I_RMMOVQ ∨ icode = .I_MRMOVQ ∨ icode = .I_ALU ∨ icode = .I_JMP ∨
      icode = .I_CALL ∨ icode = .I_RET ∨ icode = .I_PUSHQ ∨ icode = .I_POPQ)
  let status : stat_t :=
    if imem_error then .STAT_ADR
    else if !instr_valid then .STAT_INS
    else if icode = .I_HALT then .STAT_HLT else .STAT_AOK
  let valp1 := (valp0 + 1) % 2 ^ 64
  let need_regs : Bool :=
    decide (icode = .I_RRMOVQ ∨ icode = .I_ALU ∨ icode = .I_PUSHQ ∨ icode = .I_POPQ ∨
      icode = .I_IRMOVQ ∨ icode = .I_RMMOVQ ∨ icode = .I_MRMOVQ)
  let registers :=
    if need_regs then (env.get_byte_val_I S.mem valp1 env.HPACK_NONE).2 else env.HPACK_NONE
  let valp2 := if need_regs then (valp1 + 1) % 2 ^ 64 else valp1
  let need_valc : Bool :=
    decide (icode = .I_IRMOVQ ∨ icode = .I_RMMOVQ ∨ icode = .I_MRMOVQ ∨ icode = .I_JMP ∨
      icode = .I_CALL)
  let valc := if need_valc then (env.get_word_val_I S.mem valp2 0).2 else 0
  let valp3 := if need_valc then (valp2 + 8) % 2 ^ 64 else valp2
  let next : if_id_ele :=
    { icode := icode, ifun := ifun, status := status,
      ra := env.HI4 registers, rb := env.LO4 registers, valp := valp3, valc := valc,
      stage_pc := f_pc }
  let pc_next : pc_ele :=
    { pc := if icode = .I_JMP ∨ icode = .I_CALL then valc else valp3,
      status := if status = .STAT_AOK then .STAT_AOK else .STAT_BUB }
  { S with
    f_pc := f_pc, imem_error := imem_error, imem_icode := icode, imem_ifun := ifun,
    instr_valid := instr_valid,
    if_id_state := { S.if_id_state with next := next },
    pc_state := { S.pc_state with next := pc_next } }

/-- The load-use condition, the subexpression of `do_stall_check` that occurs in `fstall`,
`dstall`, `dbubble` and `ebubble`. -/
def load_use {M : Type} (S : sim_state M) : Bool :=
  decide (S.id_ex_state.current.icode = .I_MRMOVQ ∨ S.id_ex_state.current.icode = .I_POPQ) &&
    decide (S.id_ex_state.current.destm = S.id_ex_state.next.srca ∨
      S.id_ex_state.current.destm = S.id_ex_state.next.srcb)

/-- The return condition, the subexpression of `do_stall_check` that occurs in `fstall` and
`dbubble`. -/
def ret_hazard {M : Type} (S : sim_state M) : Bool :=
  decide (S.if_id_state.current.icode = .I_RET ∨ S.id_ex_state.current.icode = .I_RET ∨
    S.ex_mem_state.current.icode = .I_RET)

/-- The misprediction condition, the subexpression of `do_stall_check` that occurs in
`dbubble` and `ebubble`. -/
def mispredict {M : Type} (S : sim_state M) : Bool :=
  decide (S.id_ex_state.current.icode = .I_JMP) && !S.ex_mem_state.next.takebranch

/-- `do_stall_check()`, with `ds` the value of the global `dmem_status`. The operands of
the bitwise `&` and `|` are truth values 0 or 1, so these are the logical connectives. -/
def do_stall_check {M : Type} (ds : mem_status_t) (S : sim_state M) : sim_state M :=
  let fbubble : Bool := false
  let fstall : Bool := load_use S || ret_hazard S
  let dstall : Bool := load_use S
  let dbubble : Bool := mispredict S || (!load_use S && ret_hazard S)
  let estall : Bool := false
  let ebubble : Bool := mispredict S || load_use S
  let mstall : Bool := decide (ds = .IN_FLIGHT) || decide (ds = .ERROR)
  let mbubble : Bool :=
    is_exception S.mem_wb_state.next.status || is_exception S.mem_wb_state.current.status
  let wstall : Bool := is_exception S.mem_wb_state.current.status
  let wbubble : Bool := false
  { S with
    pc_state := { S.pc_state with op := pipe_cntl "PC" fstall.toNat fbubble.toNat },
    if_id_state := { S.if_id_state with op := pipe_cntl "ID" dstall.toNat dbubble.toNat },
    id_ex_state := { S.id_ex_state with op := pipe_cntl "EX" estall.toNat ebubble.toNat },
    ex_mem_state := { S.ex_mem_state with op := pipe_cntl "MEM" mstall.toNat mbubble.toNat },
    mem_wb_state := { S.mem_wb_state with op := pipe_cntl "WB" wstall.toNat wbubble.toNat } }

/-- The performance monitoring at the end of `sim_step_pipe`. -/
def perf_monitor {M : Type} (S : sim_state M) : sim_state M :=
  if S.mem_wb_state.current.status ≠ .STAT_BUB ∧ S.mem_wb_state.current.icode ≠ .I_POP2 then
    { S with starting_up := 0, instructions := S.instructions + 1, cycles := S.cycles + 1 }
  else if S.starting_up = 0 then { S with cycles := S.cycles + 1 } else S

/-- The stage evaluations of `sim_step_pipe`, in the order of the source:
`do_wb_stage(); do_mem_stage(); do_ex_stage(); do_id_stage(); do_if_stage();`. -/
def do_stages {M : Type} (env : isa_env M) (S : sim_state M) : sim_state M :=
  do_if_stage env (do_id_stage env (do_ex_stage env (do_mem_stage env (do_wb_stage env S))))

/-- `sim_step_pipe(max_instr, ccount)`: the state after the cycle and the returned status.
The two arguments are only used for logging. `ds` is the value of `dmem_status` that
`do_stall_check` reads in this cycle. -/
def sim_step_pipe {M : Type} (env : isa_env M) (ds : mem_status_t) (S : sim_state M) :
    sim_state M × stat_t :=
  let S1 := update_pipes_bank S
  let S2 := error_checking S1
  let S3 := do_stages env S2
  let S4 := do_stall_check ds S3
  let S5 := perf_monitor S4
  (S5, S5.status)

/-- The loop of `sim_run_pipe` with at most `fuel` iterations left; `ds c` is the value of
`dmem_status` in the cycle with count `c`. Gives the state, `icount`, `ccount` and
`run_status` at the exit of the loop. -/
def sim_run_pipe_loop {M : Type} (env : isa_env M) (ds : Int → mem_status_t)
    (max_instr max_cycle : Int) :
    Nat → sim_state M → Int → Int → stat_t → sim_state M × Int × Int × stat_t
  | 0, S, icount, ccount, run_status => (S, icount, ccount, run_status)
  | fuel + 1, S, icount, ccount, run_status =>
    if icount < max_instr ∧ ccount < max_cycle then
      let r := sim_step_pipe env (ds ccount) S
      let icount1 := if r.2 ≠ .STAT_BUB then icount + 1 else icount
      if r.2 ≠ .STAT_AOK ∧ r.2 ≠ .STAT_BUB then (r.1, icount1, ccount, r.2)
      else sim_run_pipe_loop env ds max_instr max_cycle fuel r.1 icount1 (ccount + 1) r.2
    else (S, icount, ccount, run_status)

/-- `sim_run_pipe(max_instr, max_cycle, statusp, ccp)`: the final state, the returned
`icount`, and the values stored through `statusp` and `ccp`. Each iteration that does not
leave the loop increments `ccount`, so `max_cycle` iterations suffice. -/
def sim_run_pipe {M : Type} (env : isa_env M) (ds : Int → mem_status_t)
    (max_instr max_cycle : Int) (S : sim_state M) : sim_state M × Int × stat_t × Nat :=
  let r := sim_run_pipe_loop env ds max_instr max_cycle max_cycle.toNat S 0 0 .STAT_AOK
  (r.1, r.2.1, r.2.2.2, r.1.cc)

/-- A small instance of the absent helpers, for evaluating the simulator on concrete latch
states: the memory and the register file are functions from addresses, respectively
register numbers (`REG_RSP` is 4, `REG_NONE` is 15), to values; every access succeeds; a
byte is split into its two nibbles; the ALU adds; the condition with function code 0 always
holds and any other one holds iff `cc` equals the function code. -/
def toy_env : isa_env (Nat → Nat) where
  HPACK_NOP := 0x10
  HPACK_NONE := 0xFF
  GET_ICODE := fun x => .other (x / 16)
  GET_FUN := fun x => x % 16
  HI4 := fun x => .REG (x / 16)
  LO4 := fun x => .REG (x % 16)
  get_byte_val := fun m pos _ => (true, m pos)
  get_byte_val_I := fun m pos _ => (true, m pos)
  get_word_val_I := fun m pos _ => (true, m pos)
  get_word_val_D := fun m pos _ => (true, m pos)
  set_word_val_D := fun m pos v => (true, fun a => if a = pos then v else m a)
  get_reg_val := fun m r =>
    match r with
    | .REG_RSP => m 4
    | .REG_NONE => m 15
    | .REG n => m n
  set_reg_val := fun m r v =>
    match r with
    | .REG_RSP => fun a => if a = 4 then v else m a
    | .REG_NONE => fun a => if a = 15 then v else m a
    | .REG n => fun a => if a = n then v else m a
  cond_holds := fun cc ifun => decide (ifun = 0) || decide (cc = ifun)
  compute_alu := fun _ a b => (a + b) % 2 ^ 64
  compute_cc := fun _ _ _ => 0
  A_ADD := 0
  DEFAULT_CC := 0

/-- A state for `toy_env` in which every latch holds its bubble value with op `P_LOAD`, as
after `sim_reset`, with a zero memory and a register file holding 7 in every register. -/
def toy_state : sim_state (Nat → Nat) where
  cycles := 0
  instructions := 0
  starting_up := 1
  mem := fun _ => 0
  reg := fun _ => 7
  cc := 0
  status := .STAT_AOK
  cc_in := 0
  wb_destE := .REG_NONE
  wb_valE := 0
  wb_destM := .REG_NONE
  wb_valM := 0
  mem_addr := 0
  mem_data := 0
  mem_write := false
  pc_state := ⟨bubble_pc, bubble_pc, .P_LOAD, bubble_pc⟩
  if_id_state := ⟨bubble_if_id, bubble_if_id, .P_LOAD, bubble_if_id⟩
  id_ex_state := ⟨bubble_id_ex, bubble_id_ex, .P_LOAD, bubble_id_ex⟩
  ex_mem_state := ⟨bubble_ex_mem, bubble_ex_mem, .P_LOAD, bubble_ex_mem⟩
  mem_wb_state := ⟨bubble_mem_wb, bubble_mem_wb, .P_LOAD, bubble_mem_wb⟩
  f_pc := 0
  imem_icode := .I_NOP
  imem_ifun := 0
  imem_error := false
  instr_valid := true
  d_regvala := 0
  d_regvalb := 0
  e_bcond := false
  dmem_error := false

/-- A state for `toy_env` at the start of a cycle that commits, from the `next` buffers, the
consumer `addq %r3, %r1` to `if_id_curr`, the load `mrmovq (%r0), %r3` to `id_ex_curr` and
the instruction `older` to `ex_mem_curr`; the memory holds 9 everywhere. -/
def toy_load_use (older : ex_mem_ele) : sim_state (Nat → Nat) :=
  { toy_state with
    mem := fun _ => 9,
    if_id_state := ⟨bubble_if_id, ⟨.I_ALU, 0, .REG 3, .REG 1, 0, 12, .STAT_AOK, 10⟩, .P_LOAD,
      bubble_if_id⟩,
    id_ex_state := ⟨bubble_id_ex, ⟨.I_MRMOVQ, 0, 0, 0, 0, .REG_NONE, .REG 0, .REG_NONE,
      .REG 3, .STAT_AOK, 0⟩, .P_LOAD, bubble_id_ex⟩,
    ex_mem_state := ⟨bubble_ex_mem, older, .P_LOAD, bubble_ex_mem⟩ }

/-- A state for `toy_env` at the start of a cycle that commits, from the `next` buffers, a
conditional jump with function code 1 and fall-through address 100 to `id_ex_curr`, the
instruction `older` to `ex_mem_curr` and the address 50 to the PC latch; `cc` is 0, so the
condition of the jump does not hold. -/
def toy_jump (older : ex_mem_ele) : sim_state (Nat → Nat) :=
  { toy_state with
    mem := fun _ => 9,
    pc_state := ⟨bubble_pc, ⟨50, .STAT_AOK⟩, .P_LOAD, bubble_pc⟩,
    if_id_state := ⟨bubble_if_id, ⟨.I_ALU, 0, .REG 3, .REG 1, 0, 42, .STAT_AOK, 40⟩, .P_LOAD,
      bubble_if_id⟩,
    id_ex_state := ⟨bubble_id_ex, ⟨.I_JMP, 1, 40, 100, 0, .REG_NONE, .REG_NONE, .REG_NONE,
      .REG_NONE, .STAT_AOK, 91⟩, .P_LOAD, bubble_id_ex⟩,
    ex_mem_state := ⟨bubble_ex_mem, older, .P_LOAD, bubble_ex_mem⟩ }

/-- The instruction `halt` as it leaves Execute: status `STAT_HLT`, no destination. -/
def halt_in_ex : ex_mem_ele :=
  ⟨.I_HALT, 0, true, 0, 0, .REG_NONE, .REG_NONE, .STAT_HLT, 0⟩

/-- A state for `toy_env` at the start of a cycle that commits a `ret` to `if_id_curr`,
bubbles elsewhere; the stack pointer and every other register hold 7, the memory holds 9
everywhere. -/
def toy_ret : sim_state (Nat → Nat) :=
  { toy_state with
    mem := fun _ => 9,
    pc_state := ⟨bubble_pc, ⟨50, .STAT_AOK⟩, .P_LOAD, bubble_pc⟩,
    if_id_state := ⟨bubble_if_id, ⟨.I_RET, 0, .REG_NONE, .REG_NONE, 0, 41, .STAT_AOK, 40⟩,
      .P_LOAD, bubble_if_id⟩ }

end Pcsim

namespace Cache

/-! ## Auxiliary definitions for the statements below -/

/-- The state after an access that hits line `j` of set `k`. -/
def after_hit (st : cache_state) (k j : Nat) (lines : List cache_line_t) (l : cache_line_t) :
    cache_state :=
  { st with
    hit_count := st.hit_count + 1,
    counter := incr64 st.counter,
    sets := st.sets.set k (lines.set j { l with lru := incr64 st.counter }) }

/-- The state after an access that misses and fills line `j` of set `k` with `tag`. -/
def after_miss (st : cache_state) (k j : Nat) (lines : List cache_line_t) (l : cache_line_t)
    (tag : Nat) : cache_state :=
  { st with
    miss_count := st.miss_count + 1,
    counter := incr64 st.counter,
    eviction_count :=
      if l.valid = 1 ∧ tag ≠ 0 then st.eviction_count + 1 else st.eviction_count,
    sets := st.sets.set k (lines.set j ⟨1, tag, incr64 st.counter⟩) }

/-- Any two valid lines of a set that carry the same tag are the same line. -/
def distinct_valid_tags (lines : List cache_line_t) : Prop :=
  ∀ (i j : Nat) (li lj : cache_line_t), lines[i]? = some li → lines[j]? = some lj →
    li.valid = 1 → lj.valid = 1 → li.tag = lj.tag → i = j

/-- Every set holds exactly `E` lines (none for `E ≤ 0`) with distinct valid tags. -/
def cache_inv (st : cache_state) : Prop :=
  ∀ lines ∈ st.sets, lines.length = st.E.toNat ∧ distinct_valid_tags lines

/-- The geometry fixed by `initCache(s, b, E)`: the parameters and the number of sets. -/
def cache_shape (s b E : Int) (st : cache_state) : Prop :=
  st.s = s ∧ st.b = b ∧ st.E = E ∧ st.sets.length = 2 ^ s.toNat

/-- The state `st` with the three statistics counters raised by `dh`, `dm`, `de`. -/
def bump (dh dm de : Int) (st : cache_state) : cache_state :=
  { st with
    hit_count := st.hit_count + dh,
    miss_count := st.miss_count + dm,
    eviction_count := st.eviction_count + de }

end Cache

namespace PipeCache

open Cache

/-! ## The access function of `src/pipe-cache/cache.c` -/

/-- `accessData(addr)` of `src/pipe-cache/cache.c`:
`if (!check_hit(addr)) handle_miss(addr, NULL, NULL, NULL);`, with the `handle_miss` of that
file. The functions `check_hit`, `get_line` and `select_line` have the same text in both
cache files. -/
def accessData (st : cache_state) (addr : Nat) : Option cache_state := do
  let (st1, hit) ← check_hit st addr
  if hit then some st1
  else do
    let (st2, _) ← handle_miss st1 addr
    some st2

/-- The driver loop: `accessData` of `src/pipe-cache/cache.c` on each address of a trace, in
order. -/
def accessAll (st : cache_state) : List Nat → Option cache_state
  | [] => some st
  | a :: as => do
    let st1 ← accessData st a
    accessAll st1 as

/-- The state after an access that misses and fills line `j` of set `k` with `tag`, for
`src/pipe-cache/cache.c`: as `Cache.after_miss`, but `eviction_count` grows whenever the
line was valid. -/
def pipe_after_miss (st : cache_state) (k j : Nat) (lines : List cache_line_t)
    (l : cache_line_t) (tag : Nat) : cache_state :=
  { st with
    miss_count := st.miss_count + 1,
    counter := incr64 st.counter,
    eviction_count := if l.valid = 1 then st.eviction_count + 1 else st.eviction_count,
    sets := st.sets.set k (lines.set j ⟨1, tag, incr64 st.counter⟩) }

/-- The total number of valid lines (`valid == 1`) in the cache. -/
def valid_lines (st : cache_state) : Nat :=
  (st.sets.map (fun lines => lines.countP (fun l => decide (l.valid = 1)))).sum

/-- Every line of the cache has the flag `valid` 0 or 1. -/
def valid_flags (st : cache_state) : Prop :=
  ∀ lines ∈ st.sets, ∀ l ∈ lines, l.valid = 0 ∨ l.valid = 1

end PipeCache

namespace Pcsim

/-! ## Further definitions for the statements on the pipeline -/

/-- The instance `toy_env` with a data memory of 100 words: `get_word_val_D` and
`set_word_val_D` fail at an address of 100 or more and then leave the destination,
respectively the memory, as it was. -/
def toy_env_bounded : isa_env (Nat → Nat) :=
  { toy_env with
    get_word_val_D := fun m pos dest => if pos < 100 then (true, m pos) else (false, dest)
    set_word_val_D := fun m pos v =>
      if pos < 100 then (true, fun a => if a = pos then v else m a) else (false, m) }

/-- `new_pipe(count, bubble_val)`: `current` and `next` are copies of the bubble value and
the op is `P_LOAD`. `clear_pipes()` puts every pipe back into this state. -/
def new_pipe {α : Type} (bubble_val : α) : pipe_ele α :=
  ⟨bubble_val, bubble_val, .P_LOAD, bubble_val⟩

/-- The state after `n` consecutive calls of `sim_step_pipe` from `S`, where `ds c` is the
value of `dmem_status` during the call with cycle count `c` (counted from 0, as `ccount` in
`sim_run_pipe`). -/
def sim_steps {M : Type} (env : isa_env M) (ds : Int → mem_status_t) :
    Nat → sim_state M → sim_state M
  | 0, S => S
  | n + 1, S => (sim_step_pipe env (ds n) (sim_steps env ds n S)).1

/-- The loop of `sim_run_pipe` instrumented with a ghost variable: the list of the statuses
returned by the successive calls of `sim_step_pipe`, in order. The recursion is that of
`sim_run_pipe_loop`. -/
def sim_run_pipe_trace {M : Type} (env : isa_env M) (ds : Int → mem_status_t)
    (max_instr max_cycle : Int) : Nat → sim_state M → Int → Int → List stat_t
  | 0, _, _, _ => []
  | fuel + 1, S, icount, ccount =>
    if icount < max_instr ∧ ccount < max_cycle then
      let r := sim_step_pipe env (ds ccount) S
      let icount1 := if r.2 ≠ .STAT_BUB then icount + 1 else icount
      if r.2 ≠ .STAT_AOK ∧ r.2 ≠ .STAT_BUB then [r.2]
      else r.2 :: sim_run_pipe_trace env ds max_instr max_cycle fuel r.1 icount1 (ccount + 1)
    else []

/-- The Y86-64 instruction codes 0 to 11, in the order halt, nop, rrmovq, irmovq, rmmovq,
mrmovq, OPq, jXX, call, ret, pushq, popq. -/
def y86_icode (n : Nat) : itype_t :=
  match n with
  | 0 => .I_HALT
  | 1 => .I_NOP
  | 2 => .I_RRMOVQ
  | 3 => .I_IRMOVQ
  | 4 => .I_RMMOVQ
  | 5 => .I_MRMOVQ
  | 6 => .I_ALU
  | 7 => .I_JMP
  | 8 => .I_CALL
  | 9 => .I_RET
  | 10 => .I_PUSHQ
  | 11 => .I_POPQ
  | k => .other k

/-- The Y86-64 register numbers: 4 is the stack pointer, 15 is "no register". -/
def y86_reg (n : Nat) : reg_id_t :=
  if n = 4 then .REG_RSP else if n = 15 then .REG_NONE else .REG n

/-- The instance `toy_env` with the Y86-64 decoding of an instruction byte (icode in the
high nibble) and of a register byte. -/
def y86_env : isa_env (Nat → Nat) :=
  { toy_env with
    GET_ICODE := fun x => y86_icode (x / 16 % 16)
    HI4 := fun x => y86_reg (x / 16 % 16)
    LO4 := fun x => y86_reg (x % 16) }

/-- The reset state of `toy_state` with the one-instruction program `addq %rcx, %rdx` (bytes
`60 12`) at address 0 in a memory that is zero elsewhere, so that `halt` bytes follow. -/
def alu_then_halt : sim_state (Nat → Nat) :=
  { toy_state with mem := fun a => if a = 0 then 0x60 else if a = 1 then 0x12 else 0 }

/-- What a latch buffer holds at position `j` of the stream of a program of `N` `I_ALU`
instructions at the addresses 0, 2, 4, ...: for `1 ≤ j ≤ N` the `j`-th instruction (icode
`I_ALU`, status `STAT_AOK`, fetched at `2 (j - 1)`), for `j ≤ 0` a bubble; nothing is said
about a position after the program. -/
def alu_slot (N : Nat) (j : Int) (icode : itype_t) (status : stat_t) (stage_pc : Nat) :
    Prop :=
  (j ≤ 0 → icode = .I_NOP ∧ status = .STAT_BUB) ∧
  (1 ≤ j → j ≤ N → icode = .I_ALU ∧ status = .STAT_AOK ∧ (stage_pc : Int) = 2 * (j - 1))

/-- The state of the pipeline at the end of cycle `c` (0 for the reset state) while it runs
a program of `N` `I_ALU` instructions from the memory `mem0`: the bubble values are those of
`sim_init`; the instruction fetched in cycle `c` is at position `c`, and each latch further
down holds the position one lower; up to cycle `N` the memory is `mem0` and the predicted PC
is `2 c`; the op of a latch is `P_LOAD` as long as the position it is about to take lies
within the program. -/
def alu_inv {M : Type} (N : Nat) (mem0 : M) (c : Nat) (S : sim_state M) : Prop :=
  (S.pc_state.bubble_val = bubble_pc ∧ S.if_id_state.bubble_val = bubble_if_id ∧
    S.id_ex_state.bubble_val = bubble_id_ex ∧ S.ex_mem_state.bubble_val = bubble_ex_mem ∧
    S.mem_wb_state.bubble_val = bubble_mem_wb) ∧
  (alu_slot N c S.if_id_state.next.icode S.if_id_state.next.status
      S.if_id_state.next.stage_pc ∧
    alu_slot N (c - 1) S.if_id_state.current.icode S.if_id_state.current.status
      S.if_id_state.current.stage_pc ∧
    alu_slot N (c - 1) S.id_ex_state.next.icode S.id_ex_state.next.status
      S.id_ex_state.next.stage_pc ∧
    alu_slot N (c - 2) S.id_ex_state.current.icode S.id_ex_state.current.status
      S.id_ex_state.current.stage_pc ∧
    alu_slot N (c - 2) S.ex_mem_state.next.icode S.ex_mem_state.next.status
      S.ex_mem_state.next.stage_pc ∧
    alu_slot N (c - 3) S.ex_mem_state.current.icode S.ex_mem_state.current.status
      S.ex_mem_state.current.stage_pc ∧
    alu_slot N (c - 3) S.mem_wb_state.next.icode S.mem_wb_state.next.status
      S.mem_wb_state.next.stage_pc ∧
    alu_slot N (c - 4) S.mem_wb_state.current.icode S.mem_wb_state.current.status
      S.mem_wb_state.current.stage_pc) ∧
  (c ≤ N → S.mem = mem0 ∧ S.pc_state.next.pc = 2 * c) ∧
  (c ≤ N + 1 → S.pc_state.op = .P_LOAD ∧ S.if_id_state.op = .P_LOAD) ∧
  (c ≤ N + 2 → S.id_ex_state.op = .P_LOAD) ∧
  (c ≤ N + 3 → S.ex_mem_state.op = .P_LOAD) ∧
  (c ≤ N + 4 → S.mem_wb_state.op = .P_LOAD)

/-- A state for `toy_env` at the start of the stage evaluations of a cycle in which
`id_ex_curr` holds the store `rmmovq %r1, 40(%r2)` (no destination register, `valc` 40,
`valb` 2) and `if_id_curr` a bubble, that is an instruction without source registers. -/
def store_then_nop : sim_state (Nat → Nat) :=
  { toy_state with
    id_ex_state := ⟨⟨.I_RMMOVQ, 0, 40, 1, 2, .REG 1, .REG 2, .REG_NONE, .REG_NONE, .STAT_AOK,
      0⟩, bubble_id_ex, .P_LOAD, bubble_id_ex⟩ }

/-- A state for `toy_env` at the start of the stage evaluations of a cycle in which
`id_ex_curr` holds the conditional move `cmovle %r0, %r3` (function code 1, `vala` 5) while
`cc` is 0, so that the condition does not hold. -/
def cmov_in_ex : sim_state (Nat → Nat) :=
  { toy_state with
    id_ex_state := ⟨⟨.I_RRMOVQ, 1, 0, 5, 0, .REG 0, .REG_NONE, .REG 3, .REG_NONE, .STAT_AOK,
      10⟩, bubble_id_ex, .P_LOAD, bubble_id_ex⟩ }

/-- Reference definition for the comparison with `forward`: the operand selection of
`do_id_stage` with the two `mem_wb_curr` forwarding cases removed. -/
def forward_no_wb {M : Type} (S : sim_state M) (src : reg_id_t) (regval : Nat) : Nat :=
  if src = S.ex_mem_state.next.deste then S.ex_mem_state.next.vale
  else if src = S.ex_mem_state.current.destm then S.mem_wb_state.next.valm
  else if src = S.ex_mem_state.current.deste then S.ex_mem_state.current.vale
  else regval

/-- Reference definition for the comparison with `do_id_stage`: `do_id_stage` with the two
`mem_wb_curr` forwarding cases removed from the selection of `vala` and of `valb`. -/
def do_id_stage_no_wb {M : Type} (env : isa_env M) (S : sim_state M) : sim_state M :=
  let d := S.if_id_state.current
  let status : stat_t :=
    if S.mem_wb_state.current.status = .STAT_BUB then .STAT_AOK
    else S.mem_wb_state.current.status
  let srca : reg_id_t :=
    if d.icode = .I_RRMOVQ ∨ d.icode = .I_RMMOVQ ∨ d.icode = .I_ALU ∨ d.icode = .I_PUSHQ
    then d.ra
    else if d.icode = .I_POPQ ∨ d.icode = .I_RET then .REG_RSP else .REG_NONE
  let srcb : reg_id_t :=
    if d.icode = .I_ALU ∨ d.icode = .I_RMMOVQ ∨ d.icode = .I_MRMOVQ then d.rb
    else if d.icode = .I_PUSHQ ∨ d.icode = .I_POPQ ∨ d.icode = .I_CALL ∨ d.icode = .I_RET
    then .REG_RSP else .REG_NONE
  let deste : reg_id_t :=
    if d.icode = .I_RRMOVQ ∨ d.icode = .I_IRMOVQ ∨ d.icode = .I_ALU then d.rb
    else if d.icode = .I_PUSHQ ∨ d.icode = .I_POPQ ∨ d.icode = .I_CALL ∨ d.icode = .I_RET
    then .REG_RSP else .REG_NONE
  let destm : reg_id_t :=
    if d.icode = .I_MRMOVQ ∨ d.icode = .I_POPQ then d.ra else .REG_NONE
  let d_regvala := env.get_reg_val S.reg srca
  let d_regvalb := env.get_reg_val S.reg srcb
  let vala : Nat :=
    if d.icode = .I_CALL ∨ d.icode = .I_JMP then d.valp else forward_no_wb S srca d_regvala
  let valb : Nat := forward_no_wb S srcb d_regvalb
  let next : id_ex_ele :=
    { srca := srca, srcb := srcb, deste := deste, destm := destm, vala := vala, valb := valb,
      icode := d.icode, ifun := d.ifun, valc := d.valc, stage_pc := d.stage_pc,
      status := d.status }
  { S with
    status := status, d_regvala := d_regvala, d_regvalb := d_regvalb,
    id_ex_state := { S.id_ex_state with next := next } }

/-- A state for `toy_env` at the start of the stage evaluations of a cycle with the
instruction sequence `mrmovq 64(%r9), %r1` in Writeback (`vale` 64, the loaded `valm` 5),
`popq %r2` in Memory, `addq %r5, %r3` in Execute and `ird`, the instruction in Decode:
none of the three has a source or destination register in common with another. -/
def wb_forward_state (ird : if_id_ele) : sim_state (Nat → Nat) :=
  { toy_state with
    if_id_state := ⟨ird, bubble_if_id, .P_LOAD, bubble_if_id⟩,
    id_ex_state := ⟨⟨.I_ALU, 0, 0, 7, 7, .REG 5, .REG 3, .REG 3, .REG_NONE, .STAT_AOK, 20⟩,
      bubble_id_ex, .P_LOAD, bubble_id_ex⟩,
    ex_mem_state := ⟨⟨.I_POPQ, 0, true, 15, 7, .REG_RSP, .REG 2, .STAT_AOK, 18⟩,
      bubble_ex_mem, .P_LOAD, bubble_ex_mem⟩,
    mem_wb_state := ⟨⟨.I_MRMOVQ, 0, 64, 5, .REG_NONE, .REG 1, .STAT_AOK, 8⟩,
      bubble_mem_wb, .P_LOAD, bubble_mem_wb⟩ }

/-- The state `toy_state` with a memory that holds the byte `b` at address 0 and zero
elsewhere: the first fetch reads `b` as the instruction byte. -/
def fetch_state (b : Nat) : sim_state (Nat → Nat) :=
  { toy_state with mem := fun a => if a = 0 then b else 0 }

/-- The locals `s`, `E`, `b` of `sim_main` and the globals that its option loop assigns. -/
structure sim_main_vars where
  s : Int
  E : Int
  b : Int
  instr_limit : Int
  verbosity : Int
  do_check : Bool
deriving DecidableEq

/-- The ways in which `sim_main` ends: in `usage`, which calls `exit(0)`; with `exit(1)`
after "Couldn't open object file"; with `exit(1)` after "Missing flags for InitCache"; or
with the `exit(0)` of its last line, after `initCache(s, b, E)` (whose result is the
argument) and `run_tty_sim()`. -/
inductive sim_main_exit where
  | usage
  | open_failed
  | missing_flags
  | simulated (c : Option Cache.cache_state)

/-- The loop `while ((c = getopt(argc, argv, "htl:v:")) != -1) switch (c) ...` of
`sim_main` over the successive results of `getopt` (the option character, `?` for an
option that is not in the option string, and `optarg`); `atoll` and `atoi` are the library
conversions. The result is `none` when the loop ends in `usage`. -/
def sim_main_getopt_loop (atoll atoi : String → Int) :
    List (Char × String) → sim_main_vars → Option sim_main_vars
  | [], v => some v
  | (c, optarg) :: rest, v =>
    if c = 'h' then none
    else if c = 'l' then
      sim_main_getopt_loop atoll atoi rest { v with instr_limit := atoll optarg }
    else if c = 'v' then
      if atoi optarg < 0 ∨ atoi optarg > 2 then none
      else sim_main_getopt_loop atoll atoi rest { v with verbosity := atoi optarg }
    else if c = 't' then sim_main_getopt_loop atoll atoi rest { v with do_check := true }
    else none

/-- `sim_main(argc, argv)`: `opts` are the results of `getopt` on the command line,
`operands` is the number `argc - optind` of arguments left after the options and
`file_opens` tells whether `fopen` of the object file succeeds; `st` holds the globals of
the cache at the call and `v0` the globals `instr_limit`, `verbosity`, `do_check` (in the
source 10000, 2, FALSE). The locals `s`, `E`, `b` are initialised to `-1`. -/
def sim_main (atoll atoi : String → Int) (st : Cache.cache_state) (v0 : sim_main_vars)
    (opts : List (Char × String)) (operands : Nat) (file_opens : Bool) : sim_main_exit :=
  match sim_main_getopt_loop atoll atoi opts { v0 with s := -1, E := -1, b := -1 } with
  | none => .usage
  | some v =>
    if 1 < operands then .usage
    else if 0 < operands ∧ file_opens = false then .open_failed
    else
      match sim_main_initCache st v.s v.b v.E with
      | .error _ => .missing_flags
      | .ok c => .simulated c

/-- The icode and the status of a latch buffer fit together as in every run: with one of the
statuses `STAT_HLT`, `STAT_INS`, `STAT_PIP` the icode is none of `I_MRMOVQ`, `I_POPQ`,
`I_RET`, the instructions for which `do_mem_stage` reads the data memory. (`do_if_stage`
gives `STAT_HLT` to an `I_HALT` and `STAT_INS` to an icode that is not valid, and the error
checking of `sim_step_pipe` gives `STAT_PIP` to a bubble value.) -/
def status_fits (icode : itype_t) (status : stat_t) : Prop :=
  status = .STAT_HLT ∨ status = .STAT_INS ∨ status = .STAT_PIP →
    ¬ (icode = .I_MRMOVQ ∨ icode = .I_POPQ ∨ icode = .I_RET)

/-- The property of the latches that every cycle of a run keeps: the bubble values of the
if_id, id_ex and ex_mem pipes are those of `sim_init`, and in both buffers of these three
pipes the icode and the status fit together. -/
def status_inv {M : Type} (S : sim_state M) : Prop :=
  (S.if_id_state.bubble_val = bubble_if_id ∧ S.id_ex_state.bubble_val = bubble_id_ex ∧
    S.ex_mem_state.bubble_val = bubble_ex_mem) ∧
  (status_fits S.if_id_state.next.icode S.if_id_state.next.status ∧
    status_fits S.if_id_state.current.icode S.if_id_state.current.status) ∧
  (status_fits S.id_ex_state.next.icode S.id_ex_state.next.status ∧
    status_fits S.id_ex_state.current.icode S.id_ex_state.current.status) ∧
  (status_fits S.ex_mem_state.next.icode S.ex_mem_state.next.status ∧
    status_fits S.ex_mem_state.current.icode S.ex_mem_state.current.status)

end Pcsim

namespace Ssim

/-! ## The sequential simulator (`src/seq/ssim.c`)

The header `isa.h` and the file `isa.c` are not among the sources: their constants, macros
and helper functions are the fields of `isa_env`. Codes, register identifiers and bytes are
natural numbers; a `word_t` is its 64-bit pattern. The logging calls are left out. -/

/-- Modelled from the spec: the constants, macros and helper functions of the absent
`isa.h` / `isa.c` that `ssim.c` uses, over a type `M` of memory objects (`mem_t`, used for
the memory and for the register file). A read `get_..._val(m, pos, &dest)` is a function of
`m`, `pos` and the old value of `dest` that gives the success flag and the new value of
`dest`; `set_word_val` gives the success flag and the memory after the call. -/
structure isa_env (M : Type) where
  I_HALT : Nat
  I_NOP : Nat
  I_RRMOVQ : Nat
  I_IRMOVQ : Nat
  I_RMMOVQ : Nat
  I_MRMOVQ : Nat
  I_ALU : Nat
  I_JMP : Nat
  I_CALL : Nat
  I_RET : Nat
  I_PUSHQ : Nat
  I_POPQ : Nat
  F_NONE : Nat
  C_YES : Nat
  C_LE : Nat
  C_L : Nat
  C_E : Nat
  C_NE : Nat
  C_GE : Nat
  C_G : Nat
  A_ADD : Nat
  A_SUB : Nat
  A_AND : Nat
  A_XOR : Nat
  REG_RSP : Nat
  REG_NONE : Nat
  HPACK : Nat → Nat → Nat
  HI4 : Nat → Nat
  LO4 : Nat → Nat
  get_byte_val : M → Nat → Nat → Bool × Nat
  get_word_val : M → Nat → Nat → Bool × Nat
  set_word_val : M → Nat → Nat → Bool × M
  get_reg_val : M → Nat → Nat
  set_reg_val : M → Nat → Nat → M
  compute_alu : Nat → Nat → Nat → Nat
  compute_cc : Nat → Nat → Nat → Nat
  cond_holds : Nat → Nat → Bool
  DEFAULT_CC : Nat

/-- The globals of `ssim.c` that `sim_step` reads or writes. -/
structure sim_state (M : Type) where
  mem : M
  reg : M
  cc : Nat
  cc_in : Nat
  pc : Nat
  pc_in : Nat
  icode : Nat
  ifun : Nat
  instr : Nat
  ra : Nat
  rb : Nat
  valc : Nat
  valp : Nat
  imem_error : Bool
  srcA : Nat
  srcB : Nat
  destE : Nat
  destM : Nat
  vala : Nat
  valb : Nat
  vale : Nat
  valm : Nat
  dmem_error : Bool
  mem_write : Bool
  mem_addr : Nat
  mem_data : Nat
  status : Pcsim.stat_t

/-- `update_state()`: `pc = pc_in; cc = cc_in;`, the two register writes and the memory
write that are pending. -/
def update_state {M : Type} (env : isa_env M) (S : sim_state M) : sim_state M :=
  let reg1 := if S.destE ≠ env.REG_NONE then env.set_reg_val S.reg S.destE S.vale else S.reg
  let reg2 := if S.destM ≠ env.REG_NONE then env.set_reg_val reg1 S.destM S.valm else reg1
  let mem1 := if S.mem_write then (env.set_word_val S.mem S.mem_addr S.mem_data).2 else S.mem
  { S with pc := S.pc_in, cc := S.cc_in, reg := reg2, mem := mem1 }

/-- Body of the cases of the fetch `switch` that read the register byte into `ra` and `rb`
(`I_RRMOVQ`, `I_ALU`, `I_PUSHQ`, `I_POPQ`); `tempB` is the value of the uninitialised
local before the read. -/
def fetch_regs {M : Type} (env : isa_env M) (tempB : Nat) (S : sim_state M) : sim_state M :=
  let r := env.get_byte_val S.mem ((S.pc + 1) % 2 ^ 64) tempB
  { S with
    dmem_error := S.dmem_error || !r.1,
    ra := env.HI4 r.2,
    rb := env.LO4 r.2,
    valp := (S.pc + 2) % 2 ^ 64 }

/-- Body of the case `I_IRMOVQ` of the fetch `switch`: only `rb` is taken from the register
byte. -/
def fetch_irmovq {M : Type} (env : isa_env M) (tempB : Nat) (S : sim_state M) : sim_state M :=
  let r := env.get_byte_val S.mem ((S.pc + 1) % 2 ^ 64) tempB
  let w := env.get_word_val S.mem ((S.pc + 2) % 2 ^ 64) S.valc
  { S with
    dmem_error := (S.dmem_error || !r.1) || !w.1,
    rb := env.LO4 r.2,
    valc := w.2,
    valp := (S.pc + 10) % 2 ^ 64 }

/-- Body of the cases `I_RMMOVQ` and `I_MRMOVQ` of the fetch `switch`. -/
def fetch_regs_valc {M : Type} (env : isa_env M) (tempB : Nat) (S : sim_state M) :
    sim_state M :=
  let r := env.get_byte_val S.mem ((S.pc + 1) % 2 ^ 64) tempB
  let w := env.get_word_val S.mem ((S.pc + 2) % 2 ^ 64) S.valc
  { S with
    dmem_error := (S.dmem_error || !r.1) || !w.1,
    ra := env.HI4 r.2,
    rb := env.LO4 r.2,
    valc := w.2,
    valp := (S.pc + 10) % 2 ^ 64 }

/-- Body of the cases `I_JMP` and `I_CALL` of the fetch `switch`. -/
def fetch_valc {M : Type} (env : isa_env M) (S : sim_state M) : sim_state M :=
  let w := env.get_word_val S.mem ((S.pc + 1) % 2 ^ 64) S.valc
  { S with
    dmem_error := S.dmem_error || !w.1,
    valc := w.2,
    valp := (S.pc + 9) % 2 ^ 64 }

/-- The Fetch stage of `sim_step`. The case labels of `switch (instr)` are tried in the
order of the source (in C they are pairwise different constants). -/
def fetch_stage {M : Type} (env : isa_env M) (tempB : Nat) (S : sim_state M) : sim_state M :=
  let r := env.get_byte_val S.mem S.pc S.instr
  let S1 : sim_state M :=
    { S with
      dmem_error := S.dmem_error || !r.1,
      instr := r.2,
      icode := env.HI4 r.2,
      ifun := env.LO4 r.2,
      ra := env.REG_NONE,
      rb := env.REG_NONE,
      valc := 0 }
  let i := S1.instr
  if i = env.HPACK env.I_NOP env.F_NONE then { S1 with valp := (S1.pc + 1) % 2 ^ 64 }
  else if i = env.HPACK env.I_HALT env.F_NONE then { S1 with valp := (S1.pc + 1) % 2 ^ 64 }
  else if i = env.HPACK env.I_RRMOVQ env.F_NONE ∨ i = env.HPACK env.I_RRMOVQ env.C_LE ∨
      i = env.HPACK env.I_RRMOVQ env.C_L ∨ i = env.HPACK env.I_RRMOVQ env.C_E ∨
      i = env.HPACK env.I_RRMOVQ env.C_NE ∨ i = env.HPACK env.I_RRMOVQ env.C_GE ∨
      i = env.HPACK env.I_RRMOVQ env.C_G then fetch_regs env tempB S1
  else if i = env.HPACK env.I_IRMOVQ env.F_NONE then fetch_irmovq env tempB S1
  else if i = env.HPACK env.I_RMMOVQ env.F_NONE then fetch_regs_valc env tempB S1
  else if i = env.HPACK env.I_MRMOVQ env.F_NONE then fetch_regs_valc env tempB S1
  else if i = env.HPACK env.I_ALU env.A_ADD ∨ i = env.HPACK env.I_ALU env.A_SUB ∨
      i = env.HPACK env.I_ALU env.A_AND ∨ i = env.HPACK env.I_ALU env.A_XOR then
    fetch_regs env tempB S1
  else if i = env.HPACK env.I_JMP env.C_YES ∨ i = env.HPACK env.I_JMP env.C_LE ∨
      i = env.HPACK env.I_JMP env.C_L ∨ i = env.HPACK env.I_JMP env.C_E ∨
      i = env.HPACK env.I_JMP env.C_NE ∨ i = env.HPACK env.I_JMP env.C_GE ∨
      i = env.HPACK env.I_JMP env.C_G then fetch_valc env S1
  else if i = env.HPACK env.I_CALL env.F_NONE then fetch_valc env S1
  else if i = env.HPACK env.I_RET env.F_NONE then { S1 with valp := (S1.pc + 1) % 2 ^ 64 }
  else if i = env.HPACK env.I_PUSHQ env.F_NONE then fetch_regs env tempB S1
  else if i = env.HPACK env.I_POPQ env.F_NONE then fetch_regs env tempB S1
  else { S1 with imem_error := true }

/-- The Decode stage of `sim_step`: the `switch (icode)` that selects the source and
destination registers, then the two register reads. -/
def decode_stage {M : Type} (env : isa_env M) (S : sim_state M) : sim_state M :=
  let S0 : sim_state M :=
    { S with
      srcA := env.REG_NONE, srcB := env.REG_NONE, destE := env.REG_NONE,
      destM := env.REG_NONE, vala := 0, valb := 0 }
  let S1 : sim_state M :=
    if S0.icode = env.I_HALT then S0
    else if S0.icode = env.I_NOP then S0
    else if S0.icode = env.I_RRMOVQ then { S0 with srcA := S0.ra, destE := S0.rb }
    else if S0.icode = env.I_IRMOVQ then { S0 with destE := S0.rb }
    else if S0.icode = env.I_RMMOVQ then { S0 with srcA := S0.ra, srcB := S0.rb }
    else if S0.icode = env.I_MRMOVQ then { S0 with srcB := S0.rb, destM := S0.ra }
    else if S0.icode = env.I_ALU then { S0 with srcA := S0.ra, srcB := S0.rb, destE := S0.rb }
    else if S0.icode = env.I_JMP then S0
    else if S0.icode = env.I_CALL then { S0 with srcB := env.REG_RSP, destE := env.REG_RSP }
    else if S0.icode = env.I_RET then
      { S0 with srcA := env.REG_RSP, srcB := env.REG_RSP, destE := env.REG_RSP }
    else if S0.icode = env.I_PUSHQ then
      { S0 with srcA := S0.ra, srcB := env.REG_RSP, destE := env.REG_RSP }
    else if S0.icode = env.I_POPQ then
      { S0 with
        srcA := env.REG_RSP, srcB := env.REG_RSP, destE := env.REG_RSP, destM := S0.ra }
    else S0
  { S1 with
    vala := env.get_reg_val S1.reg S1.srcA,
    valb := env.get_reg_val S1.reg S1.srcB }

/-- The Execute stage of `sim_step`; the second component is the local `cnd`. -/
def execute_stage {M : Type} (env : isa_env M) (S : sim_state M) : sim_state M × Bool :=
  let S0 : sim_state M := { S with vale := 0, cc_in := S.cc }
  if S0.icode = env.I_HALT then (S0, false)
  else if S0.icode = env.I_NOP then (S0, false)
  else if S0.icode = env.I_RRMOVQ then ({ S0 with vale := S0.vala }, false)
  else if S0.icode = env.I_IRMOVQ then ({ S0 with vale := S0.valc }, false)
  else if S0.icode = env.I_RMMOVQ then
    ({ S0 with vale := (S0.valb + S0.valc) % 2 ^ 64 }, false)
  else if S0.icode = env.I_MRMOVQ then
    ({ S0 with vale := (S0.valb + S0.vala) % 2 ^ 64 }, false)
  else if S0.icode = env.I_ALU then
    ({ S0 with
      vale := env.compute_alu S0.ifun S0.vala S0.valb,
      cc_in := env.compute_cc S0.ifun S0.vala S0.valb }, false)
  else if S0.icode = env.I_JMP then (S0, env.cond_holds S0.cc S0.ifun)
  else if S0.icode = env.I_CALL then
    ({ S0 with vale := (S0.valb + (2 ^ 64 - 8)) % 2 ^ 64 }, false)
  else if S0.icode = env.I_RET then ({ S0 with vale := (S0.valb + 8) % 2 ^ 64 }, false)
  else if S0.icode = env.I_PUSHQ then
    ({ S0 with vale := (S0.valb + (2 ^ 64 - 8)) % 2 ^ 64 }, false)
  else if S0.icode = env.I_POPQ then ({ S0 with vale := (S0.valb + 8) % 2 ^ 64 }, false)
  else (S0, false)

/-- A read of the Memory stage: `dmem_error |= !get_word_val(mem, addr, &valm);`. -/
def memory_read {M : Type} (env : isa_env M) (addr : Nat) (S : sim_state M) : sim_state M :=
  let r := env.get_word_val S.mem addr S.valm
  { S with dmem_error := S.dmem_error || !r.1, valm := r.2 }

/-- The Memory stage of `sim_step`: the `switch (icode)`, then
`if (mem_write) dmem_error |= !set_word_val(mem, mem_addr, mem_data);`. -/
def memory_stage {M : Type} (env : isa_env M) (S : sim_state M) : sim_state M :=
  let S0 : sim_state M :=
    { S with valm := 0, mem_write := false, mem_addr := 0, mem_data := 0, status := .STAT_AOK }
  let S1 : sim_state M :=
    if S0.icode = env.I_HALT then { S0 with status := .STAT_HLT }
    else if S0.icode = env.I_NOP then S0
    else if S0.icode = env.I_RRMOVQ then S0
    else if S0.icode = env.I_IRMOVQ then S0
    else if S0.icode = env.I_RMMOVQ then
      { S0 with mem_write := true, mem_addr := S0.vale, mem_data := S0.vala }
    else if S0.icode = env.I_MRMOVQ then memory_read env S0.vale S0
    else if S0.icode = env.I_ALU then S0
    else if S0.icode = env.I_JMP then S0
    else if S0.icode = env.I_CALL then
      { S0 with mem_write := true, mem_addr := S0.vale, mem_data := S0.valp }
    else if S0.icode = env.I_RET then memory_read env S0.vala S0
    else if S0.icode = env.I_PUSHQ then
      { S0 with mem_write := true, mem_addr := S0.vale, mem_data := S0.vala }
    else if S0.icode = env.I_POPQ then memory_read env S0.vala S0
    else S0
  if S1.mem_write then
    let r := env.set_word_val S1.mem S1.mem_addr S1.mem_data
    { S1 with dmem_error := S1.dmem_error || !r.1, mem := r.2 }
  else S1

/-- The Program Counter Update of `sim_step`, with `cnd` the local set by the Execute
stage. -/
def pc_update {M : Type} (env : isa_env M) (cnd : Bool) (S : sim_state M) : sim_state M :=
  let S0 : sim_state M := { S with pc_in := 0 }
  if S0.icode = env.I_HALT then { S0 with pc_in := S0.valp }
  else if S0.icode = env.I_NOP then { S0 with pc_in := S0.valp }
  else if S0.icode = env.I_RRMOVQ then { S0 with pc_in := S0.valp }
  else if S0.icode = env.I_IRMOVQ then { S0 with pc_in := S0.valp }
  else if S0.icode = env.I_RMMOVQ then { S0 with pc_in := S0.valp }
  else if S0.icode = env.I_MRMOVQ then { S0 with pc_in := S0.valp }
  else if S0.icode = env.I_ALU then { S0 with pc_in := S0.valp }
  else if S0.icode = env.I_JMP then { S0 with pc_in := if cnd then S0.valc else S0.valp }
  else if S0.icode = env.I_CALL then { S0 with pc_in := S0.valc }
  else if S0.icode = env.I_RET then { S0 with pc_in := S0.valm }
  else if S0.icode = env.I_PUSHQ then { S0 with pc_in := S0.valp }
  else if S0.icode = env.I_POPQ then { S0 with pc_in := S0.valp }
  else S0

/-- The five stages of `sim_step` after `update_state()`. -/
def stages {M : Type} (env : isa_env M) (tempB : Nat) (S : sim_state M) : sim_state M :=
  let e := execute_stage env (decode_stage env (fetch_stage env tempB S))
  pc_update env e.2 (memory_stage env e.1)

/-- `sim_step()`: the state at its return and the returned status. `tempB` is the value
that the uninitialised local `tempB` has before it is read into. -/
def sim_step {M : Type} (env : isa_env M) (tempB : Nat) (S : sim_state M) :
    sim_state M × Pcsim.stat_t :=
  let S1 : sim_state M :=
    { S with status := .STAT_AOK, imem_error := false, dmem_error := false }
  let S2 := stages env tempB (update_state env S1)
  (S2, if S2.imem_error then .STAT_INS else if S2.dmem_error then .STAT_ADR else S2.status)

/-- The loop of `sim_run` with at most `fuel` iterations left: the state, `icount` and
`run_status` at the exit of the loop. -/
def sim_run_loop {M : Type} (env : isa_env M) (tempB : Nat) (max_instr : Int) :
    Nat → sim_state M → Int → Pcsim.stat_t → sim_state M × Int × Pcsim.stat_t
  | 0, S, icount, run_status => (S, icount, run_status)
  | fuel + 1, S, icount, run_status =>
    if icount < max_instr then
      let r := sim_step env tempB S
      if r.2 ≠ .STAT_AOK then (r.1, icount + 1, r.2)
      else sim_run_loop env tempB max_instr fuel r.1 (icount + 1) r.2
    else (S, icount, run_status)

/-- `sim_run(max_instr, statusp, ccp)`: the final state, the returned `icount` and the
values stored through `statusp` and `ccp`. Every iteration increments `icount`, so
`max_instr` iterations suffice. -/
def sim_run {M : Type} (env : isa_env M) (tempB : Nat) (max_instr : Int) (S : sim_state M) :
    sim_state M × Int × Pcsim.stat_t × Nat :=
  let r := sim_run_loop env tempB max_instr max_instr.toNat S 0 .STAT_AOK
  (r.1, r.2.1, r.2.2, r.1.cc)

/-- An instance of the absent helpers with the Y86-64 encodings (icodes 0 to 11 in the
order halt, nop, rrmovq, irmovq, rmmovq, mrmovq, OPq, jXX, call, ret, pushq, popq; register
15 is "none", register 4 the stack pointer). The memory and the register file are functions
from addresses, respectively register numbers, to values; every access succeeds and a
word read gives the cell at the address; the ALU adds and the condition codes are the ALU
function code plus one. -/
def toy_isa : isa_env (Nat → Nat) where
  I_HALT := 0
  I_NOP := 1
  I_RRMOVQ := 2
  I_IRMOVQ := 3
  I_RMMOVQ := 4
  I_MRMOVQ := 5
  I_ALU := 6
  I_JMP := 7
  I_CALL := 8
  I_RET := 9
  I_PUSHQ := 10
  I_POPQ := 11
  F_NONE := 0
  C_YES := 0
  C_LE := 1
  C_L := 2
  C_E := 3
  C_NE := 4
  C_GE := 5
  C_G := 6
  A_ADD := 0
  A_SUB := 1
  A_AND := 2
  A_XOR := 3
  REG_RSP := 4
  REG_NONE := 15
  HPACK := fun hi lo => hi * 16 + lo
  HI4 := fun x => x / 16 % 16
  LO4 := fun x => x % 16
  get_byte_val := fun m pos _ => (true, m pos)
  get_word_val := fun m pos _ => (true, m pos)
  set_word_val := fun m pos v => (true, fun a => if a = pos then v else m a)
  get_reg_val := fun m r => m r
  set_reg_val := fun m r v => fun a => if a = r then v else m a
  compute_alu := fun _ a b => (a + b) % 2 ^ 64
  compute_cc := fun f _ _ => f + 1
  cond_holds := fun _ ifun => decide (ifun = 0)
  DEFAULT_CC := 0

/-- The globals after `sim_reset()` with the memory `mem`: the register file cleared, `pc`
still 0 from program start, nothing pending. -/
def reset_state (mem : Nat → Nat) : sim_state (Nat → Nat) where
  mem := mem
  reg := fun _ => 0
  cc := 0
  cc_in := 0
  pc := 0
  pc_in := 0
  icode := 1
  ifun := 0
  instr := 16
  ra := 15
  rb := 15
  valc := 0
  valp := 0
  imem_error := false
  srcA := 15
  srcB := 15
  destE := 15
  destM := 15
  vala := 0
  valb := 0
  vale := 0
  valm := 0
  dmem_error := false
  mem_write := false
  mem_addr := 0
  mem_data := 0
  status := .STAT_AOK

/-- The program `irmovq $5, %rax; addq %rax, %rax; halt` at address 0: the bytes `30 F0`,
the constant 5 in the cell at address 2, the bytes `60 00` at address 10 and zero bytes
(`halt`) everywhere else. -/
def toy_program : Nat → Nat :=
  fun a => if a = 0 then 0x30 else if a = 1 then 0xF0 else if a = 2 then 5
    else if a = 10 then 0x60 else 0

/-- The program `irmovq $100, %rbx; mrmovq 8(%rbx), %rax` at address 0: the bytes `30 F3`,
the constant 100 in the cell at address 2, the bytes `50 03` at address 10 and the
displacement 8 in the cell at address 12; the memory holds 77 at address 108 and zero
everywhere else. -/
def mrmovq_program : Nat → Nat :=
  fun a => if a = 0 then 0x30 else if a = 1 then 0xF3 else if a = 2 then 100
    else if a = 10 then 0x50 else if a = 11 then 0x03 else if a = 12 then 8
    else if a = 108 then 77 else 0

/-- The program `irmovq $5, %rax; cmovle %rax, %rbx; halt` at address 0: the bytes `30 F0`,
the constant 5 in the cell at address 2, the bytes `21 03` at address 10 and zero bytes
(`halt`) everywhere else. -/
def cmov_program : Nat → Nat :=
  fun a => if a = 0 then 0x30 else if a = 1 then 0xF0 else if a = 2 then 5
    else if a = 10 then 0x21 else if a = 11 then 0x03 else 0

end Ssim

namespace Cache

/-! ## Facts about the address decomposition -/

theorem shr64_ofNat (x n : Nat) (h : n < 64) : shr64 x (n : Int) = some (x / 2 ^ n) := by
  have h' : (0 : Int) ≤ (n : Int) ∧ (n : Int) < 64 := by omega
  simp [shr64, h']

theorem shl64_ofNat (x n : Nat) (h : n < 64) :
    shl64 x (n : Int) = some (x * 2 ^ n % 2 ^ 64) := by
  have h' : (0 : Int) ≤ (n : Int) ∧ (n : Int) < 64 := by omega
  simp [shl64, h']

/-- The tag is the address shifted right by `s + b` whenever both counts are in range. -/
theorem get_tag_eq (s b addr : Nat) (hsb : s + b < 64) :
    get_tag (s : Int) (b : Int) addr = some (addr % 2 ^ 64 / 2 ^ (s + b)) := by
  have hb : b < 64 := by omega
  have hs : s < 64 := by omega
  simp only [get_tag, shr64_ofNat _ _ hb, shr64_ofNat _ _ hs,
    Option.bind_eq_bind, Option.some_bind]
  rw [Nat.div_div_eq_div_mul, ← pow_add, Nat.add_comm b s]

/-- Masking by the left/right shift pair keeps the low `s` bits, for `1 ≤ s`. -/
theorem mask_shift (t s : Nat) (hs' : s ≤ 64) :
    t * 2 ^ (64 - s) % 2 ^ 64 / 2 ^ (64 - s) = t % 2 ^ s := by
  have h64 : (2 : Nat) ^ 64 = 2 ^ s * 2 ^ (64 - s) := by
    rw [← pow_add]; congr 1; omega
  rw [h64, Nat.mul_mod_mul_right, Nat.mul_div_cancel _ (Nat.two_pow_pos _)]

/-- The set index is the `s` bits above the block offset, for `1 ≤ s`. -/
theorem get_set_eq (s b addr : Nat) (hs : 1 ≤ s) (hsb : s + b < 64) :
    get_set (s : Int) (b : Int) addr = some (addr % 2 ^ 64 / 2 ^ b % 2 ^ s) := by
  have hb : b < 64 := by omega
  have hk : 64 - s < 64 := by omega
  have hc : (64 : Int) - (s : Int) = ((64 - s : Nat) : Int) := by omega
  simp only [get_set, shr64_ofNat _ _ hb, hc, shl64_ofNat _ _ hk,
    shr64_ofNat _ _ hk, Option.bind_eq_bind, Option.some_bind]
  rw [mask_shift _ s (by omega)]

/-- The complement of `B - 1` for `B = 2^b`, as a 64-bit pattern. -/
theorem compl_mask (b : Nat) (hb : b ≤ 30) :
    ((~~~(((2 : Int) ^ b) - 1)) % 2 ^ 64).toNat = 2 ^ 64 - 2 ^ b := by
  interval_cases b <;> rfl

/-- Conjunction with the mask `2^64 - 2^b` clears the low `b` bits. -/
theorem land_clear_low (a b : Nat) (ha : a < 2 ^ 64) (hb : b ≤ 64) :
    a &&& (2 ^ 64 - 2 ^ b) = a / 2 ^ b * 2 ^ b := by
  have h : (2 : Nat) ^ 64 - 2 ^ b = 2 ^ b * (2 ^ (64 - b) - 1) := by
    rw [Nat.mul_sub, ← pow_add, Nat.mul_one]; congr 2; omega
  rw [h, Nat.mul_comm (a / 2 ^ b)]
  apply Nat.eq_of_testBit_eq
  intro i
  rw [Nat.testBit_land, Nat.testBit_mul_pow_two, Nat.testBit_mul_pow_two,
    Nat.testBit_two_pow_sub_one, ← Nat.shiftRight_eq_div_pow, Nat.testBit_shiftRight]
  by_cases hi : b ≤ i
  · have e : b + (i - b) = i := by omega
    by_cases h64 : i < 64
    · have : i - b < 64 - b := by omega
      simp [hi, e, this]
    · have hlt : a < 2 ^ i := lt_of_lt_of_le ha (Nat.pow_le_pow_right (by decide) (by omega))
      simp [hi, e, Nat.testBit_lt_two_pow hlt]
  · simp [hi]

/-- The shifted tag and the shifted set index add up to the block-aligned address. -/
theorem recombine (a s b : Nat) :
    2 ^ (s + b) * (a / 2 ^ (s + b)) + a / 2 ^ b % 2 ^ s * 2 ^ b = a / 2 ^ b * 2 ^ b := by
  have h1 : a / 2 ^ (s + b) = a / 2 ^ b / 2 ^ s := by
    rw [Nat.div_div_eq_div_mul, ← pow_add, Nat.add_comm]
  have h2 := Nat.div_add_mod (a / 2 ^ b) (2 ^ s)
  rw [h1]
  nth_rewrite 3 [← h2]
  rw [pow_add]; ring

/-- `get_block_address` for the block size `B = 2^b` that `initCache` computes. -/
theorem get_block_address_eq (b a : Nat) (hb : b ≤ 30) (ha : a < 2 ^ 64) :
    PipeCache.get_block_address ((2 : Int) ^ b) a = some (a / 2 ^ b * 2 ^ b) := by
  have h1 : -(2 : Int) ^ 31 < (2 : Int) ^ b := by
    have : (0 : Int) < 2 ^ b := by positivity
    omega
  have h2 : (2 : Int) ^ b < 2 ^ 31 := by
    have : (2 : Nat) ^ b < 2 ^ 31 := Nat.pow_lt_pow_right (by decide) (by omega)
    exact_mod_cast this
  simp only [PipeCache.get_block_address, h1, h2, and_self, if_true, compl_mask b hb,
    Nat.mod_eq_of_lt ha]
  rw [land_clear_low a b ha (by omega)]

/-- C3: for `1 ≤ s`, `0 ≤ b ≤ 30`, `s + b < 64` and every 64-bit address `a`, with
`B = 2^b` as computed by `initCache`: the tag shifted left by `s + b`, or-ed with the set
index shifted left by `b`, is `get_block_address(a)`, which is `a` with its low `b` bits
cleared; and another 64-bit address has the same tag and the same set index iff it has the
same block address. -/
theorem block_address_recombination (s b : Int) (a : Nat)
    (hs : 1 ≤ s) (hb0 : 0 ≤ b) (hb : b ≤ 30) (hsb : s + b < 64) (ha : a < 2 ^ 64) :
    ∃ t k B blk, get_tag s b a = some t ∧ get_set s b a = some k ∧
      pow2_int b = some B ∧ PipeCache.get_block_address B a = some blk ∧
      (shl64 t (s + b)).bind (fun x => (shl64 k b).map (fun y => x ||| y)) = some blk ∧
      blk = a - a % 2 ^ b.toNat ∧
      ∀ a', a' < 2 ^ 64 →
        ((get_tag s b a' = some t ∧ get_set s b a' = some k) ↔
          PipeCache.get_block_address B a' = some blk) := by
  obtain ⟨s, rfl⟩ := Int.eq_ofNat_of_zero_le (by omega : 0 ≤ s)
  obtain ⟨b, rfl⟩ := Int.eq_ofNat_of_zero_le hb0
  have hs' : 1 ≤ s := by omega
  have hb' : b ≤ 30 := by omega
  have hsb' : s + b < 64 := by omega
  have hB : pow2_int (b : Int) = some ((2 : Int) ^ b) := by
    have h1 : ¬ ((b : Int) < 0) := by omega
    simp [pow2_int, h1, hb]
  have hclear : a / 2 ^ b * 2 ^ b = a - a % 2 ^ b := by
    have := Nat.div_add_mod a (2 ^ b)
    rw [Nat.mul_comm]; omega
  have hpow : (2 : Nat) ^ (s + b) ≤ 2 ^ 63 := Nat.pow_le_pow_right (by decide) (by omega)
  have hklt : a / 2 ^ b % 2 ^ s * 2 ^ b < 2 ^ (s + b) := by
    rw [pow_add]
    exact Nat.mul_lt_mul_of_pos_right (Nat.mod_lt _ (Nat.two_pow_pos _)) (Nat.two_pow_pos _)
  have htle : a / 2 ^ (s + b) * 2 ^ (s + b) ≤ a := Nat.div_mul_le_self _ _
  refine ⟨a / 2 ^ (s + b), a / 2 ^ b % 2 ^ s, (2 : Int) ^ b, a / 2 ^ b * 2 ^ b, ?_, ?_, hB,
    get_block_address_eq b a hb' ha, ?_, hclear, ?_⟩
  · rw [get_tag_eq s b a hsb', Nat.mod_eq_of_lt ha]
  · rw [get_set_eq s b a hs' hsb', Nat.mod_eq_of_lt ha]
  · have hc : ((s : Int) + (b : Int)) = ((s + b : Nat) : Int) := by omega
    rw [hc, shl64_ofNat _ _ hsb', shl64_ofNat _ _ (by omega : b < 64)]
    simp only [Option.some_bind, Option.map_some']
    rw [Nat.mod_eq_of_lt (by omega), Nat.mod_eq_of_lt (by omega),
      Nat.mul_comm (a / 2 ^ (s + b)), ← Nat.mul_add_lt_is_or hklt, recombine]
  · intro a' ha'
    rw [get_tag_eq s b a' hsb', get_set_eq s b a' hs' hsb', Nat.mod_eq_of_lt ha',
      get_block_address_eq b a' hb' ha']
    simp only [Option.some.injEq]
    have hd : ∀ x : Nat, x / 2 ^ (s + b) = x / 2 ^ b / 2 ^ s := by
      intro x; rw [Nat.div_div_eq_div_mul, ← pow_add, Nat.add_comm]
    constructor
    · rintro ⟨h1, h2⟩
      rw [hd, hd] at h1
      have e1 := Nat.div_add_mod (a' / 2 ^ b) (2 ^ s)
      have e2 := Nat.div_add_mod (a / 2 ^ b) (2 ^ s)
      rw [h1, h2, e2] at e1
      rw [e1]
    · intro h
      have e : a' / 2 ^ b = a / 2 ^ b := Nat.eq_of_mul_eq_mul_right (Nat.two_pow_pos b) h
      rw [hd, hd, e]
      exact ⟨rfl, rfl⟩

/-- C3 witness: `s = 2`, `b = 3`, address `0xABCD`. -/
theorem block_address_recombination_witness :
    ∃ t k B blk, get_tag 2 3 0xABCD = some t ∧ get_set 2 3 0xABCD = some k ∧
      pow2_int 3 = some B ∧ PipeCache.get_block_address B 0xABCD = some blk ∧
      (shl64 t (2 + 3)).bind (fun x => (shl64 k 3).map (fun y => x ||| y)) = some blk ∧
      blk = 0xABCD - 0xABCD % 2 ^ (3 : Int).toNat ∧
      ∀ a', a' < 2 ^ 64 →
        ((get_tag 2 3 a' = some t ∧ get_set 2 3 a' = some k) ↔
          PipeCache.get_block_address B a' = some blk) :=
  block_address_recombination 2 3 0xABCD (by decide) (by decide) (by decide) (by decide)
    (by decide)

/-- C1 (failing input): with `s = 1`, `b = 0`, `E = 1` and the trace `2, 0` the second access
misses in a full set (tag 1 is replaced by tag 0); the reference model counts one eviction,
`accessData` none, because the condition of `handle_miss` is false for a new tag of 0. -/
theorem accessData_counts_differ_from_reference :
    ((initCache program_start 1 0 1).bind (fun st => accessAll st [2, 0])).map
        (fun st => (st.hit_count, st.miss_count, st.eviction_count)) = some (0, 2, 0) ∧
    ((ref_run 1 0 1 ref_init [2, 0]).hits, (ref_run 1 0 1 ref_init [2, 0]).misses,
        (ref_run 1 0 1 ref_init [2, 0]).evictions) = (0, 2, 1) := by
  decide

/-- C5 (failing input): in the one-line set holding the valid tag 1, the address 0 misses,
`select_line` chooses that valid line, and `handle_miss` of `src/cache/cache.c` leaves
`eviction_count` at 0 although the line is refilled (valid, tag 0, stamp 2). The `handle_miss`
of `src/pipe-cache/cache.c` counts the eviction on the same state. -/
theorem handle_miss_valid_victim_not_counted :
    get_line ⟨1, 0, 1, 2, 1, 1, 2, 0, 0, [[⟨1, 1, 1⟩], [⟨0, 0, 0⟩]]⟩ 0 = some none ∧
    select_line ⟨1, 0, 1, 2, 1, 1, 2, 0, 0, [[⟨1, 1, 1⟩], [⟨0, 0, 0⟩]]⟩ 0 = some (0, 0) ∧
    line_at ⟨1, 0, 1, 2, 1, 1, 2, 0, 0, [[⟨1, 1, 1⟩], [⟨0, 0, 0⟩]]⟩ 0 0 = some ⟨1, 1, 1⟩ ∧
    handle_miss ⟨1, 0, 1, 2, 1, 1, 2, 0, 0, [[⟨1, 1, 1⟩], [⟨0, 0, 0⟩]]⟩ 0 =
      some (⟨1, 0, 1, 2, 1, 2, 2, 0, 0, [[⟨1, 0, 2⟩], [⟨0, 0, 0⟩]]⟩, false) ∧
    PipeCache.handle_miss ⟨1, 0, 1, 2, 1, 1, 2, 0, 0, [[⟨1, 1, 1⟩], [⟨0, 0, 0⟩]]⟩ 0 =
      some (⟨1, 0, 1, 2, 1, 2, 2, 0, 1, [[⟨1, 0, 2⟩], [⟨0, 0, 0⟩]]⟩, false) := by
  decide

/-- C7 (counterexample): `initCache(1, 1, 0)` is not rejected: it returns a cache of two sets
without any line, and the check of `sim_main` (which only looks for the value `-1`) would let
the same arguments through; a negative `s_in` is not rejected either and gives a cache
without sets. -/
theorem initCache_accepts_nonpositive :
    initCache program_start 1 1 0 = some ⟨1, 1, 0, 2, 2, 0, 0, 0, 0, [[], []]⟩ ∧
    Pcsim.sim_main_initCache program_start 1 1 0 =
      .ok (some ⟨1, 1, 0, 2, 2, 0, 0, 0, 0, [[], []]⟩) ∧
    initCache program_start (-2) 1 1 = some ⟨-2, 1, 1, 0, 2, 0, 0, 0, 0, []⟩ :=
  ⟨by decide, rfl, by decide⟩

/-- C2 (failing input): with `s = 0` set-index bits `get_set` shifts a 64-bit value by
`64 - s = 64`, which C does not define; the call has no defined result for any `b` and any
address, so in particular it does not yield the set index `0`. -/
theorem get_set_zero_index_bits_undefined (b : Int) (addr : Nat) :
    get_set 0 b addr = none := by
  unfold get_set
  cases h : shr64 (addr % 2 ^ 64) b <;> simp [shl64]

end Cache

namespace Pcsim

/-! ## Pipeline latches -/

theorem update_pipes_length {α : Type} (pipes : List (pipe_ele α)) :
    (update_pipes pipes).length = pipes.length := by
  induction pipes with
  | nil => rfl
  | cons p ps ih => simp [update_pipes, ih]

theorem update_pipes_getElem_opt {α : Type} (pipes : List (pipe_ele α)) (i : Nat) :
    (update_pipes pipes)[i]? = (pipes[i]?).map update_pipe := by
  induction pipes generalizing i with
  | nil => simp [update_pipes]
  | cons p ps ih =>
    cases i with
    | zero => simp [update_pipes]
    | succ i => simp [update_pipes, ih]

/-- C9: for every latch `p = pipes[i]` and every value of its `op`, after `update_pipes` the
latch `q` at the same index has `current` equal to the old `next` for `P_LOAD`, to the
bubble value for `P_BUBBLE` and `P_ERROR`, and to the old `current` for `P_STALL`; `next`
and the bubble value are untouched; `op` is `P_LOAD` unless it was `P_ERROR`, which stays.
No latch is added or removed. -/
theorem update_pipes_commit {α : Type} (pipes : List (pipe_ele α)) (i : Nat) (p : pipe_ele α)
    (h : pipes[i]? = some p) :
    (update_pipes pipes).length = pipes.length ∧
    ∃ q, (update_pipes pipes)[i]? = some q ∧
      (p.op = .P_LOAD → q.current = p.next) ∧
      (p.op = .P_BUBBLE ∨ p.op = .P_ERROR → q.current = p.bubble_val) ∧
      (p.op = .P_STALL → q.current = p.current) ∧
      q.next = p.next ∧ q.bubble_val = p.bubble_val ∧
      (p.op ≠ .P_ERROR → q.op = .P_LOAD) ∧
      (p.op = .P_ERROR → q.op = .P_ERROR) := by
  refine ⟨update_pipes_length pipes, update_pipe p, ?_, ?_⟩
  · rw [update_pipes_getElem_opt, h]; rfl
  · obtain ⟨c, n, op, bv⟩ := p
    cases op <;> simp [update_pipe]

/-- C9 witness: a bank of four latches, one per control operation. -/
theorem update_pipes_commit_witness :
    ([⟨1, 2, .P_LOAD, 0⟩, ⟨3, 4, .P_STALL, 0⟩, ⟨5, 6, .P_BUBBLE, 0⟩,
        ⟨7, 8, .P_ERROR, 0⟩] : List (pipe_ele Nat))[3]? = some ⟨7, 8, .P_ERROR, 0⟩ ∧
    ∃ q, (update_pipes ([⟨1, 2, .P_LOAD, 0⟩, ⟨3, 4, .P_STALL, 0⟩, ⟨5, 6, .P_BUBBLE, 0⟩,
        ⟨7, 8, .P_ERROR, 0⟩] : List (pipe_ele Nat)))[3]? = some q ∧
      q.current = 0 ∧ q.next = 8 ∧ q.op = .P_ERROR :=
  ⟨rfl, by
    obtain ⟨_, q, hq, _, hb, _, hn, _, _, he⟩ :=
      update_pipes_commit ([⟨1, 2, .P_LOAD, 0⟩, ⟨3, 4, .P_STALL, 0⟩, ⟨5, 6, .P_BUBBLE, 0⟩,
        ⟨7, 8, .P_ERROR, 0⟩] : List (pipe_ele Nat)) 3 ⟨7, 8, .P_ERROR, 0⟩ rfl
    exact ⟨q, hq, hb (Or.inr rfl), hn, he rfl⟩⟩

/-- C10: `pipe_cntl` returns `P_ERROR` iff both signals are nonzero, `P_STALL` iff only
`stall` is nonzero, `P_BUBBLE` iff only `bubble` is nonzero and `P_LOAD` iff both are zero;
in particular a simultaneous stall and bubble yields neither `P_STALL` nor `P_BUBBLE`. -/
theorem pipe_cntl_table (name : String) (stall bubble : Nat) :
    (pipe_cntl name stall bubble = .P_ERROR ↔ stall ≠ 0 ∧ bubble ≠ 0) ∧
    (pipe_cntl name stall bubble = .P_STALL ↔ stall ≠ 0 ∧ bubble = 0) ∧
    (pipe_cntl name stall bubble = .P_BUBBLE ↔ stall = 0 ∧ bubble ≠ 0) ∧
    (pipe_cntl name stall bubble = .P_LOAD ↔ stall = 0 ∧ bubble = 0) := by
  unfold pipe_cntl
  by_cases hs : stall = 0 <;> by_cases hb : bubble = 0 <;> simp [hs, hb]

end Pcsim

namespace Cache

/-! ## Victim selection (`select_line`) -/

theorem lt_length_of_getElem_opt {α : Type} (l : List α) (i : Nat) (x : α)
    (h : l[i]? = some x) : i < l.length :=
  (List.getElem?_eq_some.1 h).1

theorem line_at_eq (st : cache_state) (k : Nat) (lines : List cache_line_t)
    (hl : st.sets[k]? = some lines) (i : Nat) : line_at st k i = lines[i]? := by
  simp [line_at, hl]

/-- The first loop of `select_line` finds the lowest invalid line at or after `j`, or runs
to the end when every line from `j` on is valid. -/
theorem find_invalid_spec (st : cache_state) (k : Nat) (lines : List cache_line_t)
    (hl : st.sets[k]? = some lines) (n j : Nat) (hn : j + n = lines.length) :
    (∃ j' l, find_invalid st k n j = some (some j') ∧ j ≤ j' ∧ lines[j']? = some l ∧
        l.valid = 0 ∧ ∀ i li, j ≤ i → i < j' → lines[i]? = some li → li.valid ≠ 0) ∨
    (find_invalid st k n j = some none ∧
        ∀ i li, j ≤ i → lines[i]? = some li → li.valid ≠ 0) := by
  induction n generalizing j with
  | zero =>
    right
    refine ⟨rfl, ?_⟩
    intro i li hji hi
    have := lt_length_of_getElem_opt _ _ _ hi
    omega
  | succ n ih =>
    have hj : j < lines.length := by omega
    have hlj : lines[j]? = some lines[j] := List.getElem?_eq_getElem hj
    by_cases hv : lines[j].valid = 0
    · left
      refine ⟨j, lines[j], ?_, le_refl _, hlj, hv, ?_⟩
      · simp [find_invalid, line_at_eq st k lines hl, hlj, hv]
      · intro i li h1 h2; omega
    · have hstep : find_invalid st k (n + 1) j = find_invalid st k n (j + 1) := by
        simp [find_invalid, line_at_eq st k lines hl, hlj, hv]
      rcases ih (j + 1) (by omega) with ⟨j', l, h1, h2, h3, h4, h5⟩ | ⟨h1, h2⟩
      · left
        refine ⟨j', l, by rw [hstep, h1], by omega, h3, h4, ?_⟩
        intro i li hji hij hi
        by_cases e : i = j
        · subst e
          rw [hlj] at hi
          cases hi
          exact hv
        · exact h5 i li (by omega) hij hi
      · right
        refine ⟨by rw [hstep, h1], ?_⟩
        intro i li hji hi
        by_cases e : i = j
        · subst e
          rw [hlj] at hi
          cases hi
          exact hv
        · exact h2 i li (by omega) hi

/-- The second loop of `select_line` keeps in `min` the first line with the smallest stamp
among the lines already visited. -/
theorem find_lru_spec (st : cache_state) (k : Nat) (lines : List cache_line_t)
    (hl : st.sets[k]? = some lines) (n i m : Nat) (lm : cache_line_t)
    (hn : i + n = lines.length) (hm : lines[m]? = some lm)
    (hmin : ∀ i' li, i' < i → lines[i']? = some li → lm.lru ≤ li.lru)
    (hfirst : ∀ i' li, i' < m → lines[i']? = some li → lm.lru < li.lru) :
    ∃ (m' : Nat) (lm' : cache_line_t), find_lru st k n i m = some m' ∧ lines[m']? = some lm' ∧
      (∀ (i' : Nat) (li : cache_line_t), lines[i']? = some li → lm'.lru ≤ li.lru) ∧
      (∀ (i' : Nat) (li : cache_line_t), i' < m' → lines[i']? = some li →
        lm'.lru < li.lru) := by
  induction n generalizing i m lm with
  | zero =>
    refine ⟨m, lm, rfl, hm, ?_, hfirst⟩
    intro i' li hi
    have := lt_length_of_getElem_opt _ _ _ hi
    exact hmin i' li (by omega) hi
  | succ n ih =>
    have hi : i < lines.length := by omega
    have hli : lines[i]? = some lines[i] := List.getElem?_eq_getElem hi
    by_cases hlt : lines[i].lru < lm.lru
    · have hstep : find_lru st k (n + 1) i m = find_lru st k n (i + 1) i := by
        simp [find_lru, line_at_eq st k lines hl, hli, hm, hlt]
      rw [hstep]
      apply ih (i + 1) i lines[i] (by omega) hli
      · intro i' li h1 h2
        by_cases e : i' = i
        · subst e
          rw [hli] at h2
          cases h2
          exact le_refl _
        · exact le_of_lt (lt_of_lt_of_le hlt (hmin i' li (by omega) h2))
      · intro i' li h1 h2
        exact lt_of_lt_of_le hlt (hmin i' li h1 h2)
    · have hstep : find_lru st k (n + 1) i m = find_lru st k n (i + 1) m := by
        simp [find_lru, line_at_eq st k lines hl, hli, hm, hlt]
      rw [hstep]
      apply ih (i + 1) m lm (by omega) hm
      · intro i' li h1 h2
        by_cases e : i' = i
        · subst e
          rw [hli] at h2
          cases h2
          exact Nat.le_of_not_lt hlt
        · exact hmin i' li (by omega) h2
      · exact hfirst

/-- The line chosen by `select_line` in a set of exactly `E ≥ 1` lines: the lowest invalid
line if there is one, else the first line with the smallest stamp. -/
theorem select_line_core (st : cache_state) (addr k : Nat) (lines : List cache_line_t)
    (hE : 1 ≤ st.E) (hk : get_set st.s st.b addr = some k)
    (hl : st.sets[k]? = some lines) (hlen : (lines.length : Int) = st.E) :
    ∃ j l, select_line st addr = some (k, j) ∧ lines[j]? = some l ∧
      ((∃ l' ∈ lines, l'.valid = 0) →
        l.valid = 0 ∧ ∀ i li, i < j → lines[i]? = some li → li.valid ≠ 0) ∧
      ((∀ l' ∈ lines, l'.valid ≠ 0) →
        (∀ l' ∈ lines, l.lru ≤ l'.lru) ∧
        ∀ i li, i < j → lines[i]? = some li → l.lru < li.lru) := by
  have hEn : st.E.toNat = lines.length := by omega
  rcases find_invalid_spec st k lines hl st.E.toNat 0 (by omega) with
    ⟨j, l, h1, _, h3, h4, h5⟩ | ⟨h1, h2⟩
  · refine ⟨j, l, ?_, h3, ?_, ?_⟩
    · simp [select_line, hk, h1]
    · intro _
      exact ⟨h4, fun i li hij hi => h5 i li (Nat.zero_le _) hij hi⟩
    · intro hall
      exact absurd h4 (hall l (List.mem_iff_getElem?.2 ⟨j, h3⟩))
  · have h0 : 0 < lines.length := by omega
    obtain ⟨m, lm, g1, g2, g3, g4⟩ :=
      find_lru_spec st k lines hl st.E.toNat 0 0 lines[0] (by omega)
        (List.getElem?_eq_getElem h0)
        (fun i' li h _ => absurd h (Nat.not_lt_zero _))
        (fun i' li h _ => absurd h (Nat.not_lt_zero _))
    refine ⟨m, lm, ?_, g2, ?_, ?_⟩
    · simp [select_line, hk, h1, g1]
    · rintro ⟨l', hmem, hv⟩
      obtain ⟨i, hi⟩ := List.mem_iff_getElem?.1 hmem
      exact absurd hv (h2 i l' (Nat.zero_le _) hi)
    · intro _
      refine ⟨?_, g4⟩
      intro l' hmem
      obtain ⟨i, hi⟩ := List.mem_iff_getElem?.1 hmem
      exact g3 i l' hi

/-- C4: in a state whose set for `addr` holds exactly `E ≥ 1` lines, `select_line` returns
a line `j` of that set such that: if the set has an invalid line (`valid == 0`), line `j` is
invalid and every line below `j` is valid; if the set has no invalid line, line `j` has the
smallest `lru` stamp of the set and every line below `j` has a strictly larger stamp. -/
theorem select_line_spec (st : cache_state) (addr k : Nat) (lines : List cache_line_t)
    (hE : 1 ≤ st.E) (hk : get_set st.s st.b addr = some k)
    (hl : st.sets[k]? = some lines) (hlen : (lines.length : Int) = st.E) :
    ∃ j l, select_line st addr = some (k, j) ∧ lines[j]? = some l ∧
      ((∃ l' ∈ lines, l'.valid = 0) →
        l.valid = 0 ∧ ∀ i li, i < j → lines[i]? = some li → li.valid ≠ 0) ∧
      ((∀ l' ∈ lines, l'.valid ≠ 0) →
        (∀ l' ∈ lines, l.lru ≤ l'.lru) ∧
        ∀ i li, i < j → lines[i]? = some li → l.lru < li.lru) :=
  select_line_core st addr k lines hE hk hl hlen

/-- C4 witness: a full two-line set whose stamps tie at 5; line 0 is chosen. -/
theorem select_line_spec_witness :
    ∃ j l, select_line ⟨1, 0, 2, 2, 1, 9, 0, 0, 0,
        [[⟨1, 3, 5⟩, ⟨1, 4, 5⟩], [⟨0, 0, 0⟩, ⟨0, 0, 0⟩]]⟩ 6 = some (0, j) ∧
      ([⟨1, 3, 5⟩, ⟨1, 4, 5⟩] : List cache_line_t)[j]? = some l ∧
      ((∃ l' ∈ ([⟨1, 3, 5⟩, ⟨1, 4, 5⟩] : List cache_line_t), l'.valid = 0) →
        l.valid = 0 ∧ ∀ i li, i < j →
          ([⟨1, 3, 5⟩, ⟨1, 4, 5⟩] : List cache_line_t)[i]? = some li → li.valid ≠ 0) ∧
      ((∀ l' ∈ ([⟨1, 3, 5⟩, ⟨1, 4, 5⟩] : List cache_line_t), l'.valid ≠ 0) →
        (∀ l' ∈ ([⟨1, 3, 5⟩, ⟨1, 4, 5⟩] : List cache_line_t), l.lru ≤ l'.lru) ∧
        ∀ i li, i < j →
          ([⟨1, 3, 5⟩, ⟨1, 4, 5⟩] : List cache_line_t)[i]? = some li → l.lru < li.lru) :=
  select_line_spec ⟨1, 0, 2, 2, 1, 9, 0, 0, 0,
      [[⟨1, 3, 5⟩, ⟨1, 4, 5⟩], [⟨0, 0, 0⟩, ⟨0, 0, 0⟩]]⟩ 6 0 [⟨1, 3, 5⟩, ⟨1, 4, 5⟩]
    (by decide) (by decide) (by decide) (by decide)

end Cache

namespace Cache

/-! ## Effect of one access on the lines -/

theorem update_line_eq (st : cache_state) (k j : Nat) (lines : List cache_line_t)
    (l : cache_line_t) (f : cache_line_t → cache_line_t)
    (hk : st.sets[k]? = some lines) (hj : lines[j]? = some l) :
    update_line st (k, j) f = some { st with sets := st.sets.set k (lines.set j (f l)) } := by
  simp [update_line, hk, hj]

theorem update_line_some_inv (st st' : cache_state) (p : Nat × Nat)
    (f : cache_line_t → cache_line_t) (h : update_line st p f = some st') :
    ∃ lines l, st.sets[p.1]? = some lines ∧ lines[p.2]? = some l := by
  unfold update_line at h
  cases h1 : st.sets[p.1]? with
  | none => simp [h1] at h
  | some lines =>
    cases h2 : lines[p.2]? with
    | none => simp [h1, h2] at h
    | some l => exact ⟨lines, l, rfl, h2⟩

theorem sets_set_getElem (sets : List (List cache_line_t)) (k : Nat)
    (lines lines' : List cache_line_t) (hk : sets[k]? = some lines) :
    (sets.set k lines')[k]? = some lines' :=
  List.getElem?_set_self (lt_length_of_getElem_opt _ _ _ hk)

theorem lines_set_getElem (lines : List cache_line_t) (j : Nat) (l l' : cache_line_t)
    (hj : lines[j]? = some l) : (lines.set j l')[j]? = some l' :=
  List.getElem?_set_self (lt_length_of_getElem_opt _ _ _ hj)

/-- The result of `handle_miss` of `src/cache/cache.c` in closed form: the chosen line becomes
(valid, tag of `pos`, new counter value); `eviction_count` grows iff the chosen line was
valid and the new tag is nonzero. -/
theorem handle_miss_eq (st : cache_state) (pos k j : Nat) (lines : List cache_line_t)
    (l : cache_line_t) (tag : Nat)
    (hsel : select_line st pos = some (k, j)) (hk : st.sets[k]? = some lines)
    (hj : lines[j]? = some l) (htag : get_tag st.s st.b pos = some tag) :
    handle_miss st pos = some ({ st with
        counter := incr64 st.counter,
        eviction_count :=
          if l.valid = 1 ∧ tag ≠ 0 then st.eviction_count + 1 else st.eviction_count,
        sets := st.sets.set k (lines.set j ⟨1, tag, incr64 st.counter⟩) }, false) := by
  obtain ⟨v, t, u⟩ := l
  obtain ⟨s, b, E, S, B, c, mc, hc, ec, sets⟩ := st
  have hk' := lt_length_of_getElem_opt _ _ _ hk
  have hj' := lt_length_of_getElem_opt _ _ _ hj
  simp only at hk htag hk'
  unfold handle_miss
  simp only [hsel, Option.bind_eq_bind, Option.some_bind]
  simp only [update_line, hk, hj, Option.bind_eq_bind, Option.some_bind, line_at,
    List.getElem?_set_self hk', List.getElem?_set_self hj', List.set_set, htag]
  by_cases hv : v = 1 <;> by_cases ht : tag = 0 <;>
    simp [hv, ht, htag, List.getElem?_set_self hk', List.getElem?_set_self hj']

/-- When `handle_miss` has a defined result, the chosen line exists and the tag is defined. -/
theorem handle_miss_some_inv (st : cache_state) (pos : Nat) (r : cache_state × Bool)
    (h : handle_miss st pos = some r) :
    ∃ k j lines l tag, select_line st pos = some (k, j) ∧ st.sets[k]? = some lines ∧
      lines[j]? = some l ∧ get_tag st.s st.b pos = some tag := by
  cases hsel : select_line st pos with
  | none => simp [handle_miss, hsel] at h
  | some p =>
    obtain ⟨k, j⟩ := p
    cases hu : update_line { st with counter := incr64 st.counter } (k, j)
        (fun l => { l with lru := incr64 st.counter }) with
    | none => simp [handle_miss, hsel, hu] at h
    | some st2 =>
      obtain ⟨lines, l, hk, hj⟩ := update_line_some_inv _ _ _ _ hu
      simp only at hk hj
      cases htag : get_tag st.s st.b pos with
      | some tag => exact ⟨k, j, lines, l, tag, rfl, hk, hj, rfl⟩
      | none =>
        exfalso
        obtain ⟨v, t, u⟩ := l
        obtain ⟨s, b, E, S, B, c, mc, hc, ec, sets⟩ := st
        have hk' := lt_length_of_getElem_opt _ _ _ hk
        have hj' := lt_length_of_getElem_opt _ _ _ hj
        simp only at hk htag hk'
        unfold handle_miss at h
        simp only [hsel, Option.bind_eq_bind, Option.some_bind] at h
        simp only [update_line, hk, hj, Option.bind_eq_bind, Option.some_bind, line_at,
          List.getElem?_set_self hk', List.getElem?_set_self hj', List.set_set, htag] at h
        by_cases hv : v = 1 <;> simp [hv, htag] at h

theorem select_line_fst (st : cache_state) (pos k j : Nat)
    (h : select_line st pos = some (k, j)) : get_set st.s st.b pos = some k := by
  unfold select_line at h
  cases hs : get_set st.s st.b pos with
  | none => simp [hs] at h
  | some k' =>
    simp only [hs, Option.bind_eq_bind, Option.some_bind] at h
    cases h1 : find_invalid st k' st.E.toNat 0 with
    | none => simp [h1] at h
    | some r =>
      cases r with
      | some j' =>
        simp [h1] at h
        rw [h.1]
      | none =>
        simp only [h1, Option.some_bind] at h
        cases h2 : find_lru st k' st.E.toNat 0 0 with
        | none => simp [h2] at h
        | some m =>
          simp [h2] at h
          rw [h.1]

/-! ## Lookup (`get_line`, `check_hit`) -/

theorem get_line_loop_congr (st st' : cache_state) (h : st'.sets = st.sets) (k tag n i : Nat) :
    get_line_loop st' k tag n i = get_line_loop st k tag n i := by
  induction n generalizing i with
  | zero => rfl
  | succ n ih => simp [get_line_loop, line_at, h, ih]

theorem get_line_congr (st st' : cache_state) (hs : st'.s = st.s) (hb : st'.b = st.b)
    (hE : st'.E = st.E) (h : st'.sets = st.sets) (pos : Nat) :
    get_line st' pos = get_line st pos := by
  simp [get_line, hs, hb, hE, get_line_loop_congr st st' h]

/-- A line returned by the loop of `get_line` exists, is valid and carries the tag. -/
theorem get_line_loop_some (st : cache_state) (k tag n i j : Nat)
    (h : get_line_loop st k tag n i = some (some j)) :
    ∃ l, line_at st k j = some l ∧ l.valid = 1 ∧ l.tag = tag := by
  induction n generalizing i with
  | zero => simp [get_line_loop] at h
  | succ n ih =>
    unfold get_line_loop at h
    cases hl : line_at st k i with
    | none => simp [hl] at h
    | some l =>
      simp only [hl, Option.bind_eq_bind, Option.some_bind] at h
      by_cases hc : l.valid = 1 ∧ l.tag = tag
      · simp only [hc, and_self, if_true, Option.some.injEq] at h
        subst h
        exact ⟨l, hl, hc.1, hc.2⟩
      · simp only [hc, if_false] at h
        exact ih (i + 1) h

/-- When the loop of `get_line` finds nothing, no visited line is valid with the tag. -/
theorem get_line_loop_none (st : cache_state) (k tag n i : Nat)
    (h : get_line_loop st k tag n i = some none) :
    ∀ i' l, i ≤ i' → i' < i + n → line_at st k i' = some l → ¬ (l.valid = 1 ∧ l.tag = tag) := by
  induction n generalizing i with
  | zero => intro i' l h1 h2; omega
  | succ n ih =>
    unfold get_line_loop at h
    cases hl : line_at st k i with
    | none => simp [hl] at h
    | some l0 =>
      simp only [hl, Option.bind_eq_bind, Option.some_bind] at h
      by_cases hc : l0.valid = 1 ∧ l0.tag = tag
      · simp [hc] at h
      · simp only [hc, if_false] at h
        intro i' l h1 h2 h3
        by_cases e : i' = i
        · subst e
          rw [hl] at h3
          cases h3
          exact hc
        · exact ih (i + 1) h i' l (by omega) (by omega) h3

theorem line_at_some_inv (st : cache_state) (k j : Nat) (l : cache_line_t)
    (h : line_at st k j = some l) :
    ∃ lines, st.sets[k]? = some lines ∧ lines[j]? = some l := by
  unfold line_at at h
  cases h1 : st.sets[k]? with
  | none => simp [h1] at h
  | some lines => exact ⟨lines, rfl, by simpa [h1] using h⟩

/-- A line returned by `get_line` exists, is valid and carries the tag of the address. -/
theorem get_line_some (st : cache_state) (pos k j : Nat)
    (h : get_line st pos = some (some (k, j))) :
    ∃ lines l, st.sets[k]? = some lines ∧ lines[j]? = some l ∧ l.valid = 1 ∧
      get_tag st.s st.b pos = some l.tag := by
  unfold get_line at h
  cases hs : get_set st.s st.b pos with
  | none => simp [hs] at h
  | some k' =>
    cases ht : get_tag st.s st.b pos with
    | none => simp [hs, ht] at h
    | some tag =>
      cases hr : get_line_loop st k' tag st.E.toNat 0 with
      | none => simp [hs, ht, hr] at h
      | some r =>
        cases r with
        | none => simp [hs, ht, hr] at h
        | some j' =>
          simp [hs, ht, hr] at h
          obtain ⟨rfl, rfl⟩ := h
          obtain ⟨l, h1, h2, h3⟩ := get_line_loop_some st k' tag _ _ j' hr
          obtain ⟨lines, h4, h5⟩ := line_at_some_inv st k' j' l h1
          exact ⟨lines, l, h4, h5, h2, by rw [h3]⟩

/-- When `get_line` returns `NULL`, the loop over set `k` for the tag found nothing. -/
theorem get_line_none (st : cache_state) (pos k tag : Nat)
    (h : get_line st pos = some none) (hs : get_set st.s st.b pos = some k)
    (ht : get_tag st.s st.b pos = some tag) :
    get_line_loop st k tag st.E.toNat 0 = some none := by
  unfold get_line at h
  simp only [hs, ht, Option.bind_eq_bind, Option.some_bind] at h
  cases hr : get_line_loop st k tag st.E.toNat 0 with
  | none => simp [hr] at h
  | some r =>
    cases r with
    | none => rfl
    | some j => simp [hr] at h

/-- The result of `check_hit` on a miss. -/
theorem check_hit_miss (st : cache_state) (pos : Nat) (h : get_line st pos = some none) :
    check_hit st pos = some ({ st with miss_count := st.miss_count + 1 }, false) := by
  simp [check_hit, h]

/-- The result of `check_hit` on a hit: only the stamp of the line found changes. -/
theorem check_hit_hit (st : cache_state) (pos k j : Nat) (lines : List cache_line_t)
    (l : cache_line_t) (h : get_line st pos = some (some (k, j)))
    (hk : st.sets[k]? = some lines) (hj : lines[j]? = some l) :
    check_hit st pos = some ({ st with
        hit_count := st.hit_count + 1,
        counter := incr64 st.counter,
        sets := st.sets.set k (lines.set j { l with lru := incr64 st.counter }) }, true) := by
  have h' : get_line { st with hit_count := st.hit_count + 1, counter := incr64 st.counter }
      pos = some (some (k, j)) :=
    (get_line_congr st
      { st with hit_count := st.hit_count + 1, counter := incr64 st.counter }
      rfl rfl rfl rfl pos).trans h
  have hu := update_line_eq
    { st with hit_count := st.hit_count + 1, counter := incr64 st.counter } k j lines l
    (fun l => { l with lru := incr64 st.counter }) hk hj
  unfold check_hit
  simp only [h, h', Option.bind_eq_bind, Option.some_bind]
  rw [hu]
  rfl

/-- The two ways in which `check_hit` has a defined result. -/
theorem check_hit_some_inv (st : cache_state) (pos : Nat) (r : cache_state × Bool)
    (h : check_hit st pos = some r) :
    get_line st pos = some none ∨ ∃ k j, get_line st pos = some (some (k, j)) := by
  cases hg : get_line st pos with
  | none => simp [check_hit, hg] at h
  | some r' =>
    cases r' with
    | none => exact Or.inl rfl
    | some p => exact Or.inr ⟨p.1, p.2, rfl⟩

end Cache

namespace Cache

/-! ## One access in closed form -/

theorem find_invalid_congr (st st' : cache_state) (h : st'.sets = st.sets) (k n j : Nat) :
    find_invalid st' k n j = find_invalid st k n j := by
  induction n generalizing j with
  | zero => rfl
  | succ n ih => simp [find_invalid, line_at, h, ih]

theorem find_lru_congr (st st' : cache_state) (h : st'.sets = st.sets) (k n i m : Nat) :
    find_lru st' k n i m = find_lru st k n i m := by
  induction n generalizing i m with
  | zero => rfl
  | succ n ih => simp [find_lru, line_at, h, ih]

theorem select_line_congr (st st' : cache_state) (hs : st'.s = st.s) (hb : st'.b = st.b)
    (hE : st'.E = st.E) (h : st'.sets = st.sets) (pos : Nat) :
    select_line st' pos = select_line st pos := by
  simp [select_line, hs, hb, hE, find_invalid_congr st st' h, find_lru_congr st st' h]

theorem accessData_hit_eq (st : cache_state) (a k j : Nat) (lines : List cache_line_t)
    (l : cache_line_t) (h : get_line st a = some (some (k, j)))
    (hk : st.sets[k]? = some lines) (hj : lines[j]? = some l) :
    accessData st a = some (after_hit st k j lines l) := by
  simp [accessData, check_hit_hit st a k j lines l h hk hj, after_hit]

theorem accessData_miss_eq (st : cache_state) (a k j : Nat) (lines : List cache_line_t)
    (l : cache_line_t) (tag : Nat) (h : get_line st a = some none)
    (hsel : select_line st a = some (k, j)) (hk : st.sets[k]? = some lines)
    (hj : lines[j]? = some l) (htag : get_tag st.s st.b a = some tag) :
    accessData st a = some (after_miss st k j lines l tag) := by
  have hsel' : select_line { st with miss_count := st.miss_count + 1 } a = some (k, j) :=
    (select_line_congr st { st with miss_count := st.miss_count + 1 } rfl rfl rfl rfl a).trans
      hsel
  have hm := handle_miss_eq { st with miss_count := st.miss_count + 1 } a k j lines l tag
    hsel' hk hj htag
  simp only [accessData, check_hit_miss st a h, Option.bind_eq_bind, Option.some_bind]
  rw [hm]
  rfl

/-- Every access with a defined result is a hit or a miss of the following shape. -/
theorem accessData_cases (st st' : cache_state) (a : Nat) (h : accessData st a = some st') :
    (∃ k j lines l, get_line st a = some (some (k, j)) ∧ st.sets[k]? = some lines ∧
        lines[j]? = some l ∧ l.valid = 1 ∧ get_tag st.s st.b a = some l.tag ∧
        st' = after_hit st k j lines l) ∨
    (∃ k j lines l tag, get_line st a = some none ∧ select_line st a = some (k, j) ∧
        st.sets[k]? = some lines ∧ lines[j]? = some l ∧ get_tag st.s st.b a = some tag ∧
        st' = after_miss st k j lines l tag) := by
  cases hc : check_hit st a with
  | none => simp [accessData, hc] at h
  | some r =>
    rcases check_hit_some_inv st a r hc with hg | ⟨k, j, hg⟩
    · right
      have hc' := check_hit_miss st a hg
      cases hm : handle_miss { st with miss_count := st.miss_count + 1 } a with
      | none => simp [accessData, hc', hm] at h
      | some r2 =>
        obtain ⟨k, j, lines, l, tag, h1, h2, h3, h4⟩ := handle_miss_some_inv _ _ _ hm
        have hsel : select_line st a = some (k, j) :=
          (select_line_congr st { st with miss_count := st.miss_count + 1 }
            rfl rfl rfl rfl a).symm.trans h1
        have e := accessData_miss_eq st a k j lines l tag hg hsel h2 h3 h4
        rw [e] at h
        cases h
        exact ⟨k, j, lines, l, tag, hg, hsel, h2, h3, h4, rfl⟩
    · left
      obtain ⟨lines, l, h2, h3, h4, h5⟩ := get_line_some st a k j hg
      have e := accessData_hit_eq st a k j lines l hg h2 h3
      rw [e] at h
      cases h
      exact ⟨k, j, lines, l, hg, h2, h3, h4, h5, rfl⟩

end Cache

namespace Cache

/-! ## Invariants of the line arrays -/

theorem distinct_set_keep (lines : List cache_line_t) (j : Nat) (l l' : cache_line_t)
    (hd : distinct_valid_tags lines) (hj : lines[j]? = some l)
    (hv : l'.valid = l.valid) (ht : l'.tag = l.tag) :
    distinct_valid_tags (lines.set j l') := by
  intro x y lx ly hx hy vx vy e
  have key : ∀ (z : Nat) (lz : cache_line_t), (lines.set j l')[z]? = some lz →
      ∃ lz0, lines[z]? = some lz0 ∧ lz0.valid = lz.valid ∧ lz0.tag = lz.tag := by
    intro z lz hz
    rw [List.getElem?_set] at hz
    by_cases ez : j = z
    · subst ez
      have hlt := lt_length_of_getElem_opt _ _ _ hj
      simp only [hlt, if_true, Option.some.injEq] at hz
      subst hz
      exact ⟨l, hj, hv.symm, ht.symm⟩
    · simp only [ez, if_false] at hz
      exact ⟨lz, hz, rfl, rfl⟩
  obtain ⟨lx0, h1, h2, h3⟩ := key x lx hx
  obtain ⟨ly0, g1, g2, g3⟩ := key y ly hy
  exact hd x y lx0 ly0 h1 g1 (by rw [h2, vx]) (by rw [g2, vy]) (by rw [h3, g3, e])

theorem distinct_set_fresh (lines : List cache_line_t) (j tag c : Nat)
    (hd : distinct_valid_tags lines)
    (hf : ∀ (i : Nat) (li : cache_line_t), lines[i]? = some li →
      ¬ (li.valid = 1 ∧ li.tag = tag)) :
    distinct_valid_tags (lines.set j ⟨1, tag, c⟩) := by
  intro x y lx ly hx hy vx vy e
  rw [List.getElem?_set] at hx hy
  by_cases ex : j = x
  · by_cases ey : j = y
    · omega
    · subst ex
      simp only [ey, if_false] at hy
      by_cases hlt : j < lines.length
      · simp only [if_true, hlt, Option.some.injEq] at hx
        subst hx
        exact absurd ⟨vy, e.symm⟩ (hf y ly hy)
      · simp [hlt] at hx
  · simp only [ex, if_false] at hx
    by_cases ey : j = y
    · subst ey
      by_cases hlt : j < lines.length
      · simp only [if_true, hlt, Option.some.injEq] at hy
        subst hy
        exact absurd ⟨vx, e⟩ (hf x lx hx)
      · simp [hlt] at hy
    · simp only [ey, if_false] at hy
      exact hd x y lx ly hx hy vx vy e

theorem cache_inv_set (st st' : cache_state) (k : Nat) (lines lines' : List cache_line_t)
    (hi : cache_inv st) (hk : st.sets[k]? = some lines) (hE : st'.E = st.E)
    (hs : st'.sets = st.sets.set k lines') (hlen : lines'.length = lines.length)
    (hd : distinct_valid_tags lines → distinct_valid_tags lines') : cache_inv st' := by
  intro x hx
  rw [hs] at hx
  rw [hE]
  have hmem : lines ∈ st.sets := List.mem_iff_getElem?.2 ⟨k, hk⟩
  rcases List.mem_or_eq_of_mem_set hx with h | h
  · exact hi x h
  · subst h
    exact ⟨by rw [hlen, (hi lines hmem).1], hd (hi lines hmem).2⟩

/-- One access keeps the invariant and the geometry. -/
theorem accessData_inv (st st' : cache_state) (a : Nat) (hi : cache_inv st)
    (h : accessData st a = some st') :
    cache_inv st' ∧ st'.s = st.s ∧ st'.b = st.b ∧ st'.E = st.E ∧
      st'.sets.length = st.sets.length := by
  rcases accessData_cases st st' a h with
    ⟨k, j, lines, l, _, hk, hj, _, _, rfl⟩ | ⟨k, j, lines, l, tag, hg, hsel, hk, hj, htag, rfl⟩
  · refine ⟨?_, rfl, rfl, rfl, by simp [after_hit]⟩
    refine cache_inv_set st _ k lines _ hi hk rfl rfl (by simp) ?_
    intro hd
    exact distinct_set_keep lines j l _ hd hj rfl rfl
  · refine ⟨?_, rfl, rfl, rfl, by simp [after_miss]⟩
    refine cache_inv_set st _ k lines _ hi hk rfl rfl (by simp) ?_
    intro hd
    apply distinct_set_fresh lines j tag _ hd
    intro i li hli
    have hmem : lines ∈ st.sets := List.mem_iff_getElem?.2 ⟨k, hk⟩
    have hlen := (hi lines hmem).1
    have hloop := get_line_none st a k tag hg (select_line_fst st a k j hsel) htag
    have hlt := lt_length_of_getElem_opt _ _ _ hli
    exact get_line_loop_none st k tag _ 0 hloop i li (Nat.zero_le _) (by omega)
      (by rw [line_at_eq st k lines hk]; exact hli)

/-- A replayed trace keeps the invariant and the geometry. -/
theorem accessAll_inv (st st' : cache_state) (addrs : List Nat) (hi : cache_inv st)
    (h : accessAll st addrs = some st') :
    cache_inv st' ∧ st'.s = st.s ∧ st'.b = st.b ∧ st'.E = st.E ∧
      st'.sets.length = st.sets.length := by
  induction addrs generalizing st with
  | nil =>
    simp only [accessAll, Option.some.injEq] at h
    subst h
    exact ⟨hi, rfl, rfl, rfl, rfl⟩
  | cons a as ih =>
    unfold accessAll at h
    cases h1 : accessData st a with
    | none => simp [h1] at h
    | some st1 =>
      simp only [h1, Option.bind_eq_bind, Option.some_bind] at h
      obtain ⟨g1, g2, g3, g4, g5⟩ := accessData_inv st st1 a hi h1
      obtain ⟨f1, f2, f3, f4, f5⟩ := ih st1 g1 h
      exact ⟨f1, f2.trans g2, f3.trans g3, f4.trans g4, f5.trans g5⟩

/-- What `initCache` builds when it has a defined result. -/
theorem initCache_some_inv (st0 st : cache_state) (s b E : Int)
    (h : initCache st0 s b E = some st) :
    ∃ S B, pow2_int s = some S ∧ pow2_int b = some B ∧
      st = { st0 with
        s := s, b := b, E := E, S := S, B := B,
        sets := List.replicate S.toNat (List.replicate E.toNat ⟨0, 0, 0⟩),
        counter := 0 } := by
  unfold initCache at h
  cases hS : pow2_int s with
  | none => simp [hS] at h
  | some S =>
    cases hB : pow2_int b with
    | none => simp [hS, hB] at h
    | some B =>
      simp only [hS, hB, Option.bind_eq_bind, Option.some_bind, Option.some.injEq] at h
      exact ⟨S, B, rfl, rfl, h.symm⟩

theorem initCache_inv (st0 st : cache_state) (s b E : Int)
    (h : initCache st0 s b E = some st) : cache_inv st ∧ st.E = E := by
  obtain ⟨S, B, _, _, rfl⟩ := initCache_some_inv st0 st s b E h
  refine ⟨?_, rfl⟩
  intro lines hmem
  have hl : lines = List.replicate E.toNat ⟨0, 0, 0⟩ := List.eq_of_mem_replicate hmem
  subst hl
  refine ⟨by simp, ?_⟩
  intro i j li lj hi _ vi _ _
  rw [List.getElem?_replicate] at hi
  by_cases hlt : i < E.toNat
  · simp only [hlt, if_true, Option.some.injEq] at hi
    subst hi
    simp at vi
  · simp [hlt] at hi

end Cache

namespace Cache

/-! ## Defined results -/

theorem get_line_loop_total (st : cache_state) (k tag : Nat) (lines : List cache_line_t)
    (hl : st.sets[k]? = some lines) (n i : Nat) (h : i + n ≤ lines.length) :
    ∃ r, get_line_loop st k tag n i = some r := by
  induction n generalizing i with
  | zero => exact ⟨none, rfl⟩
  | succ n ih =>
    have hi : i < lines.length := by omega
    have hli : lines[i]? = some lines[i] := List.getElem?_eq_getElem hi
    by_cases hc : lines[i].valid = 1 ∧ lines[i].tag = tag
    · exact ⟨some i, by simp [get_line_loop, line_at_eq st k lines hl, hli, hc]⟩
    · obtain ⟨r, hr⟩ := ih (i + 1) (by omega)
      refine ⟨r, ?_⟩
      rw [← hr]
      simp only [get_line_loop, line_at_eq st k lines hl, hli, Option.bind_eq_bind,
        Option.some_bind, hc, if_false]

theorem cache_shape_of_eq (s b E : Int) (st st' : cache_state) (h : cache_shape s b E st)
    (h1 : st'.s = st.s) (h2 : st'.b = st.b) (h3 : st'.E = st.E)
    (h4 : st'.sets.length = st.sets.length) : cache_shape s b E st' :=
  ⟨h1.trans h.1, h2.trans h.2.1, h3.trans h.2.2.1, h4.trans h.2.2.2⟩

/-- In a well-shaped cache with `1 ≤ s`, `0 ≤ b`, `s + b < 64` and `1 ≤ E`, every access has a
defined result. -/
theorem accessData_total (st : cache_state) (a : Nat) (s b E : Int)
    (hs : 1 ≤ s) (hb : 0 ≤ b) (hsb : s + b < 64) (hE : 1 ≤ E)
    (hi : cache_inv st) (hsh : cache_shape s b E st) : ∃ st', accessData st a = some st' := by
  obtain ⟨e1, e2, e3, e4⟩ := hsh
  obtain ⟨s', rfl⟩ := Int.eq_ofNat_of_zero_le (by omega : 0 ≤ s)
  obtain ⟨b', rfl⟩ := Int.eq_ofNat_of_zero_le hb
  obtain ⟨k, hset, hklt⟩ : ∃ k, get_set st.s st.b a = some k ∧ k < st.sets.length := by
    refine ⟨_, by rw [e1, e2]; exact get_set_eq s' b' a (by omega) (by omega), ?_⟩
    rw [e4, Int.toNat_ofNat]
    exact Nat.mod_lt _ (Nat.two_pow_pos _)
  obtain ⟨tag, htag⟩ : ∃ tag, get_tag st.s st.b a = some tag :=
    ⟨_, by rw [e1, e2]; exact get_tag_eq s' b' a (by omega)⟩
  have hk := List.getElem?_eq_getElem hklt
  have hmem := List.mem_iff_getElem?.2 ⟨_, hk⟩
  have hlen := (hi _ hmem).1
  obtain ⟨r, hr⟩ := get_line_loop_total st k tag _ hk st.E.toNat 0 (by omega)
  cases r with
  | none =>
    have hg : get_line st a = some none := by simp [get_line, hset, htag, hr]
    obtain ⟨j, l, hsel, hj, _⟩ := select_line_core st a _ _ (by omega) hset hk (by omega)
    exact ⟨_, accessData_miss_eq st a _ j _ l _ hg hsel hk hj htag⟩
  | some j =>
    have hg : get_line st a = some (some (k, j)) := by simp [get_line, hset, htag, hr]
    obtain ⟨lines, l, h2, h3, _, _⟩ := get_line_some st a _ j hg
    exact ⟨_, accessData_hit_eq st a _ j lines l hg h2 h3⟩

theorem accessAll_total (st : cache_state) (addrs : List Nat) (s b E : Int)
    (hs : 1 ≤ s) (hb : 0 ≤ b) (hsb : s + b < 64) (hE : 1 ≤ E)
    (hi : cache_inv st) (hsh : cache_shape s b E st) : ∃ st', accessAll st addrs = some st' := by
  induction addrs generalizing st with
  | nil => exact ⟨st, rfl⟩
  | cons a as ih =>
    obtain ⟨st1, h1⟩ := accessData_total st a s b E hs hb hsb hE hi hsh
    obtain ⟨g1, g2, g3, g4, g5⟩ := accessData_inv st st1 a hi h1
    obtain ⟨st2, h2⟩ := ih st1 g1 (cache_shape_of_eq s b E st st1 hsh g2 g3 g4 g5)
    exact ⟨st2, by simp [accessAll, h1, h2]⟩

theorem pow2_int_eq (e : Int) (h0 : 0 ≤ e) (h : e ≤ 30) :
    pow2_int e = some ((2 : Int) ^ e.toNat) := by
  have h1 : ¬ (e < 0) := by omega
  simp [pow2_int, h1, h]

theorem pow2_int_total (e : Int) (h : e ≤ 30) : ∃ v, pow2_int e = some v := by
  by_cases h0 : e < 0
  · exact ⟨0, by simp [pow2_int, h0]⟩
  · exact ⟨_, pow2_int_eq e (by omega) h⟩

theorem initCache_total (st0 : cache_state) (s b E : Int)
    (hs0 : 0 ≤ s) (hs : s ≤ 30) (hb : b ≤ 30) :
    ∃ st, initCache st0 s b E = some st ∧ cache_shape s b E st := by
  obtain ⟨B, hB⟩ := pow2_int_total b hb
  have h : initCache st0 s b E = some { st0 with
      s := s, b := b, E := E, S := (2 : Int) ^ s.toNat, B := B,
      sets := List.replicate ((2 : Int) ^ s.toNat).toNat (List.replicate E.toNat ⟨0, 0, 0⟩),
      counter := 0 } := by
    simp only [initCache, pow2_int_eq s hs0 hs, hB, Option.bind_eq_bind, Option.some_bind]
  refine ⟨_, h, rfl, rfl, rfl, ?_⟩
  simp only [List.length_replicate]
  have : ((2 : Int) ^ s.toNat) = (((2 : Nat) ^ s.toNat : Nat) : Int) := by push_cast; rfl
  rw [this, Int.toNat_ofNat]

/-- C6: after `initCache(s, b, E)` with `1 ≤ s` and `1 ≤ E` and any replayed trace, in every
set two valid lines (`valid == 1`, the test of `get_line`) with equal tags are the same line,
and the number of lines that are not invalid (`valid != 0`) is at most `E`. The run has a
defined result whenever moreover `s ≤ 30` and `0 ≤ b ≤ 30`, the range in which `S` and `B`
fit an `int` and all shift counts lie in `0 .. 63`. -/
theorem accessAll_distinct_tags (st0 : cache_state) (s b E : Int) (addrs : List Nat)
    (hs : 1 ≤ s) (hE : 1 ≤ E) :
    (∀ st, (initCache st0 s b E).bind (fun c => accessAll c addrs) = some st →
      ∀ lines ∈ st.sets, distinct_valid_tags lines ∧
        ((lines.filter (fun l => decide (l.valid ≠ 0))).length : Int) ≤ E) ∧
    (s ≤ 30 → 0 ≤ b → b ≤ 30 →
      ∃ st, (initCache st0 s b E).bind (fun c => accessAll c addrs) = some st) := by
  constructor
  · intro st h
    cases hc : initCache st0 s b E with
    | none => simp [hc] at h
    | some c =>
      simp only [hc, Option.some_bind] at h
      obtain ⟨hi, hcE⟩ := initCache_inv st0 c s b E hc
      obtain ⟨g1, _, _, g4, _⟩ := accessAll_inv c st addrs hi h
      intro lines hmem
      obtain ⟨hlen, hd⟩ := g1 lines hmem
      refine ⟨hd, ?_⟩
      have hle := List.length_filter_le (fun l : cache_line_t => decide (l.valid ≠ 0)) lines
      rw [g4, hcE] at hlen
      omega
  · intro hs30 hb0 hb30
    obtain ⟨c, hc, hsh⟩ := initCache_total st0 s b E (by omega) hs30 hb30
    obtain ⟨hi, _⟩ := initCache_inv st0 c s b E hc
    obtain ⟨st, hst⟩ := accessAll_total c addrs s b E hs hb0 (by omega) hE hi hsh
    exact ⟨st, by simp [hc, hst]⟩

/-- C6 witness: two sets of two lines and a trace with hits, fills and evictions. -/
theorem accessAll_distinct_tags_witness :
    ∃ st, (initCache program_start 1 0 2).bind
        (fun c => accessAll c [2, 4, 2, 6, 4, 8, 1, 3, 1]) = some st ∧
      ∀ lines ∈ st.sets, distinct_valid_tags lines ∧
        ((lines.filter (fun l => decide (l.valid ≠ 0))).length : Int) ≤ 2 := by
  obtain ⟨h1, h2⟩ := accessAll_distinct_tags program_start 1 0 2 [2, 4, 2, 6, 4, 8, 1, 3, 1]
    (by decide) (by decide)
  obtain ⟨st, hst⟩ := h2 (by decide) (by decide) (by decide)
  exact ⟨st, hst, h1 st hst⟩

end Cache

namespace Cache

/-! ## Replaying a trace after `initCache` -/

theorem after_hit_bump (dh dm de : Int) (st : cache_state) (k j : Nat)
    (lines : List cache_line_t) (l : cache_line_t) :
    after_hit (bump dh dm de st) k j lines l = bump dh dm de (after_hit st k j lines l) := by
  simp [after_hit, bump, add_right_comm]

theorem after_miss_bump (dh dm de : Int) (st : cache_state) (k j : Nat)
    (lines : List cache_line_t) (l : cache_line_t) (tag : Nat) :
    after_miss (bump dh dm de st) k j lines l tag =
      bump dh dm de (after_miss st k j lines l tag) := by
  by_cases h : l.valid = 1 ∧ tag ≠ 0 <;> simp [after_miss, bump, add_right_comm, h]

/-- The statistics counters do not influence what an access does to the cache, and an access
adds the same amounts to them whatever their values. -/
theorem accessData_bump (dh dm de : Int) (st st' : cache_state) (a : Nat)
    (h : accessData st a = some st') :
    accessData (bump dh dm de st) a = some (bump dh dm de st') := by
  rcases accessData_cases st st' a h with
    ⟨k, j, lines, l, hg, hk, hj, _, _, rfl⟩ | ⟨k, j, lines, l, tag, hg, hsel, hk, hj, htag, rfl⟩
  · rw [← after_hit_bump]
    exact accessData_hit_eq (bump dh dm de st) a k j lines l
      ((get_line_congr st (bump dh dm de st) rfl rfl rfl rfl a).trans hg) hk hj
  · rw [← after_miss_bump]
    exact accessData_miss_eq (bump dh dm de st) a k j lines l tag
      ((get_line_congr st (bump dh dm de st) rfl rfl rfl rfl a).trans hg)
      ((select_line_congr st (bump dh dm de st) rfl rfl rfl rfl a).trans hsel) hk hj htag

theorem accessAll_bump (dh dm de : Int) (st st' : cache_state) (addrs : List Nat)
    (h : accessAll st addrs = some st') :
    accessAll (bump dh dm de st) addrs = some (bump dh dm de st') := by
  induction addrs generalizing st with
  | nil =>
    simp only [accessAll, Option.some.injEq] at h
    subst h
    rfl
  | cons a as ih =>
    unfold accessAll at h
    cases h1 : accessData st a with
    | none => simp [h1] at h
    | some st1 =>
      simp only [h1, Option.bind_eq_bind, Option.some_bind] at h
      simp only [accessAll, accessData_bump dh dm de st st1 a h1, Option.bind_eq_bind,
        Option.some_bind]
      exact ih st1 h

/-- `initCache` on a later state differs from `initCache` on an earlier one by the counts
accumulated in between. -/
theorem initCache_again (st0 st1 c : cache_state) (s b E : Int)
    (h : initCache st0 s b E = some c) :
    initCache st1 s b E = some (bump (st1.hit_count - st0.hit_count)
      (st1.miss_count - st0.miss_count) (st1.eviction_count - st0.eviction_count) c) := by
  obtain ⟨S, B, hS, hB, rfl⟩ := initCache_some_inv st0 c s b E h
  simp [initCache, hS, hB, bump]

/-- C8 (counterexample): with `s = 1`, `b = 0`, `E = 1` and the trace `0`, the first run ends
with `miss_count = 1`; after `initCache` again and the same trace `miss_count` is 2, not 1:
`initCache` does not reset the statistics counters. -/
theorem replay_counts_not_reset :
    ((initCache program_start 1 0 1).bind (fun c => accessAll c [0])).map
        (fun st => (st.hit_count, st.miss_count, st.eviction_count)) = some (0, 1, 0) ∧
    (((initCache program_start 1 0 1).bind (fun c => accessAll c [0])).bind
        (fun st1 => (initCache st1 1 0 1).bind (fun c => accessAll c [0]))).map
        (fun st => (st.hit_count, st.miss_count, st.eviction_count)) = some (0, 2, 0) := by
  decide

/-- C8 (amended): if `initCache(s, b, E)` followed by the trace has the defined result `st1`
when started in `st0`, then `initCache(s, b, E)` followed by the same trace, started in
`st1`, has a defined result `st2` in which each of `hit_count`, `miss_count`,
`eviction_count` has grown by exactly the amount it grew in the first run, and the lines
and the LRU counter are the same as after the first run. -/
theorem replay_adds_same_counts (st0 st1 : cache_state) (s b E : Int) (addrs : List Nat)
    (h : (initCache st0 s b E).bind (fun c => accessAll c addrs) = some st1) :
    ∃ st2, (initCache st1 s b E).bind (fun c => accessAll c addrs) = some st2 ∧
      st2.hit_count - st1.hit_count = st1.hit_count - st0.hit_count ∧
      st2.miss_count - st1.miss_count = st1.miss_count - st0.miss_count ∧
      st2.eviction_count - st1.eviction_count = st1.eviction_count - st0.eviction_count ∧
      st2.sets = st1.sets ∧ st2.counter = st1.counter := by
  cases hc : initCache st0 s b E with
  | none => simp [hc] at h
  | some c =>
    simp only [hc, Option.some_bind] at h
    refine ⟨bump (st1.hit_count - st0.hit_count) (st1.miss_count - st0.miss_count)
      (st1.eviction_count - st0.eviction_count) st1, ?_, ?_, ?_, ?_, rfl, rfl⟩
    · rw [initCache_again st0 st1 c s b E hc]
      simp only [Option.some_bind]
      exact accessAll_bump _ _ _ c st1 addrs h
    · simp [bump]
    · simp [bump]
    · simp [bump]

/-- C8 witness: two sets of one line, the trace `2, 0, 2`. -/
theorem replay_adds_same_counts_witness :
    ∃ st2, (initCache ⟨1, 0, 1, 2, 1, 3, 3, 0, 1, [[⟨1, 1, 3⟩], [⟨0, 0, 0⟩]]⟩ 1 0 1).bind
        (fun c => accessAll c [2, 0, 2]) = some st2 ∧
      st2.hit_count - 0 = 0 - 0 ∧ st2.miss_count - 3 = 3 - 0 ∧
      st2.eviction_count - 1 = 1 - 0 ∧
      st2.sets = [[⟨1, 1, 3⟩], [⟨0, 0, 0⟩]] ∧ st2.counter = 3 :=
  replay_adds_same_counts program_start
    ⟨1, 0, 1, 2, 1, 3, 3, 0, 1, [[⟨1, 1, 3⟩], [⟨0, 0, 0⟩]]⟩ 1 0 1 [2, 0, 2] (by decide)

/-! ## Initialisation without validation -/

/-- C7 (amended): `initCache` validates nothing. For every `s_in ≤ 30`, `b_in ≤ 30` and every
`E_in` it returns a cache, with `2^s_in` sets (none for negative `s_in`) of `E_in` invalid
lines each, hence of no line at all when `E_in ≤ 0`. The only check made before the call is
the one of `sim_main`, which stops with "Missing flags for InitCache" exactly when `s`, `b`
or `E` is `-1` and otherwise calls `initCache`. -/
theorem initCache_no_validation (st0 : cache_state) (s b E : Int) (hs : s ≤ 30) (hb : b ≤ 30) :
    ∃ st, initCache st0 s b E = some st ∧
      st.sets = List.replicate (if s < 0 then 0 else 2 ^ s.toNat)
        (List.replicate E.toNat ⟨0, 0, 0⟩) ∧
      (E ≤ 0 → ∀ lines ∈ st.sets, lines = []) ∧
      (Pcsim.sim_main_initCache st0 s b E = .error "Missing flags for InitCache" ↔
        s = -1 ∨ b = -1 ∨ E = -1) ∧
      (¬ (s = -1 ∨ b = -1 ∨ E = -1) →
        Pcsim.sim_main_initCache st0 s b E = .ok (some st)) := by
  obtain ⟨S, hS⟩ := pow2_int_total s hs
  obtain ⟨B, hB⟩ := pow2_int_total b hb
  have hSv : S.toNat = if s < 0 then 0 else 2 ^ s.toNat := by
    by_cases h0 : s < 0
    · simp [pow2_int, h0] at hS
      subst hS
      simp [h0]
    · rw [pow2_int_eq s (by omega) hs] at hS
      cases hS
      have : ((2 : Int) ^ s.toNat) = (((2 : Nat) ^ s.toNat : Nat) : Int) := by
        push_cast; rfl
      rw [this, Int.toNat_ofNat]
      simp [h0]
  have h : initCache st0 s b E = some { st0 with
      s := s, b := b, E := E, S := S, B := B,
      sets := List.replicate S.toNat (List.replicate E.toNat ⟨0, 0, 0⟩),
      counter := 0 } := by
    simp only [initCache, hS, hB, Option.bind_eq_bind, Option.some_bind]
  refine ⟨_, h, by simp only [hSv], ?_, ?_, ?_⟩
  · intro hE lines hmem
    have hl := List.eq_of_mem_replicate hmem
    have hz : E.toNat = 0 := by omega
    rw [hl, hz]
    rfl
  · unfold Pcsim.sim_main_initCache
    by_cases h : s = -1 ∨ b = -1 ∨ E = -1
    · simp [h]
    · simp [h]
  · intro hn
    simp [Pcsim.sim_main_initCache, hn, h]

/-- C7 witness: `initCache(2, 3, -5)` builds four sets without lines and passes the check of
`sim_main`. -/
theorem initCache_no_validation_witness :
    ∃ st, initCache program_start 2 3 (-5) = some st ∧
      st.sets = [[], [], [], []] ∧
      Pcsim.sim_main_initCache program_start 2 3 (-5) = .ok (some st) := by
  obtain ⟨st, h1, h2, _, _, h5⟩ :=
    initCache_no_validation program_start 2 3 (-5) (by decide) (by decide)
  exact ⟨st, h1, by rw [h2]; decide, h5 (by decide)⟩

end Cache

namespace Pcsim

/-! ## Hazard unit (`do_stall_check`) -/

theorem bool_toNat_ne_zero (b : Bool) : b.toNat ≠ 0 ↔ b = true := by
  cases b <;> simp

/-- `pipe_cntl` on truth values. -/
theorem pipe_cntl_bool (name : String) (st bu : Bool) :
    pipe_cntl name st.toNat bu.toNat =
      if st then (if bu then .P_ERROR else .P_STALL)
      else (if bu then .P_BUBBLE else .P_LOAD) := by
  cases st <;> cases bu <;> rfl

/-- A load in Execute is not a jump: the load-use condition excludes a misprediction. -/
theorem load_use_not_mispredict {M : Type} (S : sim_state M) (h : load_use S = true) :
    mispredict S = false := by
  unfold load_use at h
  unfold mispredict
  simp only [Bool.and_eq_true, decide_eq_true_eq] at h
  rcases h.1 with h1 | h1 <;> simp [h1]

/-- The five control operations that `do_stall_check` assigns. -/
theorem do_stall_check_ops {M : Type} (ds : mem_status_t) (S : sim_state M) :
    (do_stall_check ds S).pc_state.op =
      (if load_use S || ret_hazard S then .P_STALL else .P_LOAD) ∧
    (do_stall_check ds S).if_id_state.op =
      (if load_use S then .P_STALL
        else if mispredict S || ret_hazard S then .P_BUBBLE else .P_LOAD) ∧
    (do_stall_check ds S).id_ex_state.op =
      (if mispredict S || load_use S then .P_BUBBLE else .P_LOAD) ∧
    (do_stall_check ds S).ex_mem_state.op =
      pipe_cntl "MEM" (decide (ds = .IN_FLIGHT) || decide (ds = .ERROR)).toNat
        (is_exception S.mem_wb_state.next.status ||
          is_exception S.mem_wb_state.current.status).toNat ∧
    (do_stall_check ds S).mem_wb_state.op =
      (if is_exception S.mem_wb_state.current.status then .P_STALL else .P_LOAD) := by
  refine ⟨?_, ?_, ?_, rfl, ?_⟩
  · simp only [do_stall_check, pipe_cntl_bool]
    cases load_use S || ret_hazard S <;> rfl
  · simp only [do_stall_check, pipe_cntl_bool]
    cases hl : load_use S
    · cases mispredict S <;> cases ret_hazard S <;> rfl
    · rw [load_use_not_mispredict S hl]
      cases ret_hazard S <;> rfl
  · simp only [do_stall_check, pipe_cntl_bool]
    cases mispredict S || load_use S <;> rfl
  · simp only [do_stall_check, pipe_cntl_bool]
    cases is_exception S.mem_wb_state.current.status <;> rfl

/-- `do_stall_check` writes nothing but the five `op` fields. -/
theorem do_stall_check_frame {M : Type} (ds : mem_status_t) (S : sim_state M) :
    (do_stall_check ds S).pc_state.current = S.pc_state.current ∧
    (do_stall_check ds S).pc_state.next = S.pc_state.next ∧
    (do_stall_check ds S).if_id_state.current = S.if_id_state.current ∧
    (do_stall_check ds S).if_id_state.next = S.if_id_state.next ∧
    (do_stall_check ds S).id_ex_state.current = S.id_ex_state.current ∧
    (do_stall_check ds S).id_ex_state.next = S.id_ex_state.next ∧
    (do_stall_check ds S).ex_mem_state.current = S.ex_mem_state.current ∧
    (do_stall_check ds S).ex_mem_state.next = S.ex_mem_state.next ∧
    (do_stall_check ds S).mem_wb_state.current = S.mem_wb_state.current ∧
    (do_stall_check ds S).mem_wb_state.next = S.mem_wb_state.next :=
  ⟨rfl, rfl, rfl, rfl, rfl, rfl, rfl, rfl, rfl, rfl⟩

theorem load_use_iff {M : Type} (S : sim_state M) :
    load_use S = true ↔
      (S.id_ex_state.current.icode = .I_MRMOVQ ∨ S.id_ex_state.current.icode = .I_POPQ) ∧
      (S.id_ex_state.current.destm = S.id_ex_state.next.srca ∨
        S.id_ex_state.current.destm = S.id_ex_state.next.srcb) := by
  simp [load_use]

/-- C12: `do_stall_check` sets the op of the if_id latch to `P_STALL` iff the load-use
condition holds (`id_ex_curr.icode` is `I_MRMOVQ` or `I_POPQ` and `id_ex_curr.destm` equals
`id_ex_next.srca` or `id_ex_next.srcb`), and when it holds the op of the PC latch is
`P_STALL` and the op of the id_ex latch is `P_BUBBLE`. -/
theorem do_stall_check_load_use {M : Type} (ds : mem_status_t) (S : sim_state M) :
    ((do_stall_check ds S).if_id_state.op = .P_STALL ↔
      ((S.id_ex_state.current.icode = .I_MRMOVQ ∨ S.id_ex_state.current.icode = .I_POPQ) ∧
        (S.id_ex_state.current.destm = S.id_ex_state.next.srca ∨
          S.id_ex_state.current.destm = S.id_ex_state.next.srcb))) ∧
    (((S.id_ex_state.current.icode = .I_MRMOVQ ∨ S.id_ex_state.current.icode = .I_POPQ) ∧
        (S.id_ex_state.current.destm = S.id_ex_state.next.srca ∨
          S.id_ex_state.current.destm = S.id_ex_state.next.srcb)) →
      (do_stall_check ds S).pc_state.op = .P_STALL ∧
      (do_stall_check ds S).id_ex_state.op = .P_BUBBLE) := by
  obtain ⟨h1, h2, h3, _, _⟩ := do_stall_check_ops ds S
  rw [← load_use_iff, h1, h2, h3]
  constructor
  · cases load_use S
    · cases mispredict S || ret_hazard S <;> simp
    · simp
  · intro h
    simp [h]

end Pcsim

namespace Pcsim

theorem update_pipe_bubble {α : Type} (p : pipe_ele α) (h : p.op = .P_BUBBLE) :
    (update_pipe p).current = p.bubble_val := by
  obtain ⟨c, n, op, bv⟩ := p
  simp only at h
  subst h
  rfl

theorem update_pipe_load {α : Type} (p : pipe_ele α) (h : p.op = .P_LOAD) :
    (update_pipe p).current = p.next := by
  obtain ⟨c, n, op, bv⟩ := p
  simp only at h
  subst h
  rfl

theorem update_pipe_stall {α : Type} (p : pipe_ele α) (h : p.op = .P_STALL) :
    (update_pipe p).current = p.current := by
  obtain ⟨c, n, op, bv⟩ := p
  simp only at h
  subst h
  rfl

theorem update_pipe_keeps {α : Type} (p : pipe_ele α) :
    (update_pipe p).next = p.next ∧ (update_pipe p).bubble_val = p.bubble_val ∧
      (p.op ≠ .P_ERROR → (update_pipe p).op = .P_LOAD) ∧
      (p.op = .P_ERROR → (update_pipe p).op = .P_ERROR ∧
        (update_pipe p).current = p.bubble_val) := by
  obtain ⟨c, n, op, bv⟩ := p
  cases op <;> simp [update_pipe]

/-- The performance monitoring touches no latch. -/
theorem perf_monitor_latches {M : Type} (S : sim_state M) :
    (perf_monitor S).pc_state = S.pc_state ∧ (perf_monitor S).if_id_state = S.if_id_state ∧
    (perf_monitor S).id_ex_state = S.id_ex_state ∧
    (perf_monitor S).ex_mem_state = S.ex_mem_state ∧
    (perf_monitor S).mem_wb_state = S.mem_wb_state := by
  unfold perf_monitor
  split
  · exact ⟨rfl, rfl, rfl, rfl, rfl⟩
  · split <;> exact ⟨rfl, rfl, rfl, rfl, rfl⟩

/-- C14: when `id_ex_curr.icode` is `I_JMP` and `ex_mem_next.takebranch` is false,
`do_stall_check` sets the op of the if_id latch and of the id_ex latch to `P_BUBBLE`, and
after the end of the cycle (`perf_monitor`) the next `update_pipes` leaves in `if_id_curr`
and `id_ex_curr` the bubble values of their pipes. -/
theorem do_stall_check_mispredict {M : Type} (ds : mem_status_t) (S : sim_state M)
    (hj : S.id_ex_state.current.icode = .I_JMP)
    (ht : S.ex_mem_state.next.takebranch = false) :
    (do_stall_check ds S).if_id_state.op = .P_BUBBLE ∧
    (do_stall_check ds S).id_ex_state.op = .P_BUBBLE ∧
    (update_pipes_bank (perf_monitor (do_stall_check ds S))).if_id_state.current =
      S.if_id_state.bubble_val ∧
    (update_pipes_bank (perf_monitor (do_stall_check ds S))).id_ex_state.current =
      S.id_ex_state.bubble_val := by
  obtain ⟨_, h2, h3, _, _⟩ := do_stall_check_ops ds S
  have hm : mispredict S = true := by simp [mispredict, hj, ht]
  have hl : load_use S = false := by simp [load_use, hj]
  have e2 : (do_stall_check ds S).if_id_state.op = .P_BUBBLE := by rw [h2]; simp [hm, hl]
  have e3 : (do_stall_check ds S).id_ex_state.op = .P_BUBBLE := by rw [h3]; simp [hm]
  obtain ⟨_, p2, p3, _, _⟩ := perf_monitor_latches (do_stall_check ds S)
  refine ⟨e2, e3, ?_, ?_⟩
  · show (update_pipe (perf_monitor (do_stall_check ds S)).if_id_state).current = _
    rw [p2, update_pipe_bubble _ e2]
    rfl
  · show (update_pipe (perf_monitor (do_stall_check ds S)).id_ex_state).current = _
    rw [p3, update_pipe_bubble _ e3]
    rfl

/-- C14 witness: a jump in Execute whose condition came out false. -/
theorem do_stall_check_mispredict_witness :
    (do_stall_check (.other 0) { toy_state with
        id_ex_state := ⟨{ bubble_id_ex with icode := .I_JMP, status := .STAT_AOK },
          bubble_id_ex, .P_LOAD, bubble_id_ex⟩ }).if_id_state.op = .P_BUBBLE ∧
    (do_stall_check (.other 0) { toy_state with
        id_ex_state := ⟨{ bubble_id_ex with icode := .I_JMP, status := .STAT_AOK },
          bubble_id_ex, .P_LOAD, bubble_id_ex⟩ }).id_ex_state.op = .P_BUBBLE :=
  let h := do_stall_check_mispredict (.other 0) { toy_state with
        id_ex_state := ⟨{ bubble_id_ex with icode := .I_JMP, status := .STAT_AOK },
          bubble_id_ex, .P_LOAD, bubble_id_ex⟩ } rfl rfl
  ⟨h.1, h.2.1⟩

/-- C16 (counterexample): `ret` is in `if_id_curr` while the load `mrmovq ..., %rsp` is in
`id_ex_curr`, so that the load-use condition holds for the sources of the `ret`; after the
stages of the cycle `do_stall_check` sets the op of the if_id latch to `P_STALL`, not to
`P_BUBBLE`. -/
theorem do_stall_check_ret_after_load :
    (do_stages toy_env { toy_state with
        if_id_state := ⟨{ bubble_if_id with icode := .I_RET, status := .STAT_AOK },
          bubble_if_id, .P_LOAD, bubble_if_id⟩,
        id_ex_state := ⟨⟨.I_MRMOVQ, 0, 0, 0, 0, .REG_NONE, .REG 0, .REG_NONE, .REG_RSP,
          .STAT_AOK, 0⟩, bubble_id_ex, .P_LOAD, bubble_id_ex⟩ }).if_id_state.current.icode = .I_RET ∧
    (do_stall_check (.other 0) (do_stages toy_env { toy_state with
        if_id_state := ⟨{ bubble_if_id with icode := .I_RET, status := .STAT_AOK },
          bubble_if_id, .P_LOAD, bubble_if_id⟩,
        id_ex_state := ⟨⟨.I_MRMOVQ, 0, 0, 0, 0, .REG_NONE, .REG 0, .REG_NONE, .REG_RSP,
          .STAT_AOK, 0⟩, bubble_id_ex, .P_LOAD, bubble_id_ex⟩ })).if_id_state.op = .P_STALL ∧
    (do_stall_check (.other 0) (do_stages toy_env { toy_state with
        if_id_state := ⟨{ bubble_if_id with icode := .I_RET, status := .STAT_AOK },
          bubble_if_id, .P_LOAD, bubble_if_id⟩,
        id_ex_state := ⟨⟨.I_MRMOVQ, 0, 0, 0, 0, .REG_NONE, .REG 0, .REG_NONE, .REG_RSP,
          .STAT_AOK, 0⟩, bubble_id_ex, .P_LOAD, bubble_id_ex⟩ })).pc_state.op = .P_STALL := by
  decide

/-- C16 (amended): when `I_RET` is the icode of `if_id_curr`, `id_ex_curr` or `ex_mem_curr`,
`do_stall_check` sets the op of the PC latch to `P_STALL`; it sets the op of the if_id latch
to `P_BUBBLE` when the load-use condition does not hold and to `P_STALL` when it holds. -/
theorem do_stall_check_ret {M : Type} (ds : mem_status_t) (S : sim_state M)
    (hr : S.if_id_state.current.icode = .I_RET ∨ S.id_ex_state.current.icode = .I_RET ∨
      S.ex_mem_state.current.icode = .I_RET) :
    (do_stall_check ds S).pc_state.op = .P_STALL ∧
    (¬ ((S.id_ex_state.current.icode = .I_MRMOVQ ∨ S.id_ex_state.current.icode = .I_POPQ) ∧
        (S.id_ex_state.current.destm = S.id_ex_state.next.srca ∨
          S.id_ex_state.current.destm = S.id_ex_state.next.srcb)) →
      (do_stall_check ds S).if_id_state.op = .P_BUBBLE) ∧
    (((S.id_ex_state.current.icode = .I_MRMOVQ ∨ S.id_ex_state.current.icode = .I_POPQ) ∧
        (S.id_ex_state.current.destm = S.id_ex_state.next.srca ∨
          S.id_ex_state.current.destm = S.id_ex_state.next.srcb)) →
      (do_stall_check ds S).if_id_state.op = .P_STALL) := by
  obtain ⟨h1, h2, _, _, _⟩ := do_stall_check_ops ds S
  have hret : ret_hazard S = true := by simp [ret_hazard, hr]
  rw [← load_use_iff, h1, h2, hret]
  refine ⟨by simp, ?_, ?_⟩
  · intro h
    simp [h]
  · intro h
    simp [h]

/-- C16 witness: `ret` in `if_id_curr`, bubbles elsewhere. -/
theorem do_stall_check_ret_witness :
    (do_stall_check (.other 0) { toy_state with
        if_id_state := ⟨{ bubble_if_id with icode := .I_RET, status := .STAT_AOK },
          bubble_if_id, .P_LOAD, bubble_if_id⟩ }).pc_state.op = .P_STALL ∧
    (do_stall_check (.other 0) { toy_state with
        if_id_state := ⟨{ bubble_if_id with icode := .I_RET, status := .STAT_AOK },
          bubble_if_id, .P_LOAD, bubble_if_id⟩ }).if_id_state.op = .P_BUBBLE :=
  let h := do_stall_check_ret (.other 0) { toy_state with
        if_id_state := ⟨{ bubble_if_id with icode := .I_RET, status := .STAT_AOK },
          bubble_if_id, .P_LOAD, bubble_if_id⟩ } (Or.inl rfl)
  ⟨h.1, h.2.1 (by decide)⟩

/-- C18 (failing input): with `dmem_status == IN_FLIGHT`, whatever the latches hold,
`do_stall_check` gives the id_ex latch an op other than `P_STALL` (its stall signal is the
constant 0) and the mem_wb latch an op other than `P_BUBBLE` (its bubble signal is the
constant 0); only the ex_mem latch is stalled (or put in error). On the reset state the
five ops are `P_LOAD`, `P_LOAD`, `P_LOAD`, `P_STALL`, `P_LOAD`. -/
theorem do_stall_check_in_flight {M : Type} (S : sim_state M) :
    (do_stall_check .IN_FLIGHT S).id_ex_state.op ≠ .P_STALL ∧
    (do_stall_check .IN_FLIGHT S).mem_wb_state.op ≠ .P_BUBBLE ∧
    ((do_stall_check .IN_FLIGHT S).ex_mem_state.op = .P_STALL ∨
      (do_stall_check .IN_FLIGHT S).ex_mem_state.op = .P_ERROR) ∧
    ((do_stall_check .IN_FLIGHT toy_state).pc_state.op,
      (do_stall_check .IN_FLIGHT toy_state).if_id_state.op,
      (do_stall_check .IN_FLIGHT toy_state).id_ex_state.op,
      (do_stall_check .IN_FLIGHT toy_state).ex_mem_state.op,
      (do_stall_check .IN_FLIGHT toy_state).mem_wb_state.op) =
      (.P_LOAD, .P_LOAD, .P_LOAD, .P_STALL, .P_LOAD) := by
  obtain ⟨_, _, h3, h4, h5⟩ := do_stall_check_ops .IN_FLIGHT S
  refine ⟨?_, ?_, ?_, by decide⟩
  · rw [h3]
    cases mispredict S || load_use S <;> simp
  · rw [h5]
    cases is_exception S.mem_wb_state.current.status <;> simp
  · rw [h4, pipe_cntl_bool]
    cases is_exception S.mem_wb_state.next.status ||
      is_exception S.mem_wb_state.current.status <;> simp

end Pcsim

namespace Pcsim

/-! ## Execute and Decode -/

theorem is_exception_iff (s : stat_t) :
    is_exception s = true ↔ s = .STAT_ADR ∨ s = .STAT_INS ∨ s = .STAT_HLT := by
  cases s <;> simp [is_exception]

/-- C20: `do_ex_stage` replaces `cc` by `compute_cc(alufun, alua, alub)` (for `I_ALU` these
are `ifun`, `vala`, `valb` of `id_ex_curr`) when `id_ex_curr.icode` is `I_ALU` and neither
`mem_wb_next.status` nor `mem_wb_curr.status` is `STAT_ADR`, `STAT_INS` or `STAT_HLT`; in
every other case, a bubble in `id_ex_curr` included, `cc` is left as it was. -/
theorem do_ex_stage_cc {M : Type} (env : isa_env M) (S : sim_state M) :
    ((S.id_ex_state.current.icode = .I_ALU ∧
        ¬ (S.mem_wb_state.next.status = .STAT_ADR ∨ S.mem_wb_state.next.status = .STAT_INS ∨
          S.mem_wb_state.next.status = .STAT_HLT) ∧
        ¬ (S.mem_wb_state.current.status = .STAT_ADR ∨
          S.mem_wb_state.current.status = .STAT_INS ∨
          S.mem_wb_state.current.status = .STAT_HLT)) →
      (do_ex_stage env S).cc = env.compute_cc S.id_ex_state.current.ifun
        S.id_ex_state.current.vala S.id_ex_state.current.valb) ∧
    (¬ (S.id_ex_state.current.icode = .I_ALU ∧
        ¬ (S.mem_wb_state.next.status = .STAT_ADR ∨ S.mem_wb_state.next.status = .STAT_INS ∨
          S.mem_wb_state.next.status = .STAT_HLT) ∧
        ¬ (S.mem_wb_state.current.status = .STAT_ADR ∨
          S.mem_wb_state.current.status = .STAT_INS ∨
          S.mem_wb_state.current.status = .STAT_HLT)) →
      (do_ex_stage env S).cc = S.cc) ∧
    (S.id_ex_state.current = bubble_id_ex → (do_ex_stage env S).cc = S.cc) := by
  rw [← is_exception_iff, ← is_exception_iff]
  refine ⟨?_, ?_, ?_⟩
  · rintro ⟨h1, h2, h3⟩
    simp [do_ex_stage, h1, h2, h3]
  · intro h
    by_cases h1 : S.id_ex_state.current.icode = .I_ALU
    · by_cases h2 : is_exception S.mem_wb_state.next.status = true
      · simp [do_ex_stage, h1, h2]
      · have h3 : is_exception S.mem_wb_state.current.status = true := by
          by_contra h3
          exact h ⟨h1, h2, h3⟩
        simp [do_ex_stage, h1, h3]
    · simp [do_ex_stage, h1]
  · intro hb
    simp [do_ex_stage, hb, bubble_id_ex]

/-- C20 witness: an `I_ALU` instruction in Execute with bubbles downstream sets `cc`. -/
theorem do_ex_stage_cc_witness :
    (do_ex_stage toy_env { toy_state with
        cc := 5,
        id_ex_state := ⟨⟨.I_ALU, 0, 0, 1, 2, .REG 0, .REG 1, .REG 1, .REG_NONE,
          .STAT_AOK, 0⟩, bubble_id_ex, .P_LOAD, bubble_id_ex⟩ }).cc =
      toy_env.compute_cc 0 1 2 :=
  (do_ex_stage_cc toy_env { toy_state with
        cc := 5,
        id_ex_state := ⟨⟨.I_ALU, 0, 0, 1, 2, .REG 0, .REG 1, .REG 1, .REG_NONE,
          .STAT_AOK, 0⟩, bubble_id_ex, .P_LOAD, bubble_id_ex⟩ }).1
    ⟨rfl, by decide, by decide⟩

/-- The source registers that `do_id_stage` decodes. -/
theorem do_id_stage_srcs {M : Type} (env : isa_env M) (S : sim_state M) :
    (do_id_stage env S).id_ex_state.next.srca =
      (if S.if_id_state.current.icode = .I_RRMOVQ ∨ S.if_id_state.current.icode = .I_RMMOVQ ∨
          S.if_id_state.current.icode = .I_ALU ∨ S.if_id_state.current.icode = .I_PUSHQ
        then S.if_id_state.current.ra
        else if S.if_id_state.current.icode = .I_POPQ ∨ S.if_id_state.current.icode = .I_RET
        then .REG_RSP else .REG_NONE) ∧
    (do_id_stage env S).id_ex_state.next.srcb =
      (if S.if_id_state.current.icode = .I_ALU ∨ S.if_id_state.current.icode = .I_RMMOVQ ∨
          S.if_id_state.current.icode = .I_MRMOVQ
        then S.if_id_state.current.rb
        else if S.if_id_state.current.icode = .I_PUSHQ ∨
          S.if_id_state.current.icode = .I_POPQ ∨ S.if_id_state.current.icode = .I_CALL ∨
          S.if_id_state.current.icode = .I_RET
        then .REG_RSP else .REG_NONE) :=
  ⟨rfl, rfl⟩

/-- The operands that `do_id_stage` selects, in terms of `forward`. -/
theorem do_id_stage_vals {M : Type} (env : isa_env M) (S : sim_state M) :
    (do_id_stage env S).id_ex_state.next.vala =
      (if S.if_id_state.current.icode = .I_CALL ∨ S.if_id_state.current.icode = .I_JMP
        then S.if_id_state.current.valp
        else forward S (do_id_stage env S).id_ex_state.next.srca
          (env.get_reg_val S.reg (do_id_stage env S).id_ex_state.next.srca)) ∧
    (do_id_stage env S).id_ex_state.next.valb =
      forward S (do_id_stage env S).id_ex_state.next.srcb
        (env.get_reg_val S.reg (do_id_stage env S).id_ex_state.next.srcb) :=
  ⟨rfl, rfl⟩

/-- The first-match order of the operand selection: (1) `ex_mem_next.deste`,
(2) `ex_mem_curr.destm`, (3) `ex_mem_curr.deste`, (4) `mem_wb_curr.destm`,
(5) `mem_wb_curr.deste`, else the register file. -/
theorem forward_order {M : Type} (S : sim_state M) (src : reg_id_t) (regval : Nat) :
    (src = S.ex_mem_state.next.deste → forward S src regval = S.ex_mem_state.next.vale) ∧
    (src ≠ S.ex_mem_state.next.deste → src = S.ex_mem_state.current.destm →
      forward S src regval = S.mem_wb_state.next.valm) ∧
    (src ≠ S.ex_mem_state.next.deste → src ≠ S.ex_mem_state.current.destm →
      src = S.ex_mem_state.current.deste →
      forward S src regval = S.ex_mem_state.current.vale) ∧
    (src ≠ S.ex_mem_state.next.deste → src ≠ S.ex_mem_state.current.destm →
      src ≠ S.ex_mem_state.current.deste → src = S.mem_wb_state.current.destm →
      forward S src regval = S.mem_wb_state.current.valm) ∧
    (src ≠ S.ex_mem_state.next.deste → src ≠ S.ex_mem_state.current.destm →
      src ≠ S.ex_mem_state.current.deste → src ≠ S.mem_wb_state.current.destm →
      src = S.mem_wb_state.current.deste →
      forward S src regval = S.mem_wb_state.current.vale) ∧
    (src ≠ S.ex_mem_state.next.deste → src ≠ S.ex_mem_state.current.destm →
      src ≠ S.ex_mem_state.current.deste → src ≠ S.mem_wb_state.current.destm →
      src ≠ S.mem_wb_state.current.deste → forward S src regval = regval) := by
  unfold forward
  refine ⟨?_, ?_, ?_, ?_, ?_, ?_⟩
  · intro h1; rw [if_pos h1]
  · intro h1 h2; rw [if_neg h1, if_pos h2]
  · intro h1 h2 h3; rw [if_neg h1, if_neg h2, if_pos h3]
  · intro h1 h2 h3 h4; rw [if_neg h1, if_neg h2, if_neg h3, if_pos h4]
  · intro h1 h2 h3 h4 h5; rw [if_neg h1, if_neg h2, if_neg h3, if_neg h4, if_pos h5]
  · intro h1 h2 h3 h4 h5; rw [if_neg h1, if_neg h2, if_neg h3, if_neg h4, if_neg h5]

/-- C11 (counterexample): `addq %rsp, ...` is decoded while `popq %rsp` is in the Memory
stage (`ex_mem_curr.deste = ex_mem_curr.destm = REG_RSP`, `vale = 10`) and the value read
from memory this cycle is `mem_wb_next.valm = 20`; `ex_mem_next.deste` is `REG_NONE`.
`do_id_stage` selects 20, the this-cycle Memory result, not the committed Execute result
10. -/
theorem do_id_stage_prefers_memory_result :
    (do_id_stage toy_env { toy_state with
        if_id_state := ⟨⟨.I_ALU, 0, .REG_RSP, .REG 1, 0, 2, .STAT_AOK, 0⟩,
          bubble_if_id, .P_LOAD, bubble_if_id⟩,
        ex_mem_state := ⟨⟨.I_POPQ, 0, true, 10, 0, .REG_RSP, .REG_RSP, .STAT_AOK, 0⟩,
          bubble_ex_mem, .P_LOAD, bubble_ex_mem⟩,
        mem_wb_state := ⟨bubble_mem_wb,
          ⟨.I_POPQ, 0, 10, 20, .REG_RSP, .REG_RSP, .STAT_AOK, 0⟩, .P_LOAD,
          bubble_mem_wb⟩ }).id_ex_state.next.srca = .REG_RSP ∧
    (do_id_stage toy_env { toy_state with
        if_id_state := ⟨⟨.I_ALU, 0, .REG_RSP, .REG 1, 0, 2, .STAT_AOK, 0⟩,
          bubble_if_id, .P_LOAD, bubble_if_id⟩,
        ex_mem_state := ⟨⟨.I_POPQ, 0, true, 10, 0, .REG_RSP, .REG_RSP, .STAT_AOK, 0⟩,
          bubble_ex_mem, .P_LOAD, bubble_ex_mem⟩,
        mem_wb_state := ⟨bubble_mem_wb,
          ⟨.I_POPQ, 0, 10, 20, .REG_RSP, .REG_RSP, .STAT_AOK, 0⟩, .P_LOAD,
          bubble_mem_wb⟩ }).id_ex_state.next.vala = 20 := by
  decide

/-- C11 (amended): for each source register `src` of the instruction being decoded
(`id_ex_next.srca` with value `id_ex_next.vala`, unless the icode is `I_CALL` or `I_JMP`, for
which `vala` is `valp`; `id_ex_next.srcb` with value `id_ex_next.valb`), `do_id_stage`
selects the first match in this order: (1) `ex_mem_next.vale` when `src` equals
`ex_mem_next.deste`, (2) `mem_wb_next.valm` when it equals `ex_mem_curr.destm`,
(3) `ex_mem_curr.vale` when it equals `ex_mem_curr.deste`, (4) `mem_wb_curr.valm` when it
equals `mem_wb_curr.destm`, (5) `mem_wb_curr.vale` when it equals `mem_wb_curr.deste`, else
the register-file value. In particular with `ex_mem_curr.deste = ex_mem_curr.destm = src`
the Memory result (2) is chosen over the Execute result (3). -/
theorem do_id_stage_forwarding {M : Type} (env : isa_env M) (S : sim_state M)
    (src : reg_id_t) (val : Nat)
    (h : (src = (do_id_stage env S).id_ex_state.next.srca ∧
          val = (do_id_stage env S).id_ex_state.next.vala ∧
          ¬ (S.if_id_state.current.icode = .I_CALL ∨ S.if_id_state.current.icode = .I_JMP)) ∨
        (src = (do_id_stage env S).id_ex_state.next.srcb ∧
          val = (do_id_stage env S).id_ex_state.next.valb)) :
    (src = S.ex_mem_state.next.deste → val = S.ex_mem_state.next.vale) ∧
    (src ≠ S.ex_mem_state.next.deste → src = S.ex_mem_state.current.destm →
      val = S.mem_wb_state.next.valm) ∧
    (src ≠ S.ex_mem_state.next.deste → src ≠ S.ex_mem_state.current.destm →
      src = S.ex_mem_state.current.deste → val = S.ex_mem_state.current.vale) ∧
    (src ≠ S.ex_mem_state.next.deste → src ≠ S.ex_mem_state.current.destm →
      src ≠ S.ex_mem_state.current.deste → src = S.mem_wb_state.current.destm →
      val = S.mem_wb_state.current.valm) ∧
    (src ≠ S.ex_mem_state.next.deste → src ≠ S.ex_mem_state.current.destm →
      src ≠ S.ex_mem_state.current.deste → src ≠ S.mem_wb_state.current.destm →
      src = S.mem_wb_state.current.deste → val = S.mem_wb_state.current.vale) ∧
    (src ≠ S.ex_mem_state.next.deste → src ≠ S.ex_mem_state.current.destm →
      src ≠ S.ex_mem_state.current.deste → src ≠ S.mem_wb_state.current.destm →
      src ≠ S.mem_wb_state.current.deste → val = env.get_reg_val S.reg src) := by
  have hv := do_id_stage_vals env S
  rcases h with ⟨h1, h2, h3⟩ | ⟨h1, h2⟩
  · rw [h2, hv.1, if_neg h3, ← h1]
    exact forward_order S src (env.get_reg_val S.reg src)
  · rw [h2, hv.2, ← h1]
    exact forward_order S src (env.get_reg_val S.reg src)

/-- C11 witness: the B operand of `addq %rax, %rsp` decoded behind `popq %rsp`. -/
theorem do_id_stage_forwarding_witness :
    (do_id_stage toy_env { toy_state with
        if_id_state := ⟨⟨.I_ALU, 0, .REG 0, .REG_RSP, 0, 2, .STAT_AOK, 0⟩,
          bubble_if_id, .P_LOAD, bubble_if_id⟩,
        ex_mem_state := ⟨⟨.I_POPQ, 0, true, 10, 0, .REG_RSP, .REG_RSP, .STAT_AOK, 0⟩,
          bubble_ex_mem, .P_LOAD, bubble_ex_mem⟩,
        mem_wb_state := ⟨bubble_mem_wb,
          ⟨.I_POPQ, 0, 10, 20, .REG_RSP, .REG_RSP, .STAT_AOK, 0⟩, .P_LOAD,
          bubble_mem_wb⟩ }).id_ex_state.next.valb = 20 :=
  (do_id_stage_forwarding toy_env { toy_state with
        if_id_state := ⟨⟨.I_ALU, 0, .REG 0, .REG_RSP, 0, 2, .STAT_AOK, 0⟩,
          bubble_if_id, .P_LOAD, bubble_if_id⟩,
        ex_mem_state := ⟨⟨.I_POPQ, 0, true, 10, 0, .REG_RSP, .REG_RSP, .STAT_AOK, 0⟩,
          bubble_ex_mem, .P_LOAD, bubble_ex_mem⟩,
        mem_wb_state := ⟨bubble_mem_wb,
          ⟨.I_POPQ, 0, 10, 20, .REG_RSP, .REG_RSP, .STAT_AOK, 0⟩, .P_LOAD,
          bubble_mem_wb⟩ } .REG_RSP _ (Or.inr ⟨rfl, rfl⟩)).2.1 (by decide) rfl

end Pcsim

namespace Pcsim

/-! ## One cycle (`sim_step_pipe`) piece by piece -/

theorem error_check_spec {α : Type} (f : α → α) (p : pipe_ele α) :
    (error_check f p).op = p.op ∧ (error_check f p).next = p.next ∧
    (error_check f p).bubble_val = p.bubble_val ∧
    (error_check f p).current = (if p.op = .P_ERROR then f p.current else p.current) := by
  unfold error_check
  split_ifs <;> exact ⟨rfl, rfl, rfl, rfl⟩

/-- The latch contents committed at the top of a cycle for a latch whose op is not
`P_ERROR`: `update_pipes` followed by the error checking. -/
theorem commit_current {α : Type} (p : pipe_ele α) (h : p.op ≠ .P_ERROR) :
    (update_pipe p).op = .P_LOAD ∧
    (update_pipe p).current =
      (match p.op with
        | .P_LOAD => p.next
        | .P_BUBBLE => p.bubble_val
        | .P_STALL => p.current
        | .P_ERROR => p.bubble_val) := by
  obtain ⟨c, n, op, bv⟩ := p
  cases op <;> simp [update_pipe] at h ⊢

/-- The stages of a cycle leave every `current`, `op` and `bubble_val` as they are. -/
theorem do_stages_frame {M : Type} (env : isa_env M) (S : sim_state M) :
    (do_stages env S).pc_state.current = S.pc_state.current ∧
    (do_stages env S).if_id_state.current = S.if_id_state.current ∧
    (do_stages env S).id_ex_state.current = S.id_ex_state.current ∧
    (do_stages env S).ex_mem_state.current = S.ex_mem_state.current ∧
    (do_stages env S).mem_wb_state.current = S.mem_wb_state.current ∧
    (do_stages env S).pc_state.op = S.pc_state.op ∧
    (do_stages env S).if_id_state.op = S.if_id_state.op ∧
    (do_stages env S).id_ex_state.op = S.id_ex_state.op ∧
    (do_stages env S).ex_mem_state.op = S.ex_mem_state.op ∧
    (do_stages env S).mem_wb_state.op = S.mem_wb_state.op ∧
    (do_stages env S).pc_state.bubble_val = S.pc_state.bubble_val ∧
    (do_stages env S).if_id_state.bubble_val = S.if_id_state.bubble_val ∧
    (do_stages env S).id_ex_state.bubble_val = S.id_ex_state.bubble_val ∧
    (do_stages env S).ex_mem_state.bubble_val = S.ex_mem_state.bubble_val ∧
    (do_stages env S).mem_wb_state.bubble_val = S.mem_wb_state.bubble_val :=
  ⟨rfl, rfl, rfl, rfl, rfl, rfl, rfl, rfl, rfl, rfl, rfl, rfl, rfl, rfl, rfl⟩

/-- What the Memory and Execute stages of a cycle hand on. -/
theorem do_stages_next_fields {M : Type} (env : isa_env M) (S : sim_state M) :
    (do_stages env S).mem_wb_state.next.icode = S.ex_mem_state.current.icode ∧
    (do_stages env S).mem_wb_state.next.deste = S.ex_mem_state.current.deste ∧
    (do_stages env S).mem_wb_state.next.destm = S.ex_mem_state.current.destm ∧
    (do_stages env S).ex_mem_state.next.icode = S.id_ex_state.current.icode ∧
    (do_stages env S).ex_mem_state.next.destm = S.id_ex_state.current.destm ∧
    (do_stages env S).ex_mem_state.next.vala = S.id_ex_state.current.vala ∧
    (do_stages env S).ex_mem_state.next.status = S.id_ex_state.current.status ∧
    (do_stages env S).ex_mem_state.next.takebranch =
      env.cond_holds S.cc S.id_ex_state.current.ifun ∧
    (do_stages env S).ex_mem_state.next.deste =
      (if S.id_ex_state.current.icode = .I_RRMOVQ ∧
          env.cond_holds S.cc S.id_ex_state.current.ifun = false
        then .REG_NONE else S.id_ex_state.current.deste) ∧
    (do_stages env S).id_ex_state.next.icode = S.if_id_state.current.icode ∧
    (do_stages env S).id_ex_state.next.status = S.if_id_state.current.status ∧
    (do_stages env S).f_pc = select_pc S :=
  ⟨rfl, rfl, rfl, rfl, rfl, rfl, rfl, rfl, rfl, rfl, rfl, rfl⟩

/-- The operands that Decode hands on, in terms of the latches at the end of the stage
evaluations. -/
theorem do_stages_decode {M : Type} (env : isa_env M) (S : sim_state M) :
    (do_stages env S).id_ex_state.next.srca =
      (if S.if_id_state.current.icode = .I_RRMOVQ ∨ S.if_id_state.current.icode = .I_RMMOVQ ∨
          S.if_id_state.current.icode = .I_ALU ∨ S.if_id_state.current.icode = .I_PUSHQ
        then S.if_id_state.current.ra
        else if S.if_id_state.current.icode = .I_POPQ ∨ S.if_id_state.current.icode = .I_RET
        then .REG_RSP else .REG_NONE) ∧
    (do_stages env S).id_ex_state.next.srcb =
      (if S.if_id_state.current.icode = .I_ALU ∨ S.if_id_state.current.icode = .I_RMMOVQ ∨
          S.if_id_state.current.icode = .I_MRMOVQ
        then S.if_id_state.current.rb
        else if S.if_id_state.current.icode = .I_PUSHQ ∨
          S.if_id_state.current.icode = .I_POPQ ∨ S.if_id_state.current.icode = .I_CALL ∨
          S.if_id_state.current.icode = .I_RET
        then .REG_RSP else .REG_NONE) ∧
    (do_stages env S).id_ex_state.next.destm =
      (if S.if_id_state.current.icode = .I_MRMOVQ ∨ S.if_id_state.current.icode = .I_POPQ
        then S.if_id_state.current.ra else .REG_NONE) ∧
    (do_stages env S).id_ex_state.next.vala =
      (if S.if_id_state.current.icode = .I_CALL ∨ S.if_id_state.current.icode = .I_JMP
        then S.if_id_state.current.valp
        else forward (do_stages env S) (do_stages env S).id_ex_state.next.srca
          (env.get_reg_val (do_stages env S).reg (do_stages env S).id_ex_state.next.srca)) ∧
    (do_stages env S).id_ex_state.next.valb =
      forward (do_stages env S) (do_stages env S).id_ex_state.next.srcb
        (env.get_reg_val (do_stages env S).reg (do_stages env S).id_ex_state.next.srcb) :=
  ⟨rfl, rfl, rfl, rfl, rfl⟩

/-- The state at the end of a cycle: its latches are those of `do_stall_check` applied to
the stage evaluations. -/
theorem sim_step_pipe_latches {M : Type} (env : isa_env M) (ds : mem_status_t)
    (S : sim_state M) :
    (sim_step_pipe env ds S).1.pc_state =
      (do_stall_check ds (do_stages env (error_checking (update_pipes_bank S)))).pc_state ∧
    (sim_step_pipe env ds S).1.if_id_state =
      (do_stall_check ds (do_stages env (error_checking (update_pipes_bank S)))).if_id_state ∧
    (sim_step_pipe env ds S).1.id_ex_state =
      (do_stall_check ds (do_stages env (error_checking (update_pipes_bank S)))).id_ex_state ∧
    (sim_step_pipe env ds S).1.ex_mem_state =
      (do_stall_check ds (do_stages env (error_checking (update_pipes_bank S)))).ex_mem_state ∧
    (sim_step_pipe env ds S).1.mem_wb_state =
      (do_stall_check ds (do_stages env (error_checking (update_pipes_bank S)))).mem_wb_state :=
  perf_monitor_latches
    (do_stall_check ds (do_stages env (error_checking (update_pipes_bank S))))

end Pcsim

namespace Pcsim

/-- Commit of one latch at the top of a cycle: `update_pipes`, then the error checking. -/
theorem commit_spec {α : Type} (f : α → α) (p : pipe_ele α) :
    (error_check f (update_pipe p)).bubble_val = p.bubble_val ∧
    (error_check f (update_pipe p)).next = p.next ∧
    (p.op = .P_LOAD → (error_check f (update_pipe p)).current = p.next) ∧
    (p.op = .P_BUBBLE → (error_check f (update_pipe p)).current = p.bubble_val) ∧
    (p.op = .P_STALL → (error_check f (update_pipe p)).current = p.current) ∧
    (p.op = .P_ERROR → (error_check f (update_pipe p)).current = f p.bubble_val) := by
  obtain ⟨c, n, op, bv⟩ := p
  cases op <;> simp [update_pipe, error_check]

/-- The latches at the end of a cycle, in terms of the state `T` reached by the stage
evaluations: `current`, `next` and `bubble_val` are those of `T`, the ops are those that
`do_stall_check` assigns on `T`. -/
theorem sim_step_pipe_spec {M : Type} (env : isa_env M) (ds : mem_status_t)
    (S S1 T : sim_state M) (hT : T = do_stages env (error_checking (update_pipes_bank S)))
    (h1 : S1 = (sim_step_pipe env ds S).1) :
    S1.pc_state = (do_stall_check ds T).pc_state ∧
    S1.if_id_state = (do_stall_check ds T).if_id_state ∧
    S1.id_ex_state = (do_stall_check ds T).id_ex_state ∧
    S1.ex_mem_state = (do_stall_check ds T).ex_mem_state ∧
    S1.mem_wb_state = (do_stall_check ds T).mem_wb_state ∧
    T.pc_state.current = (error_check (fun c => { c with status := .STAT_PIP })
      (update_pipe S.pc_state)).current ∧
    T.if_id_state.current = (error_check (fun c => { c with status := .STAT_PIP })
      (update_pipe S.if_id_state)).current ∧
    T.id_ex_state.current = (error_check (fun c => { c with status := .STAT_PIP })
      (update_pipe S.id_ex_state)).current ∧
    T.ex_mem_state.current = (error_check (fun c => { c with status := .STAT_PIP })
      (update_pipe S.ex_mem_state)).current ∧
    T.mem_wb_state.current = (error_check (fun c => { c with status := .STAT_PIP })
      (update_pipe S.mem_wb_state)).current := by
  subst hT
  subst h1
  obtain ⟨a1, a2, a3, a4, a5⟩ := sim_step_pipe_latches env ds S
  exact ⟨a1, a2, a3, a4, a5, rfl, rfl, rfl, rfl, rfl⟩

theorem load_use_congr {M : Type} (S S1 : sim_state M)
    (h : S1.id_ex_state.current = S.id_ex_state.current)
    (h2 : S1.id_ex_state.next = S.id_ex_state.next) : load_use S1 = load_use S := by
  simp [load_use, h, h2]

end Pcsim

namespace Pcsim

/-! ## Load-use hazard over two cycles -/

/-- The bubble values of the five pipes are never changed by a cycle. -/
theorem sim_step_pipe_bubble_vals {M : Type} (env : isa_env M) (ds : mem_status_t)
    (S : sim_state M) :
    (sim_step_pipe env ds S).1.pc_state.bubble_val = S.pc_state.bubble_val ∧
    (sim_step_pipe env ds S).1.if_id_state.bubble_val = S.if_id_state.bubble_val ∧
    (sim_step_pipe env ds S).1.id_ex_state.bubble_val = S.id_ex_state.bubble_val ∧
    (sim_step_pipe env ds S).1.ex_mem_state.bubble_val = S.ex_mem_state.bubble_val ∧
    (sim_step_pipe env ds S).1.mem_wb_state.bubble_val = S.mem_wb_state.bubble_val := by
  obtain ⟨a1, a2, a3, a4, a5⟩ := sim_step_pipe_latches env ds S
  rw [a1, a2, a3, a4, a5]
  exact ⟨(commit_spec _ S.pc_state).1, (commit_spec _ S.if_id_state).1,
    (commit_spec _ S.id_ex_state).1, (commit_spec _ S.ex_mem_state).1,
    (commit_spec _ S.mem_wb_state).1⟩

/-- Two consecutive cycles around a load-use stall. `S1` is the state at the end of the
cycle in which `do_stall_check` stalled the if_id latch, `S2` the state at the end of the
next cycle. -/
theorem load_use_one_stall_core {M : Type} (env : isa_env M) (ds ds2 : mem_status_t)
    (S0 S1 S2 : sim_state M)
    (h1 : S1 = (sim_step_pipe env ds S0).1) (h2 : S2 = (sim_step_pipe env ds2 S1).1)
    (hb : S0.id_ex_state.bubble_val = bubble_id_ex)
    (hL : S1.if_id_state.op = .P_STALL) :
    S2.if_id_state.current = S1.if_id_state.current ∧
    S2.id_ex_state.current = bubble_id_ex ∧
    ¬ ((S2.id_ex_state.current.icode = .I_MRMOVQ ∨ S2.id_ex_state.current.icode = .I_POPQ) ∧
      (S2.id_ex_state.current.destm = S2.id_ex_state.next.srca ∨
        S2.id_ex_state.current.destm = S2.id_ex_state.next.srcb)) ∧
    S2.if_id_state.op ≠ .P_STALL ∧
    (S1.ex_mem_state.op = .P_LOAD →
      ∀ r : reg_id_t, r ≠ .REG_NONE → r = S1.id_ex_state.current.destm →
        (S2.id_ex_state.next.srca = r →
          S2.id_ex_state.next.vala = S2.mem_wb_state.next.valm) ∧
        (S2.id_ex_state.next.srcb = r →
          S2.id_ex_state.next.valb = S2.mem_wb_state.next.valm)) := by
  obtain ⟨_, s1b, s1c, s1d, _, _, _, t1c, _, _⟩ :=
    sim_step_pipe_spec env ds S0 S1 _ rfl h1
  obtain ⟨_, s2b, s2c, s2d, s2e, _, t2b, t2c, t2d, _⟩ :=
    sim_step_pipe_spec env ds2 S1 S2 _ rfl h2
  obtain ⟨_, _, bv1, _, _⟩ := sim_step_pipe_bubble_vals env ds S0
  rw [← h1] at bv1
  obtain ⟨_, o1b, o1c, _, _⟩ :=
    do_stall_check_ops ds (do_stages env (error_checking (update_pipes_bank S0)))
  obtain ⟨_, o2b, _, _, _⟩ :=
    do_stall_check_ops ds2 (do_stages env (error_checking (update_pipes_bank S1)))
  -- the load-use condition held in the first cycle
  have hlu : load_use (do_stages env (error_checking (update_pipes_bank S0))) = true := by
    rw [s1b, o1b] at hL
    cases hl : load_use (do_stages env (error_checking (update_pipes_bank S0)))
    · rw [hl] at hL
      cases hm : (mispredict (do_stages env (error_checking (update_pipes_bank S0))) ||
        ret_hazard (do_stages env (error_checking (update_pipes_bank S0)))) <;>
        simp [hm] at hL
    · rfl
  have hop : S1.id_ex_state.op = .P_BUBBLE := by
    rw [s1c, o1c, hlu]
    simp
  -- what the second cycle commits
  have c_if : (do_stages env (error_checking (update_pipes_bank S1))).if_id_state.current =
      S1.if_id_state.current := by
    rw [t2b]
    exact (commit_spec _ S1.if_id_state).2.2.2.2.1 hL
  have c_ex : (do_stages env (error_checking (update_pipes_bank S1))).id_ex_state.current =
      bubble_id_ex := by
    rw [t2c, (commit_spec _ S1.id_ex_state).2.2.2.1 hop, bv1, hb]
  have e_if : S2.if_id_state.current = S1.if_id_state.current := by
    rw [s2b]
    exact c_if
  have e_ex : S2.id_ex_state.current = bubble_id_ex := by
    rw [s2c]
    exact c_ex
  have hlu2 : load_use (do_stages env (error_checking (update_pipes_bank S1))) = false := by
    simp [load_use, c_ex, bubble_id_ex]
  refine ⟨e_if, e_ex, ?_, ?_, ?_⟩
  · rw [e_ex]
    simp [bubble_id_ex]
  · rw [s2b, o2b, hlu2]
    cases (mispredict (do_stages env (error_checking (update_pipes_bank S1))) ||
      ret_hazard (do_stages env (error_checking (update_pipes_bank S1)))) <;> simp
  · intro hM r hr hrd
    -- the load has moved into the Memory latch
    have c_mem : (do_stages env (error_checking (update_pipes_bank S1))).ex_mem_state.current =
        S1.ex_mem_state.next := by
      rw [t2d]
      exact (commit_spec _ S1.ex_mem_state).2.2.1 hM
    have hdm : (do_stages env
        (error_checking (update_pipes_bank S1))).ex_mem_state.current.destm = r := by
      rw [c_mem, s1d, hrd, s1c]
      rfl
    have hde : (do_stages env
        (error_checking (update_pipes_bank S1))).ex_mem_state.next.deste = .REG_NONE := by
      have h := (do_stages_next_fields env (error_checking (update_pipes_bank S1))).2.2.2.2.2.2.2.2.1
      have c' : (error_checking (update_pipes_bank S1)).id_ex_state.current = bubble_id_ex :=
        c_ex
      rw [h, c']
      simp [bubble_id_ex]
    obtain ⟨d1, d2, _, d4, d5⟩ :=
      do_stages_decode env (error_checking (update_pipes_bank S1))
    have hne : r ≠ (do_stages env
        (error_checking (update_pipes_bank S1))).ex_mem_state.next.deste := by
      rw [hde]
      exact hr
    have hfw : ∀ v : Nat, forward (do_stages env (error_checking (update_pipes_bank S1))) r v =
        (do_stages env (error_checking (update_pipes_bank S1))).mem_wb_state.next.valm :=
      fun v => (forward_order _ r v).2.1 hne hdm.symm
    constructor
    · intro hsa
      rw [s2c] at hsa
      have hsa' : (do_stages env
          (error_checking (update_pipes_bank S1))).id_ex_state.next.srca = r := hsa
      have hnc : ¬ ((error_checking (update_pipes_bank S1)).if_id_state.current.icode = .I_CALL ∨
          (error_checking (update_pipes_bank S1)).if_id_state.current.icode = .I_JMP) := by
        intro hc
        rw [d1] at hsa'
        rcases hc with hc | hc <;> simp [hc] at hsa' <;> exact hr hsa'.symm
      rw [s2c, s2e]
      show (do_stages env (error_checking (update_pipes_bank S1))).id_ex_state.next.vala =
        (do_stages env (error_checking (update_pipes_bank S1))).mem_wb_state.next.valm
      rw [d4, if_neg hnc, hsa', hfw]
    · intro hsb
      rw [s2c] at hsb
      have hsb' : (do_stages env
          (error_checking (update_pipes_bank S1))).id_ex_state.next.srcb = r := hsb
      rw [s2c, s2e]
      show (do_stages env (error_checking (update_pipes_bank S1))).id_ex_state.next.valb =
        (do_stages env (error_checking (update_pipes_bank S1))).mem_wb_state.next.valm
      rw [d5, hsb', hfw]

end Pcsim

namespace Pcsim

/-- C13 (counterexample): `halt; mrmovq (%r0), %r3; addq %r3, %r1`. In the cycle in which
`halt` is in Memory, the load in Execute and the consumer in Decode, `do_stall_check`
signals the load-use condition (if_id op `P_STALL`) and, because of the `STAT_HLT` in
`mem_wb_next`, bubbles the ex_mem latch. In the next cycle the load is gone: the consumer's
source `%r3` gets the register-file value 7 while `mem_wb_next.valm` is 0 and nothing was
read from memory. -/
theorem load_use_behind_halt :
    (sim_step_pipe toy_env (.other 0) (toy_load_use halt_in_ex)).1.if_id_state.op =
      .P_STALL ∧
    (sim_step_pipe toy_env (.other 0) (toy_load_use halt_in_ex)).1.id_ex_state.current.destm =
      .REG 3 ∧
    (sim_step_pipe toy_env (.other 0) (toy_load_use halt_in_ex)).1.ex_mem_state.op =
      .P_BUBBLE ∧
    (sim_step_pipe toy_env (.other 0)
      (sim_step_pipe toy_env (.other 0) (toy_load_use halt_in_ex)).1).1.id_ex_state.next.srca =
      .REG 3 ∧
    (sim_step_pipe toy_env (.other 0)
      (sim_step_pipe toy_env (.other 0) (toy_load_use halt_in_ex)).1).1.id_ex_state.next.vala =
      7 ∧
    (sim_step_pipe toy_env (.other 0)
      (sim_step_pipe toy_env (.other 0) (toy_load_use halt_in_ex)).1).1.mem_wb_state.next.valm =
      0 := by
  decide

/-- C13 (amended): let `S1` be the state at the end of a cycle in which `do_stall_check`
signalled the load-use condition (if_id op `P_STALL`) and requested neither a stall nor a
bubble of the ex_mem latch (op `P_LOAD`: memory ready, no `STAT_ADR`, `STAT_INS` or
`STAT_HLT` in `mem_wb_next` or `mem_wb_curr`), and `S2` the state at the end of the next
cycle. Then in the next cycle `if_id_curr` is unchanged, `id_ex_curr` is the bubble, the
load-use condition is false, the if_id latch is not stalled again, and for a source
register `r` other than `REG_NONE` equal to the load's `destm`, `do_id_stage` selects
`mem_wb_next.valm` of that cycle. -/
theorem load_use_one_stall {M : Type} (env : isa_env M) (ds ds2 : mem_status_t)
    (S0 S1 S2 : sim_state M)
    (h1 : S1 = (sim_step_pipe env ds S0).1) (h2 : S2 = (sim_step_pipe env ds2 S1).1)
    (hb : S0.id_ex_state.bubble_val = bubble_id_ex)
    (hL : S1.if_id_state.op = .P_STALL) (hM : S1.ex_mem_state.op = .P_LOAD) :
    S2.if_id_state.current = S1.if_id_state.current ∧
    S2.id_ex_state.current = bubble_id_ex ∧
    ¬ ((S2.id_ex_state.current.icode = .I_MRMOVQ ∨ S2.id_ex_state.current.icode = .I_POPQ) ∧
      (S2.id_ex_state.current.destm = S2.id_ex_state.next.srca ∨
        S2.id_ex_state.current.destm = S2.id_ex_state.next.srcb)) ∧
    S2.if_id_state.op ≠ .P_STALL ∧
    ∀ r : reg_id_t, r ≠ .REG_NONE → r = S1.id_ex_state.current.destm →
      (S2.id_ex_state.next.srca = r →
        S2.id_ex_state.next.vala = S2.mem_wb_state.next.valm) ∧
      (S2.id_ex_state.next.srcb = r →
        S2.id_ex_state.next.valb = S2.mem_wb_state.next.valm) := by
  obtain ⟨a1, a2, a3, a4, a5⟩ := load_use_one_stall_core env ds ds2 S0 S1 S2 h1 h2 hb hL
  exact ⟨a1, a2, a3, a4, a5 hM⟩

/-- C13 witness: `mrmovq (%r0), %r3; addq %r3, %r1` with a bubble ahead of the load: after
the stall the consumer's A operand is the value 9 read from memory in that cycle. -/
theorem load_use_one_stall_witness :
    (sim_step_pipe toy_env (.other 0) (sim_step_pipe toy_env (.other 0)
      (toy_load_use bubble_ex_mem)).1).1.id_ex_state.next.vala = 9 ∧
    (sim_step_pipe toy_env (.other 0) (sim_step_pipe toy_env (.other 0)
      (toy_load_use bubble_ex_mem)).1).1.mem_wb_state.next.valm = 9 := by
  have h := (load_use_one_stall toy_env (.other 0) (.other 0) (toy_load_use bubble_ex_mem)
    _ _ rfl rfl rfl (by decide) (by decide)).2.2.2.2 (.REG 3) (by decide) (by decide)
  have hv : (sim_step_pipe toy_env (.other 0) (sim_step_pipe toy_env (.other 0)
      (toy_load_use bubble_ex_mem)).1).1.mem_wb_state.next.valm = 9 := by decide
  exact ⟨(h.1 (by decide)).trans hv, hv⟩

end Pcsim

namespace Pcsim

/-! ## Mispredicted jump over two cycles -/

/-- The performance monitoring touches only its three counters. -/
theorem perf_monitor_rest {M : Type} (S : sim_state M) :
    (perf_monitor S).f_pc = S.f_pc ∧ (perf_monitor S).status = S.status ∧
    (perf_monitor S).mem = S.mem ∧ (perf_monitor S).reg = S.reg ∧
    (perf_monitor S).cc = S.cc := by
  unfold perf_monitor
  split
  · exact ⟨rfl, rfl, rfl, rfl, rfl⟩
  · split <;> exact ⟨rfl, rfl, rfl, rfl, rfl⟩

/-- The fetch address and the returned status of a cycle. -/
theorem sim_step_pipe_f_pc {M : Type} (env : isa_env M) (ds : mem_status_t)
    (S : sim_state M) :
    (sim_step_pipe env ds S).1.f_pc = select_pc (error_checking (update_pipes_bank S)) ∧
    (sim_step_pipe env ds S).2 =
      (if (error_checking (update_pipes_bank S)).mem_wb_state.current.status = .STAT_BUB
        then .STAT_AOK
        else (error_checking (update_pipes_bank S)).mem_wb_state.current.status) := by
  obtain ⟨a1, a2, _, _, _⟩ := perf_monitor_rest
    (do_stall_check ds (do_stages env (error_checking (update_pipes_bank S))))
  exact ⟨a1, a2⟩

/-- Two consecutive cycles around a mispredicted jump. `S1` is the state at the end of the
cycle in which the jump is in Execute and its condition came out false, `S2` the state at
the end of the next cycle. -/
theorem mispredict_core {M : Type} (env : isa_env M) (ds ds2 : mem_status_t)
    (S0 S1 S2 : sim_state M)
    (h1 : S1 = (sim_step_pipe env ds S0).1) (h2 : S2 = (sim_step_pipe env ds2 S1).1)
    (hb1 : S0.if_id_state.bubble_val = bubble_if_id)
    (hb2 : S0.id_ex_state.bubble_val = bubble_id_ex)
    (hj : S1.id_ex_state.current.icode = .I_JMP)
    (ht : S1.ex_mem_state.next.takebranch = false) :
    S1.if_id_state.op = .P_BUBBLE ∧ S1.id_ex_state.op = .P_BUBBLE ∧
    S2.if_id_state.current = bubble_if_id ∧ S2.id_ex_state.current = bubble_id_ex ∧
    (S1.ex_mem_state.op = .P_LOAD →
      S2.ex_mem_state.current = S1.ex_mem_state.next ∧
      S2.f_pc = S2.ex_mem_state.current.vala ∧
      S2.ex_mem_state.current.vala = S1.id_ex_state.current.vala) := by
  obtain ⟨_, s1b, s1c, s1d, _, _, _, _, _, _⟩ :=
    sim_step_pipe_spec env ds S0 S1 _ rfl h1
  obtain ⟨_, s2b, s2c, s2d, _, _, t2b, t2c, t2d, _⟩ :=
    sim_step_pipe_spec env ds2 S1 S2 _ rfl h2
  obtain ⟨_, bv1, bv2, _, _⟩ := sim_step_pipe_bubble_vals env ds S0
  rw [← h1] at bv1 bv2
  obtain ⟨_, o1b, o1c, _, _⟩ :=
    do_stall_check_ops ds (do_stages env (error_checking (update_pipes_bank S0)))
  have hj' : (do_stages env
      (error_checking (update_pipes_bank S0))).id_ex_state.current.icode = .I_JMP := by
    rw [s1c] at hj
    exact hj
  have ht' : (do_stages env
      (error_checking (update_pipes_bank S0))).ex_mem_state.next.takebranch = false := by
    rw [s1d] at ht
    exact ht
  have hm : mispredict (do_stages env (error_checking (update_pipes_bank S0))) = true := by
    simp [mispredict, hj', ht']
  have hl : load_use (do_stages env (error_checking (update_pipes_bank S0))) = false := by
    simp [load_use, hj']
  have op2 : S1.if_id_state.op = .P_BUBBLE := by
    rw [s1b, o1b]
    simp [hm, hl]
  have op3 : S1.id_ex_state.op = .P_BUBBLE := by
    rw [s1c, o1c]
    simp [hm]
  have e_if : S2.if_id_state.current = bubble_if_id := by
    rw [s2b]
    show (do_stages env (error_checking (update_pipes_bank S1))).if_id_state.current = _
    rw [t2b, (commit_spec _ S1.if_id_state).2.2.2.1 op2, bv1, hb1]
  have e_ex : S2.id_ex_state.current = bubble_id_ex := by
    rw [s2c]
    show (do_stages env (error_checking (update_pipes_bank S1))).id_ex_state.current = _
    rw [t2c, (commit_spec _ S1.id_ex_state).2.2.2.1 op3, bv2, hb2]
  refine ⟨op2, op3, e_if, e_ex, ?_⟩
  intro hM
  have c_mem : (error_checking (update_pipes_bank S1)).ex_mem_state.current =
      S1.ex_mem_state.next := (commit_spec _ S1.ex_mem_state).2.2.1 hM
  have e_mem : S2.ex_mem_state.current = S1.ex_mem_state.next := by
    rw [s2d]
    exact c_mem
  have hic : S1.ex_mem_state.next.icode = .I_JMP := by
    rw [s1d]
    exact hj'
  have hva : S1.ex_mem_state.next.vala = S1.id_ex_state.current.vala := by
    rw [s1d, s1c]
    rfl
  refine ⟨e_mem, ?_, by rw [e_mem, hva]⟩
  rw [h2, (sim_step_pipe_f_pc env ds2 S1).1, ← h2, e_mem]
  unfold select_pc
  rw [c_mem, if_pos ⟨hic, ht⟩]

/-- C15 (counterexample): `halt; jne ...`. In the cycle in which `halt` is in Memory and the
jump in Execute resolves not-taken (fall-through address 100), the `STAT_HLT` in
`mem_wb_next` makes `do_stall_check` bubble the ex_mem latch too. In the following cycle
`ex_mem_curr` is a bubble and `do_if_stage` fetches from `f_pc = 51`, the predicted PC, not
from the fall-through address. -/
theorem mispredict_behind_halt :
    (sim_step_pipe toy_env (.other 0) (toy_jump halt_in_ex)).1.id_ex_state.current.icode =
      .I_JMP ∧
    (sim_step_pipe toy_env (.other 0) (toy_jump halt_in_ex)).1.ex_mem_state.next.takebranch =
      false ∧
    (sim_step_pipe toy_env (.other 0) (toy_jump halt_in_ex)).1.ex_mem_state.next.vala =
      100 ∧
    (sim_step_pipe toy_env (.other 0)
      (sim_step_pipe toy_env (.other 0) (toy_jump halt_in_ex)).1).1.ex_mem_state.current =
      bubble_ex_mem ∧
    (sim_step_pipe toy_env (.other 0)
      (sim_step_pipe toy_env (.other 0) (toy_jump halt_in_ex)).1).1.f_pc = 51 := by
  decide

end Pcsim

namespace Pcsim

/-! ## Control error -/

/-- `do_stall_check` never assigns `P_ERROR` to the PC, if_id, id_ex or mem_wb latch. -/
theorem do_stall_check_no_error {M : Type} (ds : mem_status_t) (S : sim_state M) :
    (do_stall_check ds S).pc_state.op ≠ .P_ERROR ∧
    (do_stall_check ds S).if_id_state.op ≠ .P_ERROR ∧
    (do_stall_check ds S).id_ex_state.op ≠ .P_ERROR ∧
    (do_stall_check ds S).mem_wb_state.op ≠ .P_ERROR := by
  obtain ⟨h1, h2, h3, _, h5⟩ := do_stall_check_ops ds S
  rw [h1, h2, h3, h5]
  refine ⟨?_, ?_, ?_, ?_⟩
  · cases load_use S || ret_hazard S <;> simp
  · cases load_use S <;> cases mispredict S || ret_hazard S <;> simp
  · cases mispredict S || load_use S <;> simp
  · cases is_exception S.mem_wb_state.current.status <;> simp

/-- A bubble (icode `I_NOP`) in `ex_mem_curr` passes its status on to `mem_wb_next`. -/
theorem do_stages_nop_status {M : Type} (env : isa_env M) (S : sim_state M)
    (h : S.ex_mem_state.current.icode = .I_NOP) :
    (do_stages env S).mem_wb_state.next.status = S.ex_mem_state.current.status := by
  show (do_mem_stage env (do_wb_stage env S)).mem_wb_state.next.status = _
  have h' : (do_wb_stage env S).ex_mem_state.current.icode = .I_NOP := h
  simp [do_mem_stage, h']
  rfl

theorem is_exception_ne {s : stat_t} (h : is_exception s = true) :
    s ≠ .STAT_PIP ∧ s ≠ .STAT_BUB ∧ s ≠ .STAT_AOK := by
  cases s <;> simp [is_exception] at h ⊢

/-- The cycle after `do_stall_check` assigned `P_ERROR` to the ex_mem latch. -/
theorem control_error_core {M : Type} (env : isa_env M) (ds ds2 : mem_status_t)
    (S0 S1 : sim_state M) (h1 : S1 = (sim_step_pipe env ds S0).1)
    (hb : S0.ex_mem_state.bubble_val = bubble_ex_mem)
    (hE : S1.ex_mem_state.op = .P_ERROR) :
    (sim_step_pipe env ds2 S1).1.ex_mem_state.current =
      { bubble_ex_mem with status := .STAT_PIP } ∧
    (sim_step_pipe env ds2 S1).1.mem_wb_state.next.status = .STAT_PIP ∧
    is_exception (sim_step_pipe env ds2 S1).2 = true := by
  obtain ⟨_, _, _, s1d, s1e, _, _, _, _, _⟩ :=
    sim_step_pipe_spec env ds S0 S1 _ rfl h1
  obtain ⟨_, _, _, s2d, s2e, _, _, _, t2d, t2e⟩ :=
    sim_step_pipe_spec env ds2 S1 _ _ rfl rfl
  obtain ⟨_, _, _, bv, _⟩ := sim_step_pipe_bubble_vals env ds S0
  rw [← h1] at bv
  obtain ⟨_, _, _, o1d, o1e⟩ :=
    do_stall_check_ops ds (do_stages env (error_checking (update_pipes_bank S0)))
  have c_mem : (error_checking (update_pipes_bank S1)).ex_mem_state.current =
      { bubble_ex_mem with status := .STAT_PIP } := by
    have h := (commit_spec (fun c : ex_mem_ele => { c with status := .STAT_PIP })
      S1.ex_mem_state).2.2.2.2.2 hE
    rw [bv, hb] at h
    exact h
  have e_mem : (sim_step_pipe env ds2 S1).1.ex_mem_state.current =
      { bubble_ex_mem with status := .STAT_PIP } := by
    rw [s2d]
    exact c_mem
  have e_st : (sim_step_pipe env ds2 S1).1.mem_wb_state.next.status = .STAT_PIP := by
    rw [s2e]
    show (do_stages env (error_checking (update_pipes_bank S1))).mem_wb_state.next.status = _
    rw [do_stages_nop_status env _ (by rw [c_mem]; rfl), c_mem]
  refine ⟨e_mem, e_st, ?_⟩
  -- the bubble request came from an exception status in mem_wb_next or mem_wb_curr
  have hmb : (is_exception (do_stages env
        (error_checking (update_pipes_bank S0))).mem_wb_state.next.status ||
      is_exception (do_stages env
        (error_checking (update_pipes_bank S0))).mem_wb_state.current.status) = true := by
    rw [s1d, o1d, pipe_cntl_bool] at hE
    generalize (decide (ds = .IN_FLIGHT) || decide (ds = .ERROR)) = a at hE
    generalize (is_exception (do_stages env
        (error_checking (update_pipes_bank S0))).mem_wb_state.next.status ||
      is_exception (do_stages env
        (error_checking (update_pipes_bank S0))).mem_wb_state.current.status) = b at hE ⊢
    cases a <;> cases b <;> simp at hE ⊢
  rw [(sim_step_pipe_f_pc env ds2 S1).2]
  have key : is_exception
      (error_checking (update_pipes_bank S1)).mem_wb_state.current.status = true := by
    cases hc : is_exception (do_stages env
        (error_checking (update_pipes_bank S0))).mem_wb_state.current.status
    · rw [hc, Bool.or_false] at hmb
      have hop : S1.mem_wb_state.op = .P_LOAD := by
        rw [s1e, o1e, hc]
        rfl
      have hcur : (error_checking (update_pipes_bank S1)).mem_wb_state.current =
          S1.mem_wb_state.next := (commit_spec _ S1.mem_wb_state).2.2.1 hop
      rw [hcur, s1e]
      exact hmb
    · have hop : S1.mem_wb_state.op = .P_STALL := by
        rw [s1e, o1e, hc]
        rfl
      have hcur : (error_checking (update_pipes_bank S1)).mem_wb_state.current =
          S1.mem_wb_state.current := (commit_spec _ S1.mem_wb_state).2.2.2.2.1 hop
      rw [hcur, s1e]
      exact hc
  rw [if_neg (is_exception_ne key).2.1]
  exact key

/-- C19 (counterexample): `halt` enters the Memory stage while the data memory is not ready
(`dmem_status == IN_FLIGHT`): `do_stall_check` assigns `P_ERROR` to the ex_mem latch. The
very next `sim_step_pipe` returns `STAT_HLT`, not `STAT_PIP`; `STAT_PIP` has only reached
`ex_mem_curr` and `mem_wb_next`. -/
theorem control_error_returns_halt :
    (sim_step_pipe toy_env .IN_FLIGHT { toy_state with
      ex_mem_state := ⟨bubble_ex_mem, halt_in_ex, .P_LOAD,
        bubble_ex_mem⟩ }).1.ex_mem_state.op = .P_ERROR ∧
    (sim_step_pipe toy_env (.other 0) (sim_step_pipe toy_env .IN_FLIGHT { toy_state with
      ex_mem_state := ⟨bubble_ex_mem, halt_in_ex, .P_LOAD, bubble_ex_mem⟩ }).1).2 =
      .STAT_HLT ∧
    (sim_step_pipe toy_env (.other 0) (sim_step_pipe toy_env .IN_FLIGHT { toy_state with
      ex_mem_state := ⟨bubble_ex_mem, halt_in_ex, .P_LOAD,
        bubble_ex_mem⟩ }).1).1.ex_mem_state.current.status = .STAT_PIP := by
  decide

/-- C19 (amended): `do_stall_check` can assign `P_ERROR` only to the ex_mem latch. When it
does, the next `sim_step_pipe` puts the bubble with status `STAT_PIP` into `ex_mem_curr` and
hands `STAT_PIP` on to `mem_wb_next`, and the status it returns is the committed mem_wb
status, which is the `STAT_ADR`, `STAT_INS` or `STAT_HLT` behind the bubble request, not
`STAT_PIP`; `sim_run_pipe` leaves its loop after that step, with that status, counting the
step as an instruction and without simulating a further cycle. -/
theorem control_error_next_step {M : Type} (env : isa_env M) (ds : mem_status_t)
    (dsf : Int → mem_status_t) (S0 S1 : sim_state M) (max_instr max_cycle icount ccount : Int)
    (fuel : Nat) (rs : stat_t)
    (h1 : S1 = (sim_step_pipe env ds S0).1)
    (hb : S0.ex_mem_state.bubble_val = bubble_ex_mem)
    (hE : S1.ex_mem_state.op = .P_ERROR)
    (hi : icount < max_instr) (hc : ccount < max_cycle) :
    S1.pc_state.op ≠ .P_ERROR ∧ S1.if_id_state.op ≠ .P_ERROR ∧
    S1.id_ex_state.op ≠ .P_ERROR ∧ S1.mem_wb_state.op ≠ .P_ERROR ∧
    (sim_step_pipe env (dsf ccount) S1).1.ex_mem_state.current =
      { bubble_ex_mem with status := .STAT_PIP } ∧
    (sim_step_pipe env (dsf ccount) S1).1.mem_wb_state.next.status = .STAT_PIP ∧
    ((sim_step_pipe env (dsf ccount) S1).2 = .STAT_ADR ∨
      (sim_step_pipe env (dsf ccount) S1).2 = .STAT_INS ∨
      (sim_step_pipe env (dsf ccount) S1).2 = .STAT_HLT) ∧
    sim_run_pipe_loop env dsf max_instr max_cycle (fuel + 1) S1 icount ccount rs =
      ((sim_step_pipe env (dsf ccount) S1).1, icount + 1, ccount,
        (sim_step_pipe env (dsf ccount) S1).2) := by
  obtain ⟨a1, a2, a3⟩ := control_error_core env ds (dsf ccount) S0 S1 h1 hb hE
  obtain ⟨s1a, s1b, s1c, _, s1e, _, _, _, _, _⟩ :=
    sim_step_pipe_spec env ds S0 S1 _ rfl h1
  obtain ⟨n1, n2, n3, n4⟩ :=
    do_stall_check_no_error ds (do_stages env (error_checking (update_pipes_bank S0)))
  obtain ⟨e1, e2, e3⟩ := is_exception_ne a3
  refine ⟨by rw [s1a]; exact n1, by rw [s1b]; exact n2, by rw [s1c]; exact n3,
    by rw [s1e]; exact n4, a1, a2, (is_exception_iff _).1 a3, ?_⟩
  simp only [sim_run_pipe_loop, hi, hc, and_self, if_true]
  simp [e2, e3]

/-- C19 witness: the run of the counterexample, as `sim_run_pipe` sees it: the step after
the control error ends the loop with `STAT_HLT`. -/
theorem control_error_next_step_witness :
    (sim_run_pipe_loop toy_env (fun _ => .other 0) 10 10 1
      (sim_step_pipe toy_env .IN_FLIGHT { toy_state with
        ex_mem_state := ⟨bubble_ex_mem, halt_in_ex, .P_LOAD, bubble_ex_mem⟩ }).1
      1 1 .STAT_AOK).2 = (2, 1, .STAT_HLT) := by
  have h := (control_error_next_step toy_env .IN_FLIGHT (fun _ => .other 0)
    { toy_state with ex_mem_state := ⟨bubble_ex_mem, halt_in_ex, .P_LOAD, bubble_ex_mem⟩ }
    _ 10 10 1 1 0 .STAT_AOK rfl rfl (by decide) (by decide) (by decide)).2.2.2.2.2.2.2
  rw [h]
  decide

end Pcsim

namespace Pcsim

/-! ## The state at the end of a cycle -/

/-- At the end of a cycle each `current` is what the top of the cycle committed. -/
theorem cycle_commit {M : Type} (env : isa_env M) (ds : mem_status_t) (S S1 : sim_state M)
    (h : S1 = (sim_step_pipe env ds S).1) :
    S1.pc_state.current = (error_check (fun c => { c with status := .STAT_PIP })
      (update_pipe S.pc_state)).current ∧
    S1.if_id_state.current = (error_check (fun c => { c with status := .STAT_PIP })
      (update_pipe S.if_id_state)).current ∧
    S1.id_ex_state.current = (error_check (fun c => { c with status := .STAT_PIP })
      (update_pipe S.id_ex_state)).current ∧
    S1.ex_mem_state.current = (error_check (fun c => { c with status := .STAT_PIP })
      (update_pipe S.ex_mem_state)).current ∧
    S1.mem_wb_state.current = (error_check (fun c => { c with status := .STAT_PIP })
      (update_pipe S.mem_wb_state)).current := by
  obtain ⟨a1, a2, a3, a4, a5, _⟩ := sim_step_pipe_spec env ds S S1 _ rfl h
  rw [a1, a2, a3, a4, a5]
  exact ⟨rfl, rfl, rfl, rfl, rfl⟩

/-- At the end of a cycle the ops are the ones `do_stall_check` derives from the latches
of that cycle. -/
theorem cycle_ops {M : Type} (env : isa_env M) (ds : mem_status_t) (S S1 : sim_state M)
    (h : S1 = (sim_step_pipe env ds S).1) :
    S1.pc_state.op = (if load_use S1 || ret_hazard S1 then .P_STALL else .P_LOAD) ∧
    S1.if_id_state.op =
      (if load_use S1 then .P_STALL
        else if mispredict S1 || ret_hazard S1 then .P_BUBBLE else .P_LOAD) ∧
    S1.id_ex_state.op = (if mispredict S1 || load_use S1 then .P_BUBBLE else .P_LOAD) ∧
    S1.mem_wb_state.op =
      (if is_exception S1.mem_wb_state.current.status then .P_STALL else .P_LOAD) := by
  obtain ⟨a1, a2, a3, a4, a5, _⟩ := sim_step_pipe_spec env ds S S1 _ rfl h
  obtain ⟨o1, o2, o3, _, o5⟩ :=
    do_stall_check_ops ds (do_stages env (error_checking (update_pipes_bank S)))
  have e1 : load_use S1 =
      load_use (do_stages env (error_checking (update_pipes_bank S))) := by
    simp only [load_use, a3]
    rfl
  have e2 : ret_hazard S1 =
      ret_hazard (do_stages env (error_checking (update_pipes_bank S))) := by
    simp only [ret_hazard, a2, a3, a4]
    rfl
  have e3 : mispredict S1 =
      mispredict (do_stages env (error_checking (update_pipes_bank S))) := by
    simp only [mispredict, a3, a4]
    rfl
  rw [e1, e2, e3, a1, a2, a3, a5, o1, o2, o3, o5]
  exact ⟨rfl, rfl, rfl, rfl⟩

/-- At the end of a cycle the `next` buffers carry on the instruction of the stage before,
and the fetch address was selected from the latches of that cycle. -/
theorem cycle_next {M : Type} (env : isa_env M) (ds : mem_status_t) (S S1 : sim_state M)
    (h : S1 = (sim_step_pipe env ds S).1) :
    S1.mem_wb_state.next.icode = S1.ex_mem_state.current.icode ∧
    S1.ex_mem_state.next.icode = S1.id_ex_state.current.icode ∧
    S1.id_ex_state.next.icode = S1.if_id_state.current.icode ∧
    S1.f_pc = select_pc S1 := by
  obtain ⟨_, a2, a3, a4, a5, _⟩ := sim_step_pipe_spec env ds S S1 _ rfl h
  have hf : S1.f_pc = select_pc (error_checking (update_pipes_bank S)) := by
    rw [h]
    exact (sim_step_pipe_f_pc env ds S).1
  have hs : select_pc S1 = select_pc (error_checking (update_pipes_bank S)) := by
    obtain ⟨c1, _, _, c4, c5⟩ := cycle_commit env ds S S1 h
    simp only [select_pc, c1, c4, c5]
    rfl
  rw [hf, hs, a2, a3, a4, a5]
  exact ⟨rfl, rfl, rfl, rfl⟩

/-- The value that a `ret` in `ex_mem_curr` reads in the Memory stage. -/
theorem cycle_ret_valm {M : Type} (env : isa_env M) (ds : mem_status_t) (S S1 : sim_state M)
    (h : S1 = (sim_step_pipe env ds S).1) (hr : S1.ex_mem_state.current.icode = .I_RET) :
    S1.mem_wb_state.next.valm =
      (env.get_word_val_D S.mem S1.ex_mem_state.current.vala 0).2 := by
  obtain ⟨_, _, _, a4, a5, _⟩ := sim_step_pipe_spec env ds S S1 _ rfl h
  rw [a4] at hr
  have hr' : (do_wb_stage env (error_checking (update_pipes_bank S))).ex_mem_state.current.icode
      = .I_RET := hr
  rw [a4, a5]
  show (do_mem_stage env (do_wb_stage env
    (error_checking (update_pipes_bank S)))).mem_wb_state.next.valm = _
  simp [do_mem_stage, hr']
  rfl

end Pcsim

namespace Pcsim

/-! ## Return over four cycles -/

theorem load_use_false_of_icode {M : Type} (S : sim_state M)
    (h1 : S.id_ex_state.current.icode ≠ .I_MRMOVQ)
    (h2 : S.id_ex_state.current.icode ≠ .I_POPQ) : load_use S = false := by
  simp [load_use, h1, h2]

theorem mispredict_false_of_icode {M : Type} (S : sim_state M)
    (h : S.id_ex_state.current.icode ≠ .I_JMP) : mispredict S = false := by
  simp [mispredict, h]

theorem or_false_split {a b : Bool} {α : Type} {x y : α} (hxy : x ≠ y)
    (h : (if a || b then x else y) = y) : a = false ∧ b = false := by
  cases a <;> cases b <;> simp_all

/-- Four consecutive cycles around a `ret`. `S1` is the state at the end of the cycle in
which the `ret` is in `if_id_curr`; `S2`, `S3`, `S4` are the states at the end of the
following cycles. -/
theorem ret_core {M : Type} (env : isa_env M) (d0 d1 d2 d3 : mem_status_t)
    (S0 S1 S2 S3 S4 : sim_state M)
    (h1 : S1 = (sim_step_pipe env d0 S0).1) (h2 : S2 = (sim_step_pipe env d1 S1).1)
    (h3 : S3 = (sim_step_pipe env d2 S2).1) (h4 : S4 = (sim_step_pipe env d3 S3).1)
    (hb1 : S0.if_id_state.bubble_val = bubble_if_id)
    (hb3 : S0.ex_mem_state.bubble_val = bubble_ex_mem)
    (hret : S1.if_id_state.current.icode = .I_RET)
    (hn1 : S1.id_ex_state.op = .P_LOAD)
    (hn2 : S2.ex_mem_state.op = .P_LOAD)
    (hn3 : S3.mem_wb_state.op = .P_LOAD)
    (hn4 : S3.ex_mem_state.op ≠ .P_STALL) :
    (S1.pc_state.op = .P_STALL ∧ S1.if_id_state.op = .P_BUBBLE) ∧
    (S2.id_ex_state.current.icode = .I_RET ∧ S2.pc_state.op = .P_STALL ∧
      S2.if_id_state.op = .P_BUBBLE ∧ S2.pc_state.current = S1.pc_state.current) ∧
    (S3.ex_mem_state.current.icode = .I_RET ∧ S3.pc_state.op = .P_STALL ∧
      S3.if_id_state.op = .P_BUBBLE ∧ S3.pc_state.current = S2.pc_state.current) ∧
    (S4.mem_wb_state.current.icode = .I_RET ∧ S4.pc_state.op = .P_LOAD ∧
      S4.if_id_state.op = .P_LOAD ∧ S4.pc_state.current = S3.pc_state.current ∧
      S4.f_pc = S4.mem_wb_state.current.valm ∧
      S4.mem_wb_state.current.valm =
        (env.get_word_val_D S2.mem S3.ex_mem_state.current.vala 0).2) := by
  -- bubble values stay
  obtain ⟨_, v1b, _, v1d, _⟩ := sim_step_pipe_bubble_vals env d0 S0
  rw [← h1] at v1b v1d
  obtain ⟨_, v2b, _, v2d, _⟩ := sim_step_pipe_bubble_vals env d1 S1
  rw [← h2] at v2b v2d
  obtain ⟨_, v3b, _, v3d, _⟩ := sim_step_pipe_bubble_vals env d2 S2
  rw [← h3] at v3b v3d
  -- cycle t
  obtain ⟨p1, q1, r1, _⟩ := cycle_ops env d0 S0 S1 h1
  obtain ⟨_, _, n1c, _⟩ := cycle_next env d0 S0 S1 h1
  have hrh1 : ret_hazard S1 = true := by simp [ret_hazard, hret]
  have hml1 : mispredict S1 = false ∧ load_use S1 = false := by
    rw [r1] at hn1
    exact or_false_split (by decide) hn1
  have op1 : S1.pc_state.op = .P_STALL := by rw [p1, hrh1]; simp
  have op1b : S1.if_id_state.op = .P_BUBBLE := by rw [q1, hml1.1, hml1.2, hrh1]; simp
  -- cycle t + 1
  obtain ⟨c2a, c2b, c2c, _, _⟩ := cycle_commit env d1 S1 S2 h2
  obtain ⟨p2, q2, r2, _⟩ := cycle_ops env d1 S1 S2 h2
  obtain ⟨_, n2b, n2c, _⟩ := cycle_next env d1 S1 S2 h2
  have e2pc : S2.pc_state.current = S1.pc_state.current := by
    rw [c2a]
    exact (commit_spec _ S1.pc_state).2.2.2.2.1 op1
  have e2if : S2.if_id_state.current = bubble_if_id := by
    rw [c2b, (commit_spec _ S1.if_id_state).2.2.2.1 op1b, v1b, hb1]
  have e2ex : S2.id_ex_state.current.icode = .I_RET := by
    rw [c2c, (commit_spec _ S1.id_ex_state).2.2.1 hn1, n1c, hret]
  have hrh2 : ret_hazard S2 = true := by simp [ret_hazard, e2ex]
  have hl2 : load_use S2 = false :=
    load_use_false_of_icode S2 (by rw [e2ex]; decide) (by rw [e2ex]; decide)
  have hm2 : mispredict S2 = false := mispredict_false_of_icode S2 (by rw [e2ex]; decide)
  have op2 : S2.pc_state.op = .P_STALL := by rw [p2, hrh2]; simp
  have op2b : S2.if_id_state.op = .P_BUBBLE := by rw [q2, hl2, hm2, hrh2]; simp
  have op2c : S2.id_ex_state.op = .P_LOAD := by rw [r2, hl2, hm2]; simp
  -- cycle t + 2
  obtain ⟨c3a, c3b, c3c, c3d, _⟩ := cycle_commit env d2 S2 S3 h3
  obtain ⟨p3, q3, r3, _⟩ := cycle_ops env d2 S2 S3 h3
  obtain ⟨n3a, n3b, n3c, _⟩ := cycle_next env d2 S2 S3 h3
  have e3pc : S3.pc_state.current = S2.pc_state.current := by
    rw [c3a]
    exact (commit_spec _ S2.pc_state).2.2.2.2.1 op2
  have e3if : S3.if_id_state.current = bubble_if_id := by
    rw [c3b, (commit_spec _ S2.if_id_state).2.2.2.1 op2b, v2b, v1b, hb1]
  have e3ex : S3.id_ex_state.current.icode = .I_NOP := by
    rw [c3c, (commit_spec _ S2.id_ex_state).2.2.1 op2c, n2c, e2if]
    rfl
  have e3mem : S3.ex_mem_state.current.icode = .I_RET := by
    rw [c3d, (commit_spec _ S2.ex_mem_state).2.2.1 hn2, n2b, e2ex]
  have hrh3 : ret_hazard S3 = true := by simp [ret_hazard, e3mem]
  have hl3 : load_use S3 = false :=
    load_use_false_of_icode S3 (by rw [e3ex]; decide) (by rw [e3ex]; decide)
  have hm3 : mispredict S3 = false := mispredict_false_of_icode S3 (by rw [e3ex]; decide)
  have op3 : S3.pc_state.op = .P_STALL := by rw [p3, hrh3]; simp
  have op3b : S3.if_id_state.op = .P_BUBBLE := by rw [q3, hl3, hm3, hrh3]; simp
  have op3c : S3.id_ex_state.op = .P_LOAD := by rw [r3, hl3, hm3]; simp
  -- cycle t + 3
  obtain ⟨c4a, c4b, c4c, c4d, c4e⟩ := cycle_commit env d3 S3 S4 h4
  obtain ⟨p4, q4, _, _⟩ := cycle_ops env d3 S3 S4 h4
  obtain ⟨_, _, _, f4⟩ := cycle_next env d3 S3 S4 h4
  have e4pc : S4.pc_state.current = S3.pc_state.current := by
    rw [c4a]
    exact (commit_spec _ S3.pc_state).2.2.2.2.1 op3
  have e4if : S4.if_id_state.current.icode = .I_NOP := by
    rw [c4b, (commit_spec _ S3.if_id_state).2.2.2.1 op3b, v3b, v2b, v1b, hb1]
    rfl
  have e4ex : S4.id_ex_state.current.icode = .I_NOP := by
    rw [c4c, (commit_spec _ S3.id_ex_state).2.2.1 op3c, n3c, e3if]
    rfl
  have e4mem : S4.ex_mem_state.current.icode = .I_NOP := by
    rw [c4d]
    have hbv : S3.ex_mem_state.bubble_val = bubble_ex_mem := by rw [v3d, v2d, v1d, hb3]
    obtain ⟨_, _, k1, k2, _, k4⟩ :=
      commit_spec (fun c : ex_mem_ele => { c with status := .STAT_PIP }) S3.ex_mem_state
    cases hop : S3.ex_mem_state.op
    · rw [k1 hop, n3b, e3ex]
    · exact absurd hop hn4
    · rw [k2 hop, hbv]
      rfl
    · rw [k4 hop, hbv]
      rfl
  have e4wb : S4.mem_wb_state.current = S3.mem_wb_state.next := by
    rw [c4e]
    exact (commit_spec _ S3.mem_wb_state).2.2.1 hn3
  have e4wbi : S4.mem_wb_state.current.icode = .I_RET := by rw [e4wb, n3a, e3mem]
  have hrh4 : ret_hazard S4 = false := by simp [ret_hazard, e4if, e4ex, e4mem]
  have hl4 : load_use S4 = false :=
    load_use_false_of_icode S4 (by rw [e4ex]; decide) (by rw [e4ex]; decide)
  have hm4 : mispredict S4 = false := mispredict_false_of_icode S4 (by rw [e4ex]; decide)
  have op4 : S4.pc_state.op = .P_LOAD := by rw [p4, hrh4, hl4]; simp
  have op4b : S4.if_id_state.op = .P_LOAD := by rw [q4, hl4, hm4, hrh4]; simp
  have hf : S4.f_pc = S4.mem_wb_state.current.valm := by
    rw [f4]
    simp [select_pc, e4mem, e4wbi]
  have hv : S4.mem_wb_state.current.valm =
      (env.get_word_val_D S2.mem S3.ex_mem_state.current.vala 0).2 := by
    rw [e4wb]
    exact cycle_ret_valm env d2 S2 S3 h3 e3mem
  exact ⟨⟨op1, op1b⟩, ⟨e2ex, op2, op2b, e2pc⟩, ⟨e3mem, op3, op3b, e3pc⟩,
    ⟨e4wbi, op4, op4b, e4pc, hf, hv⟩⟩

end Pcsim

namespace Pcsim

/-- C17: let a `ret` be in `if_id_curr` in a cycle (end state `S1`) and let no other hazard be
pending: no bubble is requested for the id_ex latch in that cycle (no load-use, no
misprediction), none and no stall for the ex_mem latch in the next one, none and no stall
for the mem_wb latch in the one after, in which the ex_mem latch is not stalled either.
Then the PC latch is stalled and the if_id latch bubbled in exactly these three cycles,
in which the `ret` is in `if_id_curr`, `id_ex_curr` and `ex_mem_curr` and `pc_curr` does
not change; in the fourth cycle the `ret` is in `mem_wb_curr`, both latches get `P_LOAD`
again and `do_if_stage` fetches from `f_pc = mem_wb_curr.valm`, the word read from memory
at `ex_mem_curr.vala` in the third cycle. -/
theorem ret_three_bubbles {M : Type} (env : isa_env M) (d0 d1 d2 d3 : mem_status_t)
    (S0 S1 S2 S3 S4 : sim_state M)
    (h1 : S1 = (sim_step_pipe env d0 S0).1) (h2 : S2 = (sim_step_pipe env d1 S1).1)
    (h3 : S3 = (sim_step_pipe env d2 S2).1) (h4 : S4 = (sim_step_pipe env d3 S3).1)
    (hb1 : S0.if_id_state.bubble_val = bubble_if_id)
    (hb3 : S0.ex_mem_state.bubble_val = bubble_ex_mem)
    (hret : S1.if_id_state.current.icode = .I_RET)
    (hn1 : S1.id_ex_state.op = .P_LOAD)
    (hn2 : S2.ex_mem_state.op = .P_LOAD)
    (hn3 : S3.mem_wb_state.op = .P_LOAD)
    (hn4 : S3.ex_mem_state.op ≠ .P_STALL) :
    (S1.pc_state.op = .P_STALL ∧ S1.if_id_state.op = .P_BUBBLE) ∧
    (S2.id_ex_state.current.icode = .I_RET ∧ S2.pc_state.op = .P_STALL ∧
      S2.if_id_state.op = .P_BUBBLE ∧ S2.pc_state.current = S1.pc_state.current) ∧
    (S3.ex_mem_state.current.icode = .I_RET ∧ S3.pc_state.op = .P_STALL ∧
      S3.if_id_state.op = .P_BUBBLE ∧ S3.pc_state.current = S2.pc_state.current) ∧
    (S4.mem_wb_state.current.icode = .I_RET ∧ S4.pc_state.op = .P_LOAD ∧
      S4.if_id_state.op = .P_LOAD ∧ S4.pc_state.current = S3.pc_state.current ∧
      S4.f_pc = S4.mem_wb_state.current.valm ∧
      S4.mem_wb_state.current.valm =
        (env.get_word_val_D S2.mem S3.ex_mem_state.current.vala 0).2) :=
  ret_core env d0 d1 d2 d3 S0 S1 S2 S3 S4 h1 h2 h3 h4 hb1 hb3 hret hn1 hn2 hn3 hn4

/-- C17 witness: a `ret` entering an otherwise empty pipeline; the fourth cycle fetches from
address 9, the word the memory holds at the stack pointer. -/
theorem ret_three_bubbles_witness :
    (sim_step_pipe toy_env (.other 0) (sim_step_pipe toy_env (.other 0)
      (sim_step_pipe toy_env (.other 0)
        (sim_step_pipe toy_env (.other 0) toy_ret).1).1).1).1.f_pc = 9 ∧
    (sim_step_pipe toy_env (.other 0) (sim_step_pipe toy_env (.other 0)
      (sim_step_pipe toy_env (.other 0)
        (sim_step_pipe toy_env (.other 0) toy_ret).1).1).1).1.if_id_state.op = .P_LOAD ∧
    (sim_step_pipe toy_env (.other 0) (sim_step_pipe toy_env (.other 0)
      (sim_step_pipe toy_env (.other 0) toy_ret).1).1).1.if_id_state.op = .P_BUBBLE := by
  have h := ret_three_bubbles toy_env (.other 0) (.other 0) (.other 0) (.other 0) toy_ret
    _ _ _ _ rfl rfl rfl rfl rfl rfl (by decide) (by decide) (by decide) (by decide)
    (by decide)
  have hv : (toy_env.get_word_val_D (sim_step_pipe toy_env (.other 0)
      (sim_step_pipe toy_env (.other 0) toy_ret).1).1.mem
      (sim_step_pipe toy_env (.other 0) (sim_step_pipe toy_env (.other 0)
        (sim_step_pipe toy_env (.other 0) toy_ret).1).1).1.ex_mem_state.current.vala 0).2 =
      9 := by decide
  exact ⟨h.2.2.2.2.2.2.2.1.trans (h.2.2.2.2.2.2.2.2.trans hv), h.2.2.2.2.2.1, h.2.2.1.2.2.1⟩

end Pcsim

namespace Pcsim

/-- C12 witness: `mrmovq ..., %r3` in `id_ex_curr` while the instruction being decoded has
`srca = %r3`: the PC and if_id latches are stalled and the id_ex latch is bubbled. -/
theorem do_stall_check_load_use_witness :
    (do_stall_check (.other 0) { toy_state with
        id_ex_state := ⟨⟨.I_MRMOVQ, 0, 0, 0, 0, .REG_NONE, .REG 0, .REG_NONE, .REG 3,
          .STAT_AOK, 0⟩, { bubble_id_ex with srca := .REG 3 }, .P_LOAD,
          bubble_id_ex⟩ }).if_id_state.op = .P_STALL ∧
    (do_stall_check (.other 0) { toy_state with
        id_ex_state := ⟨⟨.I_MRMOVQ, 0, 0, 0, 0, .REG_NONE, .REG 0, .REG_NONE, .REG 3,
          .STAT_AOK, 0⟩, { bubble_id_ex with srca := .REG 3 }, .P_LOAD,
          bubble_id_ex⟩ }).pc_state.op = .P_STALL ∧
    (do_stall_check (.other 0) { toy_state with
        id_ex_state := ⟨⟨.I_MRMOVQ, 0, 0, 0, 0, .REG_NONE, .REG 0, .REG_NONE, .REG 3,
          .STAT_AOK, 0⟩, { bubble_id_ex with srca := .REG 3 }, .P_LOAD,
          bubble_id_ex⟩ }).id_ex_state.op = .P_BUBBLE :=
  let h := do_stall_check_load_use (.other 0) { toy_state with
        id_ex_state := ⟨⟨.I_MRMOVQ, 0, 0, 0, 0, .REG_NONE, .REG 0, .REG_NONE, .REG 3,
          .STAT_AOK, 0⟩, { bubble_id_ex with srca := .REG 3 }, .P_LOAD,
          bubble_id_ex⟩ }
  ⟨h.1.2 ⟨Or.inl rfl, Or.inl rfl⟩, h.2 ⟨Or.inl rfl, Or.inl rfl⟩⟩

end Pcsim

namespace Pcsim

/-! ## Fetch status -/

/-- The status that `do_if_stage` gives the fetched instruction. -/
theorem do_if_stage_status_eq {M : Type} (env : isa_env M) (S : sim_state M) :
    (do_if_stage env S).if_id_state.next.status =
      (if (!(env.get_byte_val S.mem (select_pc S) env.HPACK_NOP).1) = true then .STAT_ADR
        else if (!(do_if_stage env S).instr_valid) = true then .STAT_INS
        else if (do_if_stage env S).if_id_state.next.icode = .I_HALT then .STAT_HLT
        else .STAT_AOK) :=
  rfl

/-- The status that `do_if_stage` gives the next PC. -/
theorem do_if_stage_pc_status_eq {M : Type} (env : isa_env M) (S : sim_state M) :
    (do_if_stage env S).pc_state.next.status =
      (if (do_if_stage env S).if_id_state.next.status = .STAT_AOK then .STAT_AOK
        else .STAT_BUB) :=
  rfl

/-- C30: `do_if_stage` fetches at `f_pc`, the address selected by its first statement, and
takes the icode from the byte read there. It sets `if_id_next.status` to `STAT_ADR` when
`get_byte_val` fails; otherwise to `STAT_INS` when the icode is not one of the twelve valid
codes; otherwise to `STAT_HLT` when the icode is `I_HALT`; otherwise to `STAT_AOK`; and
`pc_next.status` is `STAT_AOK` iff that status is `STAT_AOK` and `STAT_BUB` otherwise. -/
theorem do_if_stage_status {M : Type} (env : isa_env M) (S : sim_state M) :
    (do_if_stage env S).f_pc = select_pc S ∧
    (do_if_stage env S).if_id_state.next.icode =
      env.GET_ICODE (env.get_byte_val S.mem (select_pc S) env.HPACK_NOP).2 ∧
    ((do_if_stage env S).instr_valid = true ↔
      ((do_if_stage env S).if_id_state.next.icode = .I_NOP ∨
        (do_if_stage env S).if_id_state.next.icode = .I_HALT ∨
        (do_if_stage env S).if_id_state.next.icode = .I_RRMOVQ ∨
        (do_if_stage env S).if_id_state.next.icode = .I_IRMOVQ ∨
        (do_if_stage env S).if_id_state.next.icode = .I_RMMOVQ ∨
        (do_if_stage env S).if_id_state.next.icode = .I_MRMOVQ ∨
        (do_if_stage env S).if_id_state.next.icode = .I_ALU ∨
        (do_if_stage env S).if_id_state.next.icode = .I_JMP ∨
        (do_if_stage env S).if_id_state.next.icode = .I_CALL ∨
        (do_if_stage env S).if_id_state.next.icode = .I_RET ∨
        (do_if_stage env S).if_id_state.next.icode = .I_PUSHQ ∨
        (do_if_stage env S).if_id_state.next.icode = .I_POPQ)) ∧
    ((env.get_byte_val S.mem (select_pc S) env.HPACK_NOP).1 = false →
      (do_if_stage env S).if_id_state.next.status = .STAT_ADR) ∧
    ((env.get_byte_val S.mem (select_pc S) env.HPACK_NOP).1 = true →
      (do_if_stage env S).instr_valid = false →
      (do_if_stage env S).if_id_state.next.status = .STAT_INS) ∧
    ((env.get_byte_val S.mem (select_pc S) env.HPACK_NOP).1 = true →
      (do_if_stage env S).instr_valid = true →
      (do_if_stage env S).if_id_state.next.icode = .I_HALT →
      (do_if_stage env S).if_id_state.next.status = .STAT_HLT) ∧
    ((env.get_byte_val S.mem (select_pc S) env.HPACK_NOP).1 = true →
      (do_if_stage env S).instr_valid = true →
      (do_if_stage env S).if_id_state.next.icode ≠ .I_HALT →
      (do_if_stage env S).if_id_state.next.status = .STAT_AOK) ∧
    ((do_if_stage env S).pc_state.next.status = .STAT_AOK ↔
      (do_if_stage env S).if_id_state.next.status = .STAT_AOK) ∧
    ((do_if_stage env S).if_id_state.next.status ≠ .STAT_AOK →
      (do_if_stage env S).pc_state.next.status = .STAT_BUB) := by
  have hs := do_if_stage_status_eq env S
  have hp := do_if_stage_pc_status_eq env S
  generalize (do_if_stage env S).if_id_state.next.status = st at hs hp ⊢
  generalize (do_if_stage env S).pc_state.next.status = ps at hp ⊢
  refine ⟨rfl, rfl, ?_, ?_, ?_, ?_, ?_, ?_, ?_⟩
  · simp [do_if_stage]
  · intro h
    rw [hs, h]
    rfl
  · intro h hv
    rw [hs, h, hv]
    rfl
  · intro h hv hh
    rw [hs, h, hv, if_pos hh]
    rfl
  · intro h hv hh
    rw [hs, h, hv, if_neg hh]
    rfl
  · rw [hp]
    split_ifs with h <;> simp [h]
  · intro h
    rw [hp, if_neg h]

/-- C30 witness: a fetch from a memory of zero bytes, whose icode is none of the twelve
valid ones: the status is `STAT_INS` and `pc_next.status` is `STAT_BUB`. -/
theorem do_if_stage_status_witness :
    (do_if_stage toy_env toy_state).if_id_state.next.status = .STAT_INS ∧
    (do_if_stage toy_env toy_state).pc_state.next.status = .STAT_BUB :=
  ⟨(do_if_stage_status toy_env toy_state).2.2.2.2.1 rfl (by decide),
    (do_if_stage_status toy_env toy_state).2.2.2.2.2.2.2.2 (by decide)⟩

end Pcsim

namespace Pcsim

/-! ## Status propagation and frame of the stages -/

/-- The status that `do_mem_stage` hands on: `STAT_ADR` when the instruction reads memory and
the read fails, the status of `ex_mem_curr` otherwise. The outcome of a write has no part
in it. -/
theorem do_mem_stage_status_eq {M : Type} (env : isa_env M) (S : sim_state M) :
    (do_mem_stage env S).mem_wb_state.next.status =
      (if (S.ex_mem_state.current.icode = .I_MRMOVQ ∨ S.ex_mem_state.current.icode = .I_POPQ ∨
            S.ex_mem_state.current.icode = .I_RET) ∧
          (env.get_word_val_D S.mem (do_mem_stage env S).mem_addr 0).1 = false
        then .STAT_ADR else S.ex_mem_state.current.status) := by
  by_cases hr : S.ex_mem_state.current.icode = .I_MRMOVQ ∨
      S.ex_mem_state.current.icode = .I_POPQ ∨ S.ex_mem_state.current.icode = .I_RET
  · cases hg : (env.get_word_val_D S.mem (do_mem_stage env S).mem_addr 0).1
    · have hg' := hg
      simp only [do_mem_stage] at hg'
      simp [do_mem_stage, hr, hg']
    · have hg' := hg
      simp only [do_mem_stage] at hg'
      simp [do_mem_stage, hr, hg']
  · simp [do_mem_stage, hr]

/-- The condition on the icode cannot be dropped from the statement on `do_mem_stage`: for a
latch content that no run produces, an `mrmovq` with status `STAT_HLT` whose address 200
lies outside the data memory, `do_mem_stage` hands on `STAT_ADR`, not `STAT_HLT`. -/
theorem do_mem_stage_replaces_status :
    (do_mem_stage toy_env_bounded { toy_state with
      ex_mem_state := ⟨⟨.I_MRMOVQ, 0, false, 200, 0, .REG_NONE, .REG 3, .STAT_HLT, 0⟩,
        bubble_ex_mem, .P_LOAD, bubble_ex_mem⟩ }).mem_wb_state.next.status = .STAT_ADR := by
  decide

/-- The status through the stages: `do_id_stage` copies the status of `if_id_curr` to
`id_ex_next` and `do_ex_stage` the status of `id_ex_curr` to `ex_mem_next`, whatever the
status is.
`do_mem_stage` copies the status of `ex_mem_curr` to `mem_wb_next` unless the icode of
`ex_mem_curr` is `I_MRMOVQ`, `I_POPQ` or `I_RET` and the read at `mem_addr` fails, in which
case `mem_wb_next.status` is `STAT_ADR`; in particular a `STAT_ADR` is always handed on. -/
theorem stage_status_core {M : Type} (env : isa_env M) (S : sim_state M) :
    (do_id_stage env S).id_ex_state.next.status = S.if_id_state.current.status ∧
    (do_ex_stage env S).ex_mem_state.next.status = S.id_ex_state.current.status ∧
    (¬ (S.ex_mem_state.current.icode = .I_MRMOVQ ∨ S.ex_mem_state.current.icode = .I_POPQ ∨
        S.ex_mem_state.current.icode = .I_RET) →
      (do_mem_stage env S).mem_wb_state.next.status = S.ex_mem_state.current.status) ∧
    ((env.get_word_val_D S.mem (do_mem_stage env S).mem_addr 0).1 = true →
      (do_mem_stage env S).mem_wb_state.next.status = S.ex_mem_state.current.status) ∧
    ((S.ex_mem_state.current.icode = .I_MRMOVQ ∨ S.ex_mem_state.current.icode = .I_POPQ ∨
        S.ex_mem_state.current.icode = .I_RET) →
      (env.get_word_val_D S.mem (do_mem_stage env S).mem_addr 0).1 = false →
      (do_mem_stage env S).mem_wb_state.next.status = .STAT_ADR) ∧
    (S.ex_mem_state.current.status = .STAT_ADR →
      (do_mem_stage env S).mem_wb_state.next.status = .STAT_ADR) := by
  have h := do_mem_stage_status_eq env S
  refine ⟨rfl, rfl, ?_, ?_, ?_, ?_⟩
  · intro hr
    rw [h, if_neg (fun hc => hr hc.1)]
  · intro hg
    rw [h, if_neg (fun hc => by rw [hg] at hc; exact absurd hc.2 (by decide))]
  · intro hr hg
    rw [h, if_pos ⟨hr, hg⟩]
  · intro ha
    rw [h, ha]
    split_ifs <;> rfl

/-- C22 (failing input): the status that `do_mem_stage` hands on never depends on
`set_word_val_D`. With `rmmovq` in `ex_mem_curr` (status `STAT_AOK`) and the address 200
outside the data memory, the write fails and `mem_wb_next.status` is `STAT_AOK`. -/
theorem do_mem_stage_write_failure_ignored {M : Type} (env : isa_env M) (S : sim_state M) :
    (do_mem_stage env S).mem_wb_state.next.status =
      (if (S.ex_mem_state.current.icode = .I_MRMOVQ ∨ S.ex_mem_state.current.icode = .I_POPQ ∨
            S.ex_mem_state.current.icode = .I_RET) ∧
          (env.get_word_val_D S.mem (do_mem_stage env S).mem_addr 0).1 = false
        then .STAT_ADR else S.ex_mem_state.current.status) ∧
    (do_mem_stage toy_env_bounded { toy_state with
      ex_mem_state := ⟨⟨.I_RMMOVQ, 0, false, 200, 1, .REG_NONE, .REG_NONE, .STAT_AOK, 0⟩,
        bubble_ex_mem, .P_LOAD, bubble_ex_mem⟩ }).mem_write = true ∧
    (do_mem_stage toy_env_bounded { toy_state with
      ex_mem_state := ⟨⟨.I_RMMOVQ, 0, false, 200, 1, .REG_NONE, .REG_NONE, .STAT_AOK, 0⟩,
        bubble_ex_mem, .P_LOAD, bubble_ex_mem⟩ }).mem_addr = 200 ∧
    (toy_env_bounded.set_word_val_D toy_state.mem 200 1).1 = false ∧
    (do_mem_stage toy_env_bounded { toy_state with
      ex_mem_state := ⟨⟨.I_RMMOVQ, 0, false, 200, 1, .REG_NONE, .REG_NONE, .STAT_AOK, 0⟩,
        bubble_ex_mem, .P_LOAD, bubble_ex_mem⟩ }).mem_wb_state.next.status = .STAT_AOK :=
  ⟨do_mem_stage_status_eq env S, by decide, by decide, by decide, by decide⟩

/-- C21 (counterexample): `addq` is in `id_ex_curr`, Writeback holds a bubble and `cc` is 5.
`do_wb_stage` leaves `cc` at 5; at the end of the stage evaluations `cc` is 0, the
condition codes that `do_ex_stage` computed. -/
theorem do_ex_stage_changes_cc :
    ({ toy_state with
        cc := 5,
        id_ex_state := ⟨⟨.I_ALU, 0, 0, 1, 2, .REG 0, .REG 1, .REG 1, .REG_NONE,
          .STAT_AOK, 0⟩, bubble_id_ex, .P_LOAD, bubble_id_ex⟩ } :
      sim_state (Nat → Nat)).mem_wb_state.current = bubble_mem_wb ∧
    (do_wb_stage toy_env { toy_state with
        cc := 5,
        id_ex_state := ⟨⟨.I_ALU, 0, 0, 1, 2, .REG 0, .REG 1, .REG 1, .REG_NONE,
          .STAT_AOK, 0⟩, bubble_id_ex, .P_LOAD, bubble_id_ex⟩ }).cc = 5 ∧
    (do_stall_check (.other 0) (do_stages toy_env { toy_state with
        cc := 5,
        id_ex_state := ⟨⟨.I_ALU, 0, 0, 1, 2, .REG 0, .REG 1, .REG 1, .REG_NONE,
          .STAT_AOK, 0⟩, bubble_id_ex, .P_LOAD, bubble_id_ex⟩ })).cc = 0 := by
  decide

/-- C21 (amended): in one `sim_step_pipe` cycle the register file is modified only by
`do_wb_stage` and the condition codes only by `do_ex_stage`. `do_mem_stage`, `do_ex_stage`,
`do_id_stage`, `do_if_stage` and `do_stall_check` leave the register file as it is;
`do_wb_stage`, `do_mem_stage`, `do_id_stage`, `do_if_stage` and `do_stall_check` leave `cc`
as it is; `do_ex_stage` replaces `cc` by `compute_cc(ifun, vala, valb)` when `id_ex_curr` is
an `I_ALU` instruction and no `STAT_ADR`, `STAT_INS` or `STAT_HLT` is in `mem_wb_next` or
`mem_wb_curr`. At the end of the cycle the register file is the one `do_wb_stage` left and
`cc` the one `do_ex_stage` left. -/
theorem reg_and_cc_frame {M : Type} (env : isa_env M) (ds : mem_status_t) (S : sim_state M) :
    ((do_mem_stage env S).reg = S.reg ∧ (do_ex_stage env S).reg = S.reg ∧
      (do_id_stage env S).reg = S.reg ∧ (do_if_stage env S).reg = S.reg ∧
      (do_stall_check ds S).reg = S.reg) ∧
    ((do_wb_stage env S).cc = S.cc ∧ (do_mem_stage env S).cc = S.cc ∧
      (do_id_stage env S).cc = S.cc ∧ (do_if_stage env S).cc = S.cc ∧
      (do_stall_check ds S).cc = S.cc) ∧
    (do_ex_stage env S).cc =
      (if ((decide (S.id_ex_state.current.icode = .I_ALU) &&
            !is_exception S.mem_wb_state.next.status) &&
          !is_exception S.mem_wb_state.current.status) = true
        then env.compute_cc S.id_ex_state.current.ifun S.id_ex_state.current.vala
          S.id_ex_state.current.valb
        else S.cc) ∧
    (sim_step_pipe env ds S).1.reg =
      (do_wb_stage env (error_checking (update_pipes_bank S))).reg ∧
    (sim_step_pipe env ds S).1.cc =
      (do_ex_stage env (do_mem_stage env (do_wb_stage env
        (error_checking (update_pipes_bank S))))).cc := by
  obtain ⟨_, _, _, hreg, hcc⟩ := perf_monitor_rest
    (do_stall_check ds (do_stages env (error_checking (update_pipes_bank S))))
  refine ⟨⟨rfl, rfl, rfl, rfl, rfl⟩, ⟨rfl, rfl, rfl, rfl, rfl⟩, ?_, hreg, hcc⟩
  by_cases h1 : S.id_ex_state.current.icode = .I_ALU
  · simp [do_ex_stage, h1]
  · simp [do_ex_stage, h1]

/-- C23 (failing input): the status that `sim_step_pipe` returns is never `STAT_BUB`, so
`sim_run_pipe` increments `icount` in every cycle. From the reset state with
`max_instr = 3` it simulates three cycles in each of which `mem_wb_curr` holds a bubble
(the counter `instructions` stays 0) and returns 3. -/
theorem sim_run_pipe_counts_bubbles {M : Type} (env : isa_env M) (ds : mem_status_t)
    (S : sim_state M) :
    (sim_step_pipe env ds S).2 ≠ .STAT_BUB ∧
    (sim_run_pipe toy_env (fun _ => .other 0) 3 10 toy_state).2.1 = 3 ∧
    (sim_run_pipe toy_env (fun _ => .other 0) 3 10 toy_state).1.instructions = 0 ∧
    (sim_run_pipe toy_env (fun _ => .other 0) 3 10 toy_state).1.mem_wb_state.current =
      bubble_mem_wb ∧
    (sim_steps toy_env (fun _ => .other 0) 1 toy_state).mem_wb_state.current = bubble_mem_wb ∧
    (sim_steps toy_env (fun _ => .other 0) 2 toy_state).mem_wb_state.current =
      bubble_mem_wb := by
  refine ⟨?_, by decide, by decide, by decide, by decide, by decide⟩
  rw [(sim_step_pipe_f_pc env ds S).2]
  split_ifs with h
  · decide
  · exact h

end Pcsim

namespace PipeCache

open Cache

/-- A chain of `Option` binds whose last step returns the flag `false` returns `false`. -/
theorem bind_flag_false {α β : Type} (x : Option α) (f : α → Option (β × Bool))
    (r : β × Bool) (h : x.bind f = some r)
    (hf : ∀ a r', f a = some r' → r'.2 = false) : r.2 = false := by
  cases x with
  | none => simp at h
  | some a => exact hf a r h

/-- The flag returned by `handle_miss` of `src/pipe-cache/cache.c` is `false`. -/
theorem handle_miss_returns_false (st : cache_state) (pos : Nat) (r : cache_state × Bool)
    (h : handle_miss st pos = some r) : r.2 = false := by
  unfold handle_miss at h
  simp only [Option.bind_eq_bind] at h
  refine bind_flag_false _ _ r h ?_
  intro tl r1 h1
  refine bind_flag_false _ _ r1 h1 ?_
  intro st2 r2 h2
  refine bind_flag_false _ _ r2 h2 ?_
  intro l r3 h3
  split at h3
  · refine bind_flag_false _ _ _ h3 ?_
    intro _ _ k0
    refine bind_flag_false _ _ _ k0 ?_
    intro _ _ k1
    refine bind_flag_false _ _ _ k1 ?_
    intro _ _ k2
    refine bind_flag_false _ _ _ k2 ?_
    intro _ _ k3
    refine bind_flag_false _ _ _ k3 ?_
    intro _ _ k4
    refine bind_flag_false _ _ _ k4 ?_
    intro _ _ k5
    refine bind_flag_false _ _ _ k5 ?_
    intro _ _ k6
    simp only [Option.some.injEq] at k6
    rw [← k6]
  · refine bind_flag_false _ _ _ h3 ?_
    intro _ _ k0
    refine bind_flag_false _ _ _ k0 ?_
    intro _ _ k1
    refine bind_flag_false _ _ _ k1 ?_
    intro _ _ k2
    refine bind_flag_false _ _ _ k2 ?_
    intro _ _ k3
    simp only [Option.some.injEq] at k3
    rw [← k3]

end PipeCache

namespace Cache

/-- C26 (failing input): `handle_miss` returns `false` whenever it returns, in
`src/cache/cache.c` and in `src/pipe-cache/cache.c`. In the one-line set holding the valid
tag 1 the address 4 (set 0, tag 2) misses; both versions refill that valid line, count the
eviction and return `false`. -/
theorem handle_miss_never_reports_eviction (st : cache_state) (pos : Nat) :
    (handle_miss st pos).map Prod.snd = (handle_miss st pos).map (fun _ => false) ∧
    (PipeCache.handle_miss st pos).map Prod.snd =
      (PipeCache.handle_miss st pos).map (fun _ => false) ∧
    line_at ⟨1, 0, 1, 2, 1, 1, 2, 0, 0, [[⟨1, 1, 1⟩], [⟨0, 0, 0⟩]]⟩ 0 0 = some ⟨1, 1, 1⟩ ∧
    handle_miss ⟨1, 0, 1, 2, 1, 1, 2, 0, 0, [[⟨1, 1, 1⟩], [⟨0, 0, 0⟩]]⟩ 4 =
      some (⟨1, 0, 1, 2, 1, 2, 2, 0, 1, [[⟨1, 2, 2⟩], [⟨0, 0, 0⟩]]⟩, false) ∧
    PipeCache.handle_miss ⟨1, 0, 1, 2, 1, 1, 2, 0, 0, [[⟨1, 1, 1⟩], [⟨0, 0, 0⟩]]⟩ 4 =
      some (⟨1, 0, 1, 2, 1, 2, 2, 0, 1, [[⟨1, 2, 2⟩], [⟨0, 0, 0⟩]]⟩, false) := by
  refine ⟨?_, ?_, by decide, by decide, by decide⟩
  · cases h : handle_miss st pos with
    | none => rfl
    | some r =>
      obtain ⟨k, j, lines, l, tag, h1, h2, h3, h4⟩ := handle_miss_some_inv st pos r h
      rw [handle_miss_eq st pos k j lines l tag h1 h2 h3 h4] at h
      simp only [Option.some.injEq] at h
      rw [← h]
      rfl
  · cases h : PipeCache.handle_miss st pos with
    | none => rfl
    | some r =>
      have := PipeCache.handle_miss_returns_false st pos r h
      simp [this]

end Cache

namespace Pcsim

/-! ## The run loop -/

/-- The status returned by `sim_step_pipe` is never `STAT_BUB`. -/
theorem sim_step_pipe_ne_bub {M : Type} (env : isa_env M) (ds : mem_status_t)
    (S : sim_state M) : (sim_step_pipe env ds S).2 ≠ .STAT_BUB := by
  rw [(sim_step_pipe_f_pc env ds S).2]
  split_ifs with h
  · decide
  · exact h

/-- One iteration of the loop of `sim_run_pipe`, given that no returned status is
`STAT_BUB`. -/
theorem sim_run_pipe_loop_succ {M : Type} (env : isa_env M) (ds : Int → mem_status_t)
    (mi mc : Int) (fuel : Nat) (S : sim_state M) (ic cc : Int) (rs : stat_t) :
    sim_run_pipe_loop env ds mi mc (fuel + 1) S ic cc rs =
      if ic < mi ∧ cc < mc then
        (if (sim_step_pipe env (ds cc) S).2 = .STAT_AOK then
          sim_run_pipe_loop env ds mi mc fuel (sim_step_pipe env (ds cc) S).1 (ic + 1) (cc + 1)
            (sim_step_pipe env (ds cc) S).2
        else ((sim_step_pipe env (ds cc) S).1, ic + 1, cc, (sim_step_pipe env (ds cc) S).2))
      else (S, ic, cc, rs) := by
  have hb := sim_step_pipe_ne_bub env (ds cc) S
  simp only [sim_run_pipe_loop]
  split_ifs with h1 h2 h3 h4 <;> simp_all

/-- One iteration of the instrumented loop. -/
theorem sim_run_pipe_trace_succ {M : Type} (env : isa_env M) (ds : Int → mem_status_t)
    (mi mc : Int) (fuel : Nat) (S : sim_state M) (ic cc : Int) :
    sim_run_pipe_trace env ds mi mc (fuel + 1) S ic cc =
      if ic < mi ∧ cc < mc then
        (if (sim_step_pipe env (ds cc) S).2 = .STAT_AOK then
          (sim_step_pipe env (ds cc) S).2 ::
            sim_run_pipe_trace env ds mi mc fuel (sim_step_pipe env (ds cc) S).1 (ic + 1)
              (cc + 1)
        else [(sim_step_pipe env (ds cc) S).2])
      else [] := by
  have hb := sim_step_pipe_ne_bub env (ds cc) S
  simp only [sim_run_pipe_trace]
  split_ifs with h1 h2 h3 h4 <;> simp_all

/-- Fuel beyond `max_cycle - ccount` is never used: the loop leaves by its own tests. -/
theorem sim_run_pipe_loop_fuel {M : Type} (env : isa_env M) (ds : Int → mem_status_t)
    (mi mc : Int) (fuel extra : Nat) (S : sim_state M) (ic cc : Int) (rs : stat_t)
    (h : (mc - cc).toNat ≤ fuel) :
    sim_run_pipe_loop env ds mi mc (fuel + extra) S ic cc rs =
      sim_run_pipe_loop env ds mi mc fuel S ic cc rs ∧
    sim_run_pipe_trace env ds mi mc (fuel + extra) S ic cc =
      sim_run_pipe_trace env ds mi mc fuel S ic cc := by
  induction fuel generalizing S ic cc rs with
  | zero =>
    have hcc : ¬ (ic < mi ∧ cc < mc) := by omega
    cases extra with
    | zero => exact ⟨rfl, rfl⟩
    | succ e =>
      rw [Nat.zero_add, sim_run_pipe_loop_succ, sim_run_pipe_trace_succ, if_neg hcc,
        if_neg hcc]
      exact ⟨rfl, rfl⟩
  | succ n ih =>
    rw [Nat.add_right_comm, sim_run_pipe_loop_succ, sim_run_pipe_trace_succ,
      sim_run_pipe_loop_succ, sim_run_pipe_trace_succ]
    by_cases hcc : ic < mi ∧ cc < mc
    · rw [if_pos hcc, if_pos hcc, if_pos hcc, if_pos hcc]
      by_cases hs : (sim_step_pipe env (ds cc) S).2 = .STAT_AOK
      · rw [if_pos hs, if_pos hs, if_pos hs, if_pos hs]
        obtain ⟨e1, e2⟩ := ih (sim_step_pipe env (ds cc) S).1 (ic + 1) (cc + 1)
          (sim_step_pipe env (ds cc) S).2 (by omega)
        rw [e1, e2]
        exact ⟨rfl, rfl⟩
      · rw [if_neg hs, if_neg hs, if_neg hs, if_neg hs]
        exact ⟨rfl, rfl⟩
    · rw [if_neg hcc, if_neg hcc, if_neg hcc, if_neg hcc]
      exact ⟨rfl, rfl⟩

/-- What the loop of `sim_run_pipe` returns, in terms of the statuses of its calls of
`sim_step_pipe`. -/
theorem sim_run_pipe_loop_trace {M : Type} (env : isa_env M) (ds : Int → mem_status_t)
    (mi mc : Int) (fuel : Nat) (S : sim_state M) (ic cc : Int) (rs : stat_t) :
    (sim_run_pipe_loop env ds mi mc fuel S ic cc rs).2.1 =
      ic + (sim_run_pipe_trace env ds mi mc fuel S ic cc).length ∧
    (sim_run_pipe_loop env ds mi mc fuel S ic cc rs).2.2.2 =
      (sim_run_pipe_trace env ds mi mc fuel S ic cc).getLast?.getD rs ∧
    ((sim_run_pipe_trace env ds mi mc fuel S ic cc).length : Int) ≤ max 0 (min (mi - ic) (mc - cc)) ∧
    (∀ s ∈ (sim_run_pipe_trace env ds mi mc fuel S ic cc).dropLast, s = .STAT_AOK) := by
  induction fuel generalizing S ic cc rs with
  | zero =>
    simp [sim_run_pipe_loop, sim_run_pipe_trace]
  | succ n ih =>
    rw [sim_run_pipe_loop_succ, sim_run_pipe_trace_succ]
    by_cases hcc : ic < mi ∧ cc < mc
    · rw [if_pos hcc, if_pos hcc]
      by_cases hs : (sim_step_pipe env (ds cc) S).2 = .STAT_AOK
      · rw [if_pos hs, if_pos hs]
        obtain ⟨e1, e2, e3, e4⟩ := ih (sim_step_pipe env (ds cc) S).1 (ic + 1) (cc + 1)
          (sim_step_pipe env (ds cc) S).2
        refine ⟨?_, ?_, ?_, ?_⟩
        · rw [e1, List.length_cons]
          push_cast
          ring
        · rw [e2]
          cases ht : sim_run_pipe_trace env ds mi mc n (sim_step_pipe env (ds cc) S).1
              (ic + 1) (cc + 1) with
          | nil => simp
          | cons a l =>
            rw [List.getLast?_cons_cons, List.getLast?_cons]
            rfl
        · rw [List.length_cons]
          push_cast
          omega
        · intro s hmem
          cases ht : sim_run_pipe_trace env ds mi mc n (sim_step_pipe env (ds cc) S).1
              (ic + 1) (cc + 1) with
          | nil => simp [ht] at hmem
          | cons a l =>
            rw [ht, List.dropLast_cons₂, List.mem_cons] at hmem
            rcases hmem with hmem | hmem
            · rw [hmem, hs]
            · exact e4 s (by rw [ht]; exact hmem)
      · rw [if_neg hs, if_neg hs]
        refine ⟨by simp, by simp, ?_, by simp⟩
        simp only [List.length_singleton]
        push_cast
        omega
    · rw [if_neg hcc, if_neg hcc]
      refine ⟨by simp, by simp, ?_, by simp⟩
      simp

/-- Why the loop of `sim_run_pipe` stops, given enough fuel. -/
theorem sim_run_pipe_stop {M : Type} (env : isa_env M) (ds : Int → mem_status_t)
    (mi mc : Int) (fuel : Nat) (S : sim_state M) (ic cc : Int)
    (h : (mc - cc).toNat ≤ fuel) (hi : ic ≤ mi) (hc : cc ≤ mc) :
    ic + (sim_run_pipe_trace env ds mi mc fuel S ic cc).length = mi ∨
    cc + (sim_run_pipe_trace env ds mi mc fuel S ic cc).length = mc ∨
    ∃ s, (sim_run_pipe_trace env ds mi mc fuel S ic cc).getLast? = some s ∧
      s ≠ .STAT_AOK ∧ s ≠ .STAT_BUB := by
  induction fuel generalizing S ic cc with
  | zero =>
    right; left
    simp only [sim_run_pipe_trace, List.length_nil]
    omega
  | succ n ih =>
    rw [sim_run_pipe_trace_succ]
    by_cases hcc : ic < mi ∧ cc < mc
    · rw [if_pos hcc]
      by_cases hs : (sim_step_pipe env (ds cc) S).2 = .STAT_AOK
      · rw [if_pos hs]
        rcases ih (sim_step_pipe env (ds cc) S).1 (ic + 1) (cc + 1) (by omega) (by omega)
          (by omega) with h1 | h1 | ⟨s, h1, h2⟩
        · left
          rw [List.length_cons]
          push_cast
          omega
        · right; left
          rw [List.length_cons]
          push_cast
          omega
        · right; right
          refine ⟨s, ?_, h2⟩
          cases ht : sim_run_pipe_trace env ds mi mc n (sim_step_pipe env (ds cc) S).1
              (ic + 1) (cc + 1) with
          | nil => simp [ht] at h1
          | cons a l =>
            rw [ht] at h1
            rw [List.getLast?_cons_cons]
            exact h1
      · rw [if_neg hs]
        right; right
        exact ⟨_, rfl, hs, sim_step_pipe_ne_bub env (ds cc) S⟩
    · rw [if_neg hcc]
      simp only [List.length_nil]
      omega

end Pcsim

namespace Cache

/-! ## Lookup: frame of `check_hit` -/

/-- The line returned by the loop of `get_line` is the first valid line with the tag. -/
theorem get_line_loop_first (st : cache_state) (k tag n i j : Nat)
    (h : get_line_loop st k tag n i = some (some j)) :
    i ≤ j ∧ ∀ i' l, i ≤ i' → i' < j → line_at st k i' = some l →
      ¬ (l.valid = 1 ∧ l.tag = tag) := by
  induction n generalizing i with
  | zero => simp [get_line_loop] at h
  | succ n ih =>
    unfold get_line_loop at h
    cases hl : line_at st k i with
    | none => simp [hl] at h
    | some l0 =>
      simp only [hl, Option.bind_eq_bind, Option.some_bind] at h
      by_cases hc : l0.valid = 1 ∧ l0.tag = tag
      · simp only [hc, and_self, if_true, Option.some.injEq] at h
        subst h
        exact ⟨le_refl _, fun i' l h1 h2 => by omega⟩
      · simp only [hc, if_false] at h
        obtain ⟨h1, h2⟩ := ih (i + 1) h
        refine ⟨by omega, ?_⟩
        intro i' l h3 h4 h5
        by_cases e : i' = i
        · subst e
          rw [hl] at h5
          cases h5
          exact hc
        · exact h2 i' l (by omega) h4 h5

/-- The two outcomes of `check_hit` on a set that holds its `E` lines. -/
theorem check_hit_core (st : cache_state) (pos k tag : Nat) (lines : List cache_line_t)
    (hs : get_set st.s st.b pos = some k) (ht : get_tag st.s st.b pos = some tag)
    (hk : st.sets[k]? = some lines) (hE : lines.length = st.E.toNat) :
    ((∃ (j : Nat) (l : cache_line_t), lines[j]? = some l ∧ l.valid = 1 ∧ l.tag = tag) →
      ∃ (j : Nat) (l : cache_line_t), lines[j]? = some l ∧ l.valid = 1 ∧ l.tag = tag ∧
        (∀ (i : Nat) (li : cache_line_t), i < j → lines[i]? = some li → ¬ (li.valid = 1 ∧ li.tag = tag)) ∧
        check_hit st pos = some ({ st with
          hit_count := st.hit_count + 1,
          counter := incr64 st.counter,
          sets := st.sets.set k (lines.set j { l with lru := incr64 st.counter }) }, true)) ∧
    ((¬ ∃ (j : Nat) (l : cache_line_t), lines[j]? = some l ∧ l.valid = 1 ∧ l.tag = tag) →
      check_hit st pos = some ({ st with miss_count := st.miss_count + 1 }, false)) := by
  obtain ⟨r, hr⟩ := get_line_loop_total st k tag lines hk st.E.toNat 0 (by omega)
  have hg : get_line st pos = some (r.map (fun i => (k, i))) := by
    simp [get_line, hs, ht, hr]
  constructor
  · rintro ⟨j0, l0, h1, h2, h3⟩
    cases r with
    | none =>
      exfalso
      have hj0 : j0 < lines.length := lt_length_of_getElem_opt _ _ _ h1
      exact get_line_loop_none st k tag _ 0 hr j0 l0 (Nat.zero_le _) (by omega)
        (by rw [line_at_eq st k lines hk]; exact h1) ⟨h2, h3⟩
    | some j =>
      obtain ⟨l, a1, a2, a3⟩ := get_line_loop_some st k tag _ _ j hr
      obtain ⟨_, a4⟩ := get_line_loop_first st k tag _ _ j hr
      rw [line_at_eq st k lines hk] at a1
      refine ⟨j, l, a1, a2, a3, ?_, check_hit_hit st pos k j lines l hg hk a1⟩
      intro i li hi hli
      exact a4 i li (Nat.zero_le _) hi (by rw [line_at_eq st k lines hk]; exact hli)
  · intro hno
    cases r with
    | none => exact check_hit_miss st pos hg
    | some j =>
      exfalso
      obtain ⟨l, a1, a2, a3⟩ := get_line_loop_some st k tag _ _ j hr
      rw [line_at_eq st k lines hk] at a1
      exact hno ⟨j, l, a1, a2, a3⟩

/-- C28: let set `get_set(pos)` hold its `E` lines. If some valid line of the set has tag
`get_tag(pos)`, `check_hit` returns `true` and changes the state in exactly three places:
`hit_count` and `counter` grow by one (`counter` as an `unsigned long long`) and the `lru`
of the first such line becomes the new counter value; every other line and every tag, valid
bit and other counter is as before. Otherwise it returns `false`, `miss_count` grows by one
and nothing else changes. -/
theorem check_hit_frame (st : cache_state) (pos k tag : Nat) (lines : List cache_line_t)
    (hs : get_set st.s st.b pos = some k) (ht : get_tag st.s st.b pos = some tag)
    (hk : st.sets[k]? = some lines) (hE : lines.length = st.E.toNat) :
    ((∃ (j : Nat) (l : cache_line_t), lines[j]? = some l ∧ l.valid = 1 ∧ l.tag = tag) →
      ∃ (j : Nat) (l : cache_line_t), lines[j]? = some l ∧ l.valid = 1 ∧ l.tag = tag ∧
        (∀ (i : Nat) (li : cache_line_t), i < j → lines[i]? = some li → ¬ (li.valid = 1 ∧ li.tag = tag)) ∧
        check_hit st pos = some ({ st with
          hit_count := st.hit_count + 1,
          counter := incr64 st.counter,
          sets := st.sets.set k (lines.set j { l with lru := incr64 st.counter }) }, true)) ∧
    ((¬ ∃ (j : Nat) (l : cache_line_t), lines[j]? = some l ∧ l.valid = 1 ∧ l.tag = tag) →
      check_hit st pos = some ({ st with miss_count := st.miss_count + 1 }, false)) :=
  check_hit_core st pos k tag lines hs ht hk hE

/-- C28 witness: address 2 (set 0, tag 1) hits the valid line of set 0, whose stamp becomes
the new counter value 2; address 4 (set 0, tag 2) misses. -/
theorem check_hit_frame_witness :
    check_hit ⟨1, 0, 1, 2, 1, 1, 2, 0, 0, [[⟨1, 1, 1⟩], [⟨0, 0, 0⟩]]⟩ 4 =
      some (⟨1, 0, 1, 2, 1, 1, 3, 0, 0, [[⟨1, 1, 1⟩], [⟨0, 0, 0⟩]]⟩, false) ∧
    (check_hit ⟨1, 0, 1, 2, 1, 1, 2, 0, 0, [[⟨1, 1, 1⟩], [⟨0, 0, 0⟩]]⟩ 2).map Prod.snd =
      some true := by
  have hm := (check_hit_frame ⟨1, 0, 1, 2, 1, 1, 2, 0, 0, [[⟨1, 1, 1⟩], [⟨0, 0, 0⟩]]⟩ 4 0 2
    [⟨1, 1, 1⟩] (by decide) (by decide) rfl (by decide)).2 (by
      rintro ⟨j, l, h1, _, h3⟩
      cases j with
      | zero =>
        simp only [List.getElem?_cons_zero, Option.some.injEq] at h1
        rw [← h1] at h3
        exact absurd h3 (by decide)
      | succ n => simp at h1)
  obtain ⟨j, l, _, _, _, _, hh⟩ :=
    (check_hit_frame ⟨1, 0, 1, 2, 1, 1, 2, 0, 0, [[⟨1, 1, 1⟩], [⟨0, 0, 0⟩]]⟩ 2 0 1
      [⟨1, 1, 1⟩] (by decide) (by decide) rfl (by decide)).1 ⟨0, ⟨1, 1, 1⟩, rfl, rfl, rfl⟩
  exact ⟨hm, by rw [hh]; rfl⟩

end Cache

namespace Ssim

/-! ## The sequential simulator: when the state is updated -/

/-- The property "`pc`, `cc` and the register file are those of `S`" holds of a conditional
when it holds of both branches. -/
theorem frame_ite {M : Type} (S : sim_state M) (c : Prop) [Decidable c] (a b : sim_state M)
    (ha : a.pc = S.pc ∧ a.cc = S.cc ∧ a.reg = S.reg)
    (hb : b.pc = S.pc ∧ b.cc = S.cc ∧ b.reg = S.reg) :
    (if c then a else b).pc = S.pc ∧ (if c then a else b).cc = S.cc ∧
      (if c then a else b).reg = S.reg := by
  split <;> assumption

/-- The same for a conditional that also yields a flag. -/
theorem frame_ite_fst {M : Type} (S : sim_state M) (c : Prop) [Decidable c]
    (a b : sim_state M × Bool)
    (ha : a.1.pc = S.pc ∧ a.1.cc = S.cc ∧ a.1.reg = S.reg)
    (hb : b.1.pc = S.pc ∧ b.1.cc = S.cc ∧ b.1.reg = S.reg) :
    (if c then a else b).1.pc = S.pc ∧ (if c then a else b).1.cc = S.cc ∧
      (if c then a else b).1.reg = S.reg := by
  split <;> assumption

/-- The Fetch stage writes neither `pc`, `cc` nor the register file. -/
theorem fetch_stage_frame {M : Type} (env : isa_env M) (tempB : Nat) (S : sim_state M) :
    (fetch_stage env tempB S).pc = S.pc ∧ (fetch_stage env tempB S).cc = S.cc ∧
    (fetch_stage env tempB S).reg = S.reg := by
  unfold fetch_stage
  repeat' (first | exact ⟨rfl, rfl, rfl⟩ | apply frame_ite)

/-- The Decode stage writes neither `pc`, `cc` nor the register file. -/
theorem decode_stage_frame {M : Type} (env : isa_env M) (S : sim_state M) :
    (decode_stage env S).pc = S.pc ∧ (decode_stage env S).cc = S.cc ∧
    (decode_stage env S).reg = S.reg := by
  unfold decode_stage
  repeat' (first | exact ⟨rfl, rfl, rfl⟩ | apply frame_ite)

/-- The Execute stage writes neither `pc`, `cc` nor the register file. -/
theorem execute_stage_frame {M : Type} (env : isa_env M) (S : sim_state M) :
    (execute_stage env S).1.pc = S.pc ∧ (execute_stage env S).1.cc = S.cc ∧
    (execute_stage env S).1.reg = S.reg := by
  unfold execute_stage
  repeat' (first | exact ⟨rfl, rfl, rfl⟩ | apply frame_ite_fst)

/-- The Memory stage writes neither `pc`, `cc` nor the register file. -/
theorem memory_stage_frame {M : Type} (env : isa_env M) (S : sim_state M) :
    (memory_stage env S).pc = S.pc ∧ (memory_stage env S).cc = S.cc ∧
    (memory_stage env S).reg = S.reg := by
  unfold memory_stage
  repeat' (first | exact ⟨rfl, rfl, rfl⟩ | apply frame_ite)

/-- The Program Counter Update writes `pc_in` but neither `pc`, `cc` nor the register
file. -/
theorem pc_update_frame {M : Type} (env : isa_env M) (cnd : Bool) (S : sim_state M) :
    (pc_update env cnd S).pc = S.pc ∧ (pc_update env cnd S).cc = S.cc ∧
    (pc_update env cnd S).reg = S.reg := by
  unfold pc_update
  repeat' (first | exact ⟨rfl, rfl, rfl⟩ | apply frame_ite)

/-- The five stages of `sim_step` write neither `pc`, `cc` nor the register file. -/
theorem stages_frame {M : Type} (env : isa_env M) (tempB : Nat) (S : sim_state M) :
    (stages env tempB S).pc = S.pc ∧ (stages env tempB S).cc = S.cc ∧
    (stages env tempB S).reg = S.reg := by
  unfold stages
  obtain ⟨a1, a2, a3⟩ := fetch_stage_frame env tempB S
  obtain ⟨b1, b2, b3⟩ := decode_stage_frame env (fetch_stage env tempB S)
  obtain ⟨c1, c2, c3⟩ := execute_stage_frame env (decode_stage env (fetch_stage env tempB S))
  obtain ⟨d1, d2, d3⟩ := memory_stage_frame env
    (execute_stage env (decode_stage env (fetch_stage env tempB S))).1
  obtain ⟨e1, e2, e3⟩ := pc_update_frame env
    (execute_stage env (decode_stage env (fetch_stage env tempB S))).2
    (memory_stage env (execute_stage env (decode_stage env (fetch_stage env tempB S))).1)
  exact ⟨by rw [e1, d1, c1, b1, a1], by rw [e2, d2, c2, b2, a2], by rw [e3, d3, c3, b3, a3]⟩

/-- C27 (failing input): when `sim_step` returns, `pc`, `cc` and the register file hold
what was pending before the call (`pc_in`, `cc_in` and the register writes of the previous
instruction), whatever instruction the call executed; the effects of that instruction are
only pending. From the reset state the first `sim_step` executes `irmovq $5, %rax` (status
`STAT_AOK`, pending `destE = %rax`, `vale = 5`, `pc_in = 10`) and returns with `%rax = 0` and
`pc = 0`; `sim_run(1)` ends in that state, and `sim_run(2)`, which also executes the `addq`,
ends with `%rax = 5`, `pc = 10` and `cc` unchanged, the state after one instruction. -/
theorem sim_step_state_lags {M : Type} (env : isa_env M) (tempB : Nat) (S : sim_state M) :
    ((sim_step env tempB S).1.pc = S.pc_in ∧ (sim_step env tempB S).1.cc = S.cc_in ∧
      (sim_step env tempB S).1.reg = (update_state env S).reg) ∧
    ((sim_step toy_isa 0 (reset_state toy_program)).2 = .STAT_AOK ∧
      (sim_step toy_isa 0 (reset_state toy_program)).1.icode = 3 ∧
      (sim_step toy_isa 0 (reset_state toy_program)).1.destE = 0 ∧
      (sim_step toy_isa 0 (reset_state toy_program)).1.vale = 5 ∧
      (sim_step toy_isa 0 (reset_state toy_program)).1.pc_in = 10 ∧
      (sim_step toy_isa 0 (reset_state toy_program)).1.reg 0 = 0 ∧
      (sim_step toy_isa 0 (reset_state toy_program)).1.pc = 0) ∧
    ((sim_run toy_isa 0 1 (reset_state toy_program)).2.1 = 1 ∧
      (sim_run toy_isa 0 1 (reset_state toy_program)).1.reg 0 = 0 ∧
      (sim_run toy_isa 0 1 (reset_state toy_program)).1.pc = 0) ∧
    ((sim_run toy_isa 0 2 (reset_state toy_program)).2.1 = 2 ∧
      (sim_run toy_isa 0 2 (reset_state toy_program)).1.icode = 6 ∧
      (sim_run toy_isa 0 2 (reset_state toy_program)).1.reg 0 = 5 ∧
      (sim_run toy_isa 0 2 (reset_state toy_program)).1.pc = 10 ∧
      (sim_run toy_isa 0 2 (reset_state toy_program)).1.cc = 0 ∧
      (sim_run toy_isa 0 2 (reset_state toy_program)).1.cc_in = 1 ∧
      (sim_run toy_isa 0 2 (reset_state toy_program)).1.vale = 10) := by
  refine ⟨?_, by decide, by decide, by decide⟩
  obtain ⟨a1, a2, a3⟩ := stages_frame env tempB (update_state env
    { S with status := .STAT_AOK, imem_error := false, dmem_error := false })
  exact ⟨a1, a2, a3⟩

end Ssim

namespace Pcsim

/-! ## A program of arithmetic instructions -/

/-- C25 (counterexample): the program of the single instruction `addq %rcx, %rdx` in a
memory that is zero elsewhere, run from the reset state with the data memory ready. In
cycle 5 the `addq` is in `mem_wb_curr`, as claimed, but the `halt` that was fetched after it
is in `ex_mem_curr` and `do_stall_check` gives the ex_mem latch the op `P_BUBBLE`. -/
theorem alu_program_then_halt_bubbles :
    (sim_steps y86_env (fun _ => .other 0) 5 alu_then_halt).mem_wb_state.current.icode =
      .I_ALU ∧
    (sim_steps y86_env (fun _ => .other 0) 5 alu_then_halt).mem_wb_state.current.stage_pc =
      0 ∧
    (sim_steps y86_env (fun _ => .other 0) 5 alu_then_halt).ex_mem_state.current.icode =
      .I_HALT ∧
    (sim_steps y86_env (fun _ => .other 0) 5 alu_then_halt).ex_mem_state.op = .P_BUBBLE := by
  decide

end Pcsim

namespace Pcsim

/-- The op of the ex_mem latch at the end of a cycle, from the latches of that cycle. -/
theorem cycle_op_mem {M : Type} (env : isa_env M) (ds : mem_status_t) (S S1 : sim_state M)
    (h : S1 = (sim_step_pipe env ds S).1) :
    S1.ex_mem_state.op =
      (if (decide (ds = .IN_FLIGHT) || decide (ds = .ERROR)) = true then
        (if (is_exception S1.mem_wb_state.next.status ||
            is_exception S1.mem_wb_state.current.status) = true then .P_ERROR else .P_STALL)
      else
        (if (is_exception S1.mem_wb_state.next.status ||
            is_exception S1.mem_wb_state.current.status) = true then .P_BUBBLE
          else .P_LOAD)) := by
  obtain ⟨_, _, _, a4, a5, _⟩ := sim_step_pipe_spec env ds S S1 _ rfl h
  obtain ⟨_, _, _, o4, _⟩ :=
    do_stall_check_ops ds (do_stages env (error_checking (update_pipes_bank S)))
  rw [a4, a5, o4, pipe_cntl_bool]
  rfl

/-- An instruction that does not write memory leaves the memory as it is. -/
theorem do_mem_stage_mem {M : Type} (env : isa_env M) (S : sim_state M)
    (h : ¬ (S.ex_mem_state.current.icode = .I_RMMOVQ ∨
      S.ex_mem_state.current.icode = .I_PUSHQ ∨ S.ex_mem_state.current.icode = .I_CALL)) :
    (do_mem_stage env S).mem = S.mem := by
  simp [do_mem_stage, h]

/-- At the end of a cycle the `next` buffers carry on the status and the fetch address of
the instruction of the stage before; the Memory stage changes the status only for an
instruction that reads memory. -/
theorem cycle_tags {M : Type} (env : isa_env M) (ds : mem_status_t) (S S1 : sim_state M)
    (h : S1 = (sim_step_pipe env ds S).1) :
    S1.id_ex_state.next.status = S1.if_id_state.current.status ∧
    S1.id_ex_state.next.stage_pc = S1.if_id_state.current.stage_pc ∧
    S1.ex_mem_state.next.status = S1.id_ex_state.current.status ∧
    S1.ex_mem_state.next.stage_pc = S1.id_ex_state.current.stage_pc ∧
    S1.mem_wb_state.next.stage_pc = S1.ex_mem_state.current.stage_pc ∧
    (¬ (S1.ex_mem_state.current.icode = .I_MRMOVQ ∨ S1.ex_mem_state.current.icode = .I_POPQ ∨
        S1.ex_mem_state.current.icode = .I_RET) →
      S1.mem_wb_state.next.status = S1.ex_mem_state.current.status) ∧
    (¬ (S1.ex_mem_state.current.icode = .I_RMMOVQ ∨
        S1.ex_mem_state.current.icode = .I_PUSHQ ∨
        S1.ex_mem_state.current.icode = .I_CALL) → S1.mem = S.mem) := by
  obtain ⟨_, a2, a3, a4, a5, _⟩ := sim_step_pipe_spec env ds S S1 _ rfl h
  obtain ⟨_, _, hm, _, _⟩ := perf_monitor_rest
    (do_stall_check ds (do_stages env (error_checking (update_pipes_bank S))))
  rw [a2, a3, a4, a5]
  refine ⟨rfl, rfl, rfl, rfl, rfl, ?_, ?_⟩
  · intro hr
    have hs := do_mem_stage_status_eq env
      (do_wb_stage env (error_checking (update_pipes_bank S)))
    rw [if_neg (fun hc => hr hc.1)] at hs
    exact hs
  · intro hw
    rw [h]
    exact hm.trans (do_mem_stage_mem env
      (do_wb_stage env (error_checking (update_pipes_bank S))) hw)

/-- A fetch whose byte decodes to `I_ALU`: the instruction has status `STAT_AOK` and is two
bytes long. -/
theorem do_if_stage_alu {M : Type} (env : isa_env M) (S : sim_state M)
    (h1 : (env.get_byte_val S.mem (select_pc S) env.HPACK_NOP).1 = true)
    (h2 : env.GET_ICODE (env.get_byte_val S.mem (select_pc S) env.HPACK_NOP).2 = .I_ALU) :
    (do_if_stage env S).if_id_state.next.icode = .I_ALU ∧
    (do_if_stage env S).if_id_state.next.status = .STAT_AOK ∧
    (do_if_stage env S).if_id_state.next.stage_pc = select_pc S ∧
    (do_if_stage env S).pc_state.next.pc =
      ((select_pc S + 1) % 2 ^ 64 + 1) % 2 ^ 64 := by
  refine ⟨h2, ?_, rfl, ?_⟩
  · simp [do_if_stage, h1, h2]
  · simp [do_if_stage, h2]

/-- The fetch of a cycle, from the state at its end, when the byte decodes to `I_ALU`. -/
theorem cycle_fetch_alu {M : Type} (env : isa_env M) (ds : mem_status_t) (S S1 : sim_state M)
    (h : S1 = (sim_step_pipe env ds S).1)
    (h1 : (env.get_byte_val S1.mem (select_pc S1) env.HPACK_NOP).1 = true)
    (h2 : env.GET_ICODE (env.get_byte_val S1.mem (select_pc S1) env.HPACK_NOP).2 = .I_ALU) :
    S1.if_id_state.next.icode = .I_ALU ∧ S1.if_id_state.next.status = .STAT_AOK ∧
    S1.if_id_state.next.stage_pc = select_pc S1 ∧
    S1.pc_state.next.pc = ((select_pc S1 + 1) % 2 ^ 64 + 1) % 2 ^ 64 := by
  obtain ⟨a1, a2, _, _, _, _⟩ := sim_step_pipe_spec env ds S S1 _ rfl h
  obtain ⟨_, _, hm, _, _⟩ := perf_monitor_rest
    (do_stall_check ds (do_stages env (error_checking (update_pipes_bank S))))
  obtain ⟨_, _, _, hf⟩ := cycle_next env ds S S1 h
  have hmem : S1.mem = (do_id_stage env (do_ex_stage env (do_mem_stage env (do_wb_stage env
      (error_checking (update_pipes_bank S)))))).mem := by
    rw [h]
    exact hm
  have hsel : select_pc S1 = select_pc (do_id_stage env (do_ex_stage env (do_mem_stage env
      (do_wb_stage env (error_checking (update_pipes_bank S)))))) := by
    rw [← hf, h, (sim_step_pipe_f_pc env ds S).1]
    rfl
  rw [hmem, hsel] at h1 h2
  obtain ⟨b1, b2, b3, b4⟩ := do_if_stage_alu env _ h1 h2
  rw [a1, a2, hsel]
  exact ⟨b1, b2, b3, b4⟩

/-- A position within or before the program holds `I_ALU` or a bubble, without exception
status. -/
theorem alu_slot_quiet {N : Nat} {j : Int} {i : itype_t} {s : stat_t} {p : Nat}
    (h : alu_slot N j i s p) (hj : j ≤ N) :
    (i = .I_NOP ∨ i = .I_ALU) ∧ is_exception s = false := by
  by_cases h0 : j ≤ 0
  · obtain ⟨e1, e2⟩ := h.1 h0
    exact ⟨Or.inl e1, by rw [e2]; rfl⟩
  · obtain ⟨e1, e2, _⟩ := h.2 (by omega) hj
    exact ⟨Or.inr e1, by rw [e2]; rfl⟩

/-- Nothing is said about a position after the program. -/
theorem alu_slot_after {N : Nat} {j : Int} (i : itype_t) (s : stat_t) (p : Nat)
    (hj : ¬ j ≤ N) : alu_slot N j i s p :=
  ⟨fun h0 => absurd (by omega : j ≤ N) hj, fun _ h => absurd h hj⟩

/-- `I_NOP` and `I_ALU` are none of the codes that the hazard tests and the Memory stage
look for. -/
theorem quiet_icode {i : itype_t} (h : i = .I_NOP ∨ i = .I_ALU) :
    i ≠ .I_MRMOVQ ∧ i ≠ .I_POPQ ∧ i ≠ .I_JMP ∧ i ≠ .I_RET ∧ i ≠ .I_RMMOVQ ∧ i ≠ .I_PUSHQ ∧
      i ≠ .I_CALL := by
  rcases h with h | h <;> rw [h] <;> decide

/-- Commit of a latch whose `next` buffer holds position `j`: when the op is `P_LOAD` for a
position within the program, `current` holds position `j` afterwards. -/
theorem alu_slot_commit {α : Type} (ic : α → itype_t) (st : α → stat_t) (sp : α → Nat)
    (f : α → α) (p : pipe_ele α) (N : Nat) (j : Int) (hop : j ≤ N → p.op = .P_LOAD)
    (hs : alu_slot N j (ic p.next) (st p.next) (sp p.next)) :
    alu_slot N j (ic (error_check f (update_pipe p)).current)
      (st (error_check f (update_pipe p)).current)
      (sp (error_check f (update_pipe p)).current) := by
  by_cases hj : j ≤ N
  · rw [(commit_spec f p).2.2.1 (hop hj)]
    exact hs
  · exact alu_slot_after _ _ _ hj

end Pcsim

namespace Pcsim

/-- One cycle keeps the invariant of a program of `I_ALU` instructions. -/
theorem alu_inv_step {M : Type} (env : isa_env M) (ds : mem_status_t) (N : Nat) (mem0 : M)
    (c : Nat) (S S1 : sim_state M) (h : S1 = (sim_step_pipe env ds S).1)
    (hfit : 2 * N < 2 ^ 64)
    (hprog : ∀ j, j < N → (env.get_byte_val mem0 (2 * j) env.HPACK_NOP).1 = true ∧
      env.GET_ICODE (env.get_byte_val mem0 (2 * j) env.HPACK_NOP).2 = .I_ALU)
    (hready : ds ≠ .IN_FLIGHT ∧ ds ≠ .ERROR)
    (hinv : alu_inv N mem0 c S) : alu_inv N mem0 (c + 1) S1 := by
  obtain ⟨⟨v1, v2, v3, v4, v5⟩, ⟨s1, _, s3, _, s5, _, s7, _⟩, hmp, hop12, hop3, hop4, hop5⟩ :=
    hinv
  obtain ⟨w1, w2, w3, w4, w5⟩ := sim_step_pipe_bubble_vals env ds S
  rw [← h] at w1 w2 w3 w4 w5
  obtain ⟨c1, c2, c3, c4, c5⟩ := cycle_commit env ds S S1 h
  obtain ⟨p1, p2, p3, p5⟩ := cycle_ops env ds S S1 h
  have p4 := cycle_op_mem env ds S S1 h
  obtain ⟨n1, n2, n3, _⟩ := cycle_next env ds S S1 h
  obtain ⟨t1, t2, t3, t4, t5, t6, t7⟩ := cycle_tags env ds S S1 h
  -- the committed contents
  have kc2 : alu_slot N c S1.if_id_state.current.icode S1.if_id_state.current.status
      S1.if_id_state.current.stage_pc := by
    rw [c2]
    exact alu_slot_commit (fun x => x.icode) (fun x => x.status) (fun x => x.stage_pc) _
      S.if_id_state N c (fun hj => (hop12 (by omega)).2) s1
  have kc3 : alu_slot N (c - 1) S1.id_ex_state.current.icode S1.id_ex_state.current.status
      S1.id_ex_state.current.stage_pc := by
    rw [c3]
    exact alu_slot_commit (fun x => x.icode) (fun x => x.status) (fun x => x.stage_pc) _
      S.id_ex_state N (c - 1) (fun hj => hop3 (by omega)) s3
  have kc4 : alu_slot N (c - 2) S1.ex_mem_state.current.icode S1.ex_mem_state.current.status
      S1.ex_mem_state.current.stage_pc := by
    rw [c4]
    exact alu_slot_commit (fun x => x.icode) (fun x => x.status) (fun x => x.stage_pc) _
      S.ex_mem_state N (c - 2) (fun hj => hop4 (by omega)) s5
  have kc5 : alu_slot N (c - 3) S1.mem_wb_state.current.icode S1.mem_wb_state.current.status
      S1.mem_wb_state.current.stage_pc := by
    rw [c5]
    exact alu_slot_commit (fun x => x.icode) (fun x => x.status) (fun x => x.stage_pc) _
      S.mem_wb_state N (c - 3) (fun hj => hop5 (by omega)) s7
  -- what the stages hand on
  have kn3 : alu_slot N c S1.id_ex_state.next.icode S1.id_ex_state.next.status
      S1.id_ex_state.next.stage_pc := by
    rw [n3, t1, t2]
    exact kc2
  have kn4 : alu_slot N (c - 1) S1.ex_mem_state.next.icode S1.ex_mem_state.next.status
      S1.ex_mem_state.next.stage_pc := by
    rw [n2, t3, t4]
    exact kc3
  have kn5 : alu_slot N (c - 2) S1.mem_wb_state.next.icode S1.mem_wb_state.next.status
      S1.mem_wb_state.next.stage_pc := by
    by_cases hj : (c : Int) - 2 ≤ N
    · have qi := quiet_icode (alu_slot_quiet kc4 hj).1
      rw [n1, t5, t6 (fun hc => hc.elim qi.1 (fun hc => hc.elim qi.2.1 qi.2.2.2.1))]
      exact kc4
    · exact alu_slot_after _ _ _ hj
  -- the fetch
  have kn2 : alu_slot N ((c + 1 : Nat) : Int) S1.if_id_state.next.icode
      S1.if_id_state.next.status S1.if_id_state.next.stage_pc ∧
      (c + 1 ≤ N → S1.mem = mem0 ∧ S1.pc_state.next.pc = 2 * (c + 1)) := by
    by_cases hc : c + 1 ≤ N
    · have q4 := quiet_icode (alu_slot_quiet kc4 (by omega)).1
      have q5 := quiet_icode (alu_slot_quiet kc5 (by omega)).1
      have hmem : S1.mem = mem0 :=
        (t7 (fun hc => hc.elim q4.2.2.2.2.1 (fun hc => hc.elim q4.2.2.2.2.2.1
          q4.2.2.2.2.2.2))).trans (hmp (by omega)).1
      have hsel : select_pc S1 = 2 * c := by
        unfold select_pc
        rw [if_neg (fun hx => q4.2.2.1 hx.1), if_neg q5.2.2.2.1, c1,
          (commit_spec _ S.pc_state).2.2.1 (hop12 (by omega)).1]
        exact (hmp (by omega)).2
      obtain ⟨hp1, hp2⟩ := hprog c (by omega)
      obtain ⟨f1, f2, f3, f4⟩ := cycle_fetch_alu env ds S S1 h
        (by rw [hmem, hsel]; exact hp1) (by rw [hmem, hsel]; exact hp2)
      refine ⟨⟨fun h0 => absurd h0 (by omega), fun _ _ => ⟨f1, f2, ?_⟩⟩, fun _ => ⟨hmem, ?_⟩⟩
      · rw [f3, hsel]
        push_cast
        ring
      · rw [f4, hsel, Nat.mod_eq_of_lt (by omega), Nat.mod_eq_of_lt (by omega)]
        ring
    · exact ⟨alu_slot_after _ _ _ (by omega), fun hx => absurd hx hc⟩
  -- the hazard tests
  have hq3 : (c : Int) - 1 ≤ N → load_use S1 = false ∧ mispredict S1 = false := by
    intro hj
    have q3 := quiet_icode (alu_slot_quiet kc3 hj).1
    exact ⟨load_use_false_of_icode S1 q3.1 q3.2.1, mispredict_false_of_icode S1 q3.2.2.1⟩
  have e1 : ((c + 1 : Nat) : Int) - 1 = c := by omega
  have e2 : ((c + 1 : Nat) : Int) - 2 = (c : Int) - 1 := by omega
  have e3 : ((c + 1 : Nat) : Int) - 3 = (c : Int) - 2 := by omega
  have e4 : ((c + 1 : Nat) : Int) - 4 = (c : Int) - 3 := by omega
  unfold alu_inv
  rw [e1, e2, e3, e4]
  refine ⟨⟨w1.trans v1, w2.trans v2, w3.trans v3, w4.trans v4, w5.trans v5⟩,
    ⟨kn2.1, kc2, kn3, kc3, kn4, kc4, kn5, kc5⟩, kn2.2, ?_, ?_, ?_, ?_⟩
  · intro hc
    obtain ⟨hl, hm⟩ := hq3 (by omega)
    have q2 := quiet_icode (alu_slot_quiet kc2 (by omega)).1
    have q3 := quiet_icode (alu_slot_quiet kc3 (by omega)).1
    have q4 := quiet_icode (alu_slot_quiet kc4 (by omega)).1
    have hr : ret_hazard S1 = false := by
      simp [ret_hazard, q2.2.2.2.1, q3.2.2.2.1, q4.2.2.2.1]
    rw [p1, p2, hl, hm, hr]
    exact ⟨rfl, rfl⟩
  · intro hc
    obtain ⟨hl, hm⟩ := hq3 (by omega)
    rw [p3, hl, hm]
    rfl
  · intro hc
    have q5 := (alu_slot_quiet kn5 (by omega)).2
    have q6 := (alu_slot_quiet kc5 (by omega)).2
    rw [p4, q5, q6]
    simp [hready.1, hready.2]
  · intro hc
    rw [p5, (alu_slot_quiet kc5 (by omega)).2]
    rfl

/-- The invariant holds at the end of every cycle of a run from the reset pipeline. -/
theorem alu_inv_steps {M : Type} (env : isa_env M) (ds : Int → mem_status_t) (N : Nat)
    (S0 : sim_state M) (hfit : 2 * N < 2 ^ 64)
    (hreset : S0.pc_state = new_pipe bubble_pc ∧ S0.if_id_state = new_pipe bubble_if_id ∧
      S0.id_ex_state = new_pipe bubble_id_ex ∧ S0.ex_mem_state = new_pipe bubble_ex_mem ∧
      S0.mem_wb_state = new_pipe bubble_mem_wb)
    (hprog : ∀ j, j < N → (env.get_byte_val S0.mem (2 * j) env.HPACK_NOP).1 = true ∧
      env.GET_ICODE (env.get_byte_val S0.mem (2 * j) env.HPACK_NOP).2 = .I_ALU)
    (hready : ∀ n : Nat, ds n ≠ .IN_FLIGHT ∧ ds n ≠ .ERROR) (c : Nat) :
    alu_inv N S0.mem c (sim_steps env ds c S0) := by
  induction c with
  | zero =>
    obtain ⟨r1, r2, r3, r4, r5⟩ := hreset
    have b : ∀ j : Int, j ≤ 0 → alu_slot N j .I_NOP .STAT_BUB 0 :=
      fun j hj => ⟨fun _ => ⟨rfl, rfl⟩, fun h1 _ => absurd h1 (by omega)⟩
    unfold alu_inv sim_steps
    rw [r1, r2, r3, r4, r5]
    exact ⟨⟨rfl, rfl, rfl, rfl, rfl⟩,
      ⟨b _ (by omega), b _ (by omega), b _ (by omega), b _ (by omega), b _ (by omega),
        b _ (by omega), b _ (by omega), b _ (by omega)⟩,
      fun _ => ⟨rfl, rfl⟩, fun _ => ⟨rfl, rfl⟩, fun _ => rfl, fun _ => rfl, fun _ => rfl⟩
  | succ n ih =>
    exact alu_inv_step env (ds n) N S0.mem n _ _ rfl hfit hprog (hready n) ih

end Pcsim

namespace Pcsim

/-- C25 (amended): let a program of `N` `I_ALU` instructions lie at the addresses 0, 2, ...,
`2 (N - 1)` and be run from the reset pipeline with the data memory ready in every cycle.
Then (1) in every cycle from 1 to `N + 1` `do_stall_check` yields `P_LOAD` for all five
latches; after that it still yields `P_LOAD` for the id_ex latch up to cycle `N + 2`, for the
ex_mem latch up to cycle `N + 3` and for the mem_wb latch up to cycle `N + 4`, the ops of the
latches behind depending on what follows the program; (2) the `k`-th instruction (status
`STAT_AOK`, fetched at `2 (k - 1)`) is in `mem_wb_curr` in cycle `k + 4`; (3) in the cycles up
to 4 `mem_wb_curr` holds a bubble, and in no cycle before `k + 4` does it hold the `k`-th
instruction; the last one thus completes in exactly `N + 4` calls of `sim_step_pipe`. -/
theorem alu_program_timing {M : Type} (env : isa_env M) (ds : Int → mem_status_t) (N : Nat)
    (S0 : sim_state M) (hfit : 2 * N < 2 ^ 64)
    (hreset : S0.pc_state = new_pipe bubble_pc ∧ S0.if_id_state = new_pipe bubble_if_id ∧
      S0.id_ex_state = new_pipe bubble_id_ex ∧ S0.ex_mem_state = new_pipe bubble_ex_mem ∧
      S0.mem_wb_state = new_pipe bubble_mem_wb)
    (hprog : ∀ j, j < N → (env.get_byte_val S0.mem (2 * j) env.HPACK_NOP).1 = true ∧
      env.GET_ICODE (env.get_byte_val S0.mem (2 * j) env.HPACK_NOP).2 = .I_ALU)
    (hready : ∀ n : Nat, ds n ≠ .IN_FLIGHT ∧ ds n ≠ .ERROR) :
    (∀ c, c ≤ N + 1 →
      (sim_steps env ds c S0).pc_state.op = .P_LOAD ∧
      (sim_steps env ds c S0).if_id_state.op = .P_LOAD ∧
      (sim_steps env ds c S0).id_ex_state.op = .P_LOAD ∧
      (sim_steps env ds c S0).ex_mem_state.op = .P_LOAD ∧
      (sim_steps env ds c S0).mem_wb_state.op = .P_LOAD) ∧
    (∀ c, c ≤ N + 2 → (sim_steps env ds c S0).id_ex_state.op = .P_LOAD) ∧
    (∀ c, c ≤ N + 3 → (sim_steps env ds c S0).ex_mem_state.op = .P_LOAD) ∧
    (∀ c, c ≤ N + 4 → (sim_steps env ds c S0).mem_wb_state.op = .P_LOAD) ∧
    (∀ k, 1 ≤ k → k ≤ N →
      (sim_steps env ds (k + 4) S0).mem_wb_state.current.icode = .I_ALU ∧
      (sim_steps env ds (k + 4) S0).mem_wb_state.current.status = .STAT_AOK ∧
      (sim_steps env ds (k + 4) S0).mem_wb_state.current.stage_pc = 2 * (k - 1)) ∧
    (∀ c, c ≤ 4 →
      (sim_steps env ds c S0).mem_wb_state.current.icode = .I_NOP ∧
      (sim_steps env ds c S0).mem_wb_state.current.status = .STAT_BUB) ∧
    (∀ k c, 1 ≤ k → k ≤ N → c < k + 4 →
      ¬ ((sim_steps env ds c S0).mem_wb_state.current.status = .STAT_AOK ∧
        (sim_steps env ds c S0).mem_wb_state.current.stage_pc = 2 * (k - 1))) := by
  have inv := alu_inv_steps env ds N S0 hfit hreset hprog hready
  refine ⟨?_, ?_, ?_, ?_, ?_, ?_, ?_⟩
  · intro c hc
    obtain ⟨_, _, _, o12, o3, o4, o5⟩ := inv c
    exact ⟨(o12 hc).1, (o12 hc).2, o3 (by omega), o4 (by omega), o5 (by omega)⟩
  · intro c hc
    exact (inv c).2.2.2.2.1 hc
  · intro c hc
    exact (inv c).2.2.2.2.2.1 hc
  · intro c hc
    exact (inv c).2.2.2.2.2.2 hc
  · intro k h1 h2
    obtain ⟨_, ⟨_, _, _, _, _, _, _, s8⟩, _⟩ := inv (k + 4)
    obtain ⟨a1, a2, a3⟩ := s8.2 (by omega) (by omega)
    exact ⟨a1, a2, by omega⟩
  · intro c hc
    obtain ⟨_, ⟨_, _, _, _, _, _, _, s8⟩, _⟩ := inv c
    exact s8.1 (by omega)
  · intro k c hk1 hk2 hc hx
    obtain ⟨_, ⟨_, _, _, _, _, _, _, s8⟩, _⟩ := inv c
    by_cases h0 : c ≤ 4
    · have hb := (s8.1 (by omega)).2
      rw [hx.1] at hb
      exact absurd hb (by decide)
    · obtain ⟨_, _, a3⟩ := s8.2 (by omega) (by omega)
      have hx2 := hx.2
      omega

/-- C25 witness: the program of the single instruction `addq %rcx, %rdx` run from the reset
state: the instruction is in `mem_wb_curr` in cycle 5 and all five ops are `P_LOAD` at the
end of cycle 2. -/
theorem alu_program_timing_witness :
    (sim_steps y86_env (fun _ => .other 0) 5 alu_then_halt).mem_wb_state.current.icode =
      .I_ALU ∧
    (sim_steps y86_env (fun _ => .other 0) 2 alu_then_halt).pc_state.op = .P_LOAD :=
  let h := alu_program_timing y86_env (fun _ => .other 0) 1 alu_then_halt
    (by decide) ⟨rfl, rfl, rfl, rfl, rfl⟩
    (fun j hj => by
      have hj0 : j = 0 := by omega
      subst hj0
      exact ⟨rfl, rfl⟩)
    (fun _ => ⟨fun hx => (by cases hx), fun hx => (by cases hx)⟩)
  ⟨(h.2.2.2.2.1 1 (by decide) (by decide)).1, (h.1 2 (by decide)).1⟩

end Pcsim

namespace Pcsim

/-! ## The control error is confined to the ex_mem latch -/

/-- The op of the ex_mem latch is `P_ERROR` exactly when `mstall` and `mbubble` hold
together. -/
theorem do_stall_check_ex_mem_error {M : Type} (ds : mem_status_t) (S : sim_state M) :
    (do_stall_check ds S).ex_mem_state.op = .P_ERROR ↔
      ((ds = .IN_FLIGHT ∨ ds = .ERROR) ∧
        (is_exception S.mem_wb_state.next.status = true ∨
          is_exception S.mem_wb_state.current.status = true)) := by
  rw [(do_stall_check_ops ds S).2.2.2.1, pipe_cntl_bool]
  generalize is_exception S.mem_wb_state.next.status = a
  generalize is_exception S.mem_wb_state.current.status = b
  by_cases h1 : ds = .IN_FLIGHT <;> by_cases h2 : ds = .ERROR <;>
    cases a <;> cases b <;> simp [h1, h2]

/-- C35: for every latch contents and every value of `dmem_status`, `do_stall_check` never
assigns `P_ERROR` to the PC, if_id, id_ex or mem_wb latch: the PC latch gets `P_LOAD` or
`P_STALL` (its bubble signal is the constant 0), the id_ex latch `P_LOAD` or `P_BUBBLE` (its
stall signal is the constant 0), the mem_wb latch `P_LOAD` or `P_STALL` (its bubble signal is
the constant 0), and for the if_id latch the stall condition (load-use) excludes both bubble
conditions (mispredicted jump, return without load-use). Only the ex_mem latch can receive
`P_ERROR`, and it does exactly when `mstall` (`dmem_status` is `IN_FLIGHT` or `ERROR`) and
`mbubble` (an exception status in `mem_wb_next` or `mem_wb_curr`) hold together. -/
theorem do_stall_check_error_only_ex_mem {M : Type} (ds : mem_status_t) (S : sim_state M) :
    ((do_stall_check ds S).pc_state.op = .P_LOAD ∨
      (do_stall_check ds S).pc_state.op = .P_STALL) ∧
    (do_stall_check ds S).if_id_state.op ≠ .P_ERROR ∧
    ¬ (load_use S = true ∧ mispredict S = true) ∧
    ¬ (load_use S = true ∧ (!load_use S && ret_hazard S) = true) ∧
    ((do_stall_check ds S).id_ex_state.op = .P_LOAD ∨
      (do_stall_check ds S).id_ex_state.op = .P_BUBBLE) ∧
    ((do_stall_check ds S).mem_wb_state.op = .P_LOAD ∨
      (do_stall_check ds S).mem_wb_state.op = .P_STALL) ∧
    ((do_stall_check ds S).ex_mem_state.op = .P_ERROR ↔
      ((ds = .IN_FLIGHT ∨ ds = .ERROR) ∧
        (is_exception S.mem_wb_state.next.status = true ∨
          is_exception S.mem_wb_state.current.status = true))) := by
  obtain ⟨h1, _, h3, _, h5⟩ := do_stall_check_ops ds S
  refine ⟨?_, (do_stall_check_no_error ds S).2.1, ?_, ?_, ?_, ?_,
    do_stall_check_ex_mem_error ds S⟩
  · rw [h1]
    cases load_use S || ret_hazard S <;> simp
  · rintro ⟨a, b⟩
    rw [load_use_not_mispredict S a] at b
    exact absurd b (by decide)
  · rintro ⟨a, b⟩
    rw [a] at b
    simp at b
  · rw [h3]
    cases mispredict S || load_use S <;> simp
  · rw [h5]
    cases is_exception S.mem_wb_state.current.status <;> simp

end Pcsim

namespace Pcsim

/-! ## A bubble is a no-op in every stage -/

/-- The stage evaluations, the commit at the top of a cycle and `do_stall_check` leave the
counter `instructions` alone; the commit and the stall check leave the register file alone,
as do all stages but Writeback. -/
theorem stages_counter_frame {M : Type} (env : isa_env M) (ds : mem_status_t)
    (S : sim_state M) :
    (do_stall_check ds S).instructions = S.instructions ∧
    (do_stages env S).instructions = S.instructions ∧
    (error_checking (update_pipes_bank S)).instructions = S.instructions ∧
    (do_stall_check ds S).reg = S.reg ∧
    (do_stages env S).reg = (do_wb_stage env S).reg ∧
    (error_checking (update_pipes_bank S)).reg = S.reg :=
  ⟨rfl, rfl, rfl, rfl, rfl, rfl⟩

/-- The counter `instructions` after the performance monitoring. -/
theorem perf_monitor_instructions {M : Type} (S : sim_state M) :
    (perf_monitor S).instructions =
      (if S.mem_wb_state.current.status ≠ .STAT_BUB ∧ S.mem_wb_state.current.icode ≠ .I_POP2
        then S.instructions + 1 else S.instructions) := by
  unfold perf_monitor
  split
  · rfl
  · split <;> rfl

/-- The instruction counter after a cycle: it is incremented exactly when the instruction
committed to `mem_wb_curr` is neither a bubble nor an `I_POP2`. -/
theorem sim_step_pipe_instructions {M : Type} (env : isa_env M) (ds : mem_status_t)
    (S : sim_state M) :
    (sim_step_pipe env ds S).1.instructions =
      (if (sim_step_pipe env ds S).1.mem_wb_state.current.status ≠ .STAT_BUB ∧
          (sim_step_pipe env ds S).1.mem_wb_state.current.icode ≠ .I_POP2
        then S.instructions + 1 else S.instructions) := by
  have hl := (perf_monitor_latches
    (do_stall_check ds (do_stages env (error_checking (update_pipes_bank S))))).2.2.2.2
  have hc : (sim_step_pipe env ds S).1.mem_wb_state =
      (do_stall_check ds (do_stages env (error_checking (update_pipes_bank S)))).mem_wb_state :=
    hl
  have hi : (sim_step_pipe env ds S).1.instructions =
      (perf_monitor (do_stall_check ds
        (do_stages env (error_checking (update_pipes_bank S))))).instructions := rfl
  rw [hc, hi, perf_monitor_instructions, (stages_counter_frame env ds _).1,
    (stages_counter_frame env ds _).2.1, (stages_counter_frame env ds S).2.2.1]

/-- The register file after a cycle is the one `do_wb_stage` leaves. -/
theorem sim_step_pipe_reg {M : Type} (env : isa_env M) (ds : mem_status_t)
    (S : sim_state M) :
    (sim_step_pipe env ds S).1.reg =
      (do_wb_stage env (error_checking (update_pipes_bank S))).reg := by
  show (perf_monitor _).reg = _
  rw [(perf_monitor_rest _).2.2.2.1]
  rfl

/-- C31: a bubble is a no-op in every stage. When `id_ex_curr` equals `bubble_id_ex`,
`do_ex_stage` leaves `cc` unchanged and produces `deste = destm = REG_NONE` with status
`STAT_BUB`. When `ex_mem_curr` equals `bubble_ex_mem`, `do_mem_stage` leaves the memory
unchanged with `mem_write` false, hands on the status `STAT_BUB` with no read error, and its
result does not depend on the memory read and write functions (neither is called). When
`mem_wb_curr` equals `bubble_mem_wb`, `do_wb_stage` leaves the register file unchanged
(whatever `set_reg_val` is), and a cycle of `sim_step_pipe` whose `mem_wb_curr` is
`bubble_mem_wb` changes neither the register file nor the `instructions` counter. -/
theorem bubble_is_noop {M : Type} (env : isa_env M) (ds : mem_status_t) (S : sim_state M) :
    (S.id_ex_state.current = bubble_id_ex →
      (do_ex_stage env S).cc = S.cc ∧
      (do_ex_stage env S).ex_mem_state.next.deste = .REG_NONE ∧
      (do_ex_stage env S).ex_mem_state.next.destm = .REG_NONE ∧
      (do_ex_stage env S).ex_mem_state.next.status = .STAT_BUB) ∧
    (S.ex_mem_state.current = bubble_ex_mem →
      (do_mem_stage env S).mem = S.mem ∧
      (do_mem_stage env S).mem_write = false ∧
      (do_mem_stage env S).dmem_error = false ∧
      (do_mem_stage env S).mem_wb_state.next.status = .STAT_BUB ∧
      (do_mem_stage env S).mem_wb_state.next.deste = .REG_NONE ∧
      (do_mem_stage env S).mem_wb_state.next.destm = .REG_NONE ∧
      ∀ (g : M → Nat → Nat → Bool × Nat) (w : M → Nat → Nat → Bool × M),
        do_mem_stage { env with get_word_val_D := g, set_word_val_D := w } S =
          do_mem_stage env S) ∧
    (S.mem_wb_state.current = bubble_mem_wb →
      (do_wb_stage env S).reg = S.reg ∧
      ∀ (w : M → reg_id_t → Nat → M),
        do_wb_stage { env with set_reg_val := w } S = do_wb_stage env S) ∧
    ((sim_step_pipe env ds S).1.mem_wb_state.current = bubble_mem_wb →
      (sim_step_pipe env ds S).1.instructions = S.instructions ∧
      (sim_step_pipe env ds S).1.reg = S.reg) := by
  refine ⟨?_, ?_, ?_, ?_⟩
  · intro h
    simp [do_ex_stage, h, bubble_id_ex]
  · intro h
    refine ⟨?_, ?_, ?_, ?_, ?_, ?_, ?_⟩
    · simp [do_mem_stage, h, bubble_ex_mem]
    · simp [do_mem_stage, h, bubble_ex_mem]
    · simp [do_mem_stage, h, bubble_ex_mem]
    · simp [do_mem_stage, h, bubble_ex_mem]
    · simp [do_mem_stage, h, bubble_ex_mem]
    · simp [do_mem_stage, h, bubble_ex_mem]
    · intro g w
      simp [do_mem_stage, h, bubble_ex_mem]
  · intro h
    refine ⟨?_, ?_⟩
    · simp [do_wb_stage, h, bubble_mem_wb]
    · intro w
      simp [do_wb_stage, h, bubble_mem_wb]
  · intro h
    refine ⟨?_, ?_⟩
    · rw [sim_step_pipe_instructions, h]
      simp [bubble_mem_wb]
    · rw [sim_step_pipe_reg]
      have hc := (cycle_commit env ds S _ rfl).2.2.2.2
      rw [h] at hc
      have hc2 : (error_checking (update_pipes_bank S)).mem_wb_state.current = bubble_mem_wb :=
        hc.symm
      simp only [do_wb_stage, hc2, bubble_mem_wb, ne_eq, not_true_eq_false, if_false]
      exact (stages_counter_frame env ds S).2.2.2.2.2

/-- C31 witness: the reset state of the toy machine, in which every latch holds its bubble
value. -/
theorem bubble_is_noop_witness :
    (do_ex_stage toy_env toy_state).cc = toy_state.cc ∧
    (do_ex_stage toy_env toy_state).ex_mem_state.next.deste = .REG_NONE ∧
    (do_mem_stage toy_env toy_state).mem = toy_state.mem ∧
    (do_mem_stage toy_env toy_state).mem_wb_state.next.status = .STAT_BUB ∧
    (do_wb_stage toy_env toy_state).reg = toy_state.reg ∧
    (sim_step_pipe toy_env (.other 0) toy_state).1.instructions = 0 :=
  let h := bubble_is_noop toy_env (.other 0) toy_state
  ⟨(h.1 rfl).1, (h.1 rfl).2.1, (h.2.1 rfl).1, (h.2.1 rfl).2.2.2.1, (h.2.2.1 rfl).1,
    (h.2.2.2 rfl).1⟩

end Pcsim

namespace Pcsim

/-! ## Sources and destinations that are `REG_NONE` -/

/-- The operand selection for a source `REG_NONE`: the forwarding value of the first
destination that is `REG_NONE`, the register-file read when there is none. -/
theorem forward_reg_none {M : Type} (S : sim_state M) (regval : Nat) :
    forward S .REG_NONE regval =
      (if S.ex_mem_state.next.deste = .REG_NONE then S.ex_mem_state.next.vale
        else if S.ex_mem_state.current.destm = .REG_NONE then S.mem_wb_state.next.valm
        else if S.ex_mem_state.current.deste = .REG_NONE then S.ex_mem_state.current.vale
        else if S.mem_wb_state.current.destm = .REG_NONE then S.mem_wb_state.current.valm
        else if S.mem_wb_state.current.deste = .REG_NONE then S.mem_wb_state.current.vale
        else regval) := by
  unfold forward
  simp only [eq_comm]

/-- C32 (counterexample): with the store `rmmovq %r1, 40(%r2)` in Execute (no destination
register, so `ex_mem_next.deste` is `REG_NONE`, and `ex_mem_next.vale` is the address 42)
and a bubble in Decode (no source register), `do_id_stage` sets `id_ex_next.srca` to
`REG_NONE` and `id_ex_next.vala` to the forwarded 42, not to the register-file read
`d_regvala`, which is 7; the same for `valb`. -/
theorem do_id_stage_reg_none_forwarded :
    (do_stages toy_env store_then_nop).if_id_state.current.icode = .I_NOP ∧
    (do_stages toy_env store_then_nop).ex_mem_state.next.deste = .REG_NONE ∧
    (do_stages toy_env store_then_nop).id_ex_state.next.srca = .REG_NONE ∧
    (do_stages toy_env store_then_nop).id_ex_state.next.srcb = .REG_NONE ∧
    (do_stages toy_env store_then_nop).d_regvala = 7 ∧
    (do_stages toy_env store_then_nop).d_regvalb = 7 ∧
    (do_stages toy_env store_then_nop).id_ex_state.next.vala = 42 ∧
    (do_stages toy_env store_then_nop).id_ex_state.next.valb = 42 := by
  decide

/-- C32 (amended): when the instruction being decoded has no A source (`id_ex_next.srca` is
`REG_NONE` and the icode is neither `I_CALL` nor `I_JMP`), `do_id_stage` sets
`id_ex_next.vala` to the forwarding value of the first of the destinations
`ex_mem_next.deste`, `ex_mem_curr.destm`, `ex_mem_curr.deste`, `mem_wb_curr.destm`,
`mem_wb_curr.deste` that is `REG_NONE` (the values being `ex_mem_next.vale`,
`mem_wb_next.valm`, `ex_mem_curr.vale`, `mem_wb_curr.valm`, `mem_wb_curr.vale`), and to the
register-file read `d_regvala` when none of the five is `REG_NONE`; likewise
`id_ex_next.valb` when `id_ex_next.srcb` is `REG_NONE`. -/
theorem do_id_stage_reg_none_source {M : Type} (env : isa_env M) (S : sim_state M) :
    ((do_id_stage env S).id_ex_state.next.srca = .REG_NONE →
      S.if_id_state.current.icode ≠ .I_CALL → S.if_id_state.current.icode ≠ .I_JMP →
      (do_id_stage env S).id_ex_state.next.vala =
        (if S.ex_mem_state.next.deste = .REG_NONE then S.ex_mem_state.next.vale
          else if S.ex_mem_state.current.destm = .REG_NONE then S.mem_wb_state.next.valm
          else if S.ex_mem_state.current.deste = .REG_NONE then S.ex_mem_state.current.vale
          else if S.mem_wb_state.current.destm = .REG_NONE then S.mem_wb_state.current.valm
          else if S.mem_wb_state.current.deste = .REG_NONE then S.mem_wb_state.current.vale
          else (do_id_stage env S).d_regvala)) ∧
    ((do_id_stage env S).id_ex_state.next.srcb = .REG_NONE →
      (do_id_stage env S).id_ex_state.next.valb =
        (if S.ex_mem_state.next.deste = .REG_NONE then S.ex_mem_state.next.vale
          else if S.ex_mem_state.current.destm = .REG_NONE then S.mem_wb_state.next.valm
          else if S.ex_mem_state.current.deste = .REG_NONE then S.ex_mem_state.current.vale
          else if S.mem_wb_state.current.destm = .REG_NONE then S.mem_wb_state.current.valm
          else if S.mem_wb_state.current.deste = .REG_NONE then S.mem_wb_state.current.vale
          else (do_id_stage env S).d_regvalb)) ∧
    ((do_id_stage env S).id_ex_state.next.srca = .REG_NONE →
      S.if_id_state.current.icode ≠ .I_CALL → S.if_id_state.current.icode ≠ .I_JMP →
      S.ex_mem_state.next.deste ≠ .REG_NONE → S.ex_mem_state.current.destm ≠ .REG_NONE →
      S.ex_mem_state.current.deste ≠ .REG_NONE → S.mem_wb_state.current.destm ≠ .REG_NONE →
      S.mem_wb_state.current.deste ≠ .REG_NONE →
      (do_id_stage env S).id_ex_state.next.vala = (do_id_stage env S).d_regvala) := by
  obtain ⟨ha, hb⟩ := do_id_stage_vals env S
  have hda : (do_id_stage env S).d_regvala =
      env.get_reg_val S.reg (do_id_stage env S).id_ex_state.next.srca := rfl
  have hdb : (do_id_stage env S).d_regvalb =
      env.get_reg_val S.reg (do_id_stage env S).id_ex_state.next.srcb := rfl
  have key : ∀ h : (do_id_stage env S).id_ex_state.next.srca = .REG_NONE,
      S.if_id_state.current.icode ≠ .I_CALL → S.if_id_state.current.icode ≠ .I_JMP →
      (do_id_stage env S).id_ex_state.next.vala =
        forward S .REG_NONE (do_id_stage env S).d_regvala := by
    intro h h1 h2
    rw [ha, if_neg (by tauto), hda, h]
  refine ⟨?_, ?_, ?_⟩
  · intro h h1 h2
    rw [key h h1 h2, forward_reg_none]
  · intro h
    rw [hb, hdb, h, forward_reg_none]
  · intro h h1 h2 n1 n2 n3 n4 n5
    rw [key h h1 h2, forward_reg_none, if_neg n1, if_neg n2, if_neg n3, if_neg n4, if_neg n5]

/-- C32 witness: the reset state of the toy machine decodes a bubble, which has no source
register, while every latch carries the destination `REG_NONE`: `vala` is the value 0 that
`ex_mem_next` carries. -/
theorem do_id_stage_reg_none_source_witness :
    (do_id_stage toy_env toy_state).id_ex_state.next.vala = 0 ∧
    (do_id_stage toy_env toy_state).id_ex_state.next.valb = 0 :=
  ⟨((do_id_stage_reg_none_source toy_env toy_state).1 rfl (by decide) (by decide)).trans rfl,
    ((do_id_stage_reg_none_source toy_env toy_state).2.1 rfl).trans rfl⟩

end Pcsim

namespace Pcsim

/-! ## The destination of a conditional move -/

/-- The operand selection when `ex_mem_next.deste` is `REG_NONE` and the source is a real
register: the first forwarding case is not taken. -/
theorem forward_skip_ex {M : Type} (S : sim_state M) (src : reg_id_t) (regval : Nat)
    (hs : src ≠ .REG_NONE) (hd : S.ex_mem_state.next.deste = .REG_NONE) :
    forward S src regval =
      (if src = S.ex_mem_state.current.destm then S.mem_wb_state.next.valm
        else if src = S.ex_mem_state.current.deste then S.ex_mem_state.current.vale
        else if src = S.mem_wb_state.current.destm then S.mem_wb_state.current.valm
        else if src = S.mem_wb_state.current.deste then S.mem_wb_state.current.vale
        else regval) := by
  unfold forward
  rw [hd, if_neg hs]

/-- The operand selection when both destinations of `ex_mem_curr` are `REG_NONE` and the
source is a real register: the second and third forwarding cases are not taken. -/
theorem forward_skip_mem {M : Type} (S : sim_state M) (src : reg_id_t) (regval : Nat)
    (hs : src ≠ .REG_NONE) (hm : S.ex_mem_state.current.destm = .REG_NONE)
    (he : S.ex_mem_state.current.deste = .REG_NONE) :
    forward S src regval =
      (if src = S.ex_mem_state.next.deste then S.ex_mem_state.next.vale
        else if src = S.mem_wb_state.current.destm then S.mem_wb_state.current.valm
        else if src = S.mem_wb_state.current.deste then S.mem_wb_state.current.vale
        else regval) := by
  unfold forward
  rw [hm, he, if_neg hs, if_neg hs]

/-- The operand selection when both destinations of `mem_wb_curr` are `REG_NONE` and the
source is a real register: the last two forwarding cases are not taken. -/
theorem forward_skip_wb {M : Type} (S : sim_state M) (src : reg_id_t) (regval : Nat)
    (hs : src ≠ .REG_NONE) (hm : S.mem_wb_state.current.destm = .REG_NONE)
    (he : S.mem_wb_state.current.deste = .REG_NONE) :
    forward S src regval =
      (if src = S.ex_mem_state.next.deste then S.ex_mem_state.next.vale
        else if src = S.ex_mem_state.current.destm then S.mem_wb_state.next.valm
        else if src = S.ex_mem_state.current.deste then S.ex_mem_state.current.vale
        else regval) := by
  unfold forward
  rw [hm, he, if_neg hs, if_neg hs]

/-- C33: for every latch state, `do_ex_stage` sets `ex_mem_next.deste` to `REG_NONE` when
`id_ex_curr.icode` is `I_RRMOVQ` and `cond_holds(cc, id_ex_curr.ifun)` is false, and to
`id_ex_curr.deste` in every other case; `ex_mem_next.destm` always equals
`id_ex_curr.destm`, which `do_id_stage` sets to `REG_NONE` for an `I_RRMOVQ`. `do_mem_stage`
hands both destinations on unchanged. With both destinations `REG_NONE`, `do_wb_stage`
leaves the register file as it is, and the operand selection for a real source register
takes none of the forwarding cases of that instruction, whether it is in `ex_mem_next`, in
`ex_mem_curr` or in `mem_wb_curr`. -/
theorem do_ex_stage_cmov_dest {M : Type} (env : isa_env M) (S : sim_state M) :
    (do_ex_stage env S).ex_mem_state.next.deste =
      (if S.id_ex_state.current.icode = .I_RRMOVQ ∧
          env.cond_holds S.cc S.id_ex_state.current.ifun = false
        then .REG_NONE else S.id_ex_state.current.deste) ∧
    (do_ex_stage env S).ex_mem_state.next.destm = S.id_ex_state.current.destm ∧
    (S.if_id_state.current.icode = .I_RRMOVQ →
      (do_id_stage env S).id_ex_state.next.destm = .REG_NONE) ∧
    (do_mem_stage env S).mem_wb_state.next.deste = S.ex_mem_state.current.deste ∧
    (do_mem_stage env S).mem_wb_state.next.destm = S.ex_mem_state.current.destm ∧
    (S.mem_wb_state.current.deste = .REG_NONE → S.mem_wb_state.current.destm = .REG_NONE →
      (do_wb_stage env S).reg = S.reg) ∧
    (∀ (src : reg_id_t) (regval : Nat), src ≠ .REG_NONE →
      (S.ex_mem_state.next.deste = .REG_NONE →
        forward S src regval =
          (if src = S.ex_mem_state.current.destm then S.mem_wb_state.next.valm
            else if src = S.ex_mem_state.current.deste then S.ex_mem_state.current.vale
            else if src = S.mem_wb_state.current.destm then S.mem_wb_state.current.valm
            else if src = S.mem_wb_state.current.deste then S.mem_wb_state.current.vale
            else regval)) ∧
      (S.ex_mem_state.current.destm = .REG_NONE → S.ex_mem_state.current.deste = .REG_NONE →
        forward S src regval =
          (if src = S.ex_mem_state.next.deste then S.ex_mem_state.next.vale
            else if src = S.mem_wb_state.current.destm then S.mem_wb_state.current.valm
            else if src = S.mem_wb_state.current.deste then S.mem_wb_state.current.vale
            else regval)) ∧
      (S.mem_wb_state.current.destm = .REG_NONE → S.mem_wb_state.current.deste = .REG_NONE →
        forward S src regval =
          (if src = S.ex_mem_state.next.deste then S.ex_mem_state.next.vale
            else if src = S.ex_mem_state.current.destm then S.mem_wb_state.next.valm
            else if src = S.ex_mem_state.current.deste then S.ex_mem_state.current.vale
            else regval))) := by
  refine ⟨rfl, rfl, ?_, rfl, rfl, ?_, ?_⟩
  · intro h
    simp [do_id_stage, h]
  · intro h1 h2
    simp [do_wb_stage, h1, h2]
  · intro src regval hs
    exact ⟨forward_skip_ex S src regval hs, forward_skip_mem S src regval hs,
      forward_skip_wb S src regval hs⟩

/-- C33 witness: `cmovle %r0, %r3` in Execute with `cc` 0, so that the condition does not
hold: `ex_mem_next.deste` is `REG_NONE`, and an instruction in Decode that reads `%r3` is
not forwarded the value 5 of the move; Writeback of the reset state writes no register. -/
theorem do_ex_stage_cmov_dest_witness :
    toy_env.cond_holds cmov_in_ex.cc cmov_in_ex.id_ex_state.current.ifun = false ∧
    cmov_in_ex.id_ex_state.current.deste = .REG 3 ∧
    (do_ex_stage toy_env cmov_in_ex).ex_mem_state.next.deste = .REG_NONE ∧
    (do_ex_stage toy_env cmov_in_ex).ex_mem_state.next.vale = 5 ∧
    forward (do_ex_stage toy_env cmov_in_ex) (.REG 3) 7 = 7 ∧
    (do_wb_stage toy_env toy_state).reg = toy_state.reg :=
  ⟨by decide, rfl, (do_ex_stage_cmov_dest toy_env cmov_in_ex).1.trans (by decide), by decide,
    (((do_ex_stage_cmov_dest toy_env (do_ex_stage toy_env cmov_in_ex)).2.2.2.2.2.2
      (.REG 3) 7 (by decide)).1 (by decide)).trans (by decide),
    (do_ex_stage_cmov_dest toy_env toy_state).2.2.2.2.2.1 rfl rfl⟩

end Pcsim

namespace Pcsim

/-! ## Forwarding from Writeback and the register file -/

/-- The register that `do_wb_stage` leaves in the register file for a real register `r`
that is a destination of `mem_wb_curr`, given the read-after-write laws of the register
file at `r`. -/
theorem do_wb_stage_reads_back {M : Type} (env : isa_env M) (S : sim_state M) (r : reg_id_t)
    (hr : r ≠ .REG_NONE)
    (hset : ∀ (m : M) (v : Nat), env.get_reg_val (env.set_reg_val m r v) r = v)
    (hkeep : ∀ (m : M) (q : reg_id_t) (v : Nat), q ≠ r →
      env.get_reg_val (env.set_reg_val m q v) r = env.get_reg_val m r) :
    (r = S.mem_wb_state.current.destm →
      env.get_reg_val (do_wb_stage env S).reg r = S.mem_wb_state.current.valm) ∧
    (r ≠ S.mem_wb_state.current.destm → r = S.mem_wb_state.current.deste →
      env.get_reg_val (do_wb_stage env S).reg r = S.mem_wb_state.current.vale) := by
  refine ⟨?_, ?_⟩
  · intro h
    have hn : S.mem_wb_state.current.destm ≠ .REG_NONE := fun e => hr (h.trans e)
    simp only [do_wb_stage, ne_eq, hn, not_false_eq_true, if_true]
    rw [← h]
    exact hset _ _
  · intro h1 h2
    have hn : S.mem_wb_state.current.deste ≠ .REG_NONE := fun e => hr (h2.trans e)
    simp only [do_wb_stage, ne_eq, hn, not_false_eq_true, if_true]
    by_cases hm : S.mem_wb_state.current.destm = .REG_NONE
    · simp only [hm, not_true_eq_false, if_false]
      rw [← h2]
      exact hset _ _
    · simp only [hm, not_false_eq_true, if_true]
      rw [hkeep _ _ _ (fun e => h1 e.symm), ← h2]
      exact hset _ _

/-- For a real register, the operand selection with and without the two `mem_wb_curr`
cases agree in a state whose register file is the one `do_wb_stage` has left. -/
theorem forward_no_wb_eq {M : Type} (env : isa_env M) (S T : sim_state M) (r : reg_id_t)
    (hr : r ≠ .REG_NONE)
    (hset : ∀ (m : M) (v : Nat), env.get_reg_val (env.set_reg_val m r v) r = v)
    (hkeep : ∀ (m : M) (q : reg_id_t) (v : Nat), q ≠ r →
      env.get_reg_val (env.set_reg_val m q v) r = env.get_reg_val m r)
    (hreg : T.reg = (do_wb_stage env S).reg)
    (hcur : T.mem_wb_state.current = S.mem_wb_state.current) :
    forward T r (env.get_reg_val T.reg r) = forward_no_wb T r (env.get_reg_val T.reg r) := by
  obtain ⟨h1, h2⟩ := do_wb_stage_reads_back env S r hr hset hkeep
  unfold forward forward_no_wb
  rw [hcur, hreg]
  by_cases a1 : r = T.ex_mem_state.next.deste
  · rw [if_pos a1, if_pos a1]
  rw [if_neg a1, if_neg a1]
  by_cases a2 : r = T.ex_mem_state.current.destm
  · rw [if_pos a2, if_pos a2]
  rw [if_neg a2, if_neg a2]
  by_cases a3 : r = T.ex_mem_state.current.deste
  · rw [if_pos a3, if_pos a3]
  rw [if_neg a3, if_neg a3]
  by_cases a4 : r = S.mem_wb_state.current.destm
  · rw [if_pos a4, h1 a4]
  rw [if_neg a4]
  by_cases a5 : r = S.mem_wb_state.current.deste
  · rw [if_pos a5, h2 a4 a5]
  rw [if_neg a5]

/-- The stages between Writeback and Decode leave the register file and `mem_wb_curr` as
Writeback has left them. -/
theorem do_ex_mem_stage_frame {M : Type} (env : isa_env M) (S : sim_state M) :
    (do_ex_stage env (do_mem_stage env (do_wb_stage env S))).reg = (do_wb_stage env S).reg ∧
    (do_ex_stage env (do_mem_stage env (do_wb_stage env S))).mem_wb_state.current =
      S.mem_wb_state.current ∧
    (do_ex_stage env (do_mem_stage env (do_wb_stage env S))).if_id_state.current =
      S.if_id_state.current :=
  ⟨rfl, rfl, rfl⟩

/-- The operands of the variant of `do_id_stage` without the `mem_wb_curr` cases, and the
source registers, which are those of `do_id_stage`. -/
theorem do_id_stage_no_wb_vals {M : Type} (env : isa_env M) (S : sim_state M) :
    (do_id_stage_no_wb env S).id_ex_state.next.srca =
      (do_id_stage env S).id_ex_state.next.srca ∧
    (do_id_stage_no_wb env S).id_ex_state.next.srcb =
      (do_id_stage env S).id_ex_state.next.srcb ∧
    (do_id_stage_no_wb env S).id_ex_state.next.vala =
      (if S.if_id_state.current.icode = .I_CALL ∨ S.if_id_state.current.icode = .I_JMP
        then S.if_id_state.current.valp
        else forward_no_wb S (do_id_stage env S).id_ex_state.next.srca
          (env.get_reg_val S.reg (do_id_stage env S).id_ex_state.next.srca)) ∧
    (do_id_stage_no_wb env S).id_ex_state.next.valb =
      forward_no_wb S (do_id_stage env S).id_ex_state.next.srcb
        (env.get_reg_val S.reg (do_id_stage env S).id_ex_state.next.srcb) :=
  ⟨rfl, rfl, rfl, rfl⟩

/-- The two variants of `do_id_stage` differ at most in `id_ex_next.vala` and
`id_ex_next.valb`. -/
theorem do_id_stage_no_wb_rest {M : Type} (env : isa_env M) (S : sim_state M)
    (ha : (do_id_stage_no_wb env S).id_ex_state.next.vala =
      (do_id_stage env S).id_ex_state.next.vala)
    (hb : (do_id_stage_no_wb env S).id_ex_state.next.valb =
      (do_id_stage env S).id_ex_state.next.valb) :
    do_id_stage_no_wb env S = do_id_stage env S := by
  unfold do_id_stage_no_wb do_id_stage at *
  simp only at ha hb ⊢
  rw [ha, hb]

/-- The restriction to real registers cannot be dropped: with `mrmovq 64(%r9), %r1` in
Writeback (destinations `destm = %r1` and `deste = REG_NONE`, `vale` 64), `popq %r2` in Memory, `addq %r5, %r3` in Execute and
`irmovq $9, %r6` in Decode, the sources of the instruction in Decode are `REG_NONE`, which
matches none of the destinations in `ex_mem_next` and `ex_mem_curr` but the `deste` of
`mem_wb_curr`: `do_id_stage` sets `vala` and `valb` to 64, and without the two `mem_wb_curr`
cases they are the register-file read 7. -/
theorem wb_forwarding_not_redundant :
    (do_id_stage toy_env (do_ex_stage toy_env (do_mem_stage toy_env (do_wb_stage toy_env
      (wb_forward_state ⟨.I_IRMOVQ, 0, .REG_NONE, .REG 6, 9, 30, .STAT_AOK, 28⟩))))
      ).id_ex_state.next.srca = .REG_NONE ∧
    (do_id_stage toy_env (do_ex_stage toy_env (do_mem_stage toy_env (do_wb_stage toy_env
      (wb_forward_state ⟨.I_IRMOVQ, 0, .REG_NONE, .REG 6, 9, 30, .STAT_AOK, 28⟩))))
      ).id_ex_state.next.vala = 64 ∧
    (do_id_stage_no_wb toy_env (do_ex_stage toy_env (do_mem_stage toy_env
      (do_wb_stage toy_env
      (wb_forward_state ⟨.I_IRMOVQ, 0, .REG_NONE, .REG 6, 9, 30, .STAT_AOK, 28⟩))))
      ).id_ex_state.next.vala = 7 ∧
    (do_id_stage toy_env (do_ex_stage toy_env (do_mem_stage toy_env (do_wb_stage toy_env
      (wb_forward_state ⟨.I_IRMOVQ, 0, .REG_NONE, .REG 6, 9, 30, .STAT_AOK, 28⟩))))
      ).id_ex_state.next.valb = 64 ∧
    (do_id_stage_no_wb toy_env (do_ex_stage toy_env (do_mem_stage toy_env
      (do_wb_stage toy_env
      (wb_forward_state ⟨.I_IRMOVQ, 0, .REG_NONE, .REG 6, 9, 30, .STAT_AOK, 28⟩))))
      ).id_ex_state.next.valb = 7 := by
  decide

end Pcsim

namespace Ssim

/-! ## The sequential and the pipelined simulator side by side -/

set_option maxRecDepth 100000 in
/-- C37 (failing input): the instruction byte `11` (icode `I_NOP` with the function code 1).
`sim_step` of `ssim.c` finds no case label `HPACK(I_NOP, 1)` in `switch (instr)`, sets
`imem_error` and returns `STAT_INS`; `do_if_stage` of `pcsim.c` reads the byte without error,
finds the icode among the valid ones and sets `if_id_next.status` to `STAT_AOK`. For the
bytes from 0 to 255: whenever the pipelined simulator gives `STAT_INS` (exactly the icodes
12 to 15), so does the sequential one, which gives `STAT_INS` exactly for the bytes that are
none of the 27 case labels. -/
theorem invalid_ifun_accepted_by_pipeline :
    ((sim_step toy_isa 0 (reset_state (fun a => if a = 0 then 0x11 else 0))).2 = .STAT_INS ∧
      (sim_step toy_isa 0 (reset_state (fun a => if a = 0 then 0x11 else 0))).1.icode = 1 ∧
      (sim_step toy_isa 0 (reset_state (fun a => if a = 0 then 0x11 else 0))).1.ifun = 1 ∧
      (sim_step toy_isa 0 (reset_state (fun a => if a = 0 then 0x11 else 0))).1.dmem_error =
        false ∧
      (Pcsim.do_if_stage Pcsim.y86_env (Pcsim.fetch_state 0x11)).imem_error = false ∧
      (Pcsim.do_if_stage Pcsim.y86_env (Pcsim.fetch_state 0x11)).if_id_state.next.icode =
        .I_NOP ∧
      (Pcsim.do_if_stage Pcsim.y86_env (Pcsim.fetch_state 0x11)).if_id_state.next.ifun = 1 ∧
      (Pcsim.do_if_stage Pcsim.y86_env (Pcsim.fetch_state 0x11)).if_id_state.next.status =
        .STAT_AOK) ∧
    (∀ b : Fin 256,
      ((Pcsim.do_if_stage Pcsim.y86_env (Pcsim.fetch_state b.val)).if_id_state.next.status =
        .STAT_INS ↔ 0xC0 ≤ b.val)) ∧
    (∀ b : Fin 256,
      ((sim_step toy_isa 0 (reset_state (fun a => if a = 0 then b.val else 0))).2 =
          .STAT_INS ↔
        b.val ∉ [0x10, 0x00, 0x20, 0x21, 0x22, 0x23, 0x24, 0x25, 0x26, 0x30, 0x40, 0x50, 0x60,
          0x61, 0x62, 0x63, 0x70, 0x71, 0x72, 0x73, 0x74, 0x75, 0x76, 0x80, 0x90, 0xA0,
          0xB0])) := by
  refine ⟨by decide, by decide, by decide⟩

/-- The Execute results of the two simulators agree for every valid icode but `I_MRMOVQ`:
for operands `vala` and `valc` below `2^64` and an ALU that adds, the `vale` of `execute_stage` of `ssim.c`
equals the `ex_mem_next.vale` of `do_ex_stage` of `pcsim.c`. -/
theorem execute_agrees_except_mrmovq (n : Fin 12) (f a b c : Nat) (hn : n.val ≠ 5)
    (ha : a < 2 ^ 64) (hc : c < 2 ^ 64) :
    (execute_stage toy_isa
      { reset_state (fun _ => 0) with
        icode := n.val, ifun := f, vala := a, valb := b, valc := c }).1.vale =
    (Pcsim.do_ex_stage Pcsim.toy_env
      { Pcsim.toy_state with
        id_ex_state := ⟨⟨Pcsim.y86_icode n.val, f, c, a, b, .REG_NONE, .REG_NONE, .REG_NONE,
          .REG_NONE, .STAT_AOK, 0⟩, Pcsim.bubble_id_ex, .P_LOAD, Pcsim.bubble_id_ex⟩ }
      ).ex_mem_state.next.vale := by
  obtain ⟨n, hlt⟩ := n
  simp only at hn
  interval_cases n <;>
    first
    | exact absurd rfl hn
    | (simp [execute_stage, Pcsim.do_ex_stage, toy_isa, Pcsim.toy_env, Pcsim.y86_icode,
        reset_state, Pcsim.toy_state, Nat.add_comm] <;> omega)

/-- C38 (failing input): `mrmovq 8(%rbx), %rax` with 100 in `%rbx`. In `ssim.c` the second
`sim_step` of the program `irmovq $100, %rbx; mrmovq 8(%rbx), %rax` decodes `valb = 100` and
`valc = 8` and computes `vale = valb + vala = 100`, `vala` being the read of the register
`REG_NONE`, and loads `valm` from address 100 (the cell holds 0) instead of address 108 (the
cell holds 77). `do_ex_stage` of `pcsim.c` computes `ex_mem_next.vale = valc + valb = 108`
for the same operands. For `I_RMMOVQ` both compute `valb + valc`. -/
theorem mrmovq_address_differs :
    ((sim_step toy_isa 0 (sim_step toy_isa 0 (reset_state mrmovq_program)).1).1.icode = 5 ∧
      (sim_step toy_isa 0 (sim_step toy_isa 0 (reset_state mrmovq_program)).1).1.valc = 8 ∧
      (sim_step toy_isa 0 (sim_step toy_isa 0 (reset_state mrmovq_program)).1).1.valb = 100 ∧
      (sim_step toy_isa 0 (sim_step toy_isa 0 (reset_state mrmovq_program)).1).1.vala = 0 ∧
      (sim_step toy_isa 0 (sim_step toy_isa 0 (reset_state mrmovq_program)).1).1.vale = 100 ∧
      (sim_step toy_isa 0 (sim_step toy_isa 0 (reset_state mrmovq_program)).1).1.valm = 0 ∧
      mrmovq_program 108 = 77) ∧
    (Pcsim.do_ex_stage Pcsim.toy_env
      { Pcsim.toy_state with
        id_ex_state := ⟨⟨.I_MRMOVQ, 0, 8, 0, 100, .REG_NONE, .REG 3, .REG_NONE, .REG 0,
          .STAT_AOK, 10⟩, Pcsim.bubble_id_ex, .P_LOAD, Pcsim.bubble_id_ex⟩ }
      ).ex_mem_state.next.vale = 108 ∧
    ((execute_stage toy_isa
        { reset_state mrmovq_program with icode := 4, valb := 100, valc := 8 }).1.vale = 108 ∧
      (Pcsim.do_ex_stage Pcsim.toy_env
        { Pcsim.toy_state with
          id_ex_state := ⟨⟨.I_RMMOVQ, 0, 8, 0, 100, .REG 0, .REG 3, .REG_NONE, .REG_NONE,
            .STAT_AOK, 10⟩, Pcsim.bubble_id_ex, .P_LOAD, Pcsim.bubble_id_ex⟩ }
        ).ex_mem_state.next.vale = 108) := by
  refine ⟨by decide, by decide, by decide⟩

/-- C39 (failing input): `cmovle %rax, %rbx` (bytes `21 03`) with 5 in `%rax`, 0 in `%rbx`
and condition codes for which `cond_holds(cc, 1)` is false. In `ssim.c` the second
`sim_step` of the program `irmovq $5, %rax; cmovle %rax, %rbx; halt` leaves the pending
destination `destE = %rbx` (not `REG_NONE`) with `vale = 5`, and the `update_state()` of the
next `sim_step` writes it: after `sim_run(3)` the register `%rbx` holds 5. `do_ex_stage` of
`pcsim.c` sets `ex_mem_next.deste` to `REG_NONE` for the same instruction with a condition
that does not hold. -/
theorem cmov_unconditional_in_ssim :
    (toy_isa.cond_holds (sim_step toy_isa 0 (reset_state cmov_program)).1.cc_in 1 = false ∧
      (sim_step toy_isa 0 (sim_step toy_isa 0 (reset_state cmov_program)).1).1.icode = 2 ∧
      (sim_step toy_isa 0 (sim_step toy_isa 0 (reset_state cmov_program)).1).1.ifun = 1 ∧
      (sim_step toy_isa 0 (sim_step toy_isa 0 (reset_state cmov_program)).1).1.destE = 3 ∧
      (sim_step toy_isa 0 (sim_step toy_isa 0 (reset_state cmov_program)).1).1.vale = 5 ∧
      toy_isa.REG_NONE = 15 ∧
      (reset_state cmov_program).reg 3 = 0 ∧
      (sim_run toy_isa 0 3 (reset_state cmov_program)).2.2.1 = .STAT_HLT ∧
      (sim_run toy_isa 0 3 (reset_state cmov_program)).1.reg 3 = 5) ∧
    (Pcsim.toy_env.cond_holds Pcsim.cmov_in_ex.cc
        Pcsim.cmov_in_ex.id_ex_state.current.ifun = false ∧
      Pcsim.cmov_in_ex.id_ex_state.current.icode = .I_RRMOVQ ∧
      Pcsim.cmov_in_ex.id_ex_state.current.deste = .REG 3 ∧
      (Pcsim.do_ex_stage Pcsim.toy_env Pcsim.cmov_in_ex).ex_mem_state.next.deste =
        .REG_NONE) := by
  refine ⟨by decide, by decide⟩

end Ssim

namespace Pcsim

/-! ## The command line of `sim_main` -/

/-- The option loop of `sim_main` assigns none of the locals `s`, `E`, `b`. -/
theorem sim_main_getopt_loop_frame (atoll atoi : String → Int)
    (opts : List (Char × String)) (v w : sim_main_vars)
    (h : sim_main_getopt_loop atoll atoi opts v = some w) :
    w.s = v.s ∧ w.E = v.E ∧ w.b = v.b := by
  induction opts generalizing v with
  | nil =>
    simp only [sim_main_getopt_loop, Option.some.injEq] at h
    subst h
    exact ⟨rfl, rfl, rfl⟩
  | cons o rest ih =>
    obtain ⟨c, optarg⟩ := o
    simp only [sim_main_getopt_loop] at h
    split_ifs at h with h1 h2 h3 h4 h5
    · have k := ih _ h
      exact k
    · have k := ih _ h
      exact k
    · have k := ih _ h
      exact k

/-- No command line makes `sim_main` reach `initCache` and `run_tty_sim`. -/
theorem sim_main_core (atoll atoi : String → Int) (st : Cache.cache_state)
    (v0 : sim_main_vars) (opts : List (Char × String)) (operands : Nat) (file_opens : Bool) :
    sim_main atoll atoi st v0 opts operands file_opens = .usage ∨
    sim_main atoll atoi st v0 opts operands file_opens = .open_failed ∨
    sim_main atoll atoi st v0 opts operands file_opens = .missing_flags := by
  unfold sim_main
  cases h : sim_main_getopt_loop atoll atoi opts { v0 with s := -1, E := -1, b := -1 } with
  | none => exact Or.inl rfl
  | some v =>
    obtain ⟨hs, _, _⟩ := sim_main_getopt_loop_frame atoll atoi opts _ v h
    simp only
    split_ifs
    · exact Or.inl rfl
    · exact Or.inr (Or.inl rfl)
    · right
      right
      have hv : v.s = -1 := hs
      simp [sim_main_initCache, hv]

/-- C40 (failing input): every command line. At the missing-flags check of `sim_main` the
locals `s`, `E` and `b` still hold their initial value `-1`, whatever options were given
(when the option loop ends without `usage`, the three locals are `-1`, `-1`, `-1`): a run of `sim_main` ends in `usage` (`exit(0)`), with `exit(1)` after "Couldn't open object
file" or with `exit(1)` after "Missing flags for InitCache", and never reaches
`initCache(s, b, E)` and `run_tty_sim()`. For the command line `-v 1 -l 100 -t prog.yo` with
a readable object file it ends with "Missing flags for InitCache". -/
theorem sim_main_never_simulates (atoll atoi : String → Int) (st : Cache.cache_state)
    (v0 : sim_main_vars) (opts : List (Char × String)) (operands : Nat) (file_opens : Bool) :
    (sim_main_getopt_loop atoll atoi opts { v0 with s := -1, E := -1, b := -1 }).map
        (fun v => (v.s, v.E, v.b)) =
      (sim_main_getopt_loop atoll atoi opts { v0 with s := -1, E := -1, b := -1 }).map
        (fun _ => (-1, -1, -1)) ∧
    (∀ c, sim_main atoll atoi st v0 opts operands file_opens ≠ .simulated c) ∧
    sim_main (fun _ => 100) (fun _ => 1) Cache.program_start ⟨0, 0, 0, 10000, 2, false⟩
      [('v', "1"), ('l', "100"), ('t', "")] 1 true = .missing_flags := by
  refine ⟨?_, ?_, ?_⟩
  · cases h : sim_main_getopt_loop atoll atoi opts { v0 with s := -1, E := -1, b := -1 } with
    | none => rfl
    | some v =>
      obtain ⟨a1, a2, a3⟩ := sim_main_getopt_loop_frame atoll atoi opts _ v h
      simp only [Option.map_some']
      rw [a1, a2, a3]
  · intro c hc
    rcases sim_main_core atoll atoi st v0 opts operands file_opens with h | h | h <;>
      rw [h] at hc <;> cases hc
  · rfl

end Pcsim

namespace PipeCache

open Cache

/-! ## The counters of `src/pipe-cache/cache.c` -/

/-- The result of `handle_miss` of `src/pipe-cache/cache.c` in closed form: the chosen line
becomes (valid, tag of `pos`, new counter value); `eviction_count` grows iff the chosen line
was valid. -/
theorem pipe_handle_miss_eq (st : cache_state) (pos k j : Nat) (lines : List cache_line_t)
    (l : cache_line_t) (tag : Nat)
    (hsel : select_line st pos = some (k, j)) (hk : st.sets[k]? = some lines)
    (hj : lines[j]? = some l) (htag : get_tag st.s st.b pos = some tag) :
    handle_miss st pos = some ({ st with
        counter := incr64 st.counter,
        eviction_count := if l.valid = 1 then st.eviction_count + 1 else st.eviction_count,
        sets := st.sets.set k (lines.set j ⟨1, tag, incr64 st.counter⟩) }, false) := by
  obtain ⟨v, t, u⟩ := l
  obtain ⟨s, b, E, S, B, c, mc, hc, ec, sets⟩ := st
  have hk' := lt_length_of_getElem_opt _ _ _ hk
  have hj' := lt_length_of_getElem_opt _ _ _ hj
  simp only at hk htag hk'
  unfold handle_miss
  simp only [hsel, Option.bind_eq_bind, Option.some_bind]
  simp only [update_line, hk, hj, Option.bind_eq_bind, Option.some_bind, line_at,
    List.getElem?_set_self hk', List.getElem?_set_self hj', List.set_set, htag]
  by_cases hv : v = 1 <;> by_cases ht : tag = 0 <;> by_cases ht2 : t = 0 <;>
    simp [hv, ht, ht2, htag, List.getElem?_set_self hk', List.getElem?_set_self hj']

/-- When `handle_miss` has a defined result, the chosen line exists and the tag is defined. -/
theorem pipe_handle_miss_some_inv (st : cache_state) (pos : Nat) (r : cache_state × Bool)
    (h : handle_miss st pos = some r) :
    ∃ k j lines l tag, select_line st pos = some (k, j) ∧ st.sets[k]? = some lines ∧
      lines[j]? = some l ∧ get_tag st.s st.b pos = some tag := by
  cases hsel : select_line st pos with
  | none => simp [handle_miss, hsel] at h
  | some p =>
    obtain ⟨k, j⟩ := p
    cases hu : update_line { st with counter := incr64 st.counter } (k, j)
        (fun l => { l with lru := incr64 st.counter }) with
    | none => simp [handle_miss, hsel, hu] at h
    | some st2 =>
      obtain ⟨lines, l, hk, hj⟩ := update_line_some_inv _ _ _ _ hu
      simp only at hk hj
      cases htag : get_tag st.s st.b pos with
      | some tag => exact ⟨k, j, lines, l, tag, rfl, hk, hj, rfl⟩
      | none =>
        exfalso
        obtain ⟨v, t, u⟩ := l
        obtain ⟨s, b, E, S, B, c, mc, hc, ec, sets⟩ := st
        have hk' := lt_length_of_getElem_opt _ _ _ hk
        have hj' := lt_length_of_getElem_opt _ _ _ hj
        simp only at hk htag hk'
        unfold handle_miss at h
        simp only [hsel, Option.bind_eq_bind, Option.some_bind] at h
        simp only [update_line, hk, hj, Option.bind_eq_bind, Option.some_bind, line_at,
          List.getElem?_set_self hk', List.getElem?_set_self hj', List.set_set, htag] at h
        by_cases hv : v = 1 <;> simp [hv, htag] at h

theorem pipe_accessData_hit_eq (st : cache_state) (a k j : Nat) (lines : List cache_line_t)
    (l : cache_line_t) (h : get_line st a = some (some (k, j)))
    (hk : st.sets[k]? = some lines) (hj : lines[j]? = some l) :
    accessData st a = some (after_hit st k j lines l) := by
  simp [accessData, check_hit_hit st a k j lines l h hk hj, after_hit]

theorem pipe_accessData_miss_eq (st : cache_state) (a k j : Nat) (lines : List cache_line_t)
    (l : cache_line_t) (tag : Nat) (h : get_line st a = some none)
    (hsel : select_line st a = some (k, j)) (hk : st.sets[k]? = some lines)
    (hj : lines[j]? = some l) (htag : get_tag st.s st.b a = some tag) :
    accessData st a = some (pipe_after_miss st k j lines l tag) := by
  have hsel' : select_line { st with miss_count := st.miss_count + 1 } a = some (k, j) :=
    (select_line_congr st { st with miss_count := st.miss_count + 1 } rfl rfl rfl rfl a).trans
      hsel
  have hm := pipe_handle_miss_eq { st with miss_count := st.miss_count + 1 } a k j lines l tag
    hsel' hk hj htag
  simp only [accessData, check_hit_miss st a h, Option.bind_eq_bind, Option.some_bind]
  rw [hm]
  rfl

/-- Every access with a defined result is a hit or a miss of the following shape. -/
theorem pipe_accessData_cases (st st' : cache_state) (a : Nat) (h : accessData st a = some st') :
    (∃ k j lines l, get_line st a = some (some (k, j)) ∧ st.sets[k]? = some lines ∧
        lines[j]? = some l ∧ l.valid = 1 ∧ get_tag st.s st.b a = some l.tag ∧
        st' = after_hit st k j lines l) ∨
    (∃ k j lines l tag, get_line st a = some none ∧ select_line st a = some (k, j) ∧
        st.sets[k]? = some lines ∧ lines[j]? = some l ∧ get_tag st.s st.b a = some tag ∧
        st' = pipe_after_miss st k j lines l tag) := by
  cases hc : check_hit st a with
  | none => simp [accessData, hc] at h
  | some r =>
    rcases check_hit_some_inv st a r hc with hg | ⟨k, j, hg⟩
    · right
      have hc' := check_hit_miss st a hg
      cases hm : handle_miss { st with miss_count := st.miss_count + 1 } a with
      | none => simp [accessData, hc', hm] at h
      | some r2 =>
        obtain ⟨k, j, lines, l, tag, h1, h2, h3, h4⟩ := pipe_handle_miss_some_inv _ _ _ hm
        have hsel : select_line st a = some (k, j) :=
          (select_line_congr st { st with miss_count := st.miss_count + 1 }
            rfl rfl rfl rfl a).symm.trans h1
        have e := pipe_accessData_miss_eq st a k j lines l tag hg hsel h2 h3 h4
        rw [e] at h
        cases h
        exact ⟨k, j, lines, l, tag, hg, hsel, h2, h3, h4, rfl⟩
    · left
      obtain ⟨lines, l, h2, h3, h4, h5⟩ := get_line_some st a k j hg
      have e := pipe_accessData_hit_eq st a k j lines l hg h2 h3
      rw [e] at h
      cases h
      exact ⟨k, j, lines, l, hg, h2, h3, h4, h5, rfl⟩

/-! ## Counting the valid lines -/

/-- Replacing one element of a list changes a count by the difference of the two
elements. -/
theorem countP_set_add (p : cache_line_t → Bool) (lines : List cache_line_t) (j : Nat)
    (l l' : cache_line_t) (hj : lines[j]? = some l) :
    (lines.set j l').countP p + (if p l = true then 1 else 0) =
      lines.countP p + (if p l' = true then 1 else 0) := by
  induction lines generalizing j with
  | nil => simp at hj
  | cons x xs ih =>
    cases j with
    | zero =>
      simp only [List.getElem?_cons_zero, Option.some.injEq] at hj
      subst hj
      simp only [List.set_cons_zero, List.countP_cons]
      omega
    | succ n =>
      simp only [List.getElem?_cons_succ] at hj
      simp only [List.set_cons_succ, List.countP_cons]
      have := ih n hj
      omega

/-- Replacing one set changes the sum over the sets by the difference of the two sets. -/
theorem sum_map_set_add (f : List cache_line_t → Nat) (sets : List (List cache_line_t))
    (k : Nat) (lines lines' : List cache_line_t) (hk : sets[k]? = some lines) :
    ((sets.set k lines').map f).sum + f lines = (sets.map f).sum + f lines' := by
  induction sets generalizing k with
  | nil => simp at hk
  | cons x xs ih =>
    cases k with
    | zero =>
      simp only [List.getElem?_cons_zero, Option.some.injEq] at hk
      subst hk
      simp only [List.set_cons_zero, List.map_cons, List.sum_cons]
      omega
    | succ n =>
      simp only [List.getElem?_cons_succ] at hk
      simp only [List.set_cons_succ, List.map_cons, List.sum_cons]
      have := ih n hk
      omega

/-- The number of valid lines after line `j` of set `k` has been replaced by `l1`. -/
theorem valid_lines_set (st st' : cache_state) (k j : Nat) (lines : List cache_line_t)
    (l l1 : cache_line_t) (hk : st.sets[k]? = some lines) (hj : lines[j]? = some l)
    (hs : st'.sets = st.sets.set k (lines.set j l1)) :
    valid_lines st' + (if l.valid = 1 then 1 else 0) =
      valid_lines st + (if l1.valid = 1 then 1 else 0) := by
  have h1 := countP_set_add (fun x => decide (x.valid = 1)) lines j l l1 hj
  have h2 := sum_map_set_add (fun x => x.countP (fun y => decide (y.valid = 1))) st.sets k
    lines (lines.set j l1) hk
  simp only [decide_eq_true_eq] at h1
  unfold valid_lines
  rw [hs]
  simp only at h2
  omega

/-- Replacing a line by one with flag 0 or 1 keeps all flags 0 or 1. -/
theorem valid_flags_set (st st' : cache_state) (k j : Nat) (lines : List cache_line_t)
    (l1 : cache_line_t) (hf : valid_flags st) (hk : st.sets[k]? = some lines)
    (hs : st'.sets = st.sets.set k (lines.set j l1)) (h1 : l1.valid = 0 ∨ l1.valid = 1) :
    valid_flags st' := by
  intro x hx y hy
  rw [hs] at hx
  have hmem : lines ∈ st.sets := List.mem_iff_getElem?.2 ⟨k, hk⟩
  rcases List.mem_or_eq_of_mem_set hx with h | h
  · exact hf x h y hy
  · subst h
    rcases List.mem_or_eq_of_mem_set hy with h | h
    · exact hf lines hmem y h
    · subst h
      exact h1

/-- One access of `src/pipe-cache/cache.c`: the flags stay 0 or 1, the difference between
`miss_count - eviction_count` and the number of valid lines stays the same, `hit_count +
miss_count` grows by one and `eviction_count` does not shrink. -/
theorem pipe_accessData_step (st st' : cache_state) (a : Nat) (hf : valid_flags st)
    (h : accessData st a = some st') :
    valid_flags st' ∧
    st'.miss_count - st'.eviction_count - (valid_lines st' : Int) =
      st.miss_count - st.eviction_count - (valid_lines st : Int) ∧
    st'.hit_count + st'.miss_count = st.hit_count + st.miss_count + 1 ∧
    st.eviction_count ≤ st'.eviction_count := by
  rcases pipe_accessData_cases st st' a h with
    ⟨k, j, lines, l, _, hk, hj, hv, _, rfl⟩ | ⟨k, j, lines, l, tag, _, _, hk, hj, _, rfl⟩
  · have hvl := valid_lines_set st (after_hit st k j lines l) k j lines l
      { l with lru := incr64 st.counter } hk hj rfl
    refine ⟨valid_flags_set st _ k j lines _ hf hk rfl (Or.inr hv), ?_, ?_, ?_⟩
    · simp only [hv, if_true] at hvl
      have e : valid_lines (after_hit st k j lines l) = valid_lines st := by omega
      rw [e]
      rfl
    · show st.hit_count + 1 + st.miss_count = st.hit_count + st.miss_count + 1
      omega
    · exact le_refl _
  · have hvl := valid_lines_set st (pipe_after_miss st k j lines l tag) k j lines l
      ⟨1, tag, incr64 st.counter⟩ hk hj rfl
    have hmem : lines ∈ st.sets := List.mem_iff_getElem?.2 ⟨k, hk⟩
    have hl : l ∈ lines := List.mem_iff_getElem?.2 ⟨j, hj⟩
    have hm : (pipe_after_miss st k j lines l tag).miss_count = st.miss_count + 1 := rfl
    have hh : (pipe_after_miss st k j lines l tag).hit_count = st.hit_count := rfl
    have he : (pipe_after_miss st k j lines l tag).eviction_count =
        if l.valid = 1 then st.eviction_count + 1 else st.eviction_count := rfl
    refine ⟨valid_flags_set st _ k j lines _ hf hk rfl (Or.inr rfl), ?_, ?_, ?_⟩
    · rw [hm, he]
      simp only [if_true] at hvl
      rcases hf lines hmem l hl with h0 | h1
      · have hn : ¬ (l.valid = 1) := by omega
        simp only [hn, if_false] at hvl ⊢
        omega
      · simp only [h1, if_true] at hvl ⊢
        omega
    · rw [hm, hh]
      omega
    · rw [he]
      split <;> omega

/-- A replayed trace on `src/pipe-cache/cache.c`. -/
theorem pipe_accessAll_step (st st' : cache_state) (addrs : List Nat) (hf : valid_flags st)
    (h : accessAll st addrs = some st') :
    valid_flags st' ∧
    st'.miss_count - st'.eviction_count - (valid_lines st' : Int) =
      st.miss_count - st.eviction_count - (valid_lines st : Int) ∧
    st'.hit_count + st'.miss_count = st.hit_count + st.miss_count + addrs.length ∧
    st.eviction_count ≤ st'.eviction_count := by
  induction addrs generalizing st with
  | nil =>
    simp only [accessAll, Option.some.injEq] at h
    subst h
    exact ⟨hf, rfl, by simp, le_refl _⟩
  | cons a as ih =>
    unfold accessAll at h
    cases h1 : accessData st a with
    | none => simp [h1] at h
    | some st1 =>
      simp only [h1, Option.bind_eq_bind, Option.some_bind] at h
      obtain ⟨g1, g2, g3, g4⟩ := pipe_accessData_step st st1 a hf h1
      obtain ⟨f1, f2, f3, f4⟩ := ih st1 g1 h
      refine ⟨f1, f2.trans g2, ?_, le_trans g4 f4⟩
      rw [f3, g3]
      simp only [List.length_cons]
      push_cast
      omega

/-- After `initCache` no line is valid. -/
theorem initCache_valid_lines (st0 st : cache_state) (s b E : Int)
    (h : initCache st0 s b E = some st) :
    valid_flags st ∧ valid_lines st = 0 ∧ st.miss_count = st0.miss_count ∧
      st.hit_count = st0.hit_count ∧ st.eviction_count = st0.eviction_count := by
  obtain ⟨S, B, _, _, rfl⟩ := initCache_some_inv st0 st s b E h
  refine ⟨?_, ?_, rfl, rfl, rfl⟩
  · intro lines hmem l hl
    have e1 : lines = List.replicate E.toNat ⟨0, 0, 0⟩ := List.eq_of_mem_replicate hmem
    subst e1
    have e2 : l = ⟨0, 0, 0⟩ := List.eq_of_mem_replicate hl
    subst e2
    exact Or.inl rfl
  · unfold valid_lines
    apply List.sum_eq_zero
    intro x hx
    simp only [List.map_replicate] at hx
    have e := List.eq_of_mem_replicate hx
    rw [e, List.countP_eq_zero]
    intro y hy
    have e2 : y = ⟨0, 0, 0⟩ := List.eq_of_mem_replicate hy
    subst e2
    decide

/-! ## Defined results for `src/pipe-cache/cache.c` -/

/-- One access of `src/pipe-cache/cache.c` changes the line arrays as the access of
`src/cache/cache.c` does, so it keeps the invariant and the geometry. -/
theorem pipe_accessData_inv (st st' : cache_state) (a : Nat) (hi : cache_inv st)
    (h : accessData st a = some st') :
    cache_inv st' ∧ st'.s = st.s ∧ st'.b = st.b ∧ st'.E = st.E ∧
      st'.sets.length = st.sets.length := by
  rcases pipe_accessData_cases st st' a h with
    ⟨k, j, lines, l, hg, hk, hj, _, _, rfl⟩ | ⟨k, j, lines, l, tag, hg, hsel, hk, hj, htag, rfl⟩
  · exact accessData_inv st _ a hi (Cache.accessData_hit_eq st a k j lines l hg hk hj)
  · exact accessData_inv st (Cache.after_miss st k j lines l tag) a hi
      (Cache.accessData_miss_eq st a k j lines l tag hg hsel hk hj htag)

/-- In a well-shaped cache with `1 ≤ s`, `0 ≤ b`, `s + b < 64` and `1 ≤ E`, every access of
`src/pipe-cache/cache.c` has a defined result. -/
theorem pipe_accessData_total (st : cache_state) (a : Nat) (s b E : Int)
    (hs : 1 ≤ s) (hb : 0 ≤ b) (hsb : s + b < 64) (hE : 1 ≤ E)
    (hi : cache_inv st) (hsh : cache_shape s b E st) : ∃ st', accessData st a = some st' := by
  obtain ⟨st1, h1⟩ := Cache.accessData_total st a s b E hs hb hsb hE hi hsh
  rcases Cache.accessData_cases st st1 a h1 with
    ⟨k, j, lines, l, hg, hk, hj, _, _, _⟩ | ⟨k, j, lines, l, tag, hg, hsel, hk, hj, htag, _⟩
  · exact ⟨_, pipe_accessData_hit_eq st a k j lines l hg hk hj⟩
  · exact ⟨_, pipe_accessData_miss_eq st a k j lines l tag hg hsel hk hj htag⟩

theorem pipe_accessAll_total (st : cache_state) (addrs : List Nat) (s b E : Int)
    (hs : 1 ≤ s) (hb : 0 ≤ b) (hsb : s + b < 64) (hE : 1 ≤ E)
    (hi : cache_inv st) (hsh : cache_shape s b E st) : ∃ st', accessAll st addrs = some st' := by
  induction addrs generalizing st with
  | nil => exact ⟨st, rfl⟩
  | cons a as ih =>
    obtain ⟨st1, h1⟩ := pipe_accessData_total st a s b E hs hb hsb hE hi hsh
    obtain ⟨g1, g2, g3, g4, g5⟩ := pipe_accessData_inv st st1 a hi h1
    obtain ⟨st2, h2⟩ := ih st1 g1 (cache_shape_of_eq s b E st st1 hsh g2 g3 g4 g5)
    exact ⟨st2, by simp [accessAll, h1, h2]⟩

/-- C34: in `src/pipe-cache/cache.c`, for every `(s, b, E)` with `1 ≤ E` and `1 ≤ s` and
every address sequence, after `initCache` with zero counters and the `accessData` calls of
the sequence, `miss_count - eviction_count` equals the total number of valid lines of the
cache and `hit_count + miss_count` equals the number of `accessData` calls; hence
`0 ≤ eviction_count ≤ miss_count`; every line has the flag `valid` 0 or 1. The run has a
defined result whenever moreover `s ≤ 30` and `0 ≤ b ≤ 30`. In each single access an
eviction is counted exactly when a valid line is replaced: a hit leaves `eviction_count` and
the number of valid lines as they are, and a miss, which replaces the line `l` that
`select_line` picks by a valid line, adds one to `eviction_count` iff `l` was valid. -/
theorem pipe_cache_counters (st0 : cache_state) (s b E : Int) (addrs : List Nat)
    (hs : 1 ≤ s) (hE : 1 ≤ E)
    (hz : st0.miss_count = 0 ∧ st0.hit_count = 0 ∧ st0.eviction_count = 0) :
    (∀ st, (initCache st0 s b E).bind (fun c => accessAll c addrs) = some st →
      st.miss_count - st.eviction_count = (valid_lines st : Int) ∧
      st.hit_count + st.miss_count = (addrs.length : Int) ∧
      0 ≤ st.eviction_count ∧ st.eviction_count ≤ st.miss_count ∧ valid_flags st) ∧
    (s ≤ 30 → 0 ≤ b → b ≤ 30 →
      ∃ st, (initCache st0 s b E).bind (fun c => accessAll c addrs) = some st) ∧
    (∀ (c c1 : cache_state) (a : Nat), accessData c a = some c1 →
      (∃ (k j : Nat), get_line c a = some (some (k, j)) ∧
        c1.eviction_count = c.eviction_count ∧ c1.miss_count = c.miss_count ∧
        valid_lines c1 = valid_lines c) ∨
      (∃ (k j : Nat) (lines : List cache_line_t) (l : cache_line_t) (tag : Nat),
        get_line c a = some none ∧ select_line c a = some (k, j) ∧
        c.sets[k]? = some lines ∧ lines[j]? = some l ∧
        c1.sets = c.sets.set k (lines.set j ⟨1, tag, incr64 c.counter⟩) ∧
        c1.miss_count = c.miss_count + 1 ∧
        c1.eviction_count =
          (if l.valid = 1 then c.eviction_count + 1 else c.eviction_count))) := by
  refine ⟨?_, ?_, ?_⟩
  · intro st h
    cases hc : initCache st0 s b E with
    | none => simp [hc] at h
    | some c =>
      simp only [hc, Option.some_bind] at h
      obtain ⟨i1, i2, i3, i4, i5⟩ := initCache_valid_lines st0 c s b E hc
      obtain ⟨f1, f2, f3, f4⟩ := pipe_accessAll_step c st addrs i1 h
      rw [i2, i3, i5, hz.1, hz.2.2] at f2
      rw [i4, i3, hz.1, hz.2.1] at f3
      rw [i5, hz.2.2] at f4
      have hv : (0 : Int) ≤ (valid_lines st : Int) := Int.ofNat_nonneg _
      refine ⟨?_, ?_, f4, ?_, f1⟩
      · simp only [Nat.cast_zero] at f2
        omega
      · omega
      · simp only [Nat.cast_zero] at f2
        omega
  · intro hs30 hb0 hb30
    obtain ⟨c, hc, hsh⟩ := initCache_total st0 s b E (by omega) hs30 hb30
    obtain ⟨hi, _⟩ := initCache_inv st0 c s b E hc
    obtain ⟨st, hst⟩ := pipe_accessAll_total c addrs s b E hs hb0 (by omega) hE hi hsh
    exact ⟨st, by simp [hc, hst]⟩
  · intro c c1 a h
    rcases pipe_accessData_cases c c1 a h with
      ⟨k, j, lines, l, hg, hk, hj, hv, _, rfl⟩ | ⟨k, j, lines, l, tag, hg, hsel, hk, hj, _, rfl⟩
    · left
      have hvl := valid_lines_set c (after_hit c k j lines l) k j lines l
        { l with lru := incr64 c.counter } hk hj rfl
      simp only [hv, if_true] at hvl
      exact ⟨k, j, hg, rfl, rfl, by omega⟩
    · right
      exact ⟨k, j, lines, l, tag, hg, hsel, hk, hj, rfl, rfl, rfl⟩

/-- C34 witness: two sets of one line and the trace 0, 4, 4: a fill of an invalid line, an
eviction and a hit. -/
theorem pipe_cache_counters_witness :
    ∃ st, (initCache program_start 1 1 1).bind (fun c => accessAll c [0, 4, 4]) = some st ∧
      st.miss_count - st.eviction_count = (valid_lines st : Int) ∧
      st.hit_count + st.miss_count = 3 ∧ st.eviction_count ≤ st.miss_count := by
  obtain ⟨h1, h2, _⟩ := pipe_cache_counters program_start 1 1 1 [0, 4, 4]
    (by decide) (by decide) ⟨rfl, rfl, rfl⟩
  obtain ⟨st, hst⟩ := h2 (by decide) (by decide) (by decide)
  exact ⟨st, hst, (h1 st hst).1, (h1 st hst).2.1, (h1 st hst).2.2.2.1⟩

end PipeCache

namespace Pcsim

/-! ## A mispredicted jump: what is discarded and what is not -/

/-- A cycle whose Execute stage does not hold an `I_ALU` instruction leaves `cc` as it
is. -/
theorem sim_step_pipe_cc_keep {M : Type} (env : isa_env M) (ds : mem_status_t)
    (S : sim_state M)
    (h : (sim_step_pipe env ds S).1.id_ex_state.current.icode ≠ .I_ALU) :
    (sim_step_pipe env ds S).1.cc = S.cc := by
  have hc := (cycle_commit env ds S _ rfl).2.2.1
  rw [hc] at h
  have h' : (do_mem_stage env (do_wb_stage env
      (error_checking (update_pipes_bank S)))).id_ex_state.current.icode ≠ .I_ALU := h
  show (perf_monitor _).cc = _
  rw [(perf_monitor_rest _).2.2.2.2]
  show (do_ex_stage env (do_mem_stage env (do_wb_stage env
    (error_checking (update_pipes_bank S))))).cc = S.cc
  simp only [do_ex_stage, h', decide_False, Bool.false_and, if_false, Bool.false_eq_true]
  rfl

/-- When the ex_mem latch gets `P_LOAD`, so does the mem_wb latch. -/
theorem cycle_op_wb_of_mem {M : Type} (env : isa_env M) (ds : mem_status_t)
    (S S1 : sim_state M) (h : S1 = (sim_step_pipe env ds S).1)
    (hM : S1.ex_mem_state.op = .P_LOAD) : S1.mem_wb_state.op = .P_LOAD := by
  have h1 := cycle_op_mem env ds S S1 h
  have h2 := (cycle_ops env ds S S1 h).2.2.2
  rw [hM] at h1
  rw [h2]
  generalize is_exception S1.mem_wb_state.current.status = a at h1 ⊢
  generalize is_exception S1.mem_wb_state.next.status = b at h1
  generalize (decide (ds = .IN_FLIGHT) || decide (ds = .ERROR)) = c at h1
  cases a <;> cases b <;> cases c <;> simp at h1 ⊢

/-- At the end of a cycle `ex_mem_next` carries the destinations that Execute derives from
`id_ex_curr`. -/
theorem cycle_next_dest {M : Type} (env : isa_env M) (ds : mem_status_t) (S S1 : sim_state M)
    (h : S1 = (sim_step_pipe env ds S).1) :
    S1.ex_mem_state.next.deste =
      (if S1.id_ex_state.current.icode = .I_RRMOVQ ∧
          S1.ex_mem_state.next.takebranch = false
        then .REG_NONE else S1.id_ex_state.current.deste) ∧
    S1.ex_mem_state.next.destm = S1.id_ex_state.current.destm := by
  obtain ⟨_, _, a3, a4, _, _⟩ := sim_step_pipe_spec env ds S S1 _ rfl h
  rw [a3, a4]
  exact ⟨rfl, rfl⟩

/-- C15 (amended): let `S1` be the state at the end of a cycle in which a jump is in Execute
and resolved not-taken, and `S2` the state at the end of the next cycle. (1) The instruction
in `if_id_curr` and the instruction fetched in that cycle are discarded: the if_id and the
id_ex latch get op `P_BUBBLE` and hold their bubble values in the next cycle, in which
Decode and Execute hand on bubbles again (`id_ex_next` and `ex_mem_next` have icode `I_NOP`,
status `STAT_BUB` and no destination): neither instruction reaches `id_ex_curr`, the input
of `do_ex_stage`, from which alone `ex_mem_curr` and `mem_wb_curr`, the inputs of
`do_mem_stage` and `do_wb_stage`, are fed; `cc` is not changed in the next cycle. (2) Provided the
jump is committed to the Memory latch (ex_mem op `P_LOAD`: memory ready, no `STAT_ADR`,
`STAT_INS` or `STAT_HLT` in `mem_wb_next` or `mem_wb_curr`), no other instruction is
discarded: the mem_wb latch gets `P_LOAD` too, in the next cycle `ex_mem_curr` holds the jump
as Execute handed it on and `mem_wb_curr` holds the instruction that was in Memory as Memory
handed it on, the register file is the one that `do_wb_stage` left when it processed the
instruction in `mem_wb_curr`, and `do_if_stage` fetches from `f_pc = ex_mem_curr.vala`, which
is the `vala` the jump carried in Execute.
(3) Decode gives every jump `vala = valp`, its fall-through address. -/
theorem mispredict_discards_two {M : Type} (env : isa_env M) (ds ds2 : mem_status_t)
    (S0 S1 S2 : sim_state M)
    (h1 : S1 = (sim_step_pipe env ds S0).1) (h2 : S2 = (sim_step_pipe env ds2 S1).1)
    (hb1 : S0.if_id_state.bubble_val = bubble_if_id)
    (hb2 : S0.id_ex_state.bubble_val = bubble_id_ex)
    (hj : S1.id_ex_state.current.icode = .I_JMP)
    (ht : S1.ex_mem_state.next.takebranch = false) :
    (S1.if_id_state.op = .P_BUBBLE ∧ S1.id_ex_state.op = .P_BUBBLE ∧
      S2.if_id_state.current = bubble_if_id ∧ S2.id_ex_state.current = bubble_id_ex ∧
      S2.id_ex_state.next.icode = .I_NOP ∧ S2.id_ex_state.next.status = .STAT_BUB ∧
      S2.id_ex_state.next.deste = .REG_NONE ∧ S2.id_ex_state.next.destm = .REG_NONE ∧
      S2.ex_mem_state.next.icode = .I_NOP ∧ S2.ex_mem_state.next.status = .STAT_BUB ∧
      S2.ex_mem_state.next.deste = .REG_NONE ∧ S2.ex_mem_state.next.destm = .REG_NONE ∧
      S2.cc = S1.cc) ∧
    (S1.ex_mem_state.op = .P_LOAD →
      S1.mem_wb_state.op = .P_LOAD ∧
      S2.ex_mem_state.current = S1.ex_mem_state.next ∧
      S2.ex_mem_state.current.icode = .I_JMP ∧
      S2.mem_wb_state.current = S1.mem_wb_state.next ∧
      S2.mem_wb_state.current.icode = S1.ex_mem_state.current.icode ∧
      S1.reg = (do_wb_stage env (error_checking (update_pipes_bank S0))).reg ∧
      S2.f_pc = S2.ex_mem_state.current.vala ∧
      S2.ex_mem_state.current.vala = S1.id_ex_state.current.vala) ∧
    (∀ S : sim_state M, S.if_id_state.current.icode = .I_JMP →
      (do_id_stage env S).id_ex_state.next.vala = S.if_id_state.current.valp) := by
  obtain ⟨a1, a2, a3, a4, a5⟩ :=
    mispredict_core env ds ds2 S0 S1 S2 h1 h2 hb1 hb2 hj ht
  obtain ⟨n1, n2, n3, _⟩ := cycle_next env ds2 S1 S2 h2
  obtain ⟨t1, _, t3, _⟩ := cycle_tags env ds2 S1 S2 h2
  obtain ⟨d1, d2⟩ := cycle_next_dest env ds2 S1 S2 h2
  obtain ⟨_, _, s3, _⟩ := sim_step_pipe_spec env ds2 S1 S2 _ rfl h2
  obtain ⟨_, _, e3, _⟩ := do_stages_decode env (error_checking (update_pipes_bank S1))
  have hd : S2.id_ex_state.next.icode = .I_NOP := by rw [n3, a3]; rfl
  have hdd : S2.id_ex_state.next.deste = .REG_NONE ∧
      S2.id_ex_state.next.destm = .REG_NONE := by
    have hc : (error_checking (update_pipes_bank S1)).if_id_state.current = bubble_if_id := by
      have := (cycle_commit env ds2 S1 S2 h2).2.1
      rw [a3] at this
      exact this.symm
    rw [s3]
    constructor
    · show (do_id_stage env (do_ex_stage env (do_mem_stage env (do_wb_stage env
        (error_checking (update_pipes_bank S1)))))).id_ex_state.next.deste = _
      have hc2 : (do_ex_stage env (do_mem_stage env (do_wb_stage env
          (error_checking (update_pipes_bank S1))))).if_id_state.current = bubble_if_id := hc
      simp [do_id_stage, hc2, bubble_if_id]
    · show (do_stages env (error_checking (update_pipes_bank S1))).id_ex_state.next.destm = _
      rw [e3, hc]
      simp [bubble_if_id]
  refine ⟨⟨a1, a2, a3, a4, hd, by rw [t1, a3]; rfl, hdd.1, hdd.2, by rw [n2, a4]; rfl,
    by rw [t3, a4]; rfl, ?_, by rw [d2, a4]; rfl, ?_⟩, ?_, ?_⟩
  · rw [d1, a4]
    simp [bubble_id_ex]
  · rw [h2]
    apply sim_step_pipe_cc_keep
    rw [← h2, a4]
    decide
  · intro hM
    obtain ⟨b1, b2, b3⟩ := a5 hM
    have hw := cycle_op_wb_of_mem env ds S0 S1 h1 hM
    have cw : S2.mem_wb_state.current = S1.mem_wb_state.next := by
      rw [(cycle_commit env ds2 S1 S2 h2).2.2.2.2]
      exact (commit_spec _ S1.mem_wb_state).2.2.1 hw
    have hi : S1.ex_mem_state.next.icode = .I_JMP := by
      rw [(cycle_next env ds S0 S1 h1).2.1, hj]
    exact ⟨hw, b1, by rw [b1, hi], cw, by rw [cw, (cycle_next env ds S0 S1 h1).1],
      by rw [h1]; exact sim_step_pipe_reg env ds S0, b2, b3⟩
  · intro S hS
    rw [(do_id_stage_vals env S).1, if_pos (Or.inr hS)]

/-- C15 witness: the same jump with a bubble ahead of it: both younger latches hold bubbles
in the next cycle, the jump is in `ex_mem_curr`, and the next fetch is from the fall-through
address 100. -/
theorem mispredict_discards_two_witness :
    (sim_step_pipe toy_env (.other 0)
      (sim_step_pipe toy_env (.other 0) (toy_jump bubble_ex_mem)).1).1.f_pc = 100 ∧
    (sim_step_pipe toy_env (.other 0)
      (sim_step_pipe toy_env (.other 0) (toy_jump bubble_ex_mem)).1).1.id_ex_state.current =
      bubble_id_ex ∧
    (sim_step_pipe toy_env (.other 0)
      (sim_step_pipe toy_env (.other 0)
        (toy_jump bubble_ex_mem)).1).1.ex_mem_state.current.icode = .I_JMP := by
  have h := mispredict_discards_two toy_env (.other 0) (.other 0) (toy_jump bubble_ex_mem)
    _ _ rfl rfl rfl rfl (by decide) (by decide)
  have hm := h.2.1 (by decide)
  have hv : (sim_step_pipe toy_env (.other 0)
      (toy_jump bubble_ex_mem)).1.id_ex_state.current.vala = 100 := by decide
  exact ⟨hm.2.2.2.2.2.2.1.trans (hm.2.2.2.2.2.2.2.trans hv), h.1.2.2.2.1, hm.2.2.1⟩

end Pcsim

namespace Pcsim

/-! ## The run loop in terms of the successive states -/

/-- The status that a call of `sim_step_pipe` returns is that of the instruction it has
committed to `mem_wb_curr`, with `STAT_AOK` for a bubble. -/
theorem sim_step_pipe_status {M : Type} (env : isa_env M) (ds : mem_status_t)
    (S : sim_state M) :
    (sim_step_pipe env ds S).2 =
      (if (sim_step_pipe env ds S).1.mem_wb_state.current.status = .STAT_BUB then .STAT_AOK
        else (sim_step_pipe env ds S).1.mem_wb_state.current.status) := by
  rw [(sim_step_pipe_f_pc env ds S).2, (cycle_commit env ds S _ rfl).2.2.2.2]
  rfl

/-- The returned status is neither `STAT_AOK` nor `STAT_BUB` iff the status committed to
`mem_wb_curr` is neither. -/
theorem sim_step_pipe_status_stop {M : Type} (env : isa_env M) (ds : mem_status_t)
    (S : sim_state M) :
    ((sim_step_pipe env ds S).2 ≠ .STAT_AOK ∧ (sim_step_pipe env ds S).2 ≠ .STAT_BUB) ↔
      ((sim_step_pipe env ds S).1.mem_wb_state.current.status ≠ .STAT_AOK ∧
        (sim_step_pipe env ds S).1.mem_wb_state.current.status ≠ .STAT_BUB) := by
  rw [sim_step_pipe_status]
  generalize (sim_step_pipe env ds S).1.mem_wb_state.current.status = s
  cases s <;> simp

/-- The loop of `sim_run_pipe` entered after `k` calls, with enough fuel: it ends after `n`
calls in the state `sim_steps n`; every call but the last returned `STAT_AOK`, and at the
end a ceiling is reached or the last call returned another status. -/
theorem sim_run_pipe_loop_steps {M : Type} (env : isa_env M) (ds : Int → mem_status_t)
    (mi mc : Int) (fuel : Nat) (S : sim_state M) (k : Nat) (rs : stat_t)
    (hf : (mc - k).toNat ≤ fuel) (hi : (k : Int) ≤ mi) (hc : (k : Int) ≤ mc) :
    ∃ n : Nat, k ≤ n ∧ (n : Int) ≤ mi ∧ (n : Int) ≤ mc ∧
      (sim_run_pipe_loop env ds mi mc fuel (sim_steps env ds k S) k k rs).1 =
        sim_steps env ds n S ∧
      (sim_run_pipe_loop env ds mi mc fuel (sim_steps env ds k S) k k rs).2.1 = n ∧
      (sim_run_pipe_loop env ds mi mc fuel (sim_steps env ds k S) k k rs).2.2.2 =
        (if n = k then rs
          else (sim_step_pipe env (ds ((n - 1 : Nat) : Int)) (sim_steps env ds (n - 1) S)).2) ∧
      (∀ j : Nat, k ≤ j → j + 1 < n →
        (sim_step_pipe env (ds (j : Int)) (sim_steps env ds j S)).2 = .STAT_AOK) ∧
      ((n : Int) = mi ∨ (n : Int) = mc ∨
        (k < n ∧
          (sim_step_pipe env (ds ((n - 1 : Nat) : Int)) (sim_steps env ds (n - 1) S)).2 ≠
            .STAT_AOK)) := by
  induction fuel generalizing k rs with
  | zero =>
    refine ⟨k, le_refl _, hi, hc, rfl, rfl, by simp [sim_run_pipe_loop], ?_, ?_⟩
    · intro j h1 h2
      omega
    · right; left
      omega
  | succ f ih =>
    rw [sim_run_pipe_loop_succ]
    by_cases hcc : (k : Int) < mi ∧ (k : Int) < mc
    · rw [if_pos hcc]
      by_cases hs : (sim_step_pipe env (ds (k : Int)) (sim_steps env ds k S)).2 = .STAT_AOK
      · rw [if_pos hs]
        have e1 : (sim_step_pipe env (ds (k : Int)) (sim_steps env ds k S)).1 =
            sim_steps env ds (k + 1) S := rfl
        have e2 : ((k : Int) + 1) = ((k + 1 : Nat) : Int) := by push_cast; rfl
        rw [e1, e2]
        obtain ⟨n, g1, g2, g3, g4, g5, g6, g7, g8⟩ :=
          ih (k + 1) (sim_step_pipe env (ds (k : Int)) (sim_steps env ds k S)).2
            (by push_cast; omega) (by push_cast; omega) (by push_cast; omega)
        refine ⟨n, by omega, g2, g3, g4, g5, ?_, ?_, ?_⟩
        · rw [g6]
          by_cases hn : n = k + 1
          · subst hn
            simp
          · rw [if_neg hn, if_neg (by omega)]
        · intro j h1 h2
          by_cases hj : j = k
          · subst hj
            exact hs
          · exact g7 j (by omega) h2
        · rcases g8 with h | h | h
          · exact Or.inl h
          · exact Or.inr (Or.inl h)
          · exact Or.inr (Or.inr ⟨by omega, h.2⟩)
      · rw [if_neg hs]
        refine ⟨k + 1, by omega, by push_cast; omega, by push_cast; omega, rfl,
          by push_cast; rfl, ?_, ?_, ?_⟩
        · simp
        · intro j h1 h2
          omega
        · right; right
          exact ⟨by omega, by simpa using hs⟩
    · rw [if_neg hcc]
      refine ⟨k, le_refl _, hi, hc, rfl, rfl, by simp, ?_, ?_⟩
      · intro j h1 h2
        omega
      · by_cases h : (k : Int) < mi
        · right; left
          omega
        · left
          omega

/-- C24: for `max_instr ≥ 0` and `max_cycle ≥ 0`, `sim_run_pipe` terminates (its loop leaves
by its own tests: iterations beyond `max_cycle` change nothing) after a number `n` of calls
of `sim_step_pipe` that is at most `min(max_instr, max_cycle)`; `n` is the returned `icount`
and the final state is the one after `n` consecutive calls. It stops exactly when a ceiling
is reached or a call returned a status other than `STAT_AOK` and `STAT_BUB`: every call
before the last one returned `STAT_AOK`, having committed a status `STAT_AOK` or `STAT_BUB`
to `mem_wb_curr`, and at the end `n` equals `max_instr`, or `n` equals `max_cycle`, or the
last call returned a status that is neither `STAT_AOK` nor `STAT_BUB`, which is the status
it committed to `mem_wb_curr`. The status that any call returns is the status it committed
to `mem_wb_curr`, with `STAT_AOK` for `STAT_BUB`. The status stored through `statusp` is the
status returned by the last call (the initial `STAT_AOK` when there was no call), and the
value stored through `ccp` is `cc` of the final state. -/
theorem sim_run_pipe_terminates {M : Type} (env : isa_env M) (ds : Int → mem_status_t)
    (max_instr max_cycle : Int) (S : sim_state M) (hi : 0 ≤ max_instr) (hc : 0 ≤ max_cycle) :
    (∀ extra : Nat,
      sim_run_pipe_loop env ds max_instr max_cycle (max_cycle.toNat + extra) S 0 0 .STAT_AOK =
        sim_run_pipe_loop env ds max_instr max_cycle max_cycle.toNat S 0 0 .STAT_AOK) ∧
    (∀ (c : Int) (T : sim_state M),
      (sim_step_pipe env (ds c) T).2 =
        (if (sim_step_pipe env (ds c) T).1.mem_wb_state.current.status = .STAT_BUB
          then .STAT_AOK else (sim_step_pipe env (ds c) T).1.mem_wb_state.current.status)) ∧
    (∃ n : Nat,
      (sim_run_pipe env ds max_instr max_cycle S).2.1 = (n : Int) ∧
      (sim_run_pipe env ds max_instr max_cycle S).1 = sim_steps env ds n S ∧
      (n : Int) ≤ min max_instr max_cycle ∧
      (∀ j : Nat, j + 1 < n →
        (sim_step_pipe env (ds (j : Int)) (sim_steps env ds j S)).2 = .STAT_AOK ∧
        ((sim_steps env ds (j + 1) S).mem_wb_state.current.status = .STAT_AOK ∨
          (sim_steps env ds (j + 1) S).mem_wb_state.current.status = .STAT_BUB)) ∧
      ((n : Int) = max_instr ∨ (n : Int) = max_cycle ∨
        (0 < n ∧
          (sim_run_pipe env ds max_instr max_cycle S).2.2.1 ≠ .STAT_AOK ∧
          (sim_run_pipe env ds max_instr max_cycle S).2.2.1 ≠ .STAT_BUB ∧
          (sim_steps env ds n S).mem_wb_state.current.status ≠ .STAT_AOK ∧
          (sim_steps env ds n S).mem_wb_state.current.status ≠ .STAT_BUB ∧
          (sim_run_pipe env ds max_instr max_cycle S).2.2.1 =
            (sim_steps env ds n S).mem_wb_state.current.status)) ∧
      (sim_run_pipe env ds max_instr max_cycle S).2.2.1 =
        (if n = 0 then .STAT_AOK
          else (sim_step_pipe env (ds ((n - 1 : Nat) : Int)) (sim_steps env ds (n - 1) S)).2) ∧
      (sim_run_pipe env ds max_instr max_cycle S).2.2.2 = (sim_steps env ds n S).cc) := by
  refine ⟨?_, fun c T => sim_step_pipe_status env (ds c) T, ?_⟩
  · intro extra
    exact (sim_run_pipe_loop_fuel env ds max_instr max_cycle max_cycle.toNat extra S 0 0
      .STAT_AOK (by omega)).1
  · obtain ⟨n, _, g2, g3, g4, g5, g6, g7, g8⟩ :=
      sim_run_pipe_loop_steps env ds max_instr max_cycle max_cycle.toNat S 0 .STAT_AOK
        (by simp) (by simpa using hi) (by simpa using hc)
    simp only [sim_steps, Nat.cast_zero] at g4 g5 g6
    have hst : (sim_run_pipe env ds max_instr max_cycle S).2.2.1 =
        (if n = 0 then .STAT_AOK
          else (sim_step_pipe env (ds ((n - 1 : Nat) : Int))
            (sim_steps env ds (n - 1) S)).2) := g6
    have hstate : (sim_run_pipe env ds max_instr max_cycle S).1 = sim_steps env ds n S := g4
    refine ⟨n, g5, hstate, by omega, ?_, ?_, hst, ?_⟩
    · intro j hj
      have ha := g7 j (Nat.zero_le _) hj
      refine ⟨ha, ?_⟩
      have hs := sim_step_pipe_status env (ds (j : Int)) (sim_steps env ds j S)
      rw [ha] at hs
      have e : sim_steps env ds (j + 1) S =
          (sim_step_pipe env (ds (j : Int)) (sim_steps env ds j S)).1 := rfl
      rw [e]
      by_cases hb : (sim_step_pipe env (ds (j : Int))
          (sim_steps env ds j S)).1.mem_wb_state.current.status = .STAT_BUB
      · exact Or.inr hb
      · rw [if_neg hb] at hs
        exact Or.inl hs.symm
    · rcases g8 with h | h | ⟨hk, hne⟩
      · exact Or.inl h
      · exact Or.inr (Or.inl h)
      · right; right
        have hn0 : n ≠ 0 := by omega
        rw [if_neg hn0] at hst
        have e : sim_steps env ds n S =
            (sim_step_pipe env (ds ((n - 1 : Nat) : Int)) (sim_steps env ds (n - 1) S)).1 := by
          obtain ⟨m, rfl⟩ : ∃ m, n = m + 1 := ⟨n - 1, by omega⟩
          rfl
        have hb := sim_step_pipe_ne_bub env (ds ((n - 1 : Nat) : Int))
          (sim_steps env ds (n - 1) S)
        have hiff := (sim_step_pipe_status_stop env (ds ((n - 1 : Nat) : Int))
          (sim_steps env ds (n - 1) S)).1 ⟨hne, hb⟩
        have hs := sim_step_pipe_status env (ds ((n - 1 : Nat) : Int))
          (sim_steps env ds (n - 1) S)
        rw [if_neg hiff.2] at hs
        rw [hst, e]
        exact ⟨hk, hne, hb, hiff.1, hiff.2, hs⟩
    · show (sim_run_pipe_loop env ds max_instr max_cycle max_cycle.toNat S 0 0
        .STAT_AOK).1.cc = _
      rw [g4]

/-- C24 witness: from the reset state with a memory of `halt` bytes and ceilings of 100, the
`halt` fetched in the first cycle reaches `mem_wb_curr` in the fifth: the run makes five
calls and stores `STAT_HLT`. -/
theorem sim_run_pipe_terminates_witness :
    (∃ n : Nat, (sim_run_pipe y86_env (fun _ => .other 0) 100 100 toy_state).2.1 = (n : Int) ∧
      (n : Int) ≤ min 100 100) ∧
    (sim_run_pipe y86_env (fun _ => .other 0) 100 100 toy_state).2.1 = 5 ∧
    (sim_run_pipe y86_env (fun _ => .other 0) 100 100 toy_state).2.2.1 = .STAT_HLT := by
  obtain ⟨_, _, n, h1, _, h3, _⟩ :=
    sim_run_pipe_terminates y86_env (fun _ => .other 0) 100 100 toy_state (by decide)
      (by decide)
  exact ⟨⟨n, h1, h3⟩, by decide, by decide⟩

end Pcsim

namespace Pcsim

/-! ## The statuses that a run puts into the latches -/

/-- The status that `do_if_stage` gives fits the icode it fetched: `STAT_HLT` comes with
`I_HALT`, `STAT_INS` with an icode that is not valid, and `STAT_PIP` is not given. -/
theorem do_if_stage_fits {M : Type} (env : isa_env M) (S : sim_state M) :
    status_fits (do_if_stage env S).if_id_state.next.icode
      (do_if_stage env S).if_id_state.next.status := by
  have hv : (do_if_stage env S).instr_valid =
      decide ((do_if_stage env S).if_id_state.next.icode = .I_NOP ∨
        (do_if_stage env S).if_id_state.next.icode = .I_HALT ∨
        (do_if_stage env S).if_id_state.next.icode = .I_RRMOVQ ∨
        (do_if_stage env S).if_id_state.next.icode = .I_IRMOVQ ∨
        (do_if_stage env S).if_id_state.next.icode = .I_RMMOVQ ∨
        (do_if_stage env S).if_id_state.next.icode = .I_MRMOVQ ∨
        (do_if_stage env S).if_id_state.next.icode = .I_ALU ∨
        (do_if_stage env S).if_id_state.next.icode = .I_JMP ∨
        (do_if_stage env S).if_id_state.next.icode = .I_CALL ∨
        (do_if_stage env S).if_id_state.next.icode = .I_RET ∨
        (do_if_stage env S).if_id_state.next.icode = .I_PUSHQ ∨
        (do_if_stage env S).if_id_state.next.icode = .I_POPQ) := rfl
  have hs := do_if_stage_status_eq env S
  rw [hv] at hs
  generalize (do_if_stage env S).if_id_state.next.icode = ic at hs
  generalize (do_if_stage env S).if_id_state.next.status = st at hs
  generalize (env.get_byte_val S.mem (select_pc S) env.HPACK_NOP).1 = ok at hs
  intro h hr
  cases ok
  · simp only [Bool.not_false, if_true] at hs
    rcases h with h | h | h <;> rw [h] at hs <;> cases hs
  · rcases hr with hr | hr | hr <;> subst hr <;> simp at hs <;>
      rcases h with h | h | h <;> rw [h] at hs <;> cases hs

/-- What the top of a cycle commits to `current` fits, when both buffers fit and the bubble
value is a bubble. -/
theorem commit_fits {α : Type} (ic : α → itype_t) (st : α → stat_t) (f : α → α)
    (p : pipe_ele α) (hbi : ic (f p.bubble_val) = .I_NOP)
    (hbs : st p.bubble_val = .STAT_BUB)
    (hn : status_fits (ic p.next) (st p.next))
    (hc : status_fits (ic p.current) (st p.current)) :
    status_fits (ic (error_check f (update_pipe p)).current)
      (st (error_check f (update_pipe p)).current) := by
  obtain ⟨_, _, c1, c2, c3, c4⟩ := commit_spec f p
  cases hop : p.op with
  | P_LOAD => rw [c1 hop]; exact hn
  | P_STALL => rw [c3 hop]; exact hc
  | P_BUBBLE =>
    rw [c2 hop, hbs]
    intro h
    rcases h with h | h | h <;> cases h
  | P_ERROR =>
    rw [c4 hop, hbi]
    intro _ hr
    rcases hr with hr | hr | hr <;> cases hr

/-- One cycle keeps the property of the latches. -/
theorem status_inv_step {M : Type} (env : isa_env M) (ds : mem_status_t)
    (S S1 : sim_state M) (h : S1 = (sim_step_pipe env ds S).1) (hinv : status_inv S) :
    status_inv S1 := by
  obtain ⟨⟨b1, b2, b3⟩, ⟨i1, i2⟩, ⟨j1, j2⟩, ⟨k1, k2⟩⟩ := hinv
  obtain ⟨_, v2, v3, v4, _⟩ := sim_step_pipe_bubble_vals env ds S
  obtain ⟨_, c2, c3, c4, _⟩ := cycle_commit env ds S S1 h
  obtain ⟨_, n2, n3, _⟩ := cycle_next env ds S S1 h
  obtain ⟨t1, _, t3, _⟩ := cycle_tags env ds S S1 h
  obtain ⟨_, a2, _⟩ := sim_step_pipe_spec env ds S S1 _ rfl h
  have f2 : status_fits S1.if_id_state.current.icode S1.if_id_state.current.status := by
    rw [c2]
    exact commit_fits (fun x : if_id_ele => x.icode) (fun x => x.status) _ S.if_id_state
      (by rw [b1]; rfl) (by rw [b1]; rfl) i1 i2
  have f3 : status_fits S1.id_ex_state.current.icode S1.id_ex_state.current.status := by
    rw [c3]
    exact commit_fits (fun x : id_ex_ele => x.icode) (fun x => x.status) _ S.id_ex_state
      (by rw [b2]; rfl) (by rw [b2]; rfl) j1 j2
  have f4 : status_fits S1.ex_mem_state.current.icode S1.ex_mem_state.current.status := by
    rw [c4]
    exact commit_fits (fun x : ex_mem_ele => x.icode) (fun x => x.status) _ S.ex_mem_state
      (by rw [b3]; rfl) (by rw [b3]; rfl) k1 k2
  refine ⟨⟨?_, ?_, ?_⟩, ⟨?_, f2⟩, ⟨?_, f3⟩, ⟨?_, f4⟩⟩
  · rw [h, v2, b1]
  · rw [h, v3, b2]
  · rw [h, v4, b3]
  · rw [a2]
    exact do_if_stage_fits env _
  · rw [n3, t1]
    exact f2
  · rw [n2, t3]
    exact f3

/-- Every state of a run from a state with the property has the property. -/
theorem status_inv_steps {M : Type} (env : isa_env M) (ds : Int → mem_status_t)
    (S0 : sim_state M) (h0 : status_inv S0) (c : Nat) : status_inv (sim_steps env ds c S0) := by
  induction c with
  | zero => exact h0
  | succ n ih => exact status_inv_step env (ds n) _ _ rfl ih

/-- The pipes as `sim_init` creates them have the property. -/
theorem status_inv_reset {M : Type} (S0 : sim_state M)
    (hreset : S0.if_id_state = new_pipe bubble_if_id ∧
      S0.id_ex_state = new_pipe bubble_id_ex ∧ S0.ex_mem_state = new_pipe bubble_ex_mem) :
    status_inv S0 := by
  obtain ⟨r1, r2, r3⟩ := hreset
  unfold status_inv
  rw [r1, r2, r3]
  refine ⟨⟨rfl, rfl, rfl⟩, ⟨?_, ?_⟩, ⟨?_, ?_⟩, ⟨?_, ?_⟩⟩ <;>
    (intro h; rcases h with h | h | h <;> cases h)

/-- A status that fits its icode and is neither `STAT_AOK` nor `STAT_BUB` passes
`do_mem_stage` unchanged. -/
theorem do_mem_stage_fits {M : Type} (env : isa_env M) (S : sim_state M)
    (hf : status_fits S.ex_mem_state.current.icode S.ex_mem_state.current.status)
    (h1 : S.ex_mem_state.current.status ≠ .STAT_AOK)
    (h2 : S.ex_mem_state.current.status ≠ .STAT_BUB) :
    (do_mem_stage env S).mem_wb_state.next.status = S.ex_mem_state.current.status := by
  rw [do_mem_stage_status_eq]
  split_ifs with hc
  · cases hs : S.ex_mem_state.current.status with
    | STAT_ADR => rfl
    | STAT_AOK => exact absurd hs h1
    | STAT_BUB => exact absurd hs h2
    | STAT_HLT => exact absurd hc.1 (hf (Or.inl hs))
    | STAT_INS => exact absurd hc.1 (hf (Or.inr (Or.inl hs)))
    | STAT_PIP => exact absurd hc.1 (hf (Or.inr (Or.inr hs)))
  · rfl

/-- C29: a terminal status rides downstream verbatim. `do_id_stage` copies the status of
`if_id_curr` unchanged to `id_ex_next` and `do_ex_stage` the status of `id_ex_curr` unchanged
to `ex_mem_next`, for every latch contents and every status. For the latch contents of every
run (from latches as `sim_init` creates them, for every memory, every instance of the
helper functions, every sequence of `dmem_status` values and every number `c` of cycles
run), `do_mem_stage`, called in the next cycle after `update_pipes`, the error checking and
`do_wb_stage`, copies a status of `ex_mem_curr` other than `STAT_AOK` and `STAT_BUB`
unchanged to `mem_wb_next`; at the end of every cycle a terminal status in `if_id_curr`,
`id_ex_curr` or `ex_mem_curr` is the status in `id_ex_next`, `ex_mem_next` or `mem_wb_next`
respectively. In every such state the statuses `STAT_HLT`, `STAT_INS` and `STAT_PIP` occur
in `ex_mem_curr` only with an icode other than `I_MRMOVQ`, `I_POPQ`, `I_RET`, the
instructions whose failed read makes `do_mem_stage` store `STAT_ADR`. -/
theorem status_rides_downstream {M : Type} (env : isa_env M) (ds : Int → mem_status_t)
    (S0 : sim_state M)
    (hreset : S0.if_id_state = new_pipe bubble_if_id ∧
      S0.id_ex_state = new_pipe bubble_id_ex ∧ S0.ex_mem_state = new_pipe bubble_ex_mem) :
    (∀ S : sim_state M,
      (do_id_stage env S).id_ex_state.next.status = S.if_id_state.current.status ∧
      (do_ex_stage env S).ex_mem_state.next.status = S.id_ex_state.current.status) ∧
    (∀ c : Nat,
      (error_checking (update_pipes_bank
        (sim_steps env ds c S0))).ex_mem_state.current.status ≠ .STAT_AOK →
      (error_checking (update_pipes_bank
        (sim_steps env ds c S0))).ex_mem_state.current.status ≠ .STAT_BUB →
      (do_mem_stage env (do_wb_stage env (error_checking (update_pipes_bank
        (sim_steps env ds c S0))))).mem_wb_state.next.status =
      (error_checking (update_pipes_bank
        (sim_steps env ds c S0))).ex_mem_state.current.status) ∧
    (∀ c : Nat,
      (sim_steps env ds (c + 1) S0).id_ex_state.next.status =
        (sim_steps env ds (c + 1) S0).if_id_state.current.status ∧
      (sim_steps env ds (c + 1) S0).ex_mem_state.next.status =
        (sim_steps env ds (c + 1) S0).id_ex_state.current.status ∧
      ((sim_steps env ds (c + 1) S0).ex_mem_state.current.status ≠ .STAT_AOK →
        (sim_steps env ds (c + 1) S0).ex_mem_state.current.status ≠ .STAT_BUB →
        (sim_steps env ds (c + 1) S0).mem_wb_state.next.status =
          (sim_steps env ds (c + 1) S0).ex_mem_state.current.status)) ∧
    (∀ c : Nat,
      status_fits (sim_steps env ds c S0).ex_mem_state.current.icode
        (sim_steps env ds c S0).ex_mem_state.current.status) := by
  have inv := status_inv_steps env ds S0 (status_inv_reset S0 hreset)
  have key : ∀ c : Nat,
      (error_checking (update_pipes_bank
        (sim_steps env ds c S0))).ex_mem_state.current.status ≠ .STAT_AOK →
      (error_checking (update_pipes_bank
        (sim_steps env ds c S0))).ex_mem_state.current.status ≠ .STAT_BUB →
      (do_mem_stage env (do_wb_stage env (error_checking (update_pipes_bank
        (sim_steps env ds c S0))))).mem_wb_state.next.status =
      (error_checking (update_pipes_bank
        (sim_steps env ds c S0))).ex_mem_state.current.status := by
    intro c h1 h2
    have hc := (cycle_commit env (ds c) (sim_steps env ds c S0) _ rfl).2.2.2.1
    have hf := (inv (c + 1)).2.2.2.2
    have hf' : status_fits
        (error_checking (update_pipes_bank (sim_steps env ds c S0))).ex_mem_state.current.icode
        (error_checking (update_pipes_bank
          (sim_steps env ds c S0))).ex_mem_state.current.status := by
      have e : (sim_steps env ds (c + 1) S0).ex_mem_state.current =
          (error_checking (update_pipes_bank (sim_steps env ds c S0))).ex_mem_state.current :=
        hc
      rw [← e]
      exact hf
    exact do_mem_stage_fits env (do_wb_stage env (error_checking (update_pipes_bank
      (sim_steps env ds c S0)))) hf' h1 h2
  refine ⟨fun S => ⟨rfl, rfl⟩, key, ?_, fun c => (inv c).2.2.2.2⟩
  intro c
  obtain ⟨t1, _, t3, _⟩ := cycle_tags env (ds c) (sim_steps env ds c S0)
    (sim_steps env ds (c + 1) S0) rfl
  refine ⟨t1, t3, ?_⟩
  intro h1 h2
  have hc : (sim_steps env ds (c + 1) S0).ex_mem_state.current =
      (error_checking (update_pipes_bank (sim_steps env ds c S0))).ex_mem_state.current :=
    (cycle_commit env (ds c) (sim_steps env ds c S0) _ rfl).2.2.2.1
  have hn : (sim_steps env ds (c + 1) S0).mem_wb_state.next =
      (do_mem_stage env (do_wb_stage env (error_checking (update_pipes_bank
        (sim_steps env ds c S0))))).mem_wb_state.next := by
    have := (sim_step_pipe_spec env (ds c) (sim_steps env ds c S0)
      (sim_steps env ds (c + 1) S0) _ rfl rfl).2.2.2.2.1
    rw [this]
    rfl
  rw [hn, hc]
  rw [hc] at h1 h2
  exact key c h1 h2

/-- C29 witness: a memory of `halt` bytes run from the reset state: the `halt` fetched in the
first cycle is in `ex_mem_curr` in the fourth, and `do_mem_stage` hands its `STAT_HLT` on to
`mem_wb_next`. -/
theorem status_rides_downstream_witness :
    (error_checking (update_pipes_bank (sim_steps y86_env (fun _ => .other 0) 3
      toy_state))).ex_mem_state.current.icode = .I_HALT ∧
    (do_mem_stage y86_env (do_wb_stage y86_env (error_checking (update_pipes_bank
      (sim_steps y86_env (fun _ => .other 0) 3 toy_state))))).mem_wb_state.next.status =
      .STAT_HLT :=
  ⟨by decide,
    ((status_rides_downstream y86_env (fun _ => .other 0) toy_state ⟨rfl, rfl, rfl⟩).2.1 3
      (by decide) (by decide)).trans (by decide)⟩

end Pcsim

namespace Pcsim

/-- C36: forwarding from Writeback is redundant with the register file because `do_wb_stage`
runs before `do_id_stage` in the same cycle. Let `ra` and `rb` be registers other than
`REG_NONE` at which the register file obeys read-after-write (a read after a write of `v` to
the same register gives `v`, a write to another register leaves the read as it was; both
functions belong to the absent `isa.c`). Then for every latch state and for `r` either of
them, the value that `do_id_stage` selects from `mem_wb_curr` (`valm` when `r` is
`mem_wb_curr.destm`, otherwise `vale` when `r` is `mem_wb_curr.deste`) equals
`get_reg_val(reg, r)` read after `do_wb_stage`; so in a cycle (`do_wb_stage`, `do_mem_stage`
and `do_ex_stage` run before `do_id_stage`) removing the two `mem_wb_curr` forwarding cases
leaves `id_ex_next.vala` unchanged when the A source is `ra` and `id_ex_next.valb` unchanged
when the B source is `rb`, whatever the destinations in `ex_mem_next` and `ex_mem_curr` are;
with both, the whole result of `do_id_stage` is unchanged. -/
theorem wb_forwarding_redundant {M : Type} (env : isa_env M) (S : sim_state M)
    (ra rb : reg_id_t) (hra : ra ≠ .REG_NONE) (hrb : rb ≠ .REG_NONE)
    (hset : ∀ (r : reg_id_t) (m : M) (v : Nat), r = ra ∨ r = rb →
      env.get_reg_val (env.set_reg_val m r v) r = v)
    (hkeep : ∀ (r q : reg_id_t) (m : M) (v : Nat), r = ra ∨ r = rb → q ≠ r →
      env.get_reg_val (env.set_reg_val m q v) r = env.get_reg_val m r) :
    (∀ r : reg_id_t, r = ra ∨ r = rb →
      (r = S.mem_wb_state.current.destm →
        env.get_reg_val (do_wb_stage env S).reg r = S.mem_wb_state.current.valm) ∧
      (r ≠ S.mem_wb_state.current.destm → r = S.mem_wb_state.current.deste →
        env.get_reg_val (do_wb_stage env S).reg r = S.mem_wb_state.current.vale)) ∧
    ((do_id_stage env (do_ex_stage env (do_mem_stage env (do_wb_stage env S)))
        ).id_ex_state.next.srca = ra →
      (do_id_stage_no_wb env (do_ex_stage env (do_mem_stage env (do_wb_stage env S)))
        ).id_ex_state.next.vala =
      (do_id_stage env (do_ex_stage env (do_mem_stage env (do_wb_stage env S)))
        ).id_ex_state.next.vala) ∧
    ((do_id_stage env (do_ex_stage env (do_mem_stage env (do_wb_stage env S)))
        ).id_ex_state.next.srcb = rb →
      (do_id_stage_no_wb env (do_ex_stage env (do_mem_stage env (do_wb_stage env S)))
        ).id_ex_state.next.valb =
      (do_id_stage env (do_ex_stage env (do_mem_stage env (do_wb_stage env S)))
        ).id_ex_state.next.valb) ∧
    ((do_id_stage env (do_ex_stage env (do_mem_stage env (do_wb_stage env S)))
        ).id_ex_state.next.srca = ra →
      (do_id_stage env (do_ex_stage env (do_mem_stage env (do_wb_stage env S)))
        ).id_ex_state.next.srcb = rb →
      do_id_stage_no_wb env (do_ex_stage env (do_mem_stage env (do_wb_stage env S))) =
        do_id_stage env (do_ex_stage env (do_mem_stage env (do_wb_stage env S)))) := by
  have law : ∀ r : reg_id_t, r = ra ∨ r = rb →
      r ≠ .REG_NONE ∧
      (∀ (m : M) (v : Nat), env.get_reg_val (env.set_reg_val m r v) r = v) ∧
      (∀ (m : M) (q : reg_id_t) (v : Nat), q ≠ r →
        env.get_reg_val (env.set_reg_val m q v) r = env.get_reg_val m r) := by
    intro r hr
    refine ⟨?_, fun m v => hset r m v hr, fun m q v hq => hkeep r q m v hr hq⟩
    rcases hr with h | h <;> rw [h] <;> assumption
  obtain ⟨f1, f2, _⟩ := do_ex_mem_stage_frame env S
  obtain ⟨_, _, n3, n4⟩ :=
    do_id_stage_no_wb_vals env (do_ex_stage env (do_mem_stage env (do_wb_stage env S)))
  obtain ⟨v1, v2⟩ :=
    do_id_stage_vals env (do_ex_stage env (do_mem_stage env (do_wb_stage env S)))
  have ka : (do_id_stage env (do_ex_stage env (do_mem_stage env (do_wb_stage env S)))
        ).id_ex_state.next.srca = ra →
      (do_id_stage_no_wb env (do_ex_stage env (do_mem_stage env (do_wb_stage env S)))
        ).id_ex_state.next.vala =
      (do_id_stage env (do_ex_stage env (do_mem_stage env (do_wb_stage env S)))
        ).id_ex_state.next.vala := by
    intro h
    obtain ⟨l1, l2, l3⟩ := law ra (Or.inl rfl)
    rw [n3, v1, h, forward_no_wb_eq env S _ ra l1 l2 l3 f1 f2]
  have kb : (do_id_stage env (do_ex_stage env (do_mem_stage env (do_wb_stage env S)))
        ).id_ex_state.next.srcb = rb →
      (do_id_stage_no_wb env (do_ex_stage env (do_mem_stage env (do_wb_stage env S)))
        ).id_ex_state.next.valb =
      (do_id_stage env (do_ex_stage env (do_mem_stage env (do_wb_stage env S)))
        ).id_ex_state.next.valb := by
    intro h
    obtain ⟨l1, l2, l3⟩ := law rb (Or.inr rfl)
    rw [n4, v2, h, forward_no_wb_eq env S _ rb l1 l2 l3 f1 f2]
  refine ⟨?_, ka, kb, fun a b => do_id_stage_no_wb_rest env _ (ka a) (kb b)⟩
  intro r hr
  obtain ⟨l1, l2, l3⟩ := law r hr
  exact do_wb_stage_reads_back env S r l1 l2 l3

/-- C36 witness: `mrmovq 64(%r9), %r1` in Writeback with the loaded value 5, `popq %r2` in
Memory, `addq %r5, %r3` in Execute and `addq %r1, %r6` in Decode, whose A source is the
register that the load writes and whose B source is in no latch: the register file read
after `do_wb_stage` gives 5 for `%r1`, and `do_id_stage` gives the same result with and
without the two `mem_wb_curr` cases. -/
theorem wb_forwarding_redundant_witness :
    toy_env.get_reg_val (do_wb_stage toy_env
      (wb_forward_state ⟨.I_ALU, 0, .REG 1, .REG 6, 0, 30, .STAT_AOK, 28⟩)).reg (.REG 1) = 5 ∧
    do_id_stage_no_wb toy_env (do_ex_stage toy_env (do_mem_stage toy_env (do_wb_stage toy_env
      (wb_forward_state ⟨.I_ALU, 0, .REG 1, .REG 6, 0, 30, .STAT_AOK, 28⟩)))) =
    do_id_stage toy_env (do_ex_stage toy_env (do_mem_stage toy_env (do_wb_stage toy_env
      (wb_forward_state ⟨.I_ALU, 0, .REG 1, .REG 6, 0, 30, .STAT_AOK, 28⟩)))) :=
  let h := wb_forwarding_redundant toy_env
    (wb_forward_state ⟨.I_ALU, 0, .REG 1, .REG 6, 0, 30, .STAT_AOK, 28⟩) (.REG 1) (.REG 6)
    (by decide) (by decide)
    (fun r m v hr => by
      rcases hr with h | h <;> subst h <;> simp [toy_env])
    (fun r q m v hr hq => by
      rcases hr with h | h <;> subst h
      · cases q with
        | REG_RSP => simp [toy_env]
        | REG_NONE => simp [toy_env]
        | REG n =>
          have hn : ¬ (1 = n) := fun e => hq (by rw [e])
          simp [toy_env, hn]
      · cases q with
        | REG_RSP => simp [toy_env]
        | REG_NONE => simp [toy_env]
        | REG n =>
          have hn : ¬ (6 = n) := fun e => hq (by rw [e])
          simp [toy_env, hn])
  ⟨((h.1 (.REG 1) (Or.inl rfl)).1 rfl), h.2.2.2 rfl rfl⟩

end Pcsim
